import Mathlib

/-!
# Scotty3D: selection and editing commands of the dynamic scene

A shallow embedding of `src/dynamic_scene/mesh.cpp` and `src/dynamic_scene/scene.cpp`.

* Pointers are addresses (`Nat`); a null pointer is `none`.
* The half-edge store (`halfEdgeMesh.h`) is an arena of records keyed by address.
* The mesh operators and the resampler (`meshEdit.h`) are parameters (`MeshOps`,
  `Reposition`): the commands are verified for every implementation of them.
* The operators themselves are not part of the sources; the section on the mesh core
  models them from the specification, as local rewrites of the store.
* `World.calls` is a ghost log of the operator calls a command makes.
* `Vector3D` and the scalar type of the bevel amounts are type parameters: the
  commands only store, copy and pass these values on.
-/

namespace Scotty3D

/-! ## Data model -/

/-- An address of a mesh element or of a scene object. -/
abbrev Addr := Nat

/-- Modelled from the spec: the `Halfedge` record of halfEdgeMesh.h (section 3):
`next`, `twin`, `vertex`, `edge` and `face` references. -/
structure Halfedge where
  next : Addr
  twin : Addr
  vertex : Addr
  edge : Addr
  face : Addr
  deriving DecidableEq, Repr

/-- Modelled from the spec: the `Vertex` record of halfEdgeMesh.h (section 3):
a position and one incident half-edge. -/
structure Vertex (Vector3D : Type) where
  position : Vector3D
  halfedge : Addr
  deriving DecidableEq, Repr

/-- Modelled from the spec: the `Edge` record of halfEdgeMesh.h (section 3):
one of its two half-edges. -/
structure Edge where
  halfedge : Addr
  deriving DecidableEq, Repr

/-- Modelled from the spec: the `Face` record of halfEdgeMesh.h (section 3):
one of its boundary half-edges. -/
structure Face where
  halfedge : Addr
  deriving DecidableEq, Repr

/-- Modelled from the spec: the `HalfedgeMesh` store of halfEdgeMesh.h (sections 2 and 3):
the four element lists, in iteration order, each element under its address. -/
structure HalfedgeMesh (Vector3D : Type) where
  halfedges : List (Addr × Halfedge)
  vertices : List (Addr × Vertex Vector3D)
  edges : List (Addr × Edge)
  faces : List (Addr × Face)
  deriving DecidableEq, Repr

/-- Modelled from the spec: a `HalfedgeElement*` (halfEdgeMesh.h is not part of the sources):
the element handle of section 4.4, one of vertex, edge, face or half-edge, as the address of
the element together with its dynamic kind. -/
inductive HalfedgeElement where
  | vertex (a : Addr)
  | edge (a : Addr)
  | face (a : Addr)
  | halfedge (a : Addr)
  deriving DecidableEq, Repr

/-- Modelled from the spec: `HalfedgeElement::getVertex` (halfEdgeMesh.h), the downcast of
section 9: the `Vertex*` when the element is a vertex, null otherwise. -/
def HalfedgeElement.getVertex : HalfedgeElement → Option Addr
  | .vertex a => some a
  | _ => none

/-- Modelled from the spec: `HalfedgeElement::getEdge` (halfEdgeMesh.h): the `Edge*` when
the element is an edge, null otherwise. -/
def HalfedgeElement.getEdge : HalfedgeElement → Option Addr
  | .edge a => some a
  | _ => none

/-- Modelled from the spec: `HalfedgeElement::getFace` (halfEdgeMesh.h): the `Face*` when
the element is a face, null otherwise. -/
def HalfedgeElement.getFace : HalfedgeElement → Option Addr
  | .face a => some a
  | _ => none

/-- Modelled from the spec: `HalfedgeElement::getHalfedge` (halfEdgeMesh.h): the `Halfedge*`
when the element is a half-edge, null otherwise. -/
def HalfedgeElement.getHalfedge : HalfedgeElement → Option Addr
  | .halfedge a => some a
  | _ => none

/-- Modelled from the spec: the `Selection` of scene.h (section 4.4): an object pointer and
an element pointer, either of which may be null. -/
structure Selection where
  object : Option Addr
  element : Option HalfedgeElement
  deriving DecidableEq, Repr

/-- Modelled from the spec: `Selection::clear` (scene.h): both pointers null. -/
def Selection.clear (_ : Selection) : Selection :=
  { object := none, element := none }

/-- Modelled from the spec: the part of `XFormWidget` (widgets.h) the commands touch, its
`target` selection. -/
structure XFormWidget where
  target : Selection
  deriving DecidableEq, Repr

/-- The data members of `DynamicScene::Mesh` (mesh.h); `scene` is true when the inherited
back pointer to the scene is set. -/
structure Mesh (Vector3D : Type) where
  scene : Bool
  mesh : HalfedgeMesh Vector3D
  bevelVertices : List Addr
  beveledVertexPos : Vector3D
  beveledEdgePos : List Vector3D
  beveledFacePos : List Vector3D
  idToElement : List (Int × HalfedgeElement)
  deriving DecidableEq, Repr

/-- A scene object in memory: a mesh, or an object of another class. -/
inductive SceneObject (Vector3D : Type) where
  | mesh (m : Mesh Vector3D)
  | other
  deriving DecidableEq, Repr

/-- The data members of `DynamicScene::Scene` that scene.cpp and mesh.cpp use: the object
set, the three selections and the transform widget. -/
structure Scene where
  objects : List Addr
  hovered : Selection
  selected : Selection
  edited : Selection
  elementTransform : XFormWidget
  deriving DecidableEq, Repr

/-- A call of a mesh operator or of the resampler, with the element it is applied to. -/
inductive MeshCall where
  | flipEdge (e : Addr)
  | splitEdge (e : Addr)
  | collapseEdge (e : Addr)
  | collapseFace (f : Addr)
  | eraseEdge (e : Addr)
  | eraseVertex (v : Addr)
  | upsample
  | bevelVtxReposition
  | bevelEdgeReposition
  | bevelFcReposition
  | bevelFace (f : Addr)
  | bevelEdge (e : Addr)
  | bevelVertex (v : Addr)
  | triangulate
  | downsample
  | resample
  deriving DecidableEq, Repr

/-- The program state: the scene objects in memory under their addresses, the scene, and the
ghost log of operator calls made so far. -/
structure World (Vector3D : Type) where
  heap : List (Addr × SceneObject Vector3D)
  scene : Scene
  calls : List MeshCall
  deriving DecidableEq, Repr

/-- How a method that dereferences a pointer without a check ends: normally, or at a null
pointer dereference, in both cases with the state reached. -/
inductive Outcome (σ : Type) where
  | done (s : σ)
  | nullDeref (s : σ)
  deriving DecidableEq, Repr

/-- The state an outcome carries. -/
def Outcome.state {σ : Type} : Outcome σ → σ
  | .done s => s
  | .nullDeref s => s

/-- The operators of `HalfedgeMesh` and of `MeshResampler` (meshEdit.h) that the commands
call; each returns the rewritten store and the handle it hands back. -/
structure MeshOps (Vector3D : Type) where
  flipEdge : HalfedgeMesh Vector3D → Addr → HalfedgeMesh Vector3D × Addr
  splitEdge : HalfedgeMesh Vector3D → Addr → HalfedgeMesh Vector3D × Addr
  collapseEdge : HalfedgeMesh Vector3D → Addr → HalfedgeMesh Vector3D × Addr
  collapseFace : HalfedgeMesh Vector3D → Addr → HalfedgeMesh Vector3D × Addr
  eraseEdge : HalfedgeMesh Vector3D → Addr → HalfedgeMesh Vector3D × Addr
  eraseVertex : HalfedgeMesh Vector3D → Addr → HalfedgeMesh Vector3D × Addr
  upsample : HalfedgeMesh Vector3D → HalfedgeMesh Vector3D
  bevelFace : HalfedgeMesh Vector3D → Addr → HalfedgeMesh Vector3D × Addr
  bevelEdge : HalfedgeMesh Vector3D → Addr → HalfedgeMesh Vector3D × Addr
  bevelVertex : HalfedgeMesh Vector3D → Addr → HalfedgeMesh Vector3D × Addr
  triangulate : HalfedgeMesh Vector3D → HalfedgeMesh Vector3D
  downsample : HalfedgeMesh Vector3D → HalfedgeMesh Vector3D
  resample : HalfedgeMesh Vector3D → HalfedgeMesh Vector3D

/-- The three reposition steps of the bevel (`_bevel_vtx_reposition_with_dist`,
`_bevel_edge_reposition_with_dist`, `_bevel_fc_reposition_with_dist`), with their arguments
in the order of the calls in `Mesh::_bevel_selection`. -/
structure Reposition (Vector3D D : Type) where
  vtx : HalfedgeMesh Vector3D → Vector3D → List Addr → D → HalfedgeMesh Vector3D
  edge : HalfedgeMesh Vector3D → List Vector3D → List Addr → D → HalfedgeMesh Vector3D
  fc : HalfedgeMesh Vector3D → List Vector3D → List Addr → D → D → HalfedgeMesh Vector3D

/-! ## Pointer dereference

An element pointer is dereferenced in the store that holds its address. Where no store
holds it the pointer is dangling and the source has no defined behaviour; the accessors
then read address 0, and the statements that depend on such a read assume liveness. -/

section Access

variable {Vector3D : Type}

/-- The half-edge stores of all meshes in memory. -/
def World.stores (w : World Vector3D) : List (HalfedgeMesh Vector3D) :=
  w.heap.filterMap fun o =>
    match o.2 with
    | .mesh m => some m.mesh
    | .other => none

/-- Dereference of a `Halfedge*`: the record stored under the address. -/
def World.halfedgeAt (w : World Vector3D) (h : Addr) : Option Halfedge :=
  w.stores.findSome? fun m => m.halfedges.lookup h

/-- Dereference of a `Vertex*`. -/
def World.vertexAt (w : World Vector3D) (v : Addr) : Option (Vertex Vector3D) :=
  w.stores.findSome? fun m => m.vertices.lookup v

/-- Dereference of an `Edge*`. -/
def World.edgeAt (w : World Vector3D) (e : Addr) : Option Edge :=
  w.stores.findSome? fun m => m.edges.lookup e

/-- Dereference of a `Face*`. -/
def World.faceAt (w : World Vector3D) (f : Addr) : Option Face :=
  w.stores.findSome? fun m => m.faces.lookup f

/-- The accessor `h->next()`. -/
def World.next (w : World Vector3D) (h : Addr) : Addr :=
  ((w.halfedgeAt h).map fun r => r.next).getD 0

/-- The accessor `h->twin()`. -/
def World.twin (w : World Vector3D) (h : Addr) : Addr :=
  ((w.halfedgeAt h).map fun r => r.twin).getD 0

/-- The accessor `h->vertex()`. -/
def World.vertexOf (w : World Vector3D) (h : Addr) : Addr :=
  ((w.halfedgeAt h).map fun r => r.vertex).getD 0

/-- The accessor `h->edge()`. -/
def World.edgeOf (w : World Vector3D) (h : Addr) : Addr :=
  ((w.halfedgeAt h).map fun r => r.edge).getD 0

/-- The accessor `h->face()`. -/
def World.faceOf (w : World Vector3D) (h : Addr) : Addr :=
  ((w.halfedgeAt h).map fun r => r.face).getD 0

/-- The accessor `v->halfedge()` of a vertex. -/
def World.vertexHalfedge (w : World Vector3D) (v : Addr) : Addr :=
  ((w.vertexAt v).map fun r => r.halfedge).getD 0

/-- The accessor `e->halfedge()` of an edge. -/
def World.edgeHalfedge (w : World Vector3D) (e : Addr) : Addr :=
  ((w.edgeAt e).map fun r => r.halfedge).getD 0

/-- The accessor `f->halfedge()` of a face. -/
def World.faceHalfedge (w : World Vector3D) (f : Addr) : Addr :=
  ((w.faceAt f).map fun r => r.halfedge).getD 0

/-- Whether the half-edge address is that of an element of some mesh in memory. -/
def World.liveHalfedge (w : World Vector3D) (h : Addr) : Bool :=
  (w.halfedgeAt h).isSome

/-- The number of half-edges in memory. -/
def World.halfedgeCount (w : World Vector3D) : Nat :=
  (w.stores.map fun m => m.halfedges.length).sum

/-- The loop of `Face::degree`: `d++; h = h->next()` repeated while `h != start`. The walk
is cut off after `fuel` rounds, with result 0, a value the loop itself never returns. -/
def World.degreeLoop (w : World Vector3D) (start : Addr) : Nat → Addr → Nat → Nat
  | 0, _, _ => 0
  | fuel + 1, h, d =>
    if w.next h = start then d + 1 else World.degreeLoop w start fuel (w.next h) (d + 1)

/-- Modelled from the spec: `Face::degree` of halfEdgeMesh.h, the number of `next` steps
from the face's half-edge back to it (section 3). The walk is given as many rounds as there
are half-edges in memory, which is enough for every closed cycle of live half-edges. -/
def World.degree (w : World Vector3D) (f : Face) : Nat :=
  w.degreeLoop f.halfedge w.halfedgeCount f.halfedge 0

/-- The mesh object at an address: the `dynamic_cast<Mesh*>` of an object pointer. -/
def World.meshAt (w : World Vector3D) (o : Addr) : Option (Mesh Vector3D) :=
  match w.heap.lookup o with
  | some (.mesh m) => some m
  | _ => none

/-- Overwrite the object at address `o`: the first entry under `o`, which is the one a
lookup finds. -/
def replaceObject (o : Addr) (x : SceneObject Vector3D) :
    List (Addr × SceneObject Vector3D) → List (Addr × SceneObject Vector3D)
  | [] => []
  | p :: ps => if p.1 = o then (p.1, x) :: ps else p :: replaceObject o x ps

/-- Store a new value of the mesh object at address `o`. -/
def World.setMesh (w : World Vector3D) (o : Addr) (m : Mesh Vector3D) : World Vector3D :=
  { w with heap := replaceObject o (.mesh m) w.heap }

end Access

/-! ## Scene: selection traversals (scene.cpp) -/

section SceneCommands

variable {Vector3D : Type}

/-- The assignment `selected.element = x` on the scene of a world. -/
def World.setSelectedElement (w : World Vector3D) (x : Option HalfedgeElement) :
    World Vector3D :=
  { w with scene := { w.scene with selected := { w.scene.selected with element := x } } }

/-- The method `Scene::selectNextHalfedge`. -/
def Scene.selectNextHalfedge (w : World Vector3D) : World Vector3D :=
  match w.scene.selected.element with
  | none => w
  | some element =>
    match element.getHalfedge with
    | none => w
    | some h => w.setSelectedElement (some (.halfedge (w.next h)))

/-- The method `Scene::selectTwinHalfedge`. -/
def Scene.selectTwinHalfedge (w : World Vector3D) : World Vector3D :=
  match w.scene.selected.element with
  | none => w
  | some element =>
    match element.getHalfedge with
    | none => w
    | some h => w.setSelectedElement (some (.halfedge (w.twin h)))

/-- The method `Scene::selectHalfedge`. -/
def Scene.selectHalfedge (w : World Vector3D) : World Vector3D :=
  match w.scene.selected.element with
  | none => w
  | some element =>
    match element.getFace with
    | some f => w.setSelectedElement (some (.halfedge (w.faceHalfedge f)))
    | none =>
      match element.getEdge with
      | some e => w.setSelectedElement (some (.halfedge (w.edgeHalfedge e)))
      | none =>
        match element.getVertex with
        | some v => w.setSelectedElement (some (.halfedge (w.vertexHalfedge v)))
        | none => w

end SceneCommands

/-! ## Mesh: editing commands (mesh.cpp) -/

section MeshCommands

variable {Vector3D : Type}

/-- The effect of running an operator of `this->mesh`: the store of the mesh at `this`
becomes `m`, and the call is logged. -/
def World.ranOperator (w : World Vector3D) (this : Addr) (self : Mesh Vector3D)
    (m : HalfedgeMesh Vector3D) (call : MeshCall) : World Vector3D :=
  { w.setMesh this { self with mesh := m } with calls := w.calls ++ [call] }

/-- The statements `scene->hovered.clear(); scene->elementTransform->target.clear();`. -/
def Scene.clearHoveredAndTarget (s : Scene) : Scene :=
  { s with
    hovered := s.hovered.clear
    elementTransform := { s.elementTransform with target := s.elementTransform.target.clear } }

/-- The statements `scene->selected.element = x; scene->hovered.clear();
scene->elementTransform->target.clear();` that end an editing command. -/
def World.selectResult (w : World Vector3D) (x : HalfedgeElement) : World Vector3D :=
  { w with scene := (w.setSelectedElement (some x)).scene.clearHoveredAndTarget }

/-- The method `Mesh::collapse_selected_element` of the mesh at address `this`. -/
def Mesh.collapse_selected_element (ops : MeshOps Vector3D) (this : Addr)
    (w : World Vector3D) : World Vector3D :=
  match w.meshAt this with
  | none => w
  | some self =>
    if self.scene = false then w
    else
      match w.scene.selected.element with
      | none => w
      | some element =>
        match element.getEdge with
        | some edge =>
          let e := w.edgeOf (w.edgeHalfedge edge)
          let r := ops.collapseEdge self.mesh e
          (w.ranOperator this self r.1 (.collapseEdge e)).selectResult (.vertex r.2)
        | none =>
          match element.getFace with
          | some face =>
            let f := w.faceOf (w.faceHalfedge face)
            let r := ops.collapseFace self.mesh f
            (w.ranOperator this self r.1 (.collapseFace f)).selectResult (.vertex r.2)
          | none => w

/-- The method `Mesh::flip_selected_edge` of the mesh at address `this`. -/
def Mesh.flip_selected_edge (ops : MeshOps Vector3D) (this : Addr)
    (w : World Vector3D) : World Vector3D :=
  match w.meshAt this with
  | none => w
  | some self =>
    if self.scene = false then w
    else
      match w.scene.selected.element with
      | none => w
      | some element =>
        match element.getEdge with
        | none => w
        | some edge =>
          let e := w.edgeOf (w.edgeHalfedge edge)
          let r := ops.flipEdge self.mesh e
          (w.ranOperator this self r.1 (.flipEdge e)).selectResult (.edge r.2)

/-- The method `Mesh::split_selected_edge` of the mesh at address `this`. -/
def Mesh.split_selected_edge (ops : MeshOps Vector3D) (this : Addr)
    (w : World Vector3D) : World Vector3D :=
  match w.meshAt this with
  | none => w
  | some self =>
    if self.scene = false then w
    else
      match w.scene.selected.element with
      | none => w
      | some element =>
        match element.getEdge with
        | none => w
        | some edge =>
          let e := w.edgeOf (w.edgeHalfedge edge)
          let r := ops.splitEdge self.mesh e
          (w.ranOperator this self r.1 (.splitEdge e)).selectResult (.vertex r.2)

/-- The statements `scene->selected.clear(); scene->selected.object = this;
scene->selected.element = f; scene->hovered.clear(); scene->elementTransform->target.clear();`
that end `Mesh::erase_selected_element`. -/
def World.selectErased (w : World Vector3D) (this : Addr) (f : Addr) : World Vector3D :=
  { w with
    scene :=
      { w.scene with
        selected := { object := some this, element := some (.face f) } }.clearHoveredAndTarget }

/-- The method `Mesh::erase_selected_element` of the mesh at address `this`. -/
def Mesh.erase_selected_element (ops : MeshOps Vector3D) (this : Addr)
    (w : World Vector3D) : World Vector3D :=
  match w.meshAt this with
  | none => w
  | some self =>
    if self.scene = false then w
    else
      match w.scene.selected.element with
      | none => w
      | some element =>
        match element.getEdge with
        | some edge =>
          let e := w.edgeOf (w.edgeHalfedge edge)
          let r := ops.eraseEdge self.mesh e
          (w.ranOperator this self r.1 (.eraseEdge e)).selectErased this r.2
        | none =>
          match element.getVertex with
          | some vertex =>
            let v := w.vertexOf (w.vertexHalfedge vertex)
            let r := ops.eraseVertex self.mesh v
            (w.ranOperator this self r.1 (.eraseVertex v)).selectErased this r.2
          | none => w

/-- The effect of a reposition call on `this->mesh` followed by the statements
`scene->hovered.clear(); scene->elementTransform->target.clear();`. -/
def World.repositioned (w : World Vector3D) (this : Addr) (self : Mesh Vector3D)
    (m : HalfedgeMesh Vector3D) (call : MeshCall) : World Vector3D :=
  { w.ranOperator this self m call with
    scene := (w.ranOperator this self m call).scene.clearHoveredAndTarget }

/-- The method `Mesh::_bevel_selection( inset, shift )` of the mesh at address `this`. -/
def Mesh._bevel_selection {D : Type} (rep : Reposition Vector3D D) (inset shift : D)
    (this : Addr) (w : World Vector3D) : World Vector3D :=
  match w.meshAt this with
  | none => w
  | some self =>
    if self.scene = false then w
    else
      match w.scene.selected.element with
      | none => w
      | some element =>
        match element.getVertex with
        | some _ =>
          w.repositioned this self
            (rep.vtx self.mesh self.beveledVertexPos self.bevelVertices inset)
            .bevelVtxReposition
        | none =>
          match element.getEdge with
          | some _ =>
            w.repositioned this self
              (rep.edge self.mesh self.beveledEdgePos self.bevelVertices inset)
              .bevelEdgeReposition
          | none =>
            match element.getFace with
            | some _ =>
              w.repositioned this self
                (rep.fc self.mesh self.beveledFacePos self.bevelVertices shift inset)
                .bevelFcReposition
            | none => w

/-- The loop at the head of `Mesh::upsample`: true when no face of the store makes it
return, that is when every face has degree 3. -/
def Mesh.allTriangles (w : World Vector3D) : List (Addr × Face) → Bool
  | [] => true
  | f :: fs => if w.degree f.2 ≠ 3 then false else Mesh.allTriangles w fs

/-- The method `Mesh::upsample` of the mesh at address `this`. The scene pointer is used
without a null check after the resampler has run. -/
def Mesh.upsample (ops : MeshOps Vector3D) (this : Addr)
    (w : World Vector3D) : Outcome (World Vector3D) :=
  match w.meshAt this with
  | none => .done w
  | some self =>
    if Mesh.allTriangles w self.mesh.faces = false then .done w
    else
      let w1 := w.ranOperator this self (ops.upsample self.mesh) .upsample
      if self.scene = false then .nullDeref w1
      else
        .done { w1 with
          scene :=
            { w1.scene with selected := w1.scene.selected.clear }.clearHoveredAndTarget }

end MeshCommands

/-! ## The reposition step of the bevel (meshEdit.h), from the specification -/

section RepositionModel

variable {Vector3D : Type}

/-- The accessor `h->vertex()` inside one store. -/
def HalfedgeMesh.vertexOf (m : HalfedgeMesh Vector3D) (h : Addr) : Addr :=
  ((m.halfedges.lookup h).map fun r => r.vertex).getD 0

/-- The assignment `v->position = p` inside one store. -/
def HalfedgeMesh.setPosition (m : HalfedgeMesh Vector3D) (v : Addr) (p : Vector3D) :
    HalfedgeMesh Vector3D :=
  { m with
    vertices := m.vertices.map fun r =>
      if r.1 = v then (r.1, { r.2 with position := p }) else r }

/-- Modelled from the spec: the loop of `reposition-with-distance` (section 4.2), absent from
the sources: the vertex of the `i`-th affected half-edge is moved to `offset i`, a position
computed from the stored originals and the amounts, never from the current positions. -/
def HalfedgeMesh.repositionLoop (offset : Nat → Vector3D) :
    List Addr → Nat → HalfedgeMesh Vector3D → HalfedgeMesh Vector3D
  | [], _, m => m
  | h :: hs, i, m =>
    HalfedgeMesh.repositionLoop offset hs (i + 1) (m.setPosition (m.vertexOf h) (offset i))

/-- Modelled from the spec: the three reposition steps `_bevel_vtx_reposition_with_dist`,
`_bevel_edge_reposition_with_dist` and `_bevel_fc_reposition_with_dist` (section 4.2), absent
from the sources. The offset formulas `offV`, `offE`, `offF` are left open, as section 9
leaves them: each gives the new position of the `i`-th affected vertex from the original
positions, the affected half-edges and the amounts. -/
def specReposition {D : Type}
    (offV : Vector3D → List Addr → D → Nat → Vector3D)
    (offE : List Vector3D → List Addr → D → Nat → Vector3D)
    (offF : List Vector3D → List Addr → D → D → Nat → Vector3D) :
    Reposition Vector3D D :=
  { vtx := fun m orig hs inset => m.repositionLoop (offV orig hs inset) hs 0
    edge := fun m orig hs inset => m.repositionLoop (offE orig hs inset) hs 0
    fc := fun m orig hs shift inset => m.repositionLoop (offF orig hs shift inset) hs 0 }

end RepositionModel

/-! ## The mesh core (halfEdgeMesh.h, meshEdit.h), from the specification

The store operations and the local operators of sections 4.1 and 4.2 are not part of the
sources. They are modelled here from the specification. `h->vertex()` is the vertex a
half-edge leaves, as in the callers in mesh.cpp. Every operator is a rewrite of the store:
field assignments on elements that stay, a set of elements destroyed, and a set of elements
created under fresh addresses. A rewrite that would destroy an element twice, destroy an
element that is not in the store, or create an element under a used address is refused, and
the store is then left as it is (section 7). -/

section MeshCore

variable {Vector3D : Type}

/-- The accessor `h->next()` inside one store. -/
def HalfedgeMesh.next (m : HalfedgeMesh Vector3D) (h : Addr) : Addr :=
  ((m.halfedges.lookup h).map fun r => r.next).getD 0

/-- The accessor `h->twin()` inside one store. -/
def HalfedgeMesh.twin (m : HalfedgeMesh Vector3D) (h : Addr) : Addr :=
  ((m.halfedges.lookup h).map fun r => r.twin).getD 0

/-- The accessor `h->edge()` inside one store. -/
def HalfedgeMesh.edgeOf (m : HalfedgeMesh Vector3D) (h : Addr) : Addr :=
  ((m.halfedges.lookup h).map fun r => r.edge).getD 0

/-- The accessor `h->face()` inside one store. -/
def HalfedgeMesh.faceOf (m : HalfedgeMesh Vector3D) (h : Addr) : Addr :=
  ((m.halfedges.lookup h).map fun r => r.face).getD 0

/-- The accessor `v->halfedge()` inside one store. -/
def HalfedgeMesh.vertexHalfedge (m : HalfedgeMesh Vector3D) (v : Addr) : Addr :=
  ((m.vertices.lookup v).map fun r => r.halfedge).getD 0

/-- The accessor `e->halfedge()` inside one store. -/
def HalfedgeMesh.edgeHalfedge (m : HalfedgeMesh Vector3D) (e : Addr) : Addr :=
  ((m.edges.lookup e).map fun r => r.halfedge).getD 0

/-- The accessor `f->halfedge()` inside one store. -/
def HalfedgeMesh.faceHalfedge (m : HalfedgeMesh Vector3D) (f : Addr) : Addr :=
  ((m.faces.lookup f).map fun r => r.halfedge).getD 0

/-- The position of a vertex inside one store. -/
def HalfedgeMesh.position [Inhabited Vector3D] (m : HalfedgeMesh Vector3D) (v : Addr) :
    Vector3D :=
  ((m.vertices.lookup v).map fun r => r.position).getD default

/-- Modelled from the spec: the walk of a cycle of half-edges, `h`, `step h`, ... up to the
half-edge whose successor is `start`; `none` when the cycle does not close within `fuel`
steps. -/
def walkCycle (step : Addr → Addr) (start : Addr) : Nat → Addr → Option (List Addr)
  | 0, _ => none
  | fuel + 1, h =>
    if step h = start then some [h]
    else (walkCycle step start fuel (step h)).map fun l => h :: l

/-- Modelled from the spec: the half-edges of the `next` cycle through `h`, starting with
`h` (section 3). -/
def HalfedgeMesh.faceLoop (m : HalfedgeMesh Vector3D) (h : Addr) : Option (List Addr) :=
  walkCycle m.next h m.halfedges.length h

/-- Modelled from the spec: the half-edges leaving the vertex of `h`, starting with `h`, in
the order of the walk via `twin().next()` (section 3). -/
def HalfedgeMesh.fan (m : HalfedgeMesh Vector3D) (h : Addr) : Option (List Addr) :=
  walkCycle (fun g => m.next (m.twin g)) h m.halfedges.length h

/-- Modelled from the spec: the address of a new element: the greatest address in use,
plus one. -/
def freshAddr {α : Type} (l : List (Addr × α)) : Addr :=
  l.foldl (fun a p => max a (p.1 + 1)) 0

/-- Modelled from the spec: one field assignment on an element of the store. -/
inductive Edit (Vector3D : Type) where
  | setNext (h n : Addr)
  | setTwin (h t : Addr)
  | setVertex (h v : Addr)
  | setEdge (h e : Addr)
  | setFace (h f : Addr)
  | setVertexHalfedge (v h : Addr)
  | setEdgeHalfedge (e h : Addr)
  | setFaceHalfedge (f h : Addr)
  | setPosition (v : Addr) (p : Vector3D)

/-- Modelled from the spec: an assignment to the record under address `k`. -/
def updateAt {α : Type} (k : Addr) (g : α → α) (l : List (Addr × α)) : List (Addr × α) :=
  l.map fun r => if r.1 = k then (r.1, g r.2) else r

/-- Modelled from the spec: the effect of one field assignment on the store. -/
def HalfedgeMesh.edit (m : HalfedgeMesh Vector3D) : Edit Vector3D → HalfedgeMesh Vector3D
  | .setNext h n => { m with halfedges := updateAt h (fun r => { r with next := n }) m.halfedges }
  | .setTwin h t => { m with halfedges := updateAt h (fun r => { r with twin := t }) m.halfedges }
  | .setVertex h v =>
    { m with halfedges := updateAt h (fun r => { r with vertex := v }) m.halfedges }
  | .setEdge h e => { m with halfedges := updateAt h (fun r => { r with edge := e }) m.halfedges }
  | .setFace h f => { m with halfedges := updateAt h (fun r => { r with face := f }) m.halfedges }
  | .setVertexHalfedge v h =>
    { m with vertices := updateAt v (fun r => { r with halfedge := h }) m.vertices }
  | .setEdgeHalfedge e h =>
    { m with edges := updateAt e (fun r => { r with halfedge := h }) m.edges }
  | .setFaceHalfedge f h =>
    { m with faces := updateAt f (fun r => { r with halfedge := h }) m.faces }
  | .setPosition v p =>
    { m with vertices := updateAt v (fun r => { r with position := p }) m.vertices }

/-- Modelled from the spec: a local rewrite of the store (section 4.2): the field assignments,
the elements destroyed, the elements created, and the handle the operator returns. -/
structure Rewrite (Vector3D : Type) where
  edits : List (Edit Vector3D)
  delHalfedges : List Addr
  delVertices : List Addr
  delEdges : List Addr
  delFaces : List Addr
  newHalfedges : List (Addr × Halfedge)
  newVertices : List (Addr × Vertex Vector3D)
  newEdges : List (Addr × Edge)
  newFaces : List (Addr × Face)
  result : Addr

/-- Modelled from the spec: the elements to destroy are distinct elements of the store. -/
def deletable {α : Type} (del : List Addr) (l : List (Addr × α)) : Bool :=
  decide del.Nodup && del.all fun k => (l.map Prod.fst).contains k

/-- Modelled from the spec: the elements to create have distinct addresses, none of them in
use. -/
def creatable {α : Type} (new l : List (Addr × α)) : Bool :=
  decide (new.map Prod.fst).Nodup && new.all fun p => !(l.map Prod.fst).contains p.1

/-- Modelled from the spec: whether a rewrite can be carried out on the store. -/
def Rewrite.ok (r : Rewrite Vector3D) (m : HalfedgeMesh Vector3D) : Bool :=
  deletable r.delHalfedges m.halfedges && deletable r.delVertices m.vertices &&
  deletable r.delEdges m.edges && deletable r.delFaces m.faces &&
  creatable r.newHalfedges m.halfedges && creatable r.newVertices m.vertices &&
  creatable r.newEdges m.edges && creatable r.newFaces m.faces

/-- Modelled from the spec: the list without the records under the addresses in `del`. -/
def removeKeys {α : Type} (del : List Addr) (l : List (Addr × α)) : List (Addr × α) :=
  l.filter fun p => !del.contains p.1

/-- Modelled from the spec: the store after a rewrite: the assignments are made, the
destroyed elements leave the store, the created ones are appended in order. -/
def HalfedgeMesh.rewrite (m : HalfedgeMesh Vector3D) (r : Rewrite Vector3D) :
    HalfedgeMesh Vector3D :=
  { halfedges := removeKeys r.delHalfedges (r.edits.foldl HalfedgeMesh.edit m).halfedges
      ++ r.newHalfedges
    vertices := removeKeys r.delVertices (r.edits.foldl HalfedgeMesh.edit m).vertices
      ++ r.newVertices
    edges := removeKeys r.delEdges (r.edits.foldl HalfedgeMesh.edit m).edges ++ r.newEdges
    faces := removeKeys r.delFaces (r.edits.foldl HalfedgeMesh.edit m).faces ++ r.newFaces }

/-- Modelled from the spec: the `OperatorError` kinds of section 7. -/
inductive OperatorError where
  | invalidTarget
  | invalidOperator
  | wouldViolateManifoldness
  deriving DecidableEq, Repr

/-- Modelled from the spec: the `TopologyError` kinds of section 7. -/
inductive TopologyError where
  | nonManifoldEdge
  | unmatchedEdge
  deriving DecidableEq, Repr

/-- Modelled from the spec: an operator call (section 6): the planned rewrite is carried
out and the new handle returned, or an error is returned. -/
def HalfedgeMesh.run (m : HalfedgeMesh Vector3D)
    (plan : Except OperatorError (Rewrite Vector3D)) :
    Except OperatorError (HalfedgeMesh Vector3D × Addr) :=
  match plan with
  | .error e => .error e
  | .ok r => if r.ok m then .ok (m.rewrite r, r.result) else .error .invalidOperator

/-- Modelled from the spec: the store after an operator call: the rewritten store, or the
store as it was when the call returned an error (section 7). -/
def HalfedgeMesh.after (m : HalfedgeMesh Vector3D)
    (r : Except OperatorError (HalfedgeMesh Vector3D × Addr)) : HalfedgeMesh Vector3D :=
  match r with
  | .ok p => p.1
  | .error _ => m

/-- The positions the operators compute: the midpoint of two points and the centroid of a
list of points. -/
structure Geometry (Vector3D : Type) where
  midpoint : Vector3D → Vector3D → Vector3D
  centroid : List Vector3D → Vector3D

/-- Modelled from the spec: `flipEdge` (section 4.2). With `h0 : v0 → v1` the half-edge of
the edge, the triangles `h0 h1 h2` and `h3 h4 h5` become `h0 h5 h1` and `h3 h2 h4`, and the
edge joins the two apexes. -/
def HalfedgeMesh.flipEdgePlan (m : HalfedgeMesh Vector3D) (e : Addr) :
    Except OperatorError (Rewrite Vector3D) :=
  match m.edges.lookup e with
  | none => .error .invalidTarget
  | some r =>
    match m.faceLoop r.halfedge, m.faceLoop (m.twin r.halfedge) with
    | some [h0, h1, h2], some [h3, h4, h5] =>
      if m.faceOf h0 = m.faceOf h3 then .error .invalidOperator
      else
        .ok
          { edits :=
              [.setNext h0 h5, .setNext h5 h1, .setNext h1 h0,
               .setNext h3 h2, .setNext h2 h4, .setNext h4 h3,
               .setVertex h0 (m.vertexOf h2), .setVertex h3 (m.vertexOf h5),
               .setFace h5 (m.faceOf h0), .setFace h2 (m.faceOf h3),
               .setVertexHalfedge (m.vertexOf h0) h4, .setVertexHalfedge (m.vertexOf h3) h1,
               .setVertexHalfedge (m.vertexOf h2) h0, .setVertexHalfedge (m.vertexOf h5) h3,
               .setFaceHalfedge (m.faceOf h0) h0, .setFaceHalfedge (m.faceOf h3) h3,
               .setEdgeHalfedge e h0]
            delHalfedges := [], delVertices := [], delEdges := [], delFaces := []
            newHalfedges := [], newVertices := [], newEdges := [], newFaces := []
            result := e }
    | _, _ => .error .invalidOperator

/-- Modelled from the spec: `flipEdge` (section 4.2). -/
def HalfedgeMesh.flipEdge (m : HalfedgeMesh Vector3D) (e : Addr) :
    Except OperatorError (HalfedgeMesh Vector3D × Addr) :=
  m.run (m.flipEdgePlan e)

/-- Modelled from the spec: `splitEdge` (section 4.2) on an edge between two triangles
`h0 h1 h2` and `h3 h4 h5`, with `h0 : v0 → v1`. The new vertex `n` is at the midpoint; the
edge keeps the part `n v1`, three edges `v0 n`, `n v2`, `n v3` and two faces are created. -/
def HalfedgeMesh.splitEdgePlan [Inhabited Vector3D] (g : Geometry Vector3D)
    (m : HalfedgeMesh Vector3D) (e : Addr) : Except OperatorError (Rewrite Vector3D) :=
  match m.edges.lookup e with
  | none => .error .invalidTarget
  | some r =>
    match m.faceLoop r.halfedge, m.faceLoop (m.twin r.halfedge) with
    | some [h0, h1, h2], some [h3, h4, h5] =>
      let hb := freshAddr m.halfedges
      let n := freshAddr m.vertices
      let eb := freshAddr m.edges
      let fb := freshAddr m.faces
      let v0 := m.vertexOf h0
      let v1 := m.vertexOf h3
      let v2 := m.vertexOf h2
      let v3 := m.vertexOf h5
      let f0 := m.faceOf h0
      let f1 := m.faceOf h3
      .ok
        { edits :=
            [.setVertex h0 n, .setNext h1 (hb + 3), .setNext h2 hb, .setFace h2 fb,
             .setNext h3 (hb + 4), .setNext h4 (hb + 5), .setFace h4 (fb + 1),
             .setVertexHalfedge v0 hb, .setVertexHalfedge v1 h3,
             .setFaceHalfedge f0 h0, .setFaceHalfedge f1 h3, .setEdgeHalfedge e h0]
          delHalfedges := [], delVertices := [], delEdges := [], delFaces := []
          newHalfedges :=
            [(hb, { next := hb + 2, twin := hb + 1, vertex := v0, edge := eb, face := fb }),
             (hb + 1,
               { next := h4, twin := hb, vertex := n, edge := eb, face := fb + 1 }),
             (hb + 2,
               { next := h2, twin := hb + 3, vertex := n, edge := eb + 1, face := fb }),
             (hb + 3,
               { next := h0, twin := hb + 2, vertex := v2, edge := eb + 1, face := f0 }),
             (hb + 4,
               { next := h5, twin := hb + 5, vertex := n, edge := eb + 2, face := f1 }),
             (hb + 5,
               { next := hb + 1, twin := hb + 4, vertex := v3, edge := eb + 2,
                 face := fb + 1 })]
          newVertices := [(n, { position := g.midpoint (m.position v0) (m.position v1),
                                halfedge := h0 })]
          newEdges :=
            [(eb, { halfedge := hb }), (eb + 1, { halfedge := hb + 2 }),
             (eb + 2, { halfedge := hb + 4 })]
          newFaces := [(fb, { halfedge := hb }), (fb + 1, { halfedge := hb + 1 })]
          result := n }
    | _, _ => .error .invalidOperator

/-- Modelled from the spec: `splitEdge` (section 4.2). -/
def HalfedgeMesh.splitEdge [Inhabited Vector3D] (g : Geometry Vector3D)
    (m : HalfedgeMesh Vector3D) (e : Addr) :
    Except OperatorError (HalfedgeMesh Vector3D × Addr) :=
  m.run (m.splitEdgePlan g e)

/-- Modelled from the spec: `eraseEdge` (section 4.2): the face of the twin half-edge is
merged into the face of the edge's half-edge; the edge, its two half-edges and the merged
face are destroyed; the surviving face is returned. -/
def HalfedgeMesh.eraseEdgePlan (m : HalfedgeMesh Vector3D) (e : Addr) :
    Except OperatorError (Rewrite Vector3D) :=
  match m.edges.lookup e with
  | none => .error .invalidTarget
  | some r =>
    match m.faceLoop r.halfedge, m.faceLoop (m.twin r.halfedge) with
    | some (h :: a :: l0), some (t :: b :: l1) =>
      if m.faceOf h = m.faceOf t then .error .wouldViolateManifoldness
      else
        .ok
          { edits :=
              (b :: l1).map (fun x => Edit.setFace x (m.faceOf h)) ++
              [.setNext (l0.getLastD a) b, .setNext (l1.getLastD b) a,
               .setVertexHalfedge (m.vertexOf h) b, .setVertexHalfedge (m.vertexOf t) a,
               .setFaceHalfedge (m.faceOf h) a]
            delHalfedges := [h, t], delVertices := [], delEdges := [e]
            delFaces := [m.faceOf t]
            newHalfedges := [], newVertices := [], newEdges := [], newFaces := []
            result := m.faceOf h }
    | _, _ => .error .invalidOperator

/-- Modelled from the spec: `eraseEdge` (section 4.2). -/
def HalfedgeMesh.eraseEdge (m : HalfedgeMesh Vector3D) (e : Addr) :
    Except OperatorError (HalfedgeMesh Vector3D × Addr) :=
  m.run (m.eraseEdgePlan e)

/-- Modelled from the spec: the half-edges of the face of a half-edge `o` that leaves a
vertex, without `o` and without the half-edge that enters the vertex: the outer boundary the
face contributes when the vertex is erased. -/
def HalfedgeMesh.outerOf (m : HalfedgeMesh Vector3D) (o : Addr) : List Addr :=
  ((m.faceLoop o).getD []).tail.dropLast

/-- Modelled from the spec: `eraseVertex` (section 4.2): the faces around the vertex are
merged into the face of the vertex's half-edge, preserving the outer boundary half-edges;
the vertex, its edges with their half-edges, and the other faces are destroyed; the
surviving face is returned. -/
def HalfedgeMesh.eraseVertexPlan (m : HalfedgeMesh Vector3D) (v : Addr) :
    Except OperatorError (Rewrite Vector3D) :=
  match m.vertices.lookup v with
  | none => .error .invalidTarget
  | some r =>
    match m.fan r.halfedge with
    | none => .error .invalidOperator
    | some spokes =>
      if (spokes.any fun o => (m.outerOf o).isEmpty) ∨ ¬ (spokes.map m.faceOf).Nodup then
        .error .wouldViolateManifoldness
      else
        .ok
          { edits :=
              (spokes.flatMap fun o =>
                (m.outerOf o).map (fun x => Edit.setFace x (m.faceOf r.halfedge)) ++
                [.setNext ((m.outerOf (m.next (m.twin o))).getLastD 0) (m.next o),
                 .setVertexHalfedge (m.vertexOf (m.twin o)) (m.next o)]) ++
              [.setFaceHalfedge (m.faceOf r.halfedge) (m.next r.halfedge)]
            delHalfedges := spokes ++ spokes.map m.twin
            delVertices := [v]
            delEdges := spokes.map m.edgeOf
            delFaces := (spokes.map m.faceOf).tail
            newHalfedges := [], newVertices := [], newEdges := [], newFaces := []
            result := m.faceOf r.halfedge }

/-- Modelled from the spec: `eraseVertex` (section 4.2). -/
def HalfedgeMesh.eraseVertex (m : HalfedgeMesh Vector3D) (v : Addr) :
    Except OperatorError (HalfedgeMesh Vector3D × Addr) :=
  m.run (m.eraseVertexPlan v)

/-- Modelled from the spec: what a collapse does to a face that loses the half-edge `x`,
given the `next` cycle `x, a, ...` of the face. -/
structure SideRewrite (Vector3D : Type) where
  edits : List (Edit Vector3D)
  delHalfedges : List Addr
  delEdges : List Addr
  delFaces : List Addr
  links : List Addr
  survivor : Addr

/-- Modelled from the spec: the treatment of a face next to a collapsed element (section
4.2). A triangle `x a b` degenerates: it is destroyed with `a`, `b` and the edge of `b`,
and the twins of `a` and `b` become twins of each other on the edge of `a`. A larger face
only loses `x`. `survivor` is a half-edge that leaves the merged vertex afterwards. -/
def HalfedgeMesh.closeSide (m : HalfedgeMesh Vector3D) : List Addr → SideRewrite Vector3D
  | [x, a, b] =>
    { edits :=
        [.setTwin (m.twin a) (m.twin b), .setTwin (m.twin b) (m.twin a),
         .setEdge (m.twin b) (m.edgeOf a), .setEdgeHalfedge (m.edgeOf a) (m.twin a),
         .setVertexHalfedge (m.vertexOf b) (m.twin a)]
      delHalfedges := [a, b], delEdges := [m.edgeOf b], delFaces := [m.faceOf x]
      links := [m.twin a, m.twin b]
      survivor := m.twin b }
  | x :: a :: rest =>
    { edits := [.setNext (rest.getLastD a) a, .setFaceHalfedge (m.faceOf x) a]
      delHalfedges := [], delEdges := [], delFaces := [], links := [a], survivor := a }
  | _ =>
    { edits := [], delHalfedges := [], delEdges := [], delFaces := [], links := []
      survivor := 0 }

/-- Modelled from the spec: the vertices at the tips of the half-edges that leave the vertex
of `h`. -/
def HalfedgeMesh.neighbours (m : HalfedgeMesh Vector3D) (h : Addr) : List Addr :=
  ((m.fan h).getD []).map fun o => m.vertexOf (m.twin o)

/-- Modelled from the spec: `collapseEdge` (section 4.2). With `h : v0 → v1` the half-edge of
the edge, `v1` is merged into `v0`, which moves to the midpoint; the edge and its two
half-edges are destroyed, and each adjacent face is treated by `closeSide`. The collapse is
refused when the end points have a common neighbour other than the apex of an adjacent
triangle, or when a half-edge that has to stay is to be destroyed. -/
def HalfedgeMesh.collapseEdgePlan [Inhabited Vector3D] (g : Geometry Vector3D)
    (m : HalfedgeMesh Vector3D) (e : Addr) : Except OperatorError (Rewrite Vector3D) :=
  match m.edges.lookup e with
  | none => .error .invalidTarget
  | some r =>
    match m.faceLoop r.halfedge, m.faceLoop (m.twin r.halfedge), m.fan (m.twin r.halfedge) with
    | some l0, some l1, some spokes =>
      let h := r.halfedge
      let t := m.twin h
      let s0 := m.closeSide l0
      let s1 := m.closeSide l1
      let del := [h, t] ++ s0.delHalfedges ++ s1.delHalfedges
      if ((m.neighbours h).filter fun x => (m.neighbours t).contains x).length
            ≠ s0.delFaces.length + s1.delFaces.length
          ∨ (s0.links ++ s1.links).any fun x => del.contains x then
        .error .wouldViolateManifoldness
      else
        .ok
          { edits :=
              spokes.map (fun o => Edit.setVertex o (m.vertexOf h)) ++ s0.edits ++ s1.edits ++
              [.setVertexHalfedge (m.vertexOf h) s0.survivor,
               .setPosition (m.vertexOf h)
                 (g.midpoint (m.position (m.vertexOf h)) (m.position (m.vertexOf t)))]
            delHalfedges := del
            delVertices := [m.vertexOf t]
            delEdges := [e] ++ s0.delEdges ++ s1.delEdges
            delFaces := s0.delFaces ++ s1.delFaces
            newHalfedges := [], newVertices := [], newEdges := [], newFaces := []
            result := m.vertexOf h }
    | _, _, _ => .error .invalidOperator

/-- Modelled from the spec: `collapseEdge` (section 4.2). -/
def HalfedgeMesh.collapseEdge [Inhabited Vector3D] (g : Geometry Vector3D)
    (m : HalfedgeMesh Vector3D) (e : Addr) :
    Except OperatorError (HalfedgeMesh Vector3D × Addr) :=
  m.run (m.collapseEdgePlan g e)

/-- Modelled from the spec: `collapseFace` (section 4.2). All vertices of the face are
merged into its first vertex, which moves to the centroid; the face, its edges and their
half-edges are destroyed, and each neighbouring face is treated by `closeSide`. -/
def HalfedgeMesh.collapseFacePlan [Inhabited Vector3D] (g : Geometry Vector3D)
    (m : HalfedgeMesh Vector3D) (f : Addr) : Except OperatorError (Rewrite Vector3D) :=
  match m.faces.lookup f with
  | none => .error .invalidTarget
  | some r =>
    match m.faceLoop r.halfedge with
    | none => .error .invalidOperator
    | some l =>
      let keep := m.vertexOf r.halfedge
      let sides := l.map fun h => m.closeSide ((m.faceLoop (m.twin h)).getD [])
      let del := l ++ l.map m.twin ++ sides.flatMap fun s => s.delHalfedges
      if (sides.flatMap fun s => s.links).any fun x => del.contains x then
        .error .wouldViolateManifoldness
      else
        .ok
          { edits :=
              (l.tail.flatMap fun h =>
                ((m.fan h).getD []).map fun o => Edit.setVertex o keep) ++
              (sides.flatMap fun s => s.edits) ++
              [.setVertexHalfedge keep (sides.headD (m.closeSide [])).survivor,
               .setPosition keep (g.centroid (l.map fun h => m.position (m.vertexOf h)))]
            delHalfedges := del
            delVertices := (l.map m.vertexOf).tail
            delEdges := l.map m.edgeOf ++ sides.flatMap fun s => s.delEdges
            delFaces := [f] ++ sides.flatMap fun s => s.delFaces
            newHalfedges := [], newVertices := [], newEdges := [], newFaces := []
            result := keep }

/-- Modelled from the spec: `collapseFace` (section 4.2). -/
def HalfedgeMesh.collapseFace [Inhabited Vector3D] (g : Geometry Vector3D)
    (m : HalfedgeMesh Vector3D) (f : Addr) :
    Except OperatorError (HalfedgeMesh Vector3D × Addr) :=
  m.run (m.collapseFacePlan g f)

/-- Modelled from the spec: the new face of a vertex or edge bevel (section 4.2). `spokes`
are the half-edges that leave the bevelled element, in the order of the walk around it.
Every spoke gets a new vertex, at the position of the vertex it left; between a spoke and
the one before it a new edge is put, with one half-edge in the face of the spoke and one
in the new face. -/
def HalfedgeMesh.bevelRing [Inhabited Vector3D] (m : HalfedgeMesh Vector3D)
    (spokes : List Addr) : Rewrite Vector3D :=
  let n := spokes.length
  let hb := freshAddr m.halfedges
  let vb := freshAddr m.vertices
  let eb := freshAddr m.edges
  let fb := freshAddr m.faces
  let s := fun i => spokes.getD i 0
  let pred := fun i => (i + n - 1) % n
  { edits := (List.range n).flatMap fun i =>
      [.setVertex (s i) (vb + i), .setNext (m.twin (s (pred i))) (hb + 2 * i)]
    delHalfedges := [], delVertices := [], delEdges := [], delFaces := []
    newHalfedges := (List.range n).flatMap fun i =>
      [(hb + 2 * i,
         { next := s i, twin := hb + 2 * i + 1, vertex := vb + pred i, edge := eb + i,
           face := m.faceOf (s i) }),
       (hb + 2 * i + 1,
         { next := hb + 2 * pred i + 1, twin := hb + 2 * i, vertex := vb + i, edge := eb + i,
           face := fb })]
    newVertices := (List.range n).map fun i =>
      (vb + i, { position := m.position (m.vertexOf (s i)), halfedge := s i })
    newEdges := (List.range n).map fun i => (eb + i, { halfedge := hb + 2 * i })
    newFaces := [(fb, { halfedge := hb + 1 })]
    result := fb }

/-- Modelled from the spec: `bevelVertex` (section 4.2): the vertex is replaced by a face with
as many sides as the vertex has edges; the new face is returned. -/
def HalfedgeMesh.bevelVertexPlan [Inhabited Vector3D] (m : HalfedgeMesh Vector3D) (v : Addr) :
    Except OperatorError (Rewrite Vector3D) :=
  match m.vertices.lookup v with
  | none => .error .invalidTarget
  | some r =>
    match m.fan r.halfedge with
    | none => .error .invalidOperator
    | some spokes =>
      if spokes.length < 3 then .error .invalidOperator
      else .ok { m.bevelRing spokes with delVertices := [v] }

/-- Modelled from the spec: `bevelVertex` (section 4.2). -/
def HalfedgeMesh.bevelVertex [Inhabited Vector3D] (m : HalfedgeMesh Vector3D) (v : Addr) :
    Except OperatorError (HalfedgeMesh Vector3D × Addr) :=
  m.run (m.bevelVertexPlan v)

/-- Modelled from the spec: `bevelEdge` (section 4.2): the edge is replaced by a face with one
side for every other edge at its two end points; the edge, its half-edges and its end
points are destroyed; the new face is returned. -/
def HalfedgeMesh.bevelEdgePlan [Inhabited Vector3D] (m : HalfedgeMesh Vector3D) (e : Addr) :
    Except OperatorError (Rewrite Vector3D) :=
  match m.edges.lookup e with
  | none => .error .invalidTarget
  | some r =>
    match m.fan r.halfedge, m.fan (m.twin r.halfedge) with
    | some (h :: l0), some (t :: l1) =>
      if (l0 ++ l1).length < 3 then .error .invalidOperator
      else
        .ok
          { m.bevelRing (l0 ++ l1) with
            edits := (m.bevelRing (l0 ++ l1)).edits ++
              [.setFaceHalfedge (m.faceOf h) (m.next h), .setFaceHalfedge (m.faceOf t) (m.next t)]
            delHalfedges := [h, t]
            delVertices := [m.vertexOf h, m.vertexOf t]
            delEdges := [e] }
    | _, _ => .error .invalidOperator

/-- Modelled from the spec: `bevelEdge` (section 4.2). -/
def HalfedgeMesh.bevelEdge [Inhabited Vector3D] (m : HalfedgeMesh Vector3D) (e : Addr) :
    Except OperatorError (HalfedgeMesh Vector3D × Addr) :=
  m.run (m.bevelEdgePlan e)

/-- Modelled from the spec: `bevelFace` (section 4.2): the face becomes an inset copy of
itself on new vertices, at the positions of the original ones, joined to the original
boundary by a ring of new quadrilaterals; the inset face is returned. For the `i`-th side
`h : v → v1` of the face, with `u`, `u1` the copies of `v`, `v1`: the half-edge `u → u1` of
the inset face, and in the quadrilateral of the side `u1 → u`, `u → v`, `h`, `v1 → u1`. -/
def HalfedgeMesh.bevelFacePlan [Inhabited Vector3D] (m : HalfedgeMesh Vector3D) (f : Addr) :
    Except OperatorError (Rewrite Vector3D) :=
  match m.faces.lookup f with
  | none => .error .invalidTarget
  | some r =>
    match m.faceLoop r.halfedge with
    | none => .error .invalidOperator
    | some l =>
      let d := l.length
      let hb := freshAddr m.halfedges
      let vb := freshAddr m.vertices
      let eb := freshAddr m.edges
      let fb := freshAddr m.faces
      let h := fun i => l.getD i 0
      let succ := fun i => (i + 1) % d
      let pred := fun i => (i + d - 1) % d
      .ok
        { edits :=
            ((List.range d).flatMap fun i =>
              [.setNext (h i) (hb + 4 * succ i + 3), .setFace (h i) (fb + i)]) ++
            [.setFaceHalfedge f hb]
          delHalfedges := [], delVertices := [], delEdges := [], delFaces := []
          newHalfedges := (List.range d).flatMap fun i =>
            [(hb + 4 * i,
               { next := hb + 4 * succ i, twin := hb + 4 * i + 1, vertex := vb + i,
                 edge := eb + 2 * i, face := f }),
             (hb + 4 * i + 1,
               { next := hb + 4 * i + 2, twin := hb + 4 * i, vertex := vb + succ i,
                 edge := eb + 2 * i, face := fb + i }),
             (hb + 4 * i + 2,
               { next := h i, twin := hb + 4 * i + 3, vertex := vb + i,
                 edge := eb + 2 * i + 1, face := fb + i }),
             (hb + 4 * i + 3,
               { next := hb + 4 * pred i + 1, twin := hb + 4 * i + 2,
                 vertex := m.vertexOf (h i), edge := eb + 2 * i + 1, face := fb + pred i })]
          newVertices := (List.range d).map fun i =>
            (vb + i, { position := m.position (m.vertexOf (h i)), halfedge := hb + 4 * i })
          newEdges := (List.range d).flatMap fun i =>
            [(eb + 2 * i, { halfedge := hb + 4 * i }),
             (eb + 2 * i + 1, { halfedge := hb + 4 * i + 2 })]
          newFaces := (List.range d).map fun i => (fb + i, { halfedge := h i })
          result := f }

/-- Modelled from the spec: `bevelFace` (section 4.2). -/
def HalfedgeMesh.bevelFace [Inhabited Vector3D] (m : HalfedgeMesh Vector3D) (f : Addr) :
    Except OperatorError (HalfedgeMesh Vector3D × Addr) :=
  m.run (m.bevelFacePlan f)

/-- Modelled from the spec: the fan triangulation of one face of degree `d > 3` from the
vertex `v0` of the face's first half-edge (section 4.2). With `h 0, ..., h (d-1)` the sides
of the face, the diagonal number `k` joins `v0` and the vertex of `h (k + 2)`; the first
triangle `h 0, h 1` stays in the face, every diagonal opens a new face. -/
def HalfedgeMesh.fanFacePlan (m : HalfedgeMesh Vector3D) (f : Addr) :
    Except OperatorError (Rewrite Vector3D) :=
  match m.faces.lookup f with
  | none => .error .invalidTarget
  | some r =>
    match m.faceLoop r.halfedge with
    | none => .error .invalidOperator
    | some l =>
      let d := l.length
      if d ≤ 3 then .error .invalidOperator
      else
        let hb := freshAddr m.halfedges
        let eb := freshAddr m.edges
        let fb := freshAddr m.faces
        let h := fun i => l.getD i 0
        .ok
          { edits :=
              [.setFaceHalfedge f (h 0), .setNext (h 1) (hb + 1)] ++
              ((List.range (d - 4)).flatMap fun k =>
                [.setNext (h (k + 2)) (hb + 2 * (k + 1) + 1), .setFace (h (k + 2)) (fb + k)]) ++
              [.setFace (h (d - 2)) (fb + (d - 4)), .setFace (h (d - 1)) (fb + (d - 4)),
               .setNext (h (d - 1)) (hb + 2 * (d - 4))]
            delHalfedges := [], delVertices := [], delEdges := [], delFaces := []
            newHalfedges := (List.range (d - 3)).flatMap fun k =>
              [(hb + 2 * k,
                 { next := h (k + 2), twin := hb + 2 * k + 1, vertex := m.vertexOf (h 0),
                   edge := eb + k, face := fb + k }),
               (hb + 2 * k + 1,
                 { next := if k = 0 then h 0 else hb + 2 * (k - 1), twin := hb + 2 * k,
                   vertex := m.vertexOf (h (k + 2)), edge := eb + k,
                   face := if k = 0 then f else fb + (k - 1) })]
            newVertices := []
            newEdges := (List.range (d - 3)).map fun k => (eb + k, { halfedge := hb + 2 * k })
            newFaces := (List.range (d - 3)).map fun k => (fb + k, { halfedge := hb + 2 * k })
            result := f }

/-- Modelled from the spec: `triangulate` (section 4.2): every face of the store, in
iteration order, is fan-triangulated when its degree is greater than 3 and left as it is
otherwise. -/
def HalfedgeMesh.triangulate (m : HalfedgeMesh Vector3D) : HalfedgeMesh Vector3D :=
  m.faces.foldl (fun acc p => acc.after (acc.run (acc.fanFacePlan p.1))) m

end MeshCore

section MeshBuild

variable {Vector3D : Type}

/-- Modelled from the spec: the sides of a polygon soup, in build order: for every polygon,
in order, one side per corner, as (half-edge address, face, from, to, address of the next
side). -/
def soupSides : List (List Addr) → Nat → Nat → List (Addr × Addr × Addr × Addr × Addr)
  | [], _, _ => []
  | p :: ps, f, base =>
    ((List.range p.length).map fun j =>
      (base + j, f, p.getD j 0, p.getD ((j + 1) % p.length) 0, base + (j + 1) % p.length))
    ++ soupSides ps (f + 1) (base + p.length)

/-- Modelled from the spec: the sides that run from `a` to `b`. -/
def sidesFromTo (sides : List (Addr × Addr × Addr × Addr × Addr)) (a b : Addr) :
    List (Addr × Addr × Addr × Addr × Addr) :=
  sides.filter fun s => s.2.2.1 = a ∧ s.2.2.2.1 = b

/-- Modelled from the spec: the sides on the edge between `a` and `b`, in either direction:
the oriented half-edges that share the edge. -/
def sidesOn (sides : List (Addr × Addr × Addr × Addr × Addr)) (a b : Addr) :
    List (Addr × Addr × Addr × Addr × Addr) :=
  sides.filter fun s => (s.2.2.1 = a ∧ s.2.2.2.1 = b) ∨ (s.2.2.1 = b ∧ s.2.2.2.1 = a)

/-- Modelled from the spec: the complements of a side `(a, b)`: the sides `(b, a)` elsewhere
in the soup. -/
def complements (sides : List (Addr × Addr × Addr × Addr × Addr))
    (s : Addr × Addr × Addr × Addr × Addr) : List (Addr × Addr × Addr × Addr × Addr) :=
  sides.filter fun t => t ≠ s ∧ t.2.2.1 = s.2.2.2.1 ∧ t.2.2.2.1 = s.2.2.1

/-- Modelled from the spec: `build` (section 4.1). It fails with `NonManifoldEdge` when an
edge is shared by more than two sides, and otherwise with `UnmatchedEdge` when a side has no
complement. Otherwise vertices are made from the positions; each polygon gets a face and one
half-edge per side; a side `(a, b)` is paired with its complement `(b, a)`; each pair gets an
edge. -/
def HalfedgeMesh.build (polygons : List (List Addr)) (positions : List Vector3D) :
    Except TopologyError (HalfedgeMesh Vector3D) :=
  let sides := soupSides polygons 0 0
  if sides.any fun s => 2 < (sidesOn sides s.2.2.1 s.2.2.2.1).length then
    .error .nonManifoldEdge
  else if sides.any fun s => (complements sides s).length = 0 then
    .error .unmatchedEdge
  else
    let twinOf := fun (s : Addr × Addr × Addr × Addr × Addr) =>
      ((complements sides s).head?.map fun t => t.1).getD 0
    let firsts := (sides.filter fun s => s.1 < twinOf s).map fun s => s.1
    let edgeOf := fun (s : Addr × Addr × Addr × Addr × Addr) =>
      firsts.indexOf (min s.1 (twinOf s))
    .ok
      { halfedges := sides.map fun s =>
          (s.1, { next := s.2.2.2.2, twin := twinOf s, vertex := s.2.2.1, edge := edgeOf s,
                  face := s.2.1 })
        vertices := (List.range positions.length).zip positions |>.map fun vp =>
          (vp.1, { position := vp.2
                   halfedge := ((sides.find? fun s => s.2.2.1 = vp.1).map fun s => s.1).getD 0 })
        edges := (List.range firsts.length).zip firsts |>.map fun eh =>
          (eh.1, { halfedge := eh.2 })
        faces := (List.range polygons.length).map fun f =>
          (f, { halfedge := ((sides.find? fun s => s.2.1 = f).map fun s => s.1).getD 0 }) }

/-- Modelled from the spec: the invariants of section 3 and the closedness of the surface,
as a check on a store: addresses are unique, every reference is live, `twin` is an
involution without fixed point that stays on the edge, `next` stays on the face and runs
from the tip of a half-edge, every face is a closed cycle of at least three half-edges
that holds all half-edges of the face, every vertex has a closed fan that holds all
half-edges leaving it, and every edge has exactly its two half-edges. -/
def HalfedgeMesh.closedManifold (m : HalfedgeMesh Vector3D) : Bool :=
  decide (m.halfedges.map Prod.fst).Nodup && decide (m.vertices.map Prod.fst).Nodup &&
  decide (m.edges.map Prod.fst).Nodup && decide (m.faces.map Prod.fst).Nodup &&
  (m.halfedges.all fun p =>
    (m.halfedges.lookup p.2.next).isSome && (m.halfedges.lookup p.2.twin).isSome &&
    (m.vertices.lookup p.2.vertex).isSome && (m.edges.lookup p.2.edge).isSome &&
    (m.faces.lookup p.2.face).isSome &&
    decide (m.twin p.2.twin = p.1) && decide (p.2.twin ≠ p.1) &&
    decide (m.edgeOf p.2.twin = p.2.edge) && decide (m.faceOf p.2.next = p.2.face) &&
    decide (m.vertexOf p.2.next = m.vertexOf p.2.twin) &&
    decide (m.vertexOf p.2.twin ≠ p.2.vertex) &&
    decide (m.edgeHalfedge p.2.edge = p.1 ∨ m.edgeHalfedge p.2.edge = p.2.twin) &&
    ((m.faceLoop (m.faceHalfedge p.2.face)).getD []).contains p.1 &&
    ((m.fan (m.vertexHalfedge p.2.vertex)).getD []).contains p.1) &&
  (m.vertices.all fun p =>
    (m.halfedges.lookup p.2.halfedge).isSome && decide (m.vertexOf p.2.halfedge = p.1)) &&
  (m.edges.all fun p =>
    (m.halfedges.lookup p.2.halfedge).isSome && decide (m.edgeOf p.2.halfedge = p.1)) &&
  (m.faces.all fun p =>
    (m.halfedges.lookup p.2.halfedge).isSome && decide (m.faceOf p.2.halfedge = p.1) &&
    decide (3 ≤ ((m.faceLoop p.2.halfedge).getD []).length))

/-- The numbers of vertices, edges and faces of a store. -/
def HalfedgeMesh.counts (m : HalfedgeMesh Vector3D) : Nat × Nat × Nat :=
  (m.vertices.length, m.edges.length, m.faces.length)

/-- The Euler characteristic `V - E + F` of a store. -/
def HalfedgeMesh.euler (m : HalfedgeMesh Vector3D) : Int :=
  (m.vertices.length : Int) - m.edges.length + m.faces.length

end MeshBuild

section MeshCounts

variable {Vector3D : Type}

/-- The balance of a rewrite: what it adds to `V - E + F`. -/
def Rewrite.balance (r : Rewrite Vector3D) : Int :=
  ((r.newVertices.length : Int) - r.delVertices.length)
    - ((r.newEdges.length : Int) - r.delEdges.length)
    + ((r.newFaces.length : Int) - r.delFaces.length)

/-- The store has unique addresses for its vertices, edges and faces. -/
def HalfedgeMesh.uniqueAddrs (m : HalfedgeMesh Vector3D) : Prop :=
  (m.halfedges.map Prod.fst).Nodup ∧ (m.vertices.map Prod.fst).Nodup ∧
  (m.edges.map Prod.fst).Nodup ∧ (m.faces.map Prod.fst).Nodup

end MeshCounts

/-! ## Mesh: bevel (mesh.cpp) -/

section BevelCommands

variable {Vector3D : Type} [Inhabited Vector3D]

/-- The read `v->position`; the default value stands for the read through a dangling
pointer. -/
def World.positionOf (w : World Vector3D) (v : Addr) : Vector3D :=
  ((w.vertexAt v).map fun r => r.position).getD default

/-- The first loop of `Mesh::bevel_selected_element`, over the selected face:
`beveledFacePos.push_back( tmp->vertex()->position ); tmp = tmp->next();` repeated while
`tmp != f->halfedge()`, cut off after `fuel` rounds. -/
def Mesh.recordFacePositions (w : World Vector3D) (start : Addr) :
    Nat → Addr → List Vector3D → List Vector3D
  | 0, _, acc => acc
  | fuel + 1, tmp, acc =>
    if w.next tmp = start then acc ++ [w.positionOf (w.vertexOf tmp)]
    else Mesh.recordFacePositions w start fuel (w.next tmp)
      (acc ++ [w.positionOf (w.vertexOf tmp)])

/-- The second loop of `Mesh::bevel_selected_element`, over the new face:
`bevelVertices.push_back( h->twin()->next() )`, for an edge bevel also
`beveledEdgePos.push_back( h->vertex()->position )`, then `h = h->next()`, repeated while
`h != _newf->halfedge()`, cut off after `fuel` rounds. The vector `fcs` the source fills in
the same loop is local and never read. -/
def Mesh.recordBevelLoop (w : World Vector3D) (isEdge : Bool) (start : Addr) :
    Nat → Addr → List Addr × List Vector3D → List Addr × List Vector3D
  | 0, _, acc => acc
  | fuel + 1, h, acc =>
    let acc1 : List Addr × List Vector3D :=
      (acc.1 ++ [w.next (w.twin h)],
        if isEdge then acc.2 ++ [w.positionOf (w.vertexOf h)] else acc.2)
    if w.next h = start then acc1 else Mesh.recordBevelLoop w isEdge start fuel (w.next h) acc1

/-- The tail of `Mesh::bevel_selected_element`, from `bevelVertices.clear()` on: the stored
bevel data of the mesh object `self` at `this` are rebuilt from the walk around the new face
`newf`, and the target of the transform widget is cleared. -/
def Mesh.recordBevel (this : Addr) (self : Mesh Vector3D) (isEdge : Bool) (newf : Addr)
    (w : World Vector3D) : World Vector3D :=
  let data := Mesh.recordBevelLoop w isEdge (w.faceHalfedge newf) w.halfedgeCount
    (w.faceHalfedge newf) ([], [])
  let w1 := w.setMesh this { self with bevelVertices := data.1, beveledEdgePos := data.2 }
  { w1 with
    scene :=
      { w1.scene with
        elementTransform :=
          { w1.scene.elementTransform with target := w1.scene.elementTransform.target.clear } } }

/-- The method `Mesh::bevel_selected_element` of the mesh at address `this`. -/
def Mesh.bevel_selected_element (ops : MeshOps Vector3D) (this : Addr)
    (w : World Vector3D) : World Vector3D :=
  match w.meshAt this with
  | none => w
  | some self =>
    if self.scene = false then w
    else
      match w.scene.selected.element with
      | none => w
      | some element =>
        match element.getFace with
        | some f =>
          let self1 : Mesh Vector3D :=
            { self with
              beveledFacePos :=
                Mesh.recordFacePositions w (w.faceHalfedge f) w.halfedgeCount
                  (w.faceHalfedge f) [] }
          let target := w.faceOf (w.faceHalfedge f)
          let r := ops.bevelFace self.mesh target
          let w1 := (w.ranOperator this self1 r.1 (.bevelFace target)).selectResult (.face r.2)
          Mesh.recordBevel this { self1 with mesh := r.1 } false r.2 w1
        | none =>
          match element.getEdge with
          | some e =>
            let target := w.edgeOf (w.edgeHalfedge e)
            let r := ops.bevelEdge self.mesh target
            let w1 := w.ranOperator this self r.1 (.bevelEdge target)
            let w2 := w1.selectResult (.edge (w1.edgeOf (w1.faceHalfedge r.2)))
            Mesh.recordBevel this { self with mesh := r.1 } true r.2 w2
          | none =>
            match element.getVertex with
            | some v =>
              let self1 : Mesh Vector3D := { self with beveledVertexPos := w.positionOf v }
              let target := w.vertexOf (w.vertexHalfedge v)
              let r := ops.bevelVertex self.mesh target
              let w1 := w.ranOperator this self1 r.1 (.bevelVertex target)
              let w2 := w1.selectResult (.vertex (w1.vertexOf (w1.faceHalfedge r.2)))
              Mesh.recordBevel this { self1 with mesh := r.1 } false r.2 w2
            | none => w

/-- The method `Scene::bevel_selected_element`. -/
def Scene.bevel_selected_element (ops : MeshOps Vector3D) (w : World Vector3D) :
    World Vector3D :=
  if w.scene.edited.element = w.scene.selected.element then w
  else
    match w.scene.selected.object with
    | none => w
    | some o =>
      match w.meshAt o with
      | none => w
      | some _ =>
        { Mesh.bevel_selected_element ops o w with
          scene :=
            { (Mesh.bevel_selected_element ops o w).scene with
              edited := (Mesh.bevel_selected_element ops o w).scene.selected } }

end BevelCommands

/-! ## Mesh and Scene: global remeshing (mesh.cpp, scene.cpp) -/

section RemeshCommands

variable {Vector3D : Type}

/-- The statements `scene->selected.clear(); scene->hovered.clear();
scene->elementTransform->target.clear();` that end the resampling methods of `Mesh`. -/
def World.clearAfterResample (w : World Vector3D) : World Vector3D :=
  { w with
    scene := { w.scene with selected := w.scene.selected.clear }.clearHoveredAndTarget }

/-- The method `Mesh::downsample` of the mesh at address `this`; the scene pointer is used
without a null check. -/
def Mesh.downsample (ops : MeshOps Vector3D) (this : Addr)
    (w : World Vector3D) : Outcome (World Vector3D) :=
  match w.meshAt this with
  | none => .done w
  | some self =>
    let w1 := w.ranOperator this self (ops.downsample self.mesh) .downsample
    if self.scene = false then .nullDeref w1 else .done w1.clearAfterResample

/-- The method `Mesh::resample` of the mesh at address `this`; the scene pointer is used
without a null check. -/
def Mesh.resample (ops : MeshOps Vector3D) (this : Addr)
    (w : World Vector3D) : Outcome (World Vector3D) :=
  match w.meshAt this with
  | none => .done w
  | some self =>
    let w1 := w.ranOperator this self (ops.resample self.mesh) .resample
    if self.scene = false then .nullDeref w1 else .done w1.clearAfterResample

/-- The method `Scene::clearSelections`. -/
def Scene.clearSelections (w : World Vector3D) : World Vector3D :=
  { w with
    scene :=
      { w.scene with
        hovered := w.scene.hovered.clear
        selected := w.scene.selected.clear
        edited := w.scene.edited.clear
        elementTransform :=
          { w.scene.elementTransform with target := w.scene.elementTransform.target.clear } } }

/-- The method `Scene::triangulateSelection`. -/
def Scene.triangulateSelection (ops : MeshOps Vector3D) (w : World Vector3D) :
    World Vector3D :=
  match w.scene.selected.object with
  | none => w
  | some o =>
    match w.meshAt o with
    | none => w
    | some self =>
      Scene.clearSelections (w.ranOperator o self (ops.triangulate self.mesh) .triangulate)

/-- The common body of `Scene::upsample_selected_mesh`, `Scene::downsample_selected_mesh`
and `Scene::resample_selected_mesh`: the guard on the selection, the `dynamic_cast`, the
call of the method `run` of the mesh, and `clearSelections()`. -/
def Scene.remeshSelected (run : Addr → World Vector3D → Outcome (World Vector3D))
    (w : World Vector3D) : Outcome (World Vector3D) :=
  match w.scene.selected.object, w.scene.selected.element with
  | none, _ => .done w
  | some _, none => .done w
  | some o, some _ =>
    match w.meshAt o with
    | none => .done (Scene.clearSelections w)
    | some _ =>
      match run o w with
      | .done w1 => .done (Scene.clearSelections w1)
      | .nullDeref w1 => .nullDeref w1

/-- The method `Scene::upsample_selected_mesh`. -/
def Scene.upsample_selected_mesh (ops : MeshOps Vector3D) (w : World Vector3D) :
    Outcome (World Vector3D) :=
  Scene.remeshSelected (Mesh.upsample ops) w

/-- The method `Scene::downsample_selected_mesh`. -/
def Scene.downsample_selected_mesh (ops : MeshOps Vector3D) (w : World Vector3D) :
    Outcome (World Vector3D) :=
  Scene.remeshSelected (Mesh.downsample ops) w

/-- The method `Scene::resample_selected_mesh`. -/
def Scene.resample_selected_mesh (ops : MeshOps Vector3D) (w : World Vector3D) :
    Outcome (World Vector3D) :=
  Scene.remeshSelected (Mesh.resample ops) w

end RemeshCommands

/-! ## Mesh and Scene: picking (mesh.cpp, scene.cpp) -/

section Picking

variable {Vector3D : Type}

/-- The assignment `idToElement[id] = e` on a `std::map`: the entry under `id`, if any, is
replaced. -/
def mapInsert (id : Int) (e : HalfedgeElement) (m : List (Int × HalfedgeElement)) :
    List (Int × HalfedgeElement) :=
  (id, e) :: m.filter fun q => q.1 ≠ id

/-- The value of an `int` after an arithmetic step whose exact result is `x`: the value in
the range of `int`, from -2^31 to 2^31 - 1, that differs from `x` by a multiple of 2^32.
This is `x` itself when `x` is in the range; past the range it is what the increment of a
32-bit `int` gives on the machine. -/
def wrapInt32 (x : Int) : Int :=
  (x + 2147483648) % 4294967296 - 2147483648

/-- The method `Mesh::newPickElement` on the pair of `pickID` and `idToElement`: the element
is registered under `pickID`, and `pickID`, an `int`, is incremented. The colour it sets is
not modelled. -/
def Mesh.newPickElement (st : Int × List (Int × HalfedgeElement)) (e : HalfedgeElement) :
    Int × List (Int × HalfedgeElement) :=
  (wrapInt32 (st.1 + 1), mapInsert st.1 e st.2)

/-- The inner loop of `Mesh::draw_pick`, over the corners of the face `f`: with
`h2 = h->next()`, the vertex of `h2`, the face, the edge of `h2` and `h2` are registered in
this order, then `h = h->next()`, repeated while `h != f->halfedge()`, cut off after `fuel`
rounds. -/
def Mesh.drawPickCorners (w : World Vector3D) (f : Addr) (start : Addr) :
    Nat → Addr → Int × List (Int × HalfedgeElement) → Int × List (Int × HalfedgeElement)
  | 0, _, st => st
  | fuel + 1, h, st =>
    let st1 :=
      Mesh.newPickElement
        (Mesh.newPickElement
          (Mesh.newPickElement
            (Mesh.newPickElement st (.vertex (w.vertexOf (w.next h))))
            (.face f))
          (.edge (w.edgeOf (w.next h))))
        (.halfedge (w.next h))
    if w.next h = start then st1 else Mesh.drawPickCorners w f start fuel (w.next h) st1

/-- The outer loop of `Mesh::draw_pick`, over the faces of the mesh. -/
def Mesh.drawPickFaces (w : World Vector3D) :
    List (Addr × Face) → Int × List (Int × HalfedgeElement) →
      Int × List (Int × HalfedgeElement)
  | [], st => st
  | f :: fs, st =>
    Mesh.drawPickFaces w fs
      (Mesh.drawPickCorners w f.1 f.2.halfedge w.halfedgeCount f.2.halfedge st)

/-- The method `Mesh::draw_pick( pickID )` of the mesh at address `this`: the state after
the call and the value of `pickID` on return. `pickID` is an `int`: a value from -2^31 to
2^31 - 1, incremented as in `newPickElement`. -/
def Mesh.draw_pick (this : Addr) (pickID : Int) (w : World Vector3D) : World Vector3D × Int :=
  match w.meshAt this with
  | none => (w, pickID)
  | some self =>
    let st := Mesh.drawPickFaces w self.mesh.faces (pickID, [])
    (w.setMesh this { self with idToElement := st.2 }, st.1)

/-- The method `Mesh::setSelection( pickID, selection )` of the mesh `self` at address
`this`: the selection after the call. -/
def Mesh.setSelection (self : Mesh Vector3D) (this : Addr) (pickID : Int)
    (selection : Selection) : Selection :=
  match self.idToElement.lookup pickID with
  | some e => { object := some this, element := some e }
  | none => selection

/-- The first loop of `Scene::getHoveredObject`: `o->draw_pick( pickID );
pickRange.push_back( pickID );` for every object of the scene. Objects of other classes
than `Mesh` have their own `draw_pick`, which is not part of the sources; they are
skipped. -/
def Scene.drawPickAll :
    List Addr → World Vector3D × Int × List Int → World Vector3D × Int × List Int
  | [], st => st
  | o :: os, st =>
    Scene.drawPickAll os
      ((Mesh.draw_pick o st.2.1 st.1).1, (Mesh.draw_pick o st.2.1 st.1).2,
        st.2.2 ++ [(Mesh.draw_pick o st.2.1 st.1).2])

/-- The second loop of `Scene::getHoveredObject`: `o->setSelection( ID, hovered )` for every
object of the scene. -/
def Scene.setSelectionAll (w : World Vector3D) (ID : Int) : List Addr → Selection → Selection
  | [], hovered => hovered
  | o :: os, hovered =>
    match w.meshAt o with
    | none => Scene.setSelectionAll w ID os hovered
    | some self => Scene.setSelectionAll w ID os (Mesh.setSelection self o ID hovered)

/-- The method `Scene::getHoveredObject`, with the pick ID `ID` that is read back from the
frame buffer as a parameter: the state after the call, and the local vector `pickRange`. -/
def Scene.getHoveredObject (ID : Int) (w : World Vector3D) : World Vector3D × List Int :=
  let drawn := Scene.drawPickAll w.scene.objects (w, 0, [0])
  ({ drawn.1 with
      scene :=
        { drawn.1.scene with
          hovered :=
            Scene.setSelectionAll drawn.1 ID drawn.1.scene.objects drawn.1.scene.hovered.clear } },
    drawn.2.2)

end Picking

/-! ## Application: file buffers (application.cpp) -/

section FileBuffers

/-- A file operation of the application: `writeScene( filename )` or
`loadScene( filename )`. -/
inductive FileOp where
  | write (filename : String)
  | load (filename : String)
  deriving DecidableEq, Repr

/-- The members of `Application` that `executeFileOp` uses: the two flags, the other
members as `rest`, and the ghost log of the file operations made so far. -/
structure Application (σ : Type) where
  readyWrite : Bool
  readyLoad : Bool
  rest : σ
  fileOps : List FileOp

/-- The `switch` of `Application::executeFileOp`: the index of the key, for the keys '0'
to '9', whose codes are 48 to 57. -/
def Application.keyIndex (codepoint : Int) : Option Nat :=
  if codepoint = 48 then some 0
  else if codepoint = 49 then some 1
  else if codepoint = 50 then some 2
  else if codepoint = 51 then some 3
  else if codepoint = 52 then some 4
  else if codepoint = 53 then some 5
  else if codepoint = 54 then some 6
  else if codepoint = 55 then some 7
  else if codepoint = 56 then some 8
  else if codepoint = 57 then some 9
  else none

/-- The file name `"Scotty3D_buffer" << index << ".dae"`. -/
def Application.bufferName (index : Nat) : String :=
  "Scotty3D_buffer" ++ toString index ++ ".dae"

/-- The method `Application::executeFileOp( codepoint )`; `writeScene` and `loadScene` are
the effects of the two file operations on the other members. -/
def Application.executeFileOp {σ : Type} (writeScene loadScene : String → σ → σ)
    (codepoint : Int) (app : Application σ) : Application σ :=
  if app.readyLoad = false ∧ app.readyWrite = false then app
  else
    match Application.keyIndex codepoint with
    | none => { app with readyLoad := false, readyWrite := false }
    | some index =>
      if app.readyWrite = true then
        { readyWrite := false
          readyLoad := false
          rest := writeScene (Application.bufferName index) app.rest
          fileOps := app.fileOps ++ [.write (Application.bufferName index)] }
      else if app.readyLoad = true then
        { readyWrite := false
          readyLoad := false
          rest := loadScene (Application.bufferName index) app.rest
          fileOps := app.fileOps ++ [.load (Application.bufferName index)] }
      else { app with readyLoad := false, readyWrite := false }

end FileBuffers

/-! ## Invariants of section 3, as checks on a state -/

section Invariants

variable {Vector3D : Type}

/-- The addresses of all half-edges in memory. -/
def World.halfedgeAddrs (w : World Vector3D) : List Addr :=
  w.stores.flatMap fun m => m.halfedges.map Prod.fst

/-- The degree of the face a half-edge lies on, `h->face()->degree()`, when both the
half-edge and its face are live. -/
def World.faceDegreeOf (w : World Vector3D) (h : Addr) : Option Nat :=
  match w.halfedgeAt h with
  | none => none
  | some r =>
    match w.faceAt r.face with
    | none => none
    | some f => some (w.degree f)

/-- Modelled from the spec: the invariant `h.twin().twin() == h` for every half-edge `h`
(section 3). -/
def World.twinInvolution (w : World Vector3D) : Bool :=
  w.halfedgeAddrs.all fun h => w.twin (w.twin h) = h

/-- Modelled from the spec: following `next` from `h` returns to `h` after exactly `d`
steps, and not before (section 3). -/
def World.returnsAfterExactly (w : World Vector3D) (h : Addr) (d : Nat) : Bool :=
  decide (w.next^[d] h = h) && (List.range d).all fun k => k = 0 ∨ w.next^[k] h ≠ h

/-- Modelled from the spec: the invariant that following `next` from any half-edge returns
to itself after exactly `face.degree()` steps (section 3). -/
def World.nextCycle (w : World Vector3D) : Bool :=
  w.halfedgeAddrs.all fun h =>
    match w.faceDegreeOf h with
    | none => false
    | some d => w.returnsAfterExactly h d

end Invariants

/-! ## Vocabulary of the statements -/

section Vocabulary

variable {Vector3D : Type}

/-- The effect the editing commands have in common, between a state `w` and the state `w1`
after the command: exactly one operator call, `call`, has been made; the store of the mesh
at `this` is the store `m` the operator returned; `selected.element` is the handle `x`;
`hovered` and the target of the transform widget are cleared. -/
def World.editedBy (w w1 : World Vector3D) (this : Addr) (call : MeshCall)
    (m : HalfedgeMesh Vector3D) (x : HalfedgeElement) : Prop :=
  w1.calls = w.calls ++ [call] ∧
  (w1.meshAt this).map (fun self => self.mesh) = some m ∧
  w1.scene.selected.element = some x ∧
  w1.scene.hovered = { object := none, element := none } ∧
  w1.scene.elementTransform.target = { object := none, element := none }

/-- The position a vertex `a` at `p` has after `HalfedgeMesh.repositionLoop`: the last
offset assigned to it, or `p` when no affected half-edge has `a` as its vertex. -/
def finalPosition (vertexOf : Addr → Addr) (offset : Nat → Vector3D) :
    List Addr → Nat → Addr → Vector3D → Vector3D
  | [], _, _, p => p
  | h :: hs, i, a, p =>
    finalPosition vertexOf offset hs (i + 1) a (if a = vertexOf h then offset i else p)

/-- The positions of all vertices in memory, each with its address. -/
def World.positions (w : World Vector3D) : List (Addr × Vector3D) :=
  w.stores.flatMap fun m => m.vertices.map fun r => (r.1, r.2.position)

end Vocabulary

/-! ## Vocabulary of the statements: walks and pick IDs -/

section WalkVocabulary

variable {Vector3D : Type}

/-- The half-edges a loop `do { ...; h = h->next(); } while( h != start )` visits from `h`
on, in order, cut off after `fuel` rounds. -/
def World.walk (w : World Vector3D) (start : Addr) : Nat → Addr → List Addr
  | 0, _ => []
  | fuel + 1, h => h :: (if w.next h = start then [] else World.walk w start fuel (w.next h))

/-- The half-edges around a face, from the half-edge `start` the face stores. -/
def World.faceWalk (w : World Vector3D) (start : Addr) : List Addr :=
  w.walk start w.halfedgeCount start

/-- The face corners of a list of faces in drawing order: each face with the half-edges
around it. -/
def World.corners (w : World Vector3D) (faces : List (Addr × Face)) : List (Addr × Addr) :=
  faces.flatMap fun f => (w.faceWalk f.2.halfedge).map fun h => (f.1, h)

/-- The four elements `Mesh::draw_pick` registers at the corner of face `c.1` and half-edge
`c.2`, in the order of registration. -/
def World.cornerElements (w : World Vector3D) (c : Addr × Addr) : List HalfedgeElement :=
  [.vertex (w.vertexOf (w.next c.2)), .face c.1, .edge (w.edgeOf (w.next c.2)),
    .halfedge (w.next c.2)]

/-- The elements registered in `idToElement` of the mesh object at `o`, as a lookup; none
when `o` is not a mesh. -/
def World.registered (w : World Vector3D) (o : Addr) (id : Int) : Option HalfedgeElement :=
  match w.meshAt o with
  | none => none
  | some self => self.idToElement.lookup id

/-- The number of pick IDs that `draw_pick` of the object at `o` uses: four for every face
corner of a mesh, none for another object. -/
def World.pickCount (w : World Vector3D) (o : Addr) : Nat :=
  match w.meshAt o with
  | none => 0
  | some self => 4 * (w.corners self.mesh.faces).length

end WalkVocabulary

/-! ## Concrete states -/

section Examples

/-- Two triangles glued along their boundary: 3 vertices, 3 edges, 2 faces, 6 half-edges. -/
def trianglePillow : HalfedgeMesh (Int × Int × Int) :=
  { halfedges :=
      [(0, { next := 1, twin := 3, vertex := 0, edge := 0, face := 0 }),
       (1, { next := 2, twin := 4, vertex := 1, edge := 1, face := 0 }),
       (2, { next := 0, twin := 5, vertex := 2, edge := 2, face := 0 }),
       (3, { next := 5, twin := 0, vertex := 1, edge := 0, face := 1 }),
       (4, { next := 3, twin := 1, vertex := 2, edge := 1, face := 1 }),
       (5, { next := 4, twin := 2, vertex := 0, edge := 2, face := 1 })]
    vertices :=
      [(0, { position := (0, 0, 0), halfedge := 0 }),
       (1, { position := (1, 0, 0), halfedge := 1 }),
       (2, { position := (0, 1, 0), halfedge := 2 })]
    edges := [(0, { halfedge := 0 }), (1, { halfedge := 1 }), (2, { halfedge := 2 })]
    faces := [(0, { halfedge := 0 }), (1, { halfedge := 3 })] }

/-- Two quadrilaterals glued along their boundary: 4 vertices, 4 edges, 2 faces,
8 half-edges. -/
def quadPillow : HalfedgeMesh (Int × Int × Int) :=
  { halfedges :=
      [(0, { next := 1, twin := 4, vertex := 0, edge := 0, face := 0 }),
       (1, { next := 2, twin := 5, vertex := 1, edge := 1, face := 0 }),
       (2, { next := 3, twin := 6, vertex := 2, edge := 2, face := 0 }),
       (3, { next := 0, twin := 7, vertex := 3, edge := 3, face := 0 }),
       (4, { next := 7, twin := 0, vertex := 1, edge := 0, face := 1 }),
       (5, { next := 4, twin := 1, vertex := 2, edge := 1, face := 1 }),
       (6, { next := 5, twin := 2, vertex := 3, edge := 2, face := 1 }),
       (7, { next := 6, twin := 3, vertex := 0, edge := 3, face := 1 })]
    vertices :=
      [(0, { position := (0, 0, 0), halfedge := 0 }),
       (1, { position := (1, 0, 0), halfedge := 1 }),
       (2, { position := (1, 1, 0), halfedge := 2 }),
       (3, { position := (0, 1, 0), halfedge := 3 })]
    edges :=
      [(0, { halfedge := 0 }), (1, { halfedge := 1 }), (2, { halfedge := 2 }),
       (3, { halfedge := 3 })]
    faces := [(0, { halfedge := 0 }), (1, { halfedge := 4 })] }

/-- A mesh object over a store, attached to the scene, with no bevel in progress. -/
def meshOver (m : HalfedgeMesh (Int × Int × Int)) : Mesh (Int × Int × Int) :=
  { scene := true
    mesh := m
    bevelVertices := []
    beveledVertexPos := (0, 0, 0)
    beveledEdgePos := []
    beveledFacePos := []
    idToElement := [] }

/-- The empty selection. -/
def noSelection : Selection :=
  { object := none, element := none }

/-- A state with one mesh object, at address 10, and the given selected element of it;
the same element is hovered and is the target of the transform widget. -/
def worldWith (m : Mesh (Int × Int × Int)) (x : Option HalfedgeElement) :
    World (Int × Int × Int) :=
  { heap := [(10, .mesh m), (11, .other)]
    scene :=
      { objects := [10]
        hovered := { object := some 10, element := x }
        selected := { object := some 10, element := x }
        edited := noSelection
        elementTransform := { target := { object := some 10, element := x } } }
    calls := [] }

/-- Operators that leave the store as it is and hand back the address `a + 100`. -/
def tagOps : MeshOps (Int × Int × Int) :=
  { flipEdge := fun m a => (m, a + 100)
    splitEdge := fun m a => (m, a + 100)
    collapseEdge := fun m a => (m, a + 100)
    collapseFace := fun m a => (m, a + 100)
    eraseEdge := fun m a => (m, a + 100)
    eraseVertex := fun m a => (m, a + 100)
    upsample := fun m => m
    bevelFace := fun m a => (m, a + 100)
    bevelEdge := fun m a => (m, a + 100)
    bevelVertex := fun m a => (m, a + 100)
    triangulate := fun m => m
    downsample := fun m => m
    resample := fun m => m }

/-- The state right after a bevel of a face of the triangle pillow: the face the bevel
returned, face 0, is the selected element, and `edited` is a copy of `selected`, as
`Scene::bevel_selected_element` leaves it. -/
def afterFaceBevel : World (Int × Int × Int) :=
  { heap := [(10, .mesh (meshOver trianglePillow))]
    scene :=
      { objects := [10]
        hovered := noSelection
        selected := { object := some 10, element := some (.face 0) }
        edited := { object := some 10, element := some (.face 0) }
        elementTransform := { target := noSelection } }
    calls := [] }

/-- The state right after a bevel of an edge of the triangle pillow: an edge of the new
face, edge 2, is the selected element, and `edited` is a copy of `selected`. -/
def afterEdgeBevel : World (Int × Int × Int) :=
  { heap := [(10, .mesh (meshOver trianglePillow))]
    scene :=
      { objects := [10]
        hovered := noSelection
        selected := { object := some 10, element := some (.edge 2) }
        edited := { object := some 10, element := some (.edge 2) }
        elementTransform := { target := noSelection } }
    calls := [] }

/-- A mesh object over the triangle pillow with a vertex bevel in progress: the affected
half-edges are 0, 1 and 2 and the original position is `(5, 5, 5)`. -/
def bevelledMesh : Mesh (Int × Int × Int) :=
  { meshOver trianglePillow with
    bevelVertices := [0, 1, 2]
    beveledVertexPos := (5, 5, 5) }

/-- A reposition step that moves every vertex of the store by the inset, starting from the
current positions. -/
def driftReposition : Reposition (Int × Int × Int) Int :=
  { vtx := fun m _ _ inset =>
      { m with
        vertices := m.vertices.map fun r =>
          (r.1, { r.2 with
            position := (r.2.position.1 + inset, r.2.position.2.1, r.2.position.2.2) }) }
    edge := fun m _ _ _ => m
    fc := fun m _ _ _ _ => m }

/-- An offset formula for the vertex bevel: the original position moved by the inset along
the first axis, with the index of the affected vertex as second coordinate. -/
def offsetAlongX (orig : Int × Int × Int) (_ : List Addr) (inset : Int) (i : Nat) :
    Int × Int × Int :=
  (orig.1 + inset, (i : Int), 0)

/-- An offset formula for the edge bevel: the `i`-th original position moved by the inset
along the first axis. -/
def offsetEdge (orig : List (Int × Int × Int)) (_ : List Addr) (inset : Int) (i : Nat) :
    Int × Int × Int :=
  ((orig.getD i (0, 0, 0)).1 + inset, (orig.getD i (0, 0, 0)).2.1, (orig.getD i (0, 0, 0)).2.2)

/-- An offset formula for the face bevel: the `i`-th original position moved by the inset
along the first axis and by the shift along the third. -/
def offsetFace (orig : List (Int × Int × Int)) (_ : List Addr) (shift inset : Int) (i : Nat) :
    Int × Int × Int :=
  ((orig.getD i (0, 0, 0)).1 + inset, (orig.getD i (0, 0, 0)).2.1,
    (orig.getD i (0, 0, 0)).2.2 + shift)

/-- Operators that leave the store as it is and hand back face 1 as the new face of a
bevel. -/
def faceOneOps : MeshOps (Int × Int × Int) :=
  { tagOps with
    bevelFace := fun m _ => (m, 1)
    bevelEdge := fun m _ => (m, 1)
    bevelVertex := fun m _ => (m, 1) }

/-- A state whose selected object is a mesh over the triangle pillow that is in the scene's
object set but has no back pointer to the scene, as after `Scene::addObject`; face 0 of it
is selected, hovered and being edited. -/
def unattachedSelected : World (Int × Int × Int) :=
  { heap := [(10, .mesh { meshOver trianglePillow with scene := false })]
    scene :=
      { objects := [10]
        hovered := { object := some 10, element := some (.face 0) }
        selected := { object := some 10, element := some (.face 0) }
        edited := { object := some 10, element := some (.face 0) }
        elementTransform := { target := { object := some 10, element := some (.face 0) } } }
    calls := [] }

/-- A copy of a store at addresses moved up by `k`. -/
def movedBy (k : Nat) (m : HalfedgeMesh (Int × Int × Int)) : HalfedgeMesh (Int × Int × Int) :=
  { halfedges := m.halfedges.map fun r =>
      (r.1 + k,
        { next := r.2.next + k, twin := r.2.twin + k, vertex := r.2.vertex + k,
          edge := r.2.edge + k, face := r.2.face + k })
    vertices := m.vertices.map fun r =>
      (r.1 + k, { position := r.2.position, halfedge := r.2.halfedge + k })
    edges := m.edges.map fun r => (r.1 + k, { halfedge := r.2.halfedge + k })
    faces := m.faces.map fun r => (r.1 + k, { halfedge := r.2.halfedge + k }) }

/-- A scene of two meshes: the triangle pillow at address 10 and a quad pillow, at element
addresses from 100 on, at address 20; nothing is selected. -/
def twoMeshes : World (Int × Int × Int) :=
  { heap := [(10, .mesh (meshOver trianglePillow)), (20, .mesh (meshOver (movedBy 100 quadPillow)))]
    scene :=
      { objects := [10, 20]
        hovered := { object := some 20, element := some (.face 100) }
        selected := noSelection
        edited := noSelection
        elementTransform := { target := noSelection } }
    calls := [] }

/-- An application state with the write flag set and nothing logged. -/
def writeQueued : Application Unit :=
  { readyWrite := true, readyLoad := false, rest := (), fileOps := [] }

/-- The mesh object over the triangle pillow after its `draw_pick` from ID 5 in the scene
of two meshes. -/
def drawnPillow : Mesh (Int × Int × Int) :=
  { meshOver trianglePillow with
    idToElement := (Mesh.drawPickFaces twoMeshes trianglePillow.faces (5, [])).2 }

end Examples

section MeshExamples

/-- A tetrahedron: 4 vertices, 6 edges, 4 triangles, 12 half-edges. -/
def tetrahedron : HalfedgeMesh (Int × Int × Int) :=
  { halfedges :=
      [(0, { next := 1, twin := 5, vertex := 0, edge := 0, face := 0 }),
       (1, { next := 2, twin := 8, vertex := 1, edge := 1, face := 0 }),
       (2, { next := 0, twin := 11, vertex := 2, edge := 2, face := 0 }),
       (3, { next := 4, twin := 10, vertex := 0, edge := 3, face := 1 }),
       (4, { next := 5, twin := 6, vertex := 3, edge := 4, face := 1 }),
       (5, { next := 3, twin := 0, vertex := 1, edge := 0, face := 1 }),
       (6, { next := 7, twin := 4, vertex := 1, edge := 4, face := 2 }),
       (7, { next := 8, twin := 9, vertex := 3, edge := 5, face := 2 }),
       (8, { next := 6, twin := 1, vertex := 2, edge := 1, face := 2 }),
       (9, { next := 10, twin := 7, vertex := 2, edge := 5, face := 3 }),
       (10, { next := 11, twin := 3, vertex := 3, edge := 3, face := 3 }),
       (11, { next := 9, twin := 2, vertex := 0, edge := 2, face := 3 })]
    vertices :=
      [(0, { position := (0, 0, 0), halfedge := 0 }),
       (1, { position := (2, 0, 0), halfedge := 1 }),
       (2, { position := (0, 2, 0), halfedge := 2 }),
       (3, { position := (0, 0, 2), halfedge := 4 })]
    edges :=
      [(0, { halfedge := 0 }), (1, { halfedge := 1 }), (2, { halfedge := 2 }),
       (3, { halfedge := 3 }), (4, { halfedge := 4 }), (5, { halfedge := 7 })]
    faces :=
      [(0, { halfedge := 0 }), (1, { halfedge := 3 }), (2, { halfedge := 6 }),
       (3, { halfedge := 9 })] }

/-- Midpoints and centroids on integer points, rounded down. -/
def halving : Geometry (Int × Int × Int) :=
  { midpoint := fun a b => ((a.1 + b.1) / 2, (a.2.1 + b.2.1) / 2, (a.2.2 + b.2.2) / 2)
    centroid := fun l =>
      ((l.map fun p => p.1).sum / l.length, (l.map fun p => p.2.1).sum / l.length,
       (l.map fun p => p.2.2).sum / l.length) }

/-- The store of a successful build, the empty store otherwise. -/
def builtOrEmpty (r : Except TopologyError (HalfedgeMesh (Int × Int × Int))) :
    HalfedgeMesh (Int × Int × Int) :=
  match r with
  | .ok m => m
  | .error _ => { halfedges := [], vertices := [], edges := [], faces := [] }

/-- A cube of side 2, built from its six quadrilaterals: 8 vertices, 12 edges, 6 faces. -/
def cube : HalfedgeMesh (Int × Int × Int) :=
  builtOrEmpty (HalfedgeMesh.build
    [[0, 1, 2, 3], [7, 6, 5, 4], [0, 4, 5, 1], [1, 5, 6, 2], [2, 6, 7, 3], [3, 7, 4, 0]]
    [(0, 0, 0), (2, 0, 0), (2, 2, 0), (0, 2, 0), (0, 0, 2), (2, 0, 2), (2, 2, 2), (0, 2, 2)])

end MeshExamples

/-! ## Mesh: drawing (mesh.cpp) -/

section Drawing

variable {Vector3D : Type}

/-- The three `DrawStyle` pointers of a mesh. -/
inductive DrawStyle where
  | defaultStyle
  | hoveredStyle
  | selectedStyle
  deriving DecidableEq, Repr

/-- A primitive a draw method emits, with the style it is drawn in. -/
inductive DrawCall where
  | face (style : DrawStyle) (f : Addr)
  | edge (style : DrawStyle) (e : Addr)
  | vertex (style : DrawStyle) (v : Addr)
  | halfedgeArrow (style : DrawStyle) (h : Addr)
  deriving DecidableEq, Repr

/-- The method `Mesh::get_draw_style`: the selected style for the selected element, the
hovered style for the hovered one, when the mesh has a scene; the default style otherwise. -/
def Mesh.get_draw_style (self : Mesh Vector3D) (w : World Vector3D)
    (element : HalfedgeElement) : DrawStyle :=
  if self.scene = true ∧ w.scene.selected.element = some element then .selectedStyle
  else if self.scene = true ∧ w.scene.hovered.element = some element then .hoveredStyle
  else .defaultStyle

/-- The method `Mesh::draw_edges`, with the primitives drawn so far. It starts with
`scene->hovered.element->getEdge()`: the scene pointer is read without a null check.
`getEdge` (halfEdgeMesh.h) is the downcast of section 9, which does not read the element it
is called on: for the null element of an empty selection it gives null, as for an element
that is no edge. Then the hovered edge, if there is one, is drawn in its style, and every
edge of the mesh in the default style. -/
def Mesh.draw_edges (self : Mesh Vector3D) (w : World Vector3D) : Outcome (List DrawCall) :=
  if self.scene = false then .nullDeref []
  else
    .done
      ((match w.scene.hovered.element.bind HalfedgeElement.getEdge with
        | some ep =>
          [.edge (self.get_draw_style w (.edge (w.edgeOf (w.edgeHalfedge ep))))
            (w.edgeOf (w.edgeHalfedge ep))]
        | none => []) ++
      self.mesh.edges.map fun e => .edge .defaultStyle e.1)

end Drawing

/-! ## Mesh: construction (mesh.cpp) -/

section Construction

variable {Vector3D : Type}

/-- The constructor `Mesh::Mesh( polyMesh, transform )`: the vertex positions are
transformed and `mesh.build( polygons, vertices )` is called; then the material is set,
which is not modelled. `build` is not part of the sources and is a parameter, with the
interface of section 6; a `TopologyError` that it raises (section 7) leaves the constructor,
which has no handler, and no mesh object is made. The back pointer `scene` is null until
the `Scene` constructor sets it. -/
def Mesh.construct [Inhabited Vector3D]
    (build : List (List Addr) → List Vector3D → Except TopologyError (HalfedgeMesh Vector3D))
    (polygons : List (List Addr)) (vertices : List Vector3D)
    (transform : Vector3D → Vector3D) : Except TopologyError (Mesh Vector3D) :=
  match build polygons (vertices.map transform) with
  | .error e => .error e
  | .ok m =>
    .ok
      { scene := false
        mesh := m
        bevelVertices := []
        beveledVertexPos := default
        beveledEdgePos := []
        beveledFacePos := []
        idToElement := [] }

/-- The method `Application::init_polymesh`: `return new DynamicScene::Mesh( polymesh,
transform )`; it has no handler either. -/
def Application.init_polymesh [Inhabited Vector3D]
    (build : List (List Addr) → List Vector3D → Except TopologyError (HalfedgeMesh Vector3D))
    (polygons : List (List Addr)) (vertices : List Vector3D)
    (transform : Vector3D → Vector3D) : Except TopologyError (SceneObject Vector3D) :=
  match Mesh.construct build polygons vertices transform with
  | .error e => .error e
  | .ok m => .ok (.mesh m)

/-- The nodes of a scene description, by the `instance->type` that `Application::load`
switches on; a polygon mesh comes with its polygons, its vertex positions and the transform
of its node. -/
inductive Node (Vector3D : Type) where
  | camera
  | light
  | sphere
  | polymesh (polygons : List (List Addr)) (vertices : List Vector3D)
      (transform : Vector3D → Vector3D)
  | material

/-- The loop of `Application::load` over the nodes: the scene objects made, in order. A
sphere and a polygon mesh give an object, the other nodes none; an error raised while a
mesh is made ends the loop. -/
def Application.loadObjects [Inhabited Vector3D]
    (build : List (List Addr) → List Vector3D → Except TopologyError (HalfedgeMesh Vector3D)) :
    List (Node Vector3D) → Except TopologyError (List (SceneObject Vector3D))
  | [] => .ok []
  | .sphere :: nodes =>
    match Application.loadObjects build nodes with
    | .error e => .error e
    | .ok objects => .ok (.other :: objects)
  | .polymesh polygons vertices transform :: nodes =>
    match Application.init_polymesh build polygons vertices transform with
    | .error e => .error e
    | .ok o =>
      match Application.loadObjects build nodes with
      | .error e => .error e
      | .ok objects => .ok (o :: objects)
  | _ :: nodes => Application.loadObjects build nodes

/-- The assignment `o->scene = this` of the `Scene` constructor. -/
def SceneObject.attach : SceneObject Vector3D → SceneObject Vector3D
  | .mesh m => .mesh { m with scene := true }
  | .other => .other

/-- The constructor `Scene::Scene( objects, lights )`: every object gets the scene as its
back pointer and is put into the set of objects, and the transform widget is made. The
three selections and the target of the widget start as `Selection::clear` leaves them
(scene.h and widgets.h are not part of the sources). The `i`-th object made is at address
`i`; the lights are not modelled. -/
def Scene.construct (objects : List (SceneObject Vector3D)) : World Vector3D :=
  { heap := (List.range objects.length).zip (objects.map SceneObject.attach)
    scene :=
      { objects := List.range objects.length
        hovered := { object := none, element := none }
        selected := { object := none, element := none }
        edited := { object := none, element := none }
        elementTransform := { target := { object := none, element := none } } }
    calls := [] }

/-- The method `Application::load`: the objects are made from the nodes, then
`scene = new Scene( objects, lights )`. It has no handler: an error raised while an object
is made leaves `load` before the scene is made. The camera is not modelled. -/
def Application.load [Inhabited Vector3D]
    (build : List (List Addr) → List Vector3D → Except TopologyError (HalfedgeMesh Vector3D))
    (nodes : List (Node Vector3D)) : Except TopologyError (World Vector3D) :=
  match Application.loadObjects build nodes with
  | .error e => .error e
  | .ok objects => .ok (Scene.construct objects)

end Construction

/-! ## The resampler (meshEdit.h): Loop subdivision, from the specification -/

section Resampler

variable {Vector3D : Type}

/-- Modelled from the spec: `Face::degree` of halfEdgeMesh.h inside one store: the length of
the `next` cycle from the face's half-edge, 0 when the cycle does not close. -/
def HalfedgeMesh.degree (m : HalfedgeMesh Vector3D) (f : Face) : Nat :=
  ((m.faceLoop f.halfedge).map List.length).getD 0

/-- Modelled from the spec: `PrecisionError` (section 7). -/
inductive PrecisionError where
  | nonTriangular
  deriving DecidableEq, Repr

/-- The weighted average of points that the resampler computes positions with. -/
structure Weights (Vector3D : Type) where
  combine : List (Rat × Vector3D) → Vector3D

/-- Modelled from the spec: the new position of an original vertex under Loop subdivision
(section 4.3): weight `1 - n·β` for the vertex and `β` for each of its `n` neighbours, with
`β = 3/(8n)` for `n > 3` and `3/16` otherwise. -/
def HalfedgeMesh.loopVertexPosition [Inhabited Vector3D] (c : Weights Vector3D)
    (m : HalfedgeMesh Vector3D) (v : Addr) : Vector3D :=
  let ns := m.neighbours (m.vertexHalfedge v)
  let β : Rat := if 3 < ns.length then 3 / (8 * ns.length) else 3 / 16
  c.combine ((1 - ns.length * β, m.position v) :: ns.map fun u => (β, m.position u))

/-- Modelled from the spec: the position of the new vertex on an edge under Loop subdivision
(section 4.3): weights `3/8` for the two end points and `1/8` for the apexes of the two
triangles at the edge. -/
def HalfedgeMesh.loopEdgePosition [Inhabited Vector3D] (c : Weights Vector3D)
    (m : HalfedgeMesh Vector3D) (e : Addr) : Vector3D :=
  let h := m.edgeHalfedge e
  let t := m.twin h
  c.combine
    [(3 / 8, m.position (m.vertexOf h)), (3 / 8, m.position (m.vertexOf t)),
     (1 / 8, m.position (m.vertexOf (m.next (m.next h)))),
     (1 / 8, m.position (m.vertexOf (m.next (m.next t))))]

/-- The state of the pass over the original edges: the store, the vertices put on edges so
far, and the edges that join such a vertex to an apex. -/
structure SplitPass (Vector3D : Type) where
  store : HalfedgeMesh Vector3D
  newVertices : List Addr
  crossEdges : List Addr

/-- Modelled from the spec: the insert at one original edge (section 4.3): the edge is
split as by `splitEdge` and the new vertex gets its precomputed position; the two new edges
from the new vertex to the apexes are remembered. -/
def HalfedgeMesh.upsampleSplit [Inhabited Vector3D] (c : Weights Vector3D)
    (st : SplitPass Vector3D) (ep : Addr × Vector3D) : SplitPass Vector3D :=
  match st.store.splitEdge
      { midpoint := fun a b => c.combine [(1 / 2, a), (1 / 2, b)]
        centroid := fun l => c.combine (l.map fun p => (1 / (l.length : Rat), p)) } ep.1 with
  | .error _ => st
  | .ok r =>
    { store := r.1.edit (.setPosition r.2 ep.2)
      newVertices := r.2 :: st.newVertices
      crossEdges :=
        st.crossEdges ++ [freshAddr st.store.edges + 1, freshAddr st.store.edges + 2] }

/-- Modelled from the spec: the second pass of the subdivision: an edge from a new vertex
to an apex is flipped when the apex is an original vertex; it then joins two new vertices,
so that every original triangle ends up cut into four. -/
def HalfedgeMesh.upsampleFlip (new : List Addr) (m : HalfedgeMesh Vector3D) (x : Addr) :
    HalfedgeMesh Vector3D :=
  if new.contains (m.vertexOf (m.edgeHalfedge x)) ≠
      new.contains (m.vertexOf (m.twin (m.edgeHalfedge x))) then
    m.after (m.flipEdge x)
  else m

/-- Modelled from the spec: `upsample` (section 4.3), Loop subdivision. It fails with
`NonTriangular` when some face is not a triangle. Otherwise the new positions of the
original vertices and the positions of the edge vertices are computed from the original
store; every original edge is split; the edges that join an original vertex to a new one
across a triangle are flipped; the original vertices are moved. -/
def HalfedgeMesh.upsample [Inhabited Vector3D] (c : Weights Vector3D)
    (m : HalfedgeMesh Vector3D) : Except PrecisionError (HalfedgeMesh Vector3D) :=
  if m.faces.any fun p => m.degree p.2 ≠ 3 then .error .nonTriangular
  else
    let vpos := m.vertices.map fun p => (p.1, m.loopVertexPosition c p.1)
    let epos := m.edges.map fun p => (p.1, m.loopEdgePosition c p.1)
    let st := epos.foldl (HalfedgeMesh.upsampleSplit c)
      { store := m, newVertices := [], crossEdges := [] }
    let flipped := st.crossEdges.foldl (HalfedgeMesh.upsampleFlip st.newVertices) st.store
    .ok (vpos.foldl (fun acc p => acc.edit (.setPosition p.1 p.2)) flipped)

end Resampler

section ResamplerExamples

/-- Exact weighted averages of points with rational coordinates. -/
def exactWeights : Weights (Rat × Rat × Rat) :=
  { combine := fun l =>
      ((l.map fun q => q.1 * q.2.1).sum, (l.map fun q => q.1 * q.2.2.1).sum,
       (l.map fun q => q.1 * q.2.2.2).sum) }

/-- The six quadrilaterals of a cube over the vertices 0 to 7. -/
def cubePolygons : List (List Addr) :=
  [[0, 1, 2, 3], [7, 6, 5, 4], [0, 4, 5, 1], [1, 5, 6, 2], [2, 6, 7, 3], [3, 7, 4, 0]]

/-- The corners of the unit cube. -/
def unitCubePositions : List (Rat × Rat × Rat) :=
  [(0, 0, 0), (1, 0, 0), (1, 1, 0), (0, 1, 0), (0, 0, 1), (1, 0, 1), (1, 1, 1), (0, 1, 1)]

/-- The store of a successful call, the empty store otherwise. -/
def storeOr {ε : Type} (r : Except ε (HalfedgeMesh (Rat × Rat × Rat))) :
    HalfedgeMesh (Rat × Rat × Rat) :=
  match r with
  | .ok m => m
  | .error _ => { halfedges := [], vertices := [], edges := [], faces := [] }

/-- The unit cube, built from its six quadrilaterals. -/
def unitCube : HalfedgeMesh (Rat × Rat × Rat) :=
  storeOr (HalfedgeMesh.build cubePolygons unitCubePositions)

end ResamplerExamples

/-! ## Scene: the remaining commands (scene.cpp) -/

section SceneEditing

variable {Vector3D : Type}

/-- The method `Scene::addObject`: the object is inserted unless it is in the set. The set is
kept in insertion order, which only fixes the order the objects are drawn in. -/
def Scene.addObject (o : Addr) (w : World Vector3D) : World Vector3D :=
  if o ∈ w.scene.objects then w
  else { w with scene := { w.scene with objects := w.scene.objects ++ [o] } }

/-- The method `Scene::removeObject`: the object is erased from the set. -/
def Scene.removeObject (o : Addr) (w : World Vector3D) : World Vector3D :=
  { w with scene := { w.scene with objects := w.scene.objects.filter fun x => x ≠ o } }

/-- The common body of `Scene::collapse_selected_edge`, `Scene::flip_selected_edge`,
`Scene::split_selected_edge` and `Scene::erase_selected_element`: the guard on the selection,
the `dynamic_cast`, and the call of the method `run` of the mesh. -/
def Scene.editSelected (run : Addr → World Vector3D → World Vector3D)
    (w : World Vector3D) : World Vector3D :=
  match w.scene.selected.object, w.scene.selected.element with
  | none, _ => w
  | some _, none => w
  | some o, some _ =>
    match w.meshAt o with
    | none => w
    | some _ => run o w

/-- The method `Scene::collapse_selected_edge`; the method of `Mesh` it calls is defined in
mesh.cpp under the name `collapse_selected_element`. -/
def Scene.collapse_selected_edge (ops : MeshOps Vector3D) (w : World Vector3D) :
    World Vector3D :=
  Scene.editSelected (Mesh.collapse_selected_element ops) w

/-- The method `Scene::flip_selected_edge`. -/
def Scene.flip_selected_edge (ops : MeshOps Vector3D) (w : World Vector3D) : World Vector3D :=
  Scene.editSelected (Mesh.flip_selected_edge ops) w

/-- The method `Scene::split_selected_edge`. -/
def Scene.split_selected_edge (ops : MeshOps Vector3D) (w : World Vector3D) : World Vector3D :=
  Scene.editSelected (Mesh.split_selected_edge ops) w

/-- The method `Scene::erase_selected_element`. -/
def Scene.erase_selected_element (ops : MeshOps Vector3D) (w : World Vector3D) :
    World Vector3D :=
  Scene.editSelected (Mesh.erase_selected_element ops) w

/-- The method `Scene::subdivideSelection`; `subdivideQuad` of the store is not part of the
sources and is a parameter, and its call is not logged. After the call the mesh is selected
again, with its first vertex as the element. -/
def Scene.subdivideSelection
    (subdivideQuad : Bool → HalfedgeMesh Vector3D → HalfedgeMesh Vector3D)
    (useCatmullClark : Bool) (w : World Vector3D) : World Vector3D :=
  match w.scene.selected.object with
  | none => w
  | some o =>
    match w.meshAt o with
    | none => w
    | some self =>
      let w1 := Scene.clearSelections
        (w.setMesh o { self with mesh := subdivideQuad useCatmullClark self.mesh })
      { w1 with
        scene :=
          { w1.scene with
            selected :=
              { object := some o
                element :=
                  some (.vertex
                    (((subdivideQuad useCatmullClark self.mesh).vertices.head?.map
                      fun p => p.1).getD 0)) } } }

/-- The method `Scene::update_bevel_amount( dx, dy )`; `scaled` stands for the division of
an amount by 100. -/
def Scene.update_bevel_amount {D R : Type} (rep : Reposition Vector3D D) (scaled : R → D)
    (dx dy : R) (w : World Vector3D) : World Vector3D :=
  match w.scene.edited.object with
  | none => w
  | some o =>
    match w.meshAt o with
    | none => w
    | some _ => Mesh._bevel_selection rep (scaled dx) (scaled dy) o w

end SceneEditing

/-! ## Application: input events (application.cpp) -/

section Events

variable {Vector3D : Type}

/-- The values of `Application::mode`. -/
inductive Mode where
  | MODEL_MODE
  | VISUALIZE_MODE
  | RENDER_MODE
  deriving DecidableEq, Repr

/-- The values of `Application::action`. -/
inductive Action where
  | Navigate
  | Edit
  | Bevel
  deriving DecidableEq, Repr

/-- The argument of `mouse_pressed` and `mouse_released`. -/
inductive MouseButton where
  | LEFT
  | RIGHT
  | MIDDLE
  deriving DecidableEq, Repr

/-- A call into the camera, the path tracer or the renderer, none of which is part of the
sources. -/
inductive ExternalCall where
  | pathtracerStop
  | pathtracerClear
  | pathtracerStartVisualizing
  | pathtracerStartRaytracing
  | pathtracerSaveImage
  | pathtracerIncreaseSamples
  | pathtracerDecreaseSamples
  | pathtracerKeyPress (codepoint : Int)
  | resetCamera
  | cameraRotate
  | cameraMoveBy
  | cameraMoveForward
  | updateGlCamera
  deriving DecidableEq, Repr

/-- The data members of `Application` that the event handlers use, apart from the two flags
of the file buffers: the mode and the action, the mouse state, the scene with the objects in
memory, the address of the transform widget `scene->elementTransform` as a scene object, and
the log of the calls into the camera and the path tracer. -/
structure AppState (Vector3D R : Type) where
  mode : Mode
  action : Action
  leftDown : Bool
  middleDown : Bool
  rightDown : Bool
  mouseX : R
  mouseY : R
  lastEventWasModKey : Bool
  show_hud : Bool
  world : World Vector3D
  widget : Addr
  external : List ExternalCall

/-- What the event handlers use and the sources do not define: the mesh operators, the
methods of the transform widget, the dragging of elements and of objects other than meshes,
the pick ID read back from the frame buffer, the reading and writing of scene files, the
difference of two coordinates and the division by 100, and the key and button codes of the
window library. -/
structure Env (Vector3D D R : Type) where
  ops : MeshOps Vector3D
  rep : Reposition Vector3D D
  subdivideQuad : Bool → HalfedgeMesh Vector3D → HalfedgeMesh Vector3D
  setTarget : Selection → XFormWidget → XFormWidget
  setClickPosition : R → R → XFormWidget → XFormWidget
  cycleMode : XFormWidget → XFormWidget
  restoreLastMode : XFormWidget → XFormWidget
  setScale : XFormWidget → XFormWidget
  setTranslate : XFormWidget → XFormWidget
  setRotate : XFormWidget → XFormWidget
  updateGeometry : XFormWidget → World Vector3D → World Vector3D
  translateElement : HalfedgeElement → R → R → World Vector3D → World Vector3D
  dragObject : Addr → R → R → R → R → World Vector3D → World Vector3D
  pickedID : R → R → World Vector3D → Int
  writeScene : String → AppState Vector3D R → AppState Vector3D R
  loadScene : String → AppState Vector3D R → AppState Vector3D R
  difference : R → R → R
  scaled : R → D
  keyBackspace : Int
  keyDelete : Int
  keyTab : Int
  press : Int
  release : Int
  modShift : Int
  modControl : Int
  modAlt : Int
  eventPress : Int
  eventRelease : Int
  mouseLeft : Int
  mouseRight : Int
  mouseMiddle : Int

variable {D R : Type}

/-- A change of the transform widget `scene->elementTransform`. -/
def AppState.onWidget (s : AppState Vector3D R) (f : XFormWidget → XFormWidget) :
    AppState Vector3D R :=
  { s with
    world :=
      { s.world with
        scene := { s.world.scene with elementTransform := f s.world.scene.elementTransform } } }

/-- A call into the camera or the path tracer. -/
def AppState.call (s : AppState Vector3D R) (c : ExternalCall) : AppState Vector3D R :=
  { s with external := s.external ++ [c] }

/-- The method `Application::updateWidgets`. -/
def Application.updateWidgets (env : Env Vector3D D R) (s : AppState Vector3D R) :
    AppState Vector3D R :=
  if s.mode ≠ .MODEL_MODE ∨ s.action ≠ .Edit ∨ s.world.scene.selected.object = none then
    { s with world := Scene.removeObject s.widget s.world }
  else if s.world.scene.selected.object ≠ some s.widget ∧
      s.world.scene.selected.element ≠ none then
    s.onWidget (env.setTarget s.world.scene.selected)
  else s

/-- The method `Application::setupElementTransformWidget`. -/
def Application.setupElementTransformWidget (env : Env Vector3D D R)
    (s : AppState Vector3D R) : AppState Vector3D R :=
  match s.world.scene.selected.element with
  | none => s
  | some _ =>
    { s.onWidget (env.setTarget s.world.scene.selected) with
      world := Scene.addObject s.widget (s.onWidget (env.setTarget s.world.scene.selected)).world }

/-- The method `Application::selectHovered`. -/
def Application.selectHovered (env : Env Vector3D D R) (s : AppState Vector3D R) :
    AppState Vector3D R :=
  let s1 : AppState Vector3D R :=
    { s with world := { s.world with scene := { s.world.scene with
        selected := s.world.scene.hovered } } }
  let s2 := Application.setupElementTransformWidget env
    (s1.onWidget (env.setClickPosition s.mouseX s.mouseY))
  { s2 with world := { s2.world with scene := { s2.world.scene with
      edited := s2.world.scene.edited.clear } } }

/-- The method `Application::mouse_moved`. -/
def Application.mouse_moved (env : Env Vector3D D R) (x y : R) (s : AppState Vector3D R) :
    AppState Vector3D R :=
  if s.mode ≠ .MODEL_MODE then s
  else
    { s.call .updateGlCamera with
      world := (Scene.getHoveredObject (env.pickedID x y s.world) s.world).1 }

/-- The method `Application::to_model_mode`. -/
def Application.to_model_mode (env : Env Vector3D D R) (s : AppState Vector3D R) :
    AppState Vector3D R :=
  if s.mode = .MODEL_MODE then s
  else
    Application.mouse_moved env s.mouseX s.mouseY
      { (s.call .pathtracerStop).call .pathtracerClear with mode := .MODEL_MODE }

/-- The method `Application::to_navigate_action`. -/
def Application.to_navigate_action (s : AppState Vector3D R) : AppState Vector3D R :=
  { s with action := .Navigate }

/-- The method `Application::toggle_bevel_action`. -/
def Application.toggle_bevel_action (s : AppState Vector3D R) : AppState Vector3D R :=
  if s.action ≠ .Bevel then { s with action := .Bevel } else { s with action := .Navigate }

/-- The method `Application::cycle_edit_action`. -/
def Application.cycle_edit_action (env : Env Vector3D D R) (s : AppState Vector3D R) :
    AppState Vector3D R :=
  Application.updateWidgets env
    (if s.action ≠ .Edit then
      Application.setupElementTransformWidget env { s with action := .Edit }
    else s.onWidget env.cycleMode)

/-- The method `Application::queueWrite`. -/
def Application.queueWrite {σ : Type} (app : Application σ) : Application σ :=
  { app with readyWrite := true }

/-- The method `Application::queueLoad`. -/
def Application.queueLoad {σ : Type} (app : Application σ) : Application σ :=
  { app with readyLoad := true }

/-- A command of the scene that may end in a null pointer dereference, run on the state of
the application. -/
def AppState.runScene (s : AppState Vector3D R)
    (cmd : World Vector3D → Outcome (World Vector3D)) : Outcome (AppState Vector3D R) :=
  match cmd s.world with
  | .done w => .done { s with world := w }
  | .nullDeref w => .nullDeref { s with world := w }

/-- The `switch` over the mode and the key in `Application::char_event`, for the keys other
than those that queue a file operation. -/
def Application.charSwitch (env : Env Vector3D D R) (c : Int) (s : AppState Vector3D R) :
    Outcome (AppState Vector3D R) :=
  match s.mode with
  | .RENDER_MODE =>
    if c = 109 ∨ c = 77 then .done (Application.to_model_mode env s)
    else if c = 118 ∨ c = 86 then
      .done { (s.call .pathtracerStop).call .pathtracerStartVisualizing with
        mode := .VISUALIZE_MODE }
    else if c = 119 ∨ c = 87 then .done (s.call .pathtracerSaveImage)
    else if c = 43 ∨ c = 61 then
      .done (((s.call .pathtracerStop).call .pathtracerIncreaseSamples).call
        .pathtracerStartRaytracing)
    else if c = 45 ∨ c = 95 then
      .done (((s.call .pathtracerStop).call .pathtracerDecreaseSamples).call
        .pathtracerStartRaytracing)
    else if c = 91 ∨ c = 93 then .done (s.call (.pathtracerKeyPress c))
    else .done s
  | .VISUALIZE_MODE =>
    if c = 109 ∨ c = 77 then .done (Application.to_model_mode env s)
    else if c = 114 ∨ c = 82 then
      .done { (s.call .pathtracerStop).call .pathtracerStartRaytracing with
        mode := .RENDER_MODE }
    else if c = 32 then .done (s.call .resetCamera)
    else .done (s.call (.pathtracerKeyPress c))
  | .MODEL_MODE =>
    if c = 117 ∨ c = 85 then s.runScene (Scene.upsample_selected_mesh env.ops)
    else if c = 100 ∨ c = 68 then s.runScene (Scene.downsample_selected_mesh env.ops)
    else if c = 105 ∨ c = 73 then s.runScene (Scene.resample_selected_mesh env.ops)
    else if c = 102 ∨ c = 70 then
      .done { s with world := Scene.flip_selected_edge env.ops s.world }
    else if c = 112 then .done { s with world := Scene.split_selected_edge env.ops s.world }
    else if c = 99 ∨ c = 67 then
      .done { s with world := Scene.collapse_selected_edge env.ops s.world }
    else if c = 110 ∨ c = 78 then .done { s with world := Scene.selectNextHalfedge s.world }
    else if c = 116 then .done { s with world := Scene.selectTwinHalfedge s.world }
    else if c = 84 then .done { s with world := Scene.triangulateSelection env.ops s.world }
    else if c = 115 then
      .done { s with world := Scene.subdivideSelection env.subdivideQuad true s.world }
    else if c = 83 then
      .done { s with world := Scene.subdivideSelection env.subdivideQuad false s.world }
    else if c = 104 then .done { s with world := Scene.selectHalfedge s.world }
    else if c = 32 then .done (Application.to_navigate_action s)
    else if c = 98 then .done (Application.toggle_bevel_action s)
    else if c = 101 then .done (Application.cycle_edit_action env s)
    else .done s

/-- The method `Application::char_event( codepoint )`, with the codes of the characters:
in the model mode the keys 'w', 'W' (119, 87) and 'l', 'L' (108, 76) queue a file
operation; every other key goes through the `switch` and then through `executeFileOp`;
`updateWidgets` is called last. -/
def Application.char_event (env : Env Vector3D D R) (c : Int)
    (app : Application (AppState Vector3D R)) : Outcome (Application (AppState Vector3D R)) :=
  if app.rest.mode = .MODEL_MODE ∧ (c = 119 ∨ c = 87) then
    .done { app.queueWrite with rest := Application.updateWidgets env app.rest }
  else if app.rest.mode = .MODEL_MODE ∧ (c = 108 ∨ c = 76) then
    .done { app.queueLoad with rest := Application.updateWidgets env app.rest }
  else
    match Application.charSwitch env c app.rest with
    | .nullDeref s => .nullDeref { app with rest := s }
    | .done s =>
      .done
        { Application.executeFileOp env.writeScene env.loadScene c { app with rest := s } with
          rest := Application.updateWidgets env
            (Application.executeFileOp env.writeScene env.loadScene c
              { app with rest := s }).rest }

/-- The method `Application::keyboard_event( key, event, mods )`. -/
def Application.keyboard_event (env : Env Vector3D D R) (key event mods : Int)
    (s : AppState Vector3D R) : AppState Vector3D R :=
  let s1 : AppState Vector3D R :=
    match s.mode with
    | .MODEL_MODE =>
      if key = env.keyBackspace ∨ key = env.keyDelete then
        if event = env.press then
          { s with world := Scene.erase_selected_element env.ops s.world }
        else s
      else if key = env.keyTab then
        if event = env.press then { s with show_hud := !s.show_hud } else s
      else s
    | _ => s
  let s2 :=
    if s1.lastEventWasModKey = true ∧ event = env.release then s1.onWidget env.restoreLastMode
    else s1
  let s3 : AppState Vector3D R :=
    if mods ≠ 0 then
      let s4 : AppState Vector3D R := { s2 with lastEventWasModKey := true }
      if mods = env.modShift then s4.onWidget env.setScale
      else if mods = env.modControl then s4.onWidget env.setTranslate
      else if mods = env.modAlt then s4.onWidget env.setRotate
      else s4
    else { s2 with lastEventWasModKey := false }
  Application.updateWidgets env s3

/-- The method `Application::mouse_pressed`. -/
def Application.mouse_pressed [Inhabited Vector3D] (env : Env Vector3D D R) (b : MouseButton)
    (s : AppState Vector3D R) : AppState Vector3D R :=
  Application.updateWidgets env
    (match b with
    | .LEFT =>
      let s1 : AppState Vector3D R := { s with leftDown := true }
      if s1.mode = .MODEL_MODE then
        let s2 := Application.selectHovered env s1
        if s2.action = .Bevel then
          { s2 with world := Scene.bevel_selected_element env.ops s2.world }
        else s2
      else s1
    | .RIGHT => { s with rightDown := true }
    | .MIDDLE => { s with middleDown := true })

/-- The method `Application::mouse_released`. -/
def Application.mouse_released (env : Env Vector3D D R) (b : MouseButton)
    (s : AppState Vector3D R) : AppState Vector3D R :=
  Application.updateWidgets env
    (match b with
    | .LEFT =>
      { s with
        leftDown := false
        world := env.updateGeometry s.world.scene.elementTransform s.world }
    | .RIGHT => { s with rightDown := false }
    | .MIDDLE => { s with middleDown := false })

/-- The method `Application::mouse_event( key, event, mods )`. -/
def Application.mouse_event [Inhabited Vector3D] (env : Env Vector3D D R) (key event : Int)
    (s : AppState Vector3D R) : AppState Vector3D R :=
  if event = env.eventPress then
    if key = env.mouseLeft then Application.mouse_pressed env .LEFT s
    else if key = env.mouseRight then Application.mouse_pressed env .RIGHT s
    else if key = env.mouseMiddle then Application.mouse_pressed env .MIDDLE s
    else s
  else if event = env.eventRelease then
    if key = env.mouseLeft then Application.mouse_released env .LEFT s
    else if key = env.mouseRight then Application.mouse_released env .RIGHT s
    else if key = env.mouseMiddle then Application.mouse_released env .MIDDLE s
    else s
  else s

/-- The method `Application::dragSelection`; `Mesh::drag` only prints a message. -/
def Application.dragSelection (env : Env Vector3D D R) (x y dx dy : R)
    (s : AppState Vector3D R) : AppState Vector3D R :=
  match s.world.scene.selected.object with
  | none => s
  | some o =>
    match s.world.scene.selected.element with
    | some element => { s with world := env.translateElement element dx dy s.world }
    | none =>
      match s.world.meshAt o with
      | some _ => s
      | none => { s with world := env.dragObject o x y dx dy s.world }

/-- The method `Application::mouse1_dragged`. -/
def Application.mouse1_dragged (env : Env Vector3D D R) (x y : R) (s : AppState Vector3D R) :
    AppState Vector3D R :=
  if s.mode = .RENDER_MODE then s
  else
    Application.updateWidgets env
      (if s.mode = .MODEL_MODE then
        match s.action with
        | .Navigate => s.call .cameraRotate
        | .Edit =>
          if s.world.scene.selected.object ≠ none then
            Application.dragSelection env x y (env.difference x s.mouseX)
              (env.difference y s.mouseY) s
          else s.call .cameraRotate
        | .Bevel =>
          if s.world.scene.selected.object ≠ none then
            { s with
              world :=
                Scene.update_bevel_amount env.rep env.scaled (env.difference x s.mouseX)
                  (env.difference y s.mouseY) s.world }
          else s.call .cameraRotate
      else s.call .cameraRotate)

/-- The method `Application::mouse2_dragged`. -/
def Application.mouse2_dragged (env : Env Vector3D D R) (s : AppState Vector3D R) :
    AppState Vector3D R :=
  if s.mode = .RENDER_MODE then s
  else Application.updateWidgets env (s.call .cameraMoveBy)

/-- The method `Application::cursor_event( x, y )`. -/
def Application.cursor_event (env : Env Vector3D D R) (x y : R) (s : AppState Vector3D R) :
    AppState Vector3D R :=
  let s1 :=
    if s.leftDown = true ∧ s.middleDown = false ∧ s.rightDown = false then
      Application.mouse1_dragged env x y s
    else if s.leftDown = false ∧ s.middleDown = false ∧ s.rightDown = true then
      Application.mouse2_dragged env s
    else if s.leftDown = false ∧ s.middleDown = false ∧ s.rightDown = false then
      Application.mouse_moved env x y s
    else s
  { s1 with mouseX := x, mouseY := y }

/-- The method `Application::scroll_event`: the camera moves, except in the render mode. -/
def Application.scroll_event (s : AppState Vector3D R) : AppState Vector3D R :=
  match s.mode with
  | .MODEL_MODE => s.call .cameraMoveForward
  | .VISUALIZE_MODE => s.call .cameraMoveForward
  | .RENDER_MODE => s

/-- The property of the transform widget after an event: it is among the objects of the
scene only if the mode is the model mode, the action is `Edit` and an object is selected. -/
def AppState.widgetShownOnlyInEdit (s : AppState Vector3D R) : Prop :=
  s.widget ∈ s.world.scene.objects →
    s.mode = .MODEL_MODE ∧ s.action = .Edit ∧ s.world.scene.selected.object ≠ none

end Events

section EventExamples

/-- An environment for the event handlers: operators that leave the store as it is, a widget
whose `setTarget` stores the selection, no effect of dragging or of file operations, and the
key and button codes of the window library. -/
def exampleEnv : Env (Int × Int × Int) Int Int :=
  { ops := tagOps
    rep := driftReposition
    subdivideQuad := fun _ m => m
    setTarget := fun sel wd => { wd with target := sel }
    setClickPosition := fun _ _ wd => wd
    cycleMode := fun wd => wd
    restoreLastMode := fun wd => wd
    setScale := fun wd => wd
    setTranslate := fun wd => wd
    setRotate := fun wd => wd
    updateGeometry := fun _ w => w
    translateElement := fun _ _ _ w => w
    dragObject := fun _ _ _ _ _ w => w
    pickedID := fun _ _ _ => 0
    writeScene := fun _ s => s
    loadScene := fun _ s => s
    difference := fun a b => a - b
    scaled := fun a => a / 100
    keyBackspace := 259
    keyDelete := 261
    keyTab := 258
    press := 1
    release := 0
    modShift := 1
    modControl := 2
    modAlt := 4
    eventPress := 1
    eventRelease := 0
    mouseLeft := 0
    mouseRight := 1
    mouseMiddle := 2 }

/-- The application in the model mode with the action `Navigate`, face 0 of the triangle
pillow selected, the transform widget at address 20 and not among the objects. -/
def pillowApp : Application (AppState (Int × Int × Int) Int) :=
  { readyWrite := false
    readyLoad := false
    fileOps := []
    rest :=
      { mode := .MODEL_MODE
        action := .Navigate
        leftDown := false
        middleDown := false
        rightDown := false
        mouseX := 0
        mouseY := 0
        lastEventWasModKey := false
        show_hud := true
        world := worldWith (meshOver trianglePillow) (some (.face 0))
        widget := 20
        external := [] } }

end EventExamples

/-! ## Pick registrations -/

section PickVocabulary

variable {Vector3D : Type}

/-- The pick IDs under which the element `x` is registered in `idToElement` of the mesh
object at `o`, one for every entry of the map that holds `x`. -/
def World.idsOf (w : World Vector3D) (o : Addr) (x : HalfedgeElement) : List Int :=
  match w.meshAt o with
  | none => []
  | some self => (self.idToElement.filter fun q => q.2 = x).map Prod.fst

/-- Whether an element handle refers to an element of the store. -/
def HalfedgeMesh.hasElement (m : HalfedgeMesh Vector3D) : HalfedgeElement → Bool
  | .vertex a => (m.vertices.map Prod.fst).contains a
  | .edge a => (m.edges.map Prod.fst).contains a
  | .face a => (m.faces.map Prod.fst).contains a
  | .halfedge a => (m.halfedges.map Prod.fst).contains a

/-- The half-edges of the store incident to the vertex `v`: those whose `vertex()` is `v`,
the ones the walk `twin()->next()` around `v` visits (section 3). -/
def World.incidentHalfedges (w : World Vector3D) (m : HalfedgeMesh Vector3D) (v : Addr) :
    List Addr :=
  (m.halfedges.map Prod.fst).filter fun h => w.vertexOf h = v

/-- Modelled from the spec: the half-edge invariants of section 3 as far as `draw_pick`
depends on them, for the store `m` of a mesh in memory. Elements have addresses of their
own; the `next` walk around every face returns to the face's half-edge, visits half-edges
of the store only, and these refer back to the face; every half-edge lies on the boundary
of the face it refers to, and its vertex and edge are live; every edge is shared by exactly
its half-edge and the twin of it, two different half-edges of the store. -/
def World.halfedgeInvariants (w : World Vector3D) (m : HalfedgeMesh Vector3D) : Prop :=
  (m.halfedges.map Prod.fst).Nodup ∧
  (m.faces.map Prod.fst).Nodup ∧
  (∀ f ∈ m.faces, 0 < w.degree f.2 ∧
    ∀ h ∈ w.faceWalk f.2.halfedge, h ∈ m.halfedges.map Prod.fst ∧ w.faceOf h = f.1) ∧
  (∀ h ∈ m.halfedges.map Prod.fst,
    (∃ f ∈ m.faces, f.1 = w.faceOf h ∧ h ∈ w.faceWalk f.2.halfedge) ∧
    w.vertexOf h ∈ m.vertices.map Prod.fst ∧ w.edgeOf h ∈ m.edges.map Prod.fst) ∧
  (∀ e ∈ m.edges,
    e.2.halfedge ∈ m.halfedges.map Prod.fst ∧
    w.twin e.2.halfedge ∈ m.halfedges.map Prod.fst ∧
    w.twin e.2.halfedge ≠ e.2.halfedge ∧
    ∀ h ∈ m.halfedges.map Prod.fst,
      w.edgeOf h = e.1 ↔ h = e.2.halfedge ∨ h = w.twin e.2.halfedge)

instance World.decidableHalfedgeInvariants [DecidableEq Vector3D] (w : World Vector3D)
    (m : HalfedgeMesh Vector3D) : Decidable (w.halfedgeInvariants m) := by
  unfold World.halfedgeInvariants
  infer_instance

end PickVocabulary

/-! ## Connectivity up to names -/

section FlipVocabulary

variable {Vector3D : Type}

/-- The effect of one field assignment on the record of the half-edge at address `a`. -/
def Edit.onHalfedge (a : Addr) (r : Halfedge) : Edit Vector3D → Halfedge
  | .setNext h n => if a = h then { r with next := n } else r
  | .setTwin h t => if a = h then { r with twin := t } else r
  | .setVertex h v => if a = h then { r with vertex := v } else r
  | .setEdge h e => if a = h then { r with edge := e } else r
  | .setFace h f => if a = h then { r with face := f } else r
  | _ => r

/-- The effect of one field assignment on the record of the edge at address `a`. -/
def Edit.onEdge (a : Addr) (r : Edge) : Edit Vector3D → Edge
  | .setEdgeHalfedge e h => if a = e then { r with halfedge := h } else r
  | _ => r

/-- The name `x` after the names `a` and `b` have been exchanged. -/
def exchange (a b x : Addr) : Addr :=
  if x = a then b else if x = b then a else x

/-- The elements of a store without the representatives that vertices, edges and faces
hold: the addresses of the four kinds of element, in iteration order, and the positions of
the vertices. -/
def HalfedgeMesh.elements (m : HalfedgeMesh Vector3D) :
    List Addr × List (Addr × Vector3D) × List Addr × List Addr :=
  (m.halfedges.map Prod.fst, m.vertices.map (fun p => (p.1, p.2.position)),
    m.edges.map Prod.fst, m.faces.map Prod.fst)

/-- The store `m2` has the connectivity of `m`, with the names of the half-edges `a` and
`b` exchanged and the names of the faces `f` and `g` exchanged: both have the same
elements, and what `next`, `twin`, `vertex`, `edge` and `face` say of a half-edge of `m`,
they say in `m2` of the half-edge under its new name. -/
def HalfedgeMesh.sameConnectivity (m m2 : HalfedgeMesh Vector3D) (a b f g : Addr) : Prop :=
  m2.elements = m.elements ∧
  ∀ h, (m.halfedges.lookup h).isSome →
    m2.next (exchange a b h) = exchange a b (m.next h) ∧
    m2.twin (exchange a b h) = exchange a b (m.twin h) ∧
    m2.vertexOf (exchange a b h) = m.vertexOf h ∧
    m2.edgeOf (exchange a b h) = m.edgeOf h ∧
    m2.faceOf (exchange a b h) = exchange f g (m.faceOf h)

/-- The field assignments of `flipEdgePlan` on the triangles `h0 h1 h2` and `h3 h4 h5`: the
half-edges `h0` and `h3` get the vertices `va` and `vb`, the half-edges that change sides
the faces `fa` and `fb`, and the vertices `v0`, `v3`, `va`, `vb`, the two faces and the
edge `e` a half-edge that stays with them. -/
def flipEdits (h0 h1 h2 h3 h4 h5 va vb fa fb v0 v3 e : Addr) : List (Edit Vector3D) :=
  [.setNext h0 h5, .setNext h5 h1, .setNext h1 h0,
   .setNext h3 h2, .setNext h2 h4, .setNext h4 h3,
   .setVertex h0 va, .setVertex h3 vb,
   .setFace h5 fa, .setFace h2 fb,
   .setVertexHalfedge v0 h4, .setVertexHalfedge v3 h1,
   .setVertexHalfedge va h0, .setVertexHalfedge vb h3,
   .setFaceHalfedge fa h0, .setFaceHalfedge fb h3,
   .setEdgeHalfedge e h0]

end FlipVocabulary

/-! ## Program invariants in the statements -/

section ProgramInvariants

variable {Vector3D : Type}

/-- No selection is left: `hovered`, `selected`, `edited` and the target of the transform
widget are all cleared. -/
def World.selectionsCleared (w : World Vector3D) : Prop :=
  w.scene.hovered = { object := none, element := none } ∧
  w.scene.selected = { object := none, element := none } ∧
  w.scene.edited = { object := none, element := none } ∧
  w.scene.elementTransform.target = { object := none, element := none }

/-- Modelled from the spec: the back references of section 3, for the elements in memory:
every edge is the edge of the half-edge it stores, every face the face of the half-edge it
stores, and every vertex the vertex of the half-edge it stores. -/
def World.backReferences (w : World Vector3D) : Bool :=
  w.stores.all fun m =>
    (m.edges.all fun e => w.edgeOf (w.edgeHalfedge e.1) = e.1) &&
    (m.faces.all fun f => w.faceOf (w.faceHalfedge f.1) = f.1) &&
    (m.vertices.all fun v => w.vertexOf (w.vertexHalfedge v.1) = v.1)

end ProgramInvariants

/-! ## Theorems: the selection traversals -/

section TraversalTheorems

variable {Vector3D : Type}

theorem World.next_setSelectedElement (w : World Vector3D) (x : Option HalfedgeElement) :
    (w.setSelectedElement x).next = w.next := rfl

theorem World.twin_setSelectedElement (w : World Vector3D) (x : Option HalfedgeElement) :
    (w.setSelectedElement x).twin = w.twin := rfl

theorem World.setSelectedElement_twice (w : World Vector3D) (x y : Option HalfedgeElement) :
    (w.setSelectedElement x).setSelectedElement y = w.setSelectedElement y := rfl

theorem World.setSelectedElement_same (w : World Vector3D) (x : Option HalfedgeElement)
    (h : w.scene.selected.element = x) : w.setSelectedElement x = w := by
  subst h
  rfl

theorem World.element_setSelectedElement (w : World Vector3D) (x : Option HalfedgeElement) :
    (w.setSelectedElement x).scene.selected.element = x := rfl

/-- One call of `selectNextHalfedge` on a selected half-edge moves the selection to its
`next`. -/
theorem Scene.selectNextHalfedge_halfedge (w : World Vector3D) (h : Addr)
    (hsel : w.scene.selected.element = some (.halfedge h)) :
    Scene.selectNextHalfedge w = w.setSelectedElement (some (.halfedge (w.next h))) := by
  simp [Scene.selectNextHalfedge, hsel, HalfedgeElement.getHalfedge]

/-- One call of `selectTwinHalfedge` on a selected half-edge moves the selection to its
`twin`. -/
theorem Scene.selectTwinHalfedge_halfedge (w : World Vector3D) (h : Addr)
    (hsel : w.scene.selected.element = some (.halfedge h)) :
    Scene.selectTwinHalfedge w = w.setSelectedElement (some (.halfedge (w.twin h))) := by
  simp [Scene.selectTwinHalfedge, hsel, HalfedgeElement.getHalfedge]

/-- After `k` calls of `selectNextHalfedge` the selection is the `k`-th `next` of the
half-edge selected at the start. -/
theorem Scene.selectNextHalfedge_iterate (k : Nat) (w : World Vector3D) (h : Addr)
    (hsel : w.scene.selected.element = some (.halfedge h)) :
    Scene.selectNextHalfedge^[k] w = w.setSelectedElement (some (.halfedge (w.next^[k] h))) := by
  induction k with
  | zero => simp [World.setSelectedElement_same, hsel]
  | succ k ih =>
    rw [Function.iterate_succ_apply', ih, Function.iterate_succ_apply']
    rw [Scene.selectNextHalfedge_halfedge _ (w.next^[k] h) rfl]
    rfl

end TraversalTheorems

section TraversalClaims

variable {Vector3D : Type}

theorem List.mem_of_lookup_eq_some {β : Type} (l : List (Addr × β)) (a : Addr) (b : β)
    (h : l.lookup a = some b) : (a, b) ∈ l := by
  induction l with
  | nil => simp at h
  | cons x xs ih =>
    obtain ⟨k, v⟩ := x
    simp only [List.lookup_cons] at h
    split at h
    · rename_i heq
      simp at heq h
      subst heq
      subst h
      simp
    · exact List.mem_cons_of_mem _ (ih h)

/-- A half-edge pointer that can be dereferenced is the address of a half-edge in memory. -/
theorem World.mem_halfedgeAddrs (w : World Vector3D) (h : Addr) (r : Halfedge)
    (hr : w.halfedgeAt h = some r) : h ∈ w.halfedgeAddrs := by
  obtain ⟨m, hm, hlook⟩ := List.exists_of_findSome?_eq_some hr
  refine List.mem_flatMap.mpr ⟨m, hm, ?_⟩
  exact List.mem_map.mpr ⟨(h, r), List.mem_of_lookup_eq_some _ _ _ hlook, rfl⟩

/-- What the twin invariant gives at a live half-edge. -/
theorem World.twin_twin (w : World Vector3D) (hinv : w.twinInvolution = true) (h : Addr)
    (hlive : w.liveHalfedge h = true) : w.twin (w.twin h) = h := by
  obtain ⟨r, hr⟩ := Option.isSome_iff_exists.mp hlive
  have hall := List.all_eq_true.mp hinv h (w.mem_halfedgeAddrs h r hr)
  exact of_decide_eq_true hall

/-- What the next-cycle invariant gives at a half-edge on a face of degree `d`. -/
theorem World.next_cycle_at (w : World Vector3D) (hinv : w.nextCycle = true) (h : Addr)
    (d : Nat) (hd : w.faceDegreeOf h = some d) :
    w.next^[d] h = h ∧ ∀ k, 0 < k → k < d → w.next^[k] h ≠ h := by
  have hlive : ∃ r, w.halfedgeAt h = some r := by
    unfold World.faceDegreeOf at hd
    cases hr : w.halfedgeAt h with
    | none => simp [hr] at hd
    | some r => exact ⟨r, rfl⟩
  obtain ⟨r, hr⟩ := hlive
  have hall := List.all_eq_true.mp hinv h (w.mem_halfedgeAddrs h r hr)
  simp only [hd, World.returnsAfterExactly, Bool.and_eq_true, decide_eq_true_eq,
    List.all_eq_true, List.mem_range] at hall
  refine ⟨hall.1, fun k hk0 hkd => ?_⟩
  have := hall.2 k hkd
  simp only [decide_eq_true_eq] at this
  rcases this with h0 | hne
  · omega
  · exact hne

/-- C5: with the selection unset, `selectNextHalfedge`, `selectTwinHalfedge` and
`selectHalfedge` return the state as it was; with a selected element `x` they take their
no-op branch only when `x` is of a kind the traversal does not apply to (not a half-edge
for next and twin, a half-edge for `selectHalfedge`), and otherwise assign the element
reached from `x`. -/
theorem C5_unset_selection_is_the_only_failure (w : World Vector3D) :
    (w.scene.selected.element = none →
      Scene.selectNextHalfedge w = w ∧ Scene.selectTwinHalfedge w = w ∧
        Scene.selectHalfedge w = w) ∧
    (∀ x, w.scene.selected.element = some x →
      Scene.selectNextHalfedge w =
          (match x with
           | .halfedge h => w.setSelectedElement (some (.halfedge (w.next h)))
           | _ => w) ∧
        Scene.selectTwinHalfedge w =
          (match x with
           | .halfedge h => w.setSelectedElement (some (.halfedge (w.twin h)))
           | _ => w) ∧
        Scene.selectHalfedge w =
          (match x with
           | .face f => w.setSelectedElement (some (.halfedge (w.faceHalfedge f)))
           | .edge e => w.setSelectedElement (some (.halfedge (w.edgeHalfedge e)))
           | .vertex v => w.setSelectedElement (some (.halfedge (w.vertexHalfedge v)))
           | .halfedge _ => w)) := by
  constructor
  · intro hnone
    simp [Scene.selectNextHalfedge, Scene.selectTwinHalfedge, Scene.selectHalfedge, hnone]
  · intro x hx
    cases x <;>
      simp [Scene.selectNextHalfedge, Scene.selectTwinHalfedge, Scene.selectHalfedge, hx,
        HalfedgeElement.getHalfedge, HalfedgeElement.getFace, HalfedgeElement.getEdge,
        HalfedgeElement.getVertex]

/-- C5 at the triangle pillow: unset selection, and a selected half-edge. -/
theorem C5_witness :
    (Scene.selectNextHalfedge (worldWith (meshOver trianglePillow) none) =
        worldWith (meshOver trianglePillow) none ∧
      Scene.selectTwinHalfedge (worldWith (meshOver trianglePillow) none) =
        worldWith (meshOver trianglePillow) none ∧
      Scene.selectHalfedge (worldWith (meshOver trianglePillow) none) =
        worldWith (meshOver trianglePillow) none) ∧
    Scene.selectNextHalfedge (worldWith (meshOver trianglePillow) (some (.halfedge 0))) =
      (worldWith (meshOver trianglePillow) (some (.halfedge 0))).setSelectedElement
        (some (.halfedge 1)) :=
  ⟨(C5_unset_selection_is_the_only_failure (worldWith (meshOver trianglePillow) none)).1 rfl,
   ((C5_unset_selection_is_the_only_failure
      (worldWith (meshOver trianglePillow) (some (.halfedge 0)))).2 (.halfedge 0) rfl).1⟩

/-- C6: for every state, `selectNextHalfedge`, `selectTwinHalfedge` and `selectHalfedge`
leave the objects in memory (every mesh: elements, connectivity, positions), the scene's
object set, `selected.object`, `hovered`, `edited` and the transform widget with its target
as they were, and call no mesh operator: only `selected.element` can differ. -/
theorem C6_traversals_change_only_selected_element (w : World Vector3D) :
    ((Scene.selectNextHalfedge w).heap = w.heap ∧
      (Scene.selectNextHalfedge w).calls = w.calls ∧
      (Scene.selectNextHalfedge w).scene.objects = w.scene.objects ∧
      (Scene.selectNextHalfedge w).scene.selected.object = w.scene.selected.object ∧
      (Scene.selectNextHalfedge w).scene.hovered = w.scene.hovered ∧
      (Scene.selectNextHalfedge w).scene.edited = w.scene.edited ∧
      (Scene.selectNextHalfedge w).scene.elementTransform = w.scene.elementTransform) ∧
    ((Scene.selectTwinHalfedge w).heap = w.heap ∧
      (Scene.selectTwinHalfedge w).calls = w.calls ∧
      (Scene.selectTwinHalfedge w).scene.objects = w.scene.objects ∧
      (Scene.selectTwinHalfedge w).scene.selected.object = w.scene.selected.object ∧
      (Scene.selectTwinHalfedge w).scene.hovered = w.scene.hovered ∧
      (Scene.selectTwinHalfedge w).scene.edited = w.scene.edited ∧
      (Scene.selectTwinHalfedge w).scene.elementTransform = w.scene.elementTransform) ∧
    ((Scene.selectHalfedge w).heap = w.heap ∧
      (Scene.selectHalfedge w).calls = w.calls ∧
      (Scene.selectHalfedge w).scene.objects = w.scene.objects ∧
      (Scene.selectHalfedge w).scene.selected.object = w.scene.selected.object ∧
      (Scene.selectHalfedge w).scene.hovered = w.scene.hovered ∧
      (Scene.selectHalfedge w).scene.edited = w.scene.edited ∧
      (Scene.selectHalfedge w).scene.elementTransform = w.scene.elementTransform) := by
  refine ⟨?_, ?_, ?_⟩
  · unfold Scene.selectNextHalfedge
    repeat' split
    all_goals simp [World.setSelectedElement]
  · unfold Scene.selectTwinHalfedge
    repeat' split
    all_goals simp [World.setSelectedElement]
  · unfold Scene.selectHalfedge
    repeat' split
    all_goals simp [World.setSelectedElement]

/-- C7: on a state where `twin(twin(h)) = h` for every half-edge `h` in memory, two calls
of `selectTwinHalfedge` restore the state they started from, whether the selection is a
half-edge of a mesh, another element, or unset. -/
theorem C7_selectTwinHalfedge_twice (w : World Vector3D) (htwin : w.twinInvolution = true)
    (hlive : ∀ h, w.scene.selected.element = some (.halfedge h) → w.liveHalfedge h = true) :
    Scene.selectTwinHalfedge (Scene.selectTwinHalfedge w) = w := by
  cases hsel : w.scene.selected.element with
  | none => simp [Scene.selectTwinHalfedge, hsel]
  | some x =>
    cases x with
    | halfedge h =>
      rw [Scene.selectTwinHalfedge_halfedge w h hsel,
        Scene.selectTwinHalfedge_halfedge _ (w.twin h) rfl]
      rw [World.twin_setSelectedElement, World.setSelectedElement_twice,
        w.twin_twin htwin h (hlive h hsel)]
      exact w.setSelectedElement_same _ hsel
    | vertex a => simp [Scene.selectTwinHalfedge, hsel, HalfedgeElement.getHalfedge]
    | edge a => simp [Scene.selectTwinHalfedge, hsel, HalfedgeElement.getHalfedge]
    | face a => simp [Scene.selectTwinHalfedge, hsel, HalfedgeElement.getHalfedge]

/-- C7 at the triangle pillow with half-edge 4 selected: one call moves the selection,
two calls restore it. -/
theorem C7_witness :
    (worldWith (meshOver trianglePillow) (some (.halfedge 4))).twinInvolution = true ∧
    Scene.selectTwinHalfedge (worldWith (meshOver trianglePillow) (some (.halfedge 4))) ≠
      worldWith (meshOver trianglePillow) (some (.halfedge 4)) ∧
    Scene.selectTwinHalfedge
        (Scene.selectTwinHalfedge (worldWith (meshOver trianglePillow) (some (.halfedge 4)))) =
      worldWith (meshOver trianglePillow) (some (.halfedge 4)) :=
  ⟨by decide, by decide,
   C7_selectTwinHalfedge_twice (worldWith (meshOver trianglePillow) (some (.halfedge 4)))
    (by decide) (by intro h hh; cases hh; decide)⟩

/-- C8: on a state satisfying the next-cycle invariant, if the selected element is a
half-edge `h` on a face of degree `d`, then `d` calls of `selectNextHalfedge` select `h`
again and `k` calls, for `0 < k < d`, select a half-edge other than `h`. -/
theorem C8_selectNextHalfedge_cycle (w : World Vector3D) (h : Addr) (d : Nat)
    (hinv : w.nextCycle = true)
    (hsel : w.scene.selected.element = some (.halfedge h))
    (hdeg : w.faceDegreeOf h = some d) :
    (Scene.selectNextHalfedge^[d] w).scene.selected.element = some (.halfedge h) ∧
    ∀ k, 0 < k → k < d →
      ∃ g, g ≠ h ∧
        (Scene.selectNextHalfedge^[k] w).scene.selected.element = some (.halfedge g) := by
  obtain ⟨hback, hmin⟩ := w.next_cycle_at hinv h d hdeg
  constructor
  · rw [Scene.selectNextHalfedge_iterate d w h hsel, World.element_setSelectedElement, hback]
  · intro k hk0 hkd
    refine ⟨w.next^[k] h, hmin k hk0 hkd, ?_⟩
    rw [Scene.selectNextHalfedge_iterate k w h hsel, World.element_setSelectedElement]

/-- C8 at the quad pillow with half-edge 5 selected, on a face of degree 4. -/
theorem C8_witness :
    (worldWith (meshOver quadPillow) (some (.halfedge 5))).faceDegreeOf 5 = some 4 ∧
    (Scene.selectNextHalfedge^[4]
        (worldWith (meshOver quadPillow) (some (.halfedge 5)))).scene.selected.element =
      some (.halfedge 5) ∧
    ∀ k, 0 < k → k < 4 →
      ∃ g, g ≠ 5 ∧
        (Scene.selectNextHalfedge^[k]
            (worldWith (meshOver quadPillow) (some (.halfedge 5)))).scene.selected.element =
          some (.halfedge g) :=
  ⟨by decide,
   C8_selectNextHalfedge_cycle (worldWith (meshOver quadPillow) (some (.halfedge 5))) 5 4
    (by decide) rfl (by decide)⟩

/-- C9: `selectHalfedge` replaces a selected face, edge or vertex by the half-edge that
element stores and leaves a selected half-edge as it is; so for every non-null selection
the selected element is a half-edge afterwards, and calling it twice gives the same state
as calling it once. -/
theorem C9_selectHalfedge (w : World Vector3D) :
    (∀ f, w.scene.selected.element = some (.face f) →
      Scene.selectHalfedge w = w.setSelectedElement (some (.halfedge (w.faceHalfedge f)))) ∧
    (∀ e, w.scene.selected.element = some (.edge e) →
      Scene.selectHalfedge w = w.setSelectedElement (some (.halfedge (w.edgeHalfedge e)))) ∧
    (∀ v, w.scene.selected.element = some (.vertex v) →
      Scene.selectHalfedge w = w.setSelectedElement (some (.halfedge (w.vertexHalfedge v)))) ∧
    (∀ h, w.scene.selected.element = some (.halfedge h) → Scene.selectHalfedge w = w) ∧
    (∀ x, w.scene.selected.element = some x →
      ∃ h, (Scene.selectHalfedge w).scene.selected.element = some (.halfedge h)) ∧
    Scene.selectHalfedge (Scene.selectHalfedge w) = Scene.selectHalfedge w := by
  have hface : ∀ f, w.scene.selected.element = some (.face f) →
      Scene.selectHalfedge w = w.setSelectedElement (some (.halfedge (w.faceHalfedge f))) := by
    intro f hf
    simp [Scene.selectHalfedge, hf, HalfedgeElement.getFace]
  have hedge : ∀ e, w.scene.selected.element = some (.edge e) →
      Scene.selectHalfedge w = w.setSelectedElement (some (.halfedge (w.edgeHalfedge e))) := by
    intro e he
    simp [Scene.selectHalfedge, he, HalfedgeElement.getFace, HalfedgeElement.getEdge]
  have hvertex : ∀ v, w.scene.selected.element = some (.vertex v) →
      Scene.selectHalfedge w =
        w.setSelectedElement (some (.halfedge (w.vertexHalfedge v))) := by
    intro v hv
    simp [Scene.selectHalfedge, hv, HalfedgeElement.getFace, HalfedgeElement.getEdge,
      HalfedgeElement.getVertex]
  have hhalf : ∀ (w0 : World Vector3D) h, w0.scene.selected.element = some (.halfedge h) →
      Scene.selectHalfedge w0 = w0 := by
    intro w0 h hh
    simp [Scene.selectHalfedge, hh, HalfedgeElement.getFace, HalfedgeElement.getEdge,
      HalfedgeElement.getVertex]
  have hkind : ∀ x, w.scene.selected.element = some x →
      ∃ h, (Scene.selectHalfedge w).scene.selected.element = some (.halfedge h) := by
    intro x hx
    cases x with
    | vertex a => exact ⟨_, by rw [hvertex a hx]; rfl⟩
    | edge a => exact ⟨_, by rw [hedge a hx]; rfl⟩
    | face a => exact ⟨_, by rw [hface a hx]; rfl⟩
    | halfedge a => exact ⟨a, by rw [hhalf w a hx]; exact hx⟩
  refine ⟨hface, hedge, hvertex, hhalf w, hkind, ?_⟩
  cases hsel : w.scene.selected.element with
  | none => simp [Scene.selectHalfedge, hsel]
  | some x =>
    obtain ⟨h, hh⟩ := hkind x hsel
    exact hhalf _ h hh

/-- C9 at the triangle pillow with face 1 selected, whose half-edge is 3. -/
theorem C9_witness :
    Scene.selectHalfedge (worldWith (meshOver trianglePillow) (some (.face 1))) =
      (worldWith (meshOver trianglePillow) (some (.face 1))).setSelectedElement
        (some (.halfedge 3)) :=
  (C9_selectHalfedge (worldWith (meshOver trianglePillow) (some (.face 1)))).1 1 rfl

end TraversalClaims

/-! ## Theorems: the editing commands -/

section CommandLemmas

variable {Vector3D : Type}

theorem List.lookup_map_replace (l : List (Addr × SceneObject Vector3D)) (o : Addr)
    (self m : Mesh Vector3D) (h : l.lookup o = some (.mesh self)) :
    (replaceObject o (SceneObject.mesh m) l).lookup o = some (.mesh m) := by
  induction l with
  | nil => simp at h
  | cons x xs ih =>
    obtain ⟨k, v⟩ := x
    by_cases hk : k = o
    · subst hk
      simp [replaceObject, List.lookup_cons]
    · have hne : (o == k) = false := by
        simp only [beq_eq_false_iff_ne, ne_eq]
        exact fun hok => hk hok.symm
      simp only [List.lookup_cons, hne] at h
      simp [replaceObject, List.lookup_cons, hne, hk, ih h]

/-- After an assignment to the mesh object at `o`, the object at `o` is the value
assigned. -/
theorem World.meshAt_setMesh (w : World Vector3D) (o : Addr) (self m : Mesh Vector3D)
    (h : w.meshAt o = some self) : (w.setMesh o m).meshAt o = some m := by
  unfold World.meshAt at h
  have hl : w.heap.lookup o = some (.mesh self) := by
    split at h
    · rename_i m0 hm0
      simp only [Option.some.injEq] at h
      rw [hm0, h]
    · simp at h
  simp only [World.meshAt, World.setMesh]
  rw [List.lookup_map_replace w.heap o self m hl]

/-- The object at an address depends on the objects in memory only. -/
theorem World.meshAt_congr (w1 w2 : World Vector3D) (o : Addr) (h : w1.heap = w2.heap) :
    w1.meshAt o = w2.meshAt o := by
  simp only [World.meshAt, h]

/-- After an operator of the mesh at `this` has run, the mesh object holds the store the
operator returned, its other members unchanged. -/
theorem World.meshAt_ranOperator (w : World Vector3D) (this : Addr) (self : Mesh Vector3D)
    (m : HalfedgeMesh Vector3D) (call : MeshCall) (hself : w.meshAt this = some self) :
    (w.ranOperator this self m call).meshAt this = some { self with mesh := m } := by
  exact (World.meshAt_congr (w.ranOperator this self m call)
    (w.setMesh this { self with mesh := m }) this rfl).trans
    (w.meshAt_setMesh this self _ hself)

/-- The state after an operator call followed by the closing statements of an editing
command. -/
theorem World.editedBy_selectResult (w : World Vector3D) (this : Addr)
    (self : Mesh Vector3D) (m : HalfedgeMesh Vector3D) (call : MeshCall)
    (x : HalfedgeElement) (hself : w.meshAt this = some self) :
    w.editedBy ((w.ranOperator this self m call).selectResult x) this call m x := by
  refine ⟨rfl, ?_, rfl, rfl, rfl⟩
  rw [World.meshAt_congr ((w.ranOperator this self m call).selectResult x)
    (w.ranOperator this self m call) this rfl, w.meshAt_ranOperator this self m call hself]
  rfl

/-- The state after an operator call followed by the closing statements of
`erase_selected_element`. -/
theorem World.editedBy_selectErased (w : World Vector3D) (this : Addr)
    (self : Mesh Vector3D) (m : HalfedgeMesh Vector3D) (call : MeshCall)
    (f : Addr) (hself : w.meshAt this = some self) :
    w.editedBy ((w.ranOperator this self m call).selectErased this f) this call m (.face f) := by
  refine ⟨rfl, ?_, rfl, rfl, rfl⟩
  rw [World.meshAt_congr ((w.ranOperator this self m call).selectErased this f)
    (w.ranOperator this self m call) this rfl, w.meshAt_ranOperator this self m call hself]
  rfl

theorem Mesh.allTriangles_iff (w : World Vector3D) (fs : List (Addr × Face)) :
    Mesh.allTriangles w fs = true ↔ ∀ f ∈ fs, w.degree f.2 = 3 := by
  induction fs with
  | nil => simp [Mesh.allTriangles]
  | cons f fs ih =>
    by_cases hf : w.degree f.2 = 3
    · simp [Mesh.allTriangles, hf, ih]
    · simp [Mesh.allTriangles, hf]

end CommandLemmas

section CommandClaims

variable {Vector3D : Type}

/-- C1: `Mesh::upsample` calls the resampler if and only if every face of the mesh has
degree 3, and when some face has another degree it returns normally with the whole state
(the mesh with all elements, connectivity and positions, `selected`, `hovered`, the widget
target) as it was. -/
theorem C1_upsample_requires_triangles (ops : MeshOps Vector3D) (this : Addr)
    (w : World Vector3D) (self : Mesh Vector3D) (hself : w.meshAt this = some self) :
    ((Mesh.upsample ops this w).state.calls = w.calls ++ [MeshCall.upsample] ↔
      ∀ f ∈ self.mesh.faces, w.degree f.2 = 3) ∧
    ((∀ f ∈ self.mesh.faces, w.degree f.2 = 3) →
      ((Mesh.upsample ops this w).state.meshAt this).map (fun s => s.mesh) =
        some (ops.upsample self.mesh)) ∧
    ((∃ f ∈ self.mesh.faces, w.degree f.2 ≠ 3) → Mesh.upsample ops this w = .done w) := by
  have hno : (∃ f ∈ self.mesh.faces, w.degree f.2 ≠ 3) →
      Mesh.upsample ops this w = .done w := by
    intro hex
    have hfalse : Mesh.allTriangles w self.mesh.faces = false := by
      rw [Bool.eq_false_iff, Ne, Mesh.allTriangles_iff]
      intro hall
      obtain ⟨f, hf, hne⟩ := hex
      exact hne (hall f hf)
    simp [Mesh.upsample, hself, hfalse]
  by_cases hall : ∀ f ∈ self.mesh.faces, w.degree f.2 = 3
  · have htrue : Mesh.allTriangles w self.mesh.faces = true :=
      (Mesh.allTriangles_iff w _).mpr hall
    have hran := w.meshAt_ranOperator this self (ops.upsample self.mesh) .upsample hself
    refine ⟨⟨fun _ => hall, fun _ => ?_⟩, fun _ => ?_, hno⟩
    · cases hs : self.scene <;>
        simp [Mesh.upsample, hself, htrue, hs, Outcome.state, World.ranOperator]
    · cases hs : self.scene
      · have hup : Mesh.upsample ops this w =
            .nullDeref (w.ranOperator this self (ops.upsample self.mesh) .upsample) := by
          simp [Mesh.upsample, hself, htrue, hs]
        rw [hup]
        simp only [Outcome.state]
        rw [hran]
        rfl
      · have hup : Mesh.upsample ops this w =
            .done { w.ranOperator this self (ops.upsample self.mesh) .upsample with
              scene :=
                { (w.ranOperator this self (ops.upsample self.mesh) .upsample).scene with
                  selected :=
                    (w.ranOperator this self (ops.upsample self.mesh)
                      .upsample).scene.selected.clear }.clearHoveredAndTarget } := by
          simp [Mesh.upsample, hself, htrue, hs]
        rw [hup]
        simp only [Outcome.state]
        refine (congrArg _ ((World.meshAt_congr _
          (w.ranOperator this self (ops.upsample self.mesh) .upsample) this (by rfl)).trans
          hran)).trans ?_
        rfl
  · refine ⟨⟨fun hcalls => ?_, fun h => absurd h hall⟩, fun h => absurd h hall, hno⟩
    have hex : ∃ f ∈ self.mesh.faces, w.degree f.2 ≠ 3 := by
      by_contra hcon
      exact hall fun f hf => by
        by_contra hne
        exact hcon ⟨f, hf, hne⟩
    rw [hno hex] at hcalls
    simp [Outcome.state] at hcalls

/-- C1 at the triangle pillow, where the resampler runs, and at the quad pillow, where
the call returns the state unchanged. -/
theorem C1_witness :
    (Mesh.upsample tagOps 10
        (worldWith (meshOver trianglePillow) (some (.face 0)))).state.calls =
      [MeshCall.upsample] ∧
    Mesh.upsample tagOps 10 (worldWith (meshOver quadPillow) (some (.face 0))) =
      .done (worldWith (meshOver quadPillow) (some (.face 0))) :=
  ⟨(C1_upsample_requires_triangles tagOps 10
      (worldWith (meshOver trianglePillow) (some (.face 0))) (meshOver trianglePillow) rfl).1.mpr
      (by decide),
   (C1_upsample_requires_triangles tagOps 10
      (worldWith (meshOver quadPillow) (some (.face 0))) (meshOver quadPillow) rfl).2.2
      (by decide)⟩

end CommandClaims

section EditingClaims

variable {Vector3D : Type}

/-- The editing commands never assign to `edited`. -/
theorem Mesh.commands_keep_edited (ops : MeshOps Vector3D) (this : Addr)
    (w : World Vector3D) :
    (Mesh.collapse_selected_element ops this w).scene.edited = w.scene.edited ∧
    (Mesh.erase_selected_element ops this w).scene.edited = w.scene.edited := by
  constructor
  · unfold Mesh.collapse_selected_element
    repeat' split
    all_goals rfl
  · unfold Mesh.erase_selected_element
    repeat' split
    all_goals rfl

/-- C2, evaluated at a state reached by a bevel: after `collapse_selected_element` has run
`collapseFace` on the selected face 0, and after `erase_selected_element` has run
`eraseEdge` on the selected edge 2, `scene.edited` still refers to that element, whatever
the operators do: it is neither cleared nor reassigned to the handle the operator
returned. -/
theorem C2_edited_still_refers_to_the_element (ops : MeshOps (Int × Int × Int)) :
    afterFaceBevel.scene.edited.element = some (.face 0) ∧
    (Mesh.collapse_selected_element ops 10 afterFaceBevel).calls = [MeshCall.collapseFace 0] ∧
    (Mesh.collapse_selected_element ops 10 afterFaceBevel).scene.selected.element =
      some (.vertex (ops.collapseFace trianglePillow 0).2) ∧
    (Mesh.collapse_selected_element ops 10 afterFaceBevel).scene.edited.element =
      some (.face 0) ∧
    afterEdgeBevel.scene.edited.element = some (.edge 2) ∧
    (Mesh.erase_selected_element ops 10 afterEdgeBevel).calls = [MeshCall.eraseEdge 2] ∧
    (Mesh.erase_selected_element ops 10 afterEdgeBevel).scene.selected.element =
      some (.face (ops.eraseEdge trianglePillow 2).2) ∧
    (Mesh.erase_selected_element ops 10 afterEdgeBevel).scene.edited.element =
      some (.edge 2) :=
  ⟨rfl, rfl, rfl, rfl, rfl, rfl, rfl, rfl⟩

/-- What the back references give at a live edge, face and vertex. -/
theorem World.backReferences_at (w : World Vector3D) (hinv : w.backReferences = true) :
    (∀ e, (w.edgeAt e).isSome = true → w.edgeOf (w.edgeHalfedge e) = e) ∧
    (∀ f, (w.faceAt f).isSome = true → w.faceOf (w.faceHalfedge f) = f) ∧
    (∀ v, (w.vertexAt v).isSome = true → w.vertexOf (w.vertexHalfedge v) = v) := by
  unfold World.backReferences at hinv
  simp only [List.all_eq_true, Bool.and_eq_true, decide_eq_true_eq] at hinv
  refine ⟨fun e he => ?_, fun f hf => ?_, fun v hv => ?_⟩
  · obtain ⟨r, hr⟩ := Option.isSome_iff_exists.mp he
    obtain ⟨m, hm, hlook⟩ := List.exists_of_findSome?_eq_some hr
    exact (hinv m hm).1.1 (e, r) (List.mem_of_lookup_eq_some _ _ _ hlook)
  · obtain ⟨r, hr⟩ := Option.isSome_iff_exists.mp hf
    obtain ⟨m, hm, hlook⟩ := List.exists_of_findSome?_eq_some hr
    exact (hinv m hm).1.2 (f, r) (List.mem_of_lookup_eq_some _ _ _ hlook)
  · obtain ⟨r, hr⟩ := Option.isSome_iff_exists.mp hv
    obtain ⟨m, hm, hlook⟩ := List.exists_of_findSome?_eq_some hr
    exact (hinv m hm).2 (v, r) (List.mem_of_lookup_eq_some _ _ _ hlook)

/-- In a list with addresses of their own the lookup finds every record. -/
theorem List.lookup_of_mem_of_nodup {β : Type} (l : List (Addr × β))
    (hnd : (l.map Prod.fst).Nodup) (a : Addr) (b : β) (h : (a, b) ∈ l) :
    l.lookup a = some b := by
  induction l with
  | nil => simp at h
  | cons x xs ih =>
    obtain ⟨k, v⟩ := x
    simp only [List.map_cons, List.nodup_cons] at hnd
    rcases List.mem_cons.1 h with e | hmem
    · cases e
      simp [List.lookup_cons]
    · have hne : a ≠ k := fun e => hnd.1 (e ▸ List.mem_map_of_mem Prod.fst hmem)
      have hb : (a == k) = false := by simpa using hne
      simp only [List.lookup_cons, hb]
      exact ih hnd.2 hmem

/-- The back references hold in a memory whose one store passes the check of the half-edge
invariants. -/
theorem World.backReferences_of_closedManifold (w : World Vector3D)
    (m : HalfedgeMesh Vector3D) (hw : w.stores = [m]) (hm : m.closedManifold = true) :
    w.backReferences = true := by
  have hh : ∀ h, w.halfedgeAt h = m.halfedges.lookup h := fun h => by
    simp only [World.halfedgeAt, hw, List.findSome?_cons, List.findSome?_nil]
    cases m.halfedges.lookup h <;> rfl
  have hE : ∀ e, w.edgeAt e = m.edges.lookup e := fun e => by
    simp only [World.edgeAt, hw, List.findSome?_cons, List.findSome?_nil]
    cases m.edges.lookup e <;> rfl
  have hF : ∀ f, w.faceAt f = m.faces.lookup f := fun f => by
    simp only [World.faceAt, hw, List.findSome?_cons, List.findSome?_nil]
    cases m.faces.lookup f <;> rfl
  have hV : ∀ v, w.vertexAt v = m.vertices.lookup v := fun v => by
    simp only [World.vertexAt, hw, List.findSome?_cons, List.findSome?_nil]
    cases m.vertices.lookup v <;> rfl
  unfold HalfedgeMesh.closedManifold at hm
  simp only [Bool.and_eq_true, decide_eq_true_eq, List.all_eq_true] at hm
  obtain ⟨⟨⟨⟨⟨⟨⟨-, nv⟩, ne⟩, nf⟩, -⟩, cv⟩, ce⟩, cf⟩ := hm
  unfold World.backReferences
  simp only [hw, List.all_cons, List.all_nil, Bool.and_true, Bool.and_eq_true,
    List.all_eq_true, decide_eq_true_eq]
  refine ⟨⟨fun p hp => ?_, fun p hp => ?_⟩, fun p hp => ?_⟩
  · have hl := List.lookup_of_mem_of_nodup m.edges ne p.1 p.2 hp
    have := (ce p hp).2
    simp only [World.edgeOf, World.edgeHalfedge, hh, hE, hl, Option.map_some',
      Option.getD_some]
    exact this
  · have hl := List.lookup_of_mem_of_nodup m.faces nf p.1 p.2 hp
    have := (cf p hp).1.2
    simp only [World.faceOf, World.faceHalfedge, hh, hF, hl, Option.map_some',
      Option.getD_some]
    exact this
  · have hl := List.lookup_of_mem_of_nodup m.vertices nv p.1 p.2 hp
    have := (cv p hp).2
    simp only [World.vertexOf, World.vertexHalfedge, hh, hV, hl, Option.map_some',
      Option.getD_some]
    exact this

/-- C3: for a mesh attached to the scene, in a memory whose elements satisfy the back
references of the half-edge structure, and a selected element of a kind the command
accepts, each editing command runs exactly one mesh operator on that element, then sets
`selected.element` to the handle the operator returned (the edge for flip, the new vertex
for split, the surviving vertex for collapse, the surviving face for erase) and clears
`hovered` and the widget target; for an edge, collapse and erase run `collapseEdge` and
`eraseEdge`. -/
theorem C3_commands_run_one_operator (ops : MeshOps Vector3D) (this : Addr)
    (w : World Vector3D) (self : Mesh Vector3D) (hself : w.meshAt this = some self)
    (hattached : self.scene = true) (hinv : w.backReferences = true) :
    (∀ e, w.scene.selected.element = some (.edge e) → (w.edgeAt e).isSome = true →
      w.editedBy (Mesh.flip_selected_edge ops this w) this (.flipEdge e)
          (ops.flipEdge self.mesh e).1 (.edge (ops.flipEdge self.mesh e).2) ∧
        w.editedBy (Mesh.split_selected_edge ops this w) this (.splitEdge e)
          (ops.splitEdge self.mesh e).1 (.vertex (ops.splitEdge self.mesh e).2) ∧
        w.editedBy (Mesh.collapse_selected_element ops this w) this (.collapseEdge e)
          (ops.collapseEdge self.mesh e).1 (.vertex (ops.collapseEdge self.mesh e).2) ∧
        w.editedBy (Mesh.erase_selected_element ops this w) this (.eraseEdge e)
          (ops.eraseEdge self.mesh e).1 (.face (ops.eraseEdge self.mesh e).2)) ∧
    (∀ f, w.scene.selected.element = some (.face f) → (w.faceAt f).isSome = true →
      w.editedBy (Mesh.collapse_selected_element ops this w) this (.collapseFace f)
        (ops.collapseFace self.mesh f).1 (.vertex (ops.collapseFace self.mesh f).2)) ∧
    (∀ v, w.scene.selected.element = some (.vertex v) → (w.vertexAt v).isSome = true →
      w.editedBy (Mesh.erase_selected_element ops this w) this (.eraseVertex v)
        (ops.eraseVertex self.mesh v).1 (.face (ops.eraseVertex self.mesh v).2)) := by
  obtain ⟨be, bf, bv⟩ := w.backReferences_at hinv
  refine ⟨fun e hsel hl => ?_, fun f hsel hl => ?_, fun v hsel hl => ?_⟩
  · have hback := be e hl
    refine ⟨?_, ?_, ?_, ?_⟩
    · have hrun : Mesh.flip_selected_edge ops this w =
          (w.ranOperator this self (ops.flipEdge self.mesh e).1 (.flipEdge e)).selectResult
            (.edge (ops.flipEdge self.mesh e).2) := by
        simp [Mesh.flip_selected_edge, hself, hattached, hsel, HalfedgeElement.getEdge, hback]
      rw [hrun]
      exact w.editedBy_selectResult this self _ _ _ hself
    · have hrun : Mesh.split_selected_edge ops this w =
          (w.ranOperator this self (ops.splitEdge self.mesh e).1 (.splitEdge e)).selectResult
            (.vertex (ops.splitEdge self.mesh e).2) := by
        simp [Mesh.split_selected_edge, hself, hattached, hsel, HalfedgeElement.getEdge, hback]
      rw [hrun]
      exact w.editedBy_selectResult this self _ _ _ hself
    · have hrun : Mesh.collapse_selected_element ops this w =
          (w.ranOperator this self (ops.collapseEdge self.mesh e).1
            (.collapseEdge e)).selectResult (.vertex (ops.collapseEdge self.mesh e).2) := by
        simp [Mesh.collapse_selected_element, hself, hattached, hsel, HalfedgeElement.getEdge,
          hback]
      rw [hrun]
      exact w.editedBy_selectResult this self _ _ _ hself
    · have hrun : Mesh.erase_selected_element ops this w =
          (w.ranOperator this self (ops.eraseEdge self.mesh e).1
            (.eraseEdge e)).selectErased this (ops.eraseEdge self.mesh e).2 := by
        simp [Mesh.erase_selected_element, hself, hattached, hsel, HalfedgeElement.getEdge,
          hback]
      rw [hrun]
      exact w.editedBy_selectErased this self _ _ _ hself
  · have hback := bf f hl
    have hrun : Mesh.collapse_selected_element ops this w =
        (w.ranOperator this self (ops.collapseFace self.mesh f).1
          (.collapseFace f)).selectResult (.vertex (ops.collapseFace self.mesh f).2) := by
      simp [Mesh.collapse_selected_element, hself, hattached, hsel, HalfedgeElement.getEdge,
        HalfedgeElement.getFace, hback]
    rw [hrun]
    exact w.editedBy_selectResult this self _ _ _ hself
  · have hback := bv v hl
    have hrun : Mesh.erase_selected_element ops this w =
        (w.ranOperator this self (ops.eraseVertex self.mesh v).1
          (.eraseVertex v)).selectErased this (ops.eraseVertex self.mesh v).2 := by
      simp [Mesh.erase_selected_element, hself, hattached, hsel, HalfedgeElement.getEdge,
        HalfedgeElement.getVertex, hback]
    rw [hrun]
    exact w.editedBy_selectErased this self _ _ _ hself

/-- C3 at the triangle pillow, whose elements satisfy the back references: a split of
edge 1 and a collapse of face 1. -/
theorem C3_witness :
    (worldWith (meshOver trianglePillow) (some (.edge 1))).backReferences = true ∧
    (worldWith (meshOver trianglePillow) (some (.edge 1))).editedBy
        (Mesh.split_selected_edge tagOps 10
          (worldWith (meshOver trianglePillow) (some (.edge 1))))
        10 (.splitEdge 1) trianglePillow (.vertex 101) ∧
      (worldWith (meshOver trianglePillow) (some (.face 1))).editedBy
        (Mesh.collapse_selected_element tagOps 10
          (worldWith (meshOver trianglePillow) (some (.face 1))))
        10 (.collapseFace 1) trianglePillow (.vertex 101) :=
  ⟨by decide,
   ((C3_commands_run_one_operator tagOps 10
      (worldWith (meshOver trianglePillow) (some (.edge 1))) (meshOver trianglePillow)
      rfl rfl (by decide)).1 1 rfl rfl).2.1,
   (C3_commands_run_one_operator tagOps 10
      (worldWith (meshOver trianglePillow) (some (.face 1))) (meshOver trianglePillow)
      rfl rfl (by decide)).2.1 1 rfl rfl⟩

/-- C4: when the selected element is of the wrong kind for a command (not an edge for
`flip_selected_edge` and `split_selected_edge`, a vertex or half-edge for
`collapse_selected_element`, a face or half-edge for `erase_selected_element`), the command
returns the state as it was: no operator call is logged and the mesh, `selected`, `hovered`
and the widget target are unchanged. -/
theorem C4_wrong_kind_is_a_no_op (ops : MeshOps Vector3D) (this : Addr) (w : World Vector3D)
    (x : HalfedgeElement) (hsel : w.scene.selected.element = some x) :
    (x.getEdge = none →
      Mesh.flip_selected_edge ops this w = w ∧ Mesh.split_selected_edge ops this w = w) ∧
    ((∃ a, x = .vertex a ∨ x = .halfedge a) → Mesh.collapse_selected_element ops this w = w) ∧
    ((∃ a, x = .face a ∨ x = .halfedge a) → Mesh.erase_selected_element ops this w = w) := by
  refine ⟨fun hedge => ⟨?_, ?_⟩, ?_, ?_⟩
  · unfold Mesh.flip_selected_edge
    cases w.meshAt this with
    | none => rfl
    | some self => cases hs : self.scene <;> simp [hsel, hedge]
  · unfold Mesh.split_selected_edge
    cases w.meshAt this with
    | none => rfl
    | some self => cases hs : self.scene <;> simp [hsel, hedge]
  · rintro ⟨a, rfl | rfl⟩ <;>
    · unfold Mesh.collapse_selected_element
      cases w.meshAt this with
      | none => rfl
      | some self =>
        cases hs : self.scene <;>
          simp [hsel, HalfedgeElement.getEdge, HalfedgeElement.getFace]
  · rintro ⟨a, rfl | rfl⟩ <;>
    · unfold Mesh.erase_selected_element
      cases w.meshAt this with
      | none => rfl
      | some self =>
        cases hs : self.scene <;>
          simp [hsel, HalfedgeElement.getEdge, HalfedgeElement.getVertex]

/-- C4 at the triangle pillow with a face selected: flip, split and erase do nothing. -/
theorem C4_witness :
    (Mesh.flip_selected_edge tagOps 10 (worldWith (meshOver trianglePillow) (some (.face 0))) =
        worldWith (meshOver trianglePillow) (some (.face 0)) ∧
      Mesh.split_selected_edge tagOps 10
          (worldWith (meshOver trianglePillow) (some (.face 0))) =
        worldWith (meshOver trianglePillow) (some (.face 0))) ∧
    Mesh.erase_selected_element tagOps 10
        (worldWith (meshOver trianglePillow) (some (.face 0))) =
      worldWith (meshOver trianglePillow) (some (.face 0)) :=
  ⟨(C4_wrong_kind_is_a_no_op tagOps 10 (worldWith (meshOver trianglePillow) (some (.face 0)))
      (.face 0) rfl).1 rfl,
   (C4_wrong_kind_is_a_no_op tagOps 10 (worldWith (meshOver trianglePillow) (some (.face 0)))
      (.face 0) rfl).2.2 ⟨0, Or.inl rfl⟩⟩

end EditingClaims

/-! ## Theorems: the bevel reposition -/

section RepositionLemmas

variable {Vector3D : Type}

/-- An assignment to a position leaves the connectivity as it is. -/
theorem HalfedgeMesh.vertexOf_setPosition (m : HalfedgeMesh Vector3D) (v : Addr)
    (p : Vector3D) : (m.setPosition v p).vertexOf = m.vertexOf := rfl

/-- Running the assignments of the loop on their own result changes nothing: every
assigned value is a stored offset, not a function of the current position. -/
theorem finalPosition_idem (vertexOf : Addr → Addr) (offset : Nat → Vector3D)
    (hs : List Addr) (i : Nat) (a : Addr) (p : Vector3D) :
    finalPosition vertexOf offset hs i a (finalPosition vertexOf offset hs i a p) =
      finalPosition vertexOf offset hs i a p := by
  induction hs generalizing i p with
  | nil => rfl
  | cons h hs ih =>
    simp only [finalPosition]
    by_cases ha : a = vertexOf h
    · simp only [ha, if_true]
    · simp only [ha, if_false]
      exact ih (i + 1) p

/-- The loop, in closed form: connectivity untouched, every vertex at its final position. -/
theorem HalfedgeMesh.repositionLoop_eq (offset : Nat → Vector3D) (hs : List Addr) (i : Nat)
    (m : HalfedgeMesh Vector3D) :
    HalfedgeMesh.repositionLoop offset hs i m =
      { m with
        vertices := m.vertices.map fun r =>
          (r.1, { r.2 with
            position := finalPosition m.vertexOf offset hs i r.1 r.2.position }) } := by
  induction hs generalizing i m with
  | nil =>
    simp only [HalfedgeMesh.repositionLoop, finalPosition]
    have hid : (fun r : Addr × Vertex Vector3D =>
        (r.1, ({ r.2 with position := r.2.position } : Vertex Vector3D))) = id := by
      funext r
      rfl
    rw [hid, List.map_id]
  | cons h hs ih =>
    simp only [HalfedgeMesh.repositionLoop]
    rw [ih (i + 1) (m.setPosition (m.vertexOf h) (offset i)),
      HalfedgeMesh.vertexOf_setPosition]
    simp only [HalfedgeMesh.setPosition, List.map_map]
    congr 1
    apply List.map_congr_left
    intro r _
    simp only [Function.comp, finalPosition]
    by_cases hr : r.1 = m.vertexOf h
    · simp only [hr, if_true]
    · simp only [hr, if_false]

/-- The reposition loop is idempotent. -/
theorem HalfedgeMesh.repositionLoop_idem (offset : Nat → Vector3D) (hs : List Addr) (i : Nat)
    (m : HalfedgeMesh Vector3D) :
    HalfedgeMesh.repositionLoop offset hs i (HalfedgeMesh.repositionLoop offset hs i m) =
      HalfedgeMesh.repositionLoop offset hs i m := by
  rw [HalfedgeMesh.repositionLoop_eq offset hs i (HalfedgeMesh.repositionLoop offset hs i m)]
  rw [HalfedgeMesh.repositionLoop_eq offset hs i m]
  simp only [List.map_map]
  congr 1
  apply List.map_congr_left
  intro r _
  simp only [Function.comp]
  have hv : HalfedgeMesh.vertexOf
      { m with
        vertices := m.vertices.map fun r =>
          (r.1, { r.2 with
            position := finalPosition m.vertexOf offset hs i r.1 r.2.position }) } =
      m.vertexOf := rfl
  rw [hv, finalPosition_idem]

end RepositionLemmas

section BevelClaims

variable {Vector3D : Type}

/-- Overwriting an object twice is overwriting it with the second value. -/
theorem replaceObject_twice (o : Addr) (x y : SceneObject Vector3D)
    (l : List (Addr × SceneObject Vector3D)) :
    replaceObject o y (replaceObject o x l) = replaceObject o y l := by
  induction l with
  | nil => rfl
  | cons p ps ih =>
    by_cases hp : p.1 = o
    · simp [replaceObject, hp]
    · simp [replaceObject, hp, ih]

/-- A second reposition call that returns the store the first one returned changes neither
the objects in memory nor the scene. -/
theorem World.repositioned_twice (w : World Vector3D) (this : Addr) (self : Mesh Vector3D)
    (m : HalfedgeMesh Vector3D) (call : MeshCall) :
    ((w.repositioned this self m call).repositioned this { self with mesh := m } m call).heap =
        (w.repositioned this self m call).heap ∧
      ((w.repositioned this self m call).repositioned this { self with mesh := m } m
          call).scene = (w.repositioned this self m call).scene := by
  refine ⟨?_, rfl⟩
  simp only [World.repositioned, World.ranOperator, World.setMesh]
  exact replaceObject_twice this _ _ w.heap

/-- The mesh object after a reposition call. -/
theorem World.meshAt_repositioned (w : World Vector3D) (this : Addr) (self : Mesh Vector3D)
    (m : HalfedgeMesh Vector3D) (call : MeshCall) (hself : w.meshAt this = some self) :
    (w.repositioned this self m call).meshAt this = some { self with mesh := m } :=
  (World.meshAt_congr (w.repositioned this self m call) (w.ranOperator this self m call)
    this rfl).trans (w.meshAt_ranOperator this self m call hself)

/-- What `_bevel_selection` does for each kind of selected element of an attached mesh:
it passes the stored originals and the stored affected half-edges to the reposition step
of that kind. -/
theorem Mesh._bevel_selection_eq {D : Type} (rep : Reposition Vector3D D) (inset shift : D)
    (this : Addr) (w : World Vector3D) (self : Mesh Vector3D)
    (hself : w.meshAt this = some self) (hattached : self.scene = true) :
    (∀ a, w.scene.selected.element = some (.vertex a) →
      Mesh._bevel_selection rep inset shift this w =
        w.repositioned this self
          (rep.vtx self.mesh self.beveledVertexPos self.bevelVertices inset)
          .bevelVtxReposition) ∧
    (∀ a, w.scene.selected.element = some (.edge a) →
      Mesh._bevel_selection rep inset shift this w =
        w.repositioned this self
          (rep.edge self.mesh self.beveledEdgePos self.bevelVertices inset)
          .bevelEdgeReposition) ∧
    (∀ a, w.scene.selected.element = some (.face a) →
      Mesh._bevel_selection rep inset shift this w =
        w.repositioned this self
          (rep.fc self.mesh self.beveledFacePos self.bevelVertices shift inset)
          .bevelFcReposition) := by
  refine ⟨fun a hsel => ?_, fun a hsel => ?_, fun a hsel => ?_⟩ <;>
    simp [Mesh._bevel_selection, hself, hattached, hsel, HalfedgeElement.getVertex,
      HalfedgeElement.getEdge, HalfedgeElement.getFace]

/-- With reposition steps that are idempotent on the store, a second `_bevel_selection`
with the same amounts changes neither the objects in memory nor the scene. -/
theorem Mesh._bevel_selection_twice {D : Type} (rep : Reposition Vector3D D)
    (inset shift : D) (this : Addr) (w : World Vector3D)
    (hvtx : ∀ m orig hs, rep.vtx (rep.vtx m orig hs inset) orig hs inset =
      rep.vtx m orig hs inset)
    (hedge : ∀ m orig hs, rep.edge (rep.edge m orig hs inset) orig hs inset =
      rep.edge m orig hs inset)
    (hfc : ∀ m orig hs, rep.fc (rep.fc m orig hs shift inset) orig hs shift inset =
      rep.fc m orig hs shift inset) :
    (Mesh._bevel_selection rep inset shift this
        (Mesh._bevel_selection rep inset shift this w)).heap =
      (Mesh._bevel_selection rep inset shift this w).heap ∧
    (Mesh._bevel_selection rep inset shift this
        (Mesh._bevel_selection rep inset shift this w)).scene =
      (Mesh._bevel_selection rep inset shift this w).scene := by
  have hnoop : Mesh._bevel_selection rep inset shift this w = w →
      (Mesh._bevel_selection rep inset shift this
          (Mesh._bevel_selection rep inset shift this w)).heap =
        (Mesh._bevel_selection rep inset shift this w).heap ∧
      (Mesh._bevel_selection rep inset shift this
          (Mesh._bevel_selection rep inset shift this w)).scene =
        (Mesh._bevel_selection rep inset shift this w).scene := by
    intro h
    rw [h, h]
    exact ⟨rfl, rfl⟩
  cases hself : w.meshAt this with
  | none => exact hnoop (by simp [Mesh._bevel_selection, hself])
  | some self =>
    cases hs : self.scene with
    | false => exact hnoop (by simp [Mesh._bevel_selection, hself, hs])
    | true =>
      cases hsel : w.scene.selected.element with
      | none => exact hnoop (by simp [Mesh._bevel_selection, hself, hs, hsel])
      | some x =>
        obtain ⟨hv, he, hf⟩ := Mesh._bevel_selection_eq rep inset shift this w self hself hs
        cases x with
        | halfedge a =>
          exact hnoop (by
            simp [Mesh._bevel_selection, hself, hs, hsel, HalfedgeElement.getVertex,
              HalfedgeElement.getEdge, HalfedgeElement.getFace])
        | vertex a =>
          rw [hv a hsel]
          have hm := w.meshAt_repositioned this self
            (rep.vtx self.mesh self.beveledVertexPos self.bevelVertices inset)
            .bevelVtxReposition hself
          rw [(Mesh._bevel_selection_eq rep inset shift this _ _ hm hs).1 a hsel]
          simp only [hvtx]
          exact World.repositioned_twice w this self _ _
        | edge a =>
          rw [he a hsel]
          have hm := w.meshAt_repositioned this self
            (rep.edge self.mesh self.beveledEdgePos self.bevelVertices inset)
            .bevelEdgeReposition hself
          rw [(Mesh._bevel_selection_eq rep inset shift this _ _ hm hs).2.1 a hsel]
          simp only [hedge]
          exact World.repositioned_twice w this self _ _
        | face a =>
          rw [hf a hsel]
          have hm := w.meshAt_repositioned this self
            (rep.fc self.mesh self.beveledFacePos self.bevelVertices shift inset)
            .bevelFcReposition hself
          rw [(Mesh._bevel_selection_eq rep inset shift this _ _ hm hs).2.2 a hsel]
          simp only [hfc]
          exact World.repositioned_twice w this self _ _

/-- C10: with the reposition steps of the specification, for every selected element,
every pair of amounts and every state, a second call of `_bevel_selection` with the same
arguments leaves the objects in memory, hence every vertex position, and the scene as the
first call left them; and for an attached mesh each call passes the stored
`beveledVertexPos`, `beveledEdgePos` or `beveledFacePos` together with `bevelVertices` to
the reposition step of the selected kind and leaves these stored data as they were. -/
theorem C10_bevel_selection_is_idempotent {D : Type}
    (offV : Vector3D → List Addr → D → Nat → Vector3D)
    (offE : List Vector3D → List Addr → D → Nat → Vector3D)
    (offF : List Vector3D → List Addr → D → D → Nat → Vector3D)
    (inset shift : D) (this : Addr) (w : World Vector3D) :
    ((Mesh._bevel_selection (specReposition offV offE offF) inset shift this
          (Mesh._bevel_selection (specReposition offV offE offF) inset shift this w)).heap =
        (Mesh._bevel_selection (specReposition offV offE offF) inset shift this w).heap ∧
      (Mesh._bevel_selection (specReposition offV offE offF) inset shift this
          (Mesh._bevel_selection (specReposition offV offE offF) inset shift this
            w)).positions =
        (Mesh._bevel_selection (specReposition offV offE offF) inset shift this w).positions ∧
      (Mesh._bevel_selection (specReposition offV offE offF) inset shift this
          (Mesh._bevel_selection (specReposition offV offE offF) inset shift this w)).scene =
        (Mesh._bevel_selection (specReposition offV offE offF) inset shift this w).scene) ∧
    (∀ (rep : Reposition Vector3D D) (self : Mesh Vector3D),
      w.meshAt this = some self → self.scene = true →
      (∀ a, w.scene.selected.element = some (.vertex a) →
        (Mesh._bevel_selection rep inset shift this w).meshAt this =
          some { self with
            mesh := rep.vtx self.mesh self.beveledVertexPos self.bevelVertices inset }) ∧
      (∀ a, w.scene.selected.element = some (.edge a) →
        (Mesh._bevel_selection rep inset shift this w).meshAt this =
          some { self with
            mesh := rep.edge self.mesh self.beveledEdgePos self.bevelVertices inset }) ∧
      (∀ a, w.scene.selected.element = some (.face a) →
        (Mesh._bevel_selection rep inset shift this w).meshAt this =
          some { self with
            mesh := rep.fc self.mesh self.beveledFacePos self.bevelVertices shift inset })) := by
  have htwice := Mesh._bevel_selection_twice (specReposition offV offE offF) inset shift this w
    (fun m orig hs => HalfedgeMesh.repositionLoop_idem (offV orig hs inset) hs 0 m)
    (fun m orig hs => HalfedgeMesh.repositionLoop_idem (offE orig hs inset) hs 0 m)
    (fun m orig hs => HalfedgeMesh.repositionLoop_idem (offF orig hs shift inset) hs 0 m)
  refine ⟨⟨htwice.1, ?_, htwice.2⟩, fun rep self hself hattached => ?_⟩
  · simp only [World.positions, World.stores, htwice.1]
  · obtain ⟨hv, he, hf⟩ :=
      Mesh._bevel_selection_eq rep inset shift this w self hself hattached
    refine ⟨fun a hsel => ?_, fun a hsel => ?_, fun a hsel => ?_⟩
    · rw [hv a hsel]
      exact w.meshAt_repositioned this self _ _ hself
    · rw [he a hsel]
      exact w.meshAt_repositioned this self _ _ hself
    · rw [hf a hsel]
      exact w.meshAt_repositioned this self _ _ hself

/-- C10 at the triangle pillow with a vertex bevel in progress: the positions after one
call, and the arguments the call passes on. -/
theorem C10_witness :
    (Mesh._bevel_selection (specReposition offsetAlongX offsetEdge offsetFace) 7 0 10
        (worldWith bevelledMesh (some (.vertex 0)))).positions =
      [(0, (12, 0, 0)), (1, (12, 1, 0)), (2, (12, 2, 0))] ∧
    (Mesh._bevel_selection (specReposition offsetAlongX offsetEdge offsetFace) 7 0 10
        (worldWith bevelledMesh (some (.vertex 0)))).meshAt 10 =
      some { bevelledMesh with
        mesh := (specReposition offsetAlongX offsetEdge offsetFace).vtx trianglePillow
          (5, 5, 5) [0, 1, 2] 7 } :=
  ⟨by decide,
   ((C10_bevel_selection_is_idempotent offsetAlongX offsetEdge offsetFace 7 0 10
      (worldWith bevelledMesh (some (.vertex 0)))).2
      (specReposition offsetAlongX offsetEdge offsetFace) bevelledMesh rfl rfl).1 0 rfl⟩

/-- The idempotence is a property of the reposition step: with a step that moves the
vertices from their current positions, a second `_bevel_selection` moves them again. -/
theorem Mesh._bevel_selection_accumulates_with_drift :
    (Mesh._bevel_selection driftReposition 7 0 10
        (Mesh._bevel_selection driftReposition 7 0 10
          (worldWith bevelledMesh (some (.vertex 0))))).positions ≠
      (Mesh._bevel_selection driftReposition 7 0 10
        (worldWith bevelledMesh (some (.vertex 0)))).positions := by
  decide

end BevelClaims

/-! ## Theorems: bevel guard, picking lookup, remeshing commands, file buffers -/

section SceneClaims

variable {Vector3D : Type}

/-- C12: `Scene::bevel_selected_element` changes nothing when `edited.element` equals
`selected.element`, and for every state two calls in a row give the same state (mesh and
selections) as one call, because a bevel ends with `edited = selected`. -/
theorem C12_bevel_is_not_repeated [Inhabited Vector3D] (ops : MeshOps Vector3D)
    (w : World Vector3D) :
    (w.scene.edited.element = w.scene.selected.element →
      Scene.bevel_selected_element ops w = w) ∧
    Scene.bevel_selected_element ops (Scene.bevel_selected_element ops w) =
      Scene.bevel_selected_element ops w := by
  have hguard : ∀ w0 : World Vector3D, w0.scene.edited.element = w0.scene.selected.element →
      Scene.bevel_selected_element ops w0 = w0 := by
    intro w0 h
    simp [Scene.bevel_selected_element, h]
  refine ⟨hguard w, ?_⟩
  by_cases heq : w.scene.edited.element = w.scene.selected.element
  · rw [hguard w heq, hguard w heq]
  · cases hobj : w.scene.selected.object with
    | none =>
      have h1 : Scene.bevel_selected_element ops w = w := by
        simp [Scene.bevel_selected_element, heq, hobj]
      rw [h1, h1]
    | some o =>
      cases hm : w.meshAt o with
      | none =>
        have h1 : Scene.bevel_selected_element ops w = w := by
          simp [Scene.bevel_selected_element, heq, hobj, hm]
        rw [h1, h1]
      | some self =>
        have h1 : Scene.bevel_selected_element ops w =
            { Mesh.bevel_selected_element ops o w with
              scene :=
                { (Mesh.bevel_selected_element ops o w).scene with
                  edited := (Mesh.bevel_selected_element ops o w).scene.selected } } := by
          simp [Scene.bevel_selected_element, heq, hobj, hm]
        rw [h1]
        exact hguard _ rfl

/-- C12 on the quad pillow with edge 1 selected and nothing edited: the first call bevels
(the stored data change), the second call changes nothing more. -/
theorem C12_witness :
    Scene.bevel_selected_element faceOneOps
        (worldWith (meshOver quadPillow) (some (.edge 1))) ≠
      worldWith (meshOver quadPillow) (some (.edge 1)) ∧
    Scene.bevel_selected_element faceOneOps
        (Scene.bevel_selected_element faceOneOps
          (worldWith (meshOver quadPillow) (some (.edge 1)))) =
      Scene.bevel_selected_element faceOneOps
        (worldWith (meshOver quadPillow) (some (.edge 1))) :=
  ⟨by decide,
   (C12_bevel_is_not_repeated faceOneOps (worldWith (meshOver quadPillow) (some (.edge 1)))).2⟩

/-- C14: `Mesh::setSelection( pickID, selection )`: when `pickID` is registered in
`idToElement`, which holds what the last `draw_pick` of the mesh registered, the selection
becomes this mesh with the element registered under `pickID`; for every other `pickID` the
selection is left as it was. -/
theorem C14_setSelection (self : Mesh Vector3D) (this : Addr) (pickID : Int)
    (selection : Selection) :
    (∀ e, self.idToElement.lookup pickID = some e →
      Mesh.setSelection self this pickID selection =
        { object := some this, element := some e }) ∧
    (self.idToElement.lookup pickID = none →
      Mesh.setSelection self this pickID selection = selection) := by
  constructor
  · intro e he
    simp [Mesh.setSelection, he]
  · intro hnone
    simp [Mesh.setSelection, hnone]

/-- C14 on the triangle pillow after a `draw_pick` from ID 5: ID 6 selects face 0, ID 4
leaves the selection as it was. -/
theorem C14_witness :
    (Mesh.draw_pick 10 5 twoMeshes).1.meshAt 10 = some drawnPillow ∧
    Mesh.setSelection drawnPillow 10 6 noSelection =
      { object := some 10, element := some (.face 0) } ∧
    Mesh.setSelection drawnPillow 10 4 noSelection = noSelection :=
  ⟨by decide!, (C14_setSelection drawnPillow 10 6 noSelection).1 (.face 0) (by decide!),
    (C14_setSelection drawnPillow 10 4 noSelection).2 (by decide!)⟩

/-- The guard of the three resampling commands: with no selected object or no selected
element they return the state as it was. -/
theorem Scene.remeshSelected_nothing_selected
    (run : Addr → World Vector3D → Outcome (World Vector3D)) (w : World Vector3D)
    (h : w.scene.selected.object = none ∨ w.scene.selected.element = none) :
    Scene.remeshSelected run w = .done w := by
  unfold Scene.remeshSelected
  rcases h with h | h
  · simp [h]
  · cases hobj : w.scene.selected.object <;> simp [h]

/-- What `clearSelections` leaves: the three selections and the widget target cleared. -/
theorem Scene.clearSelections_cleared (w : World Vector3D) :
    (Scene.clearSelections w).scene.hovered = { object := none, element := none } ∧
    (Scene.clearSelections w).scene.selected = { object := none, element := none } ∧
    (Scene.clearSelections w).scene.edited = { object := none, element := none } ∧
    (Scene.clearSelections w).scene.elementTransform.target =
      { object := none, element := none } :=
  ⟨rfl, rfl, rfl, rfl⟩

/-- The three resampling commands on a selected mesh that has its scene pointer, and
`triangulateSelection` on a selected mesh: they end normally with all selections and the
widget target cleared; with nothing selected the resampling commands change nothing. -/
theorem Scene.remesh_clears_attached (ops : MeshOps Vector3D) (w : World Vector3D)
    (o : Addr) (x : HalfedgeElement) (self : Mesh Vector3D)
    (hobj : w.scene.selected.object = some o) (hsel : w.scene.selected.element = some x)
    (hself : w.meshAt o = some self) (hattached : self.scene = true) :
    (∃ w1, Scene.upsample_selected_mesh ops w = .done (Scene.clearSelections w1)) ∧
    (∃ w1, Scene.downsample_selected_mesh ops w = .done (Scene.clearSelections w1)) ∧
    (∃ w1, Scene.resample_selected_mesh ops w = .done (Scene.clearSelections w1)) ∧
    (∃ w1, Scene.triangulateSelection ops w = Scene.clearSelections w1) := by
  refine ⟨?_, ?_, ?_, ?_⟩
  · by_cases htri : Mesh.allTriangles w self.mesh.faces = false
    · exact ⟨w, by
        simp [Scene.upsample_selected_mesh, Scene.remeshSelected, hobj, hsel, hself,
          Mesh.upsample, htri]⟩
    · exact ⟨_, by
        simp [Scene.upsample_selected_mesh, Scene.remeshSelected, hobj, hsel, hself,
          Mesh.upsample, htri, hattached]
        rfl⟩
  · exact ⟨_, by
      simp [Scene.downsample_selected_mesh, Scene.remeshSelected, hobj, hsel, hself,
        Mesh.downsample, hattached]
      rfl⟩
  · exact ⟨_, by
      simp [Scene.resample_selected_mesh, Scene.remeshSelected, hobj, hsel, hself,
        Mesh.resample, hattached]
      rfl⟩
  · exact ⟨_, by
      simp [Scene.triangulateSelection, hobj, hself]
      rfl⟩

/-- C17: the global remeshing commands leave no selection behind. With an object and an
element selected, the object being anything but a mesh without its scene pointer, which
the `Scene` constructor sets for every object, `upsample_selected_mesh`,
`downsample_selected_mesh` and `resample_selected_mesh` end normally with `hovered`,
`selected`, `edited` and the widget target cleared; so does `triangulateSelection` when the
selected object is a mesh; and with no object or no element selected the three resampling
commands change nothing. -/
theorem C17_remeshing_leaves_no_selection (ops : MeshOps Vector3D) (w : World Vector3D) :
    (∀ o x, w.scene.selected.object = some o → w.scene.selected.element = some x →
      (∀ self, w.meshAt o = some self → self.scene = true) →
      (∃ w1, Scene.upsample_selected_mesh ops w = .done w1 ∧ w1.selectionsCleared) ∧
      (∃ w1, Scene.downsample_selected_mesh ops w = .done w1 ∧ w1.selectionsCleared) ∧
      (∃ w1, Scene.resample_selected_mesh ops w = .done w1 ∧ w1.selectionsCleared)) ∧
    (∀ o self, w.scene.selected.object = some o → w.meshAt o = some self →
      (Scene.triangulateSelection ops w).selectionsCleared) ∧
    (w.scene.selected.object = none ∨ w.scene.selected.element = none →
      Scene.upsample_selected_mesh ops w = .done w ∧
      Scene.downsample_selected_mesh ops w = .done w ∧
      Scene.resample_selected_mesh ops w = .done w) := by
  have hclear : ∀ w1 : World Vector3D, (Scene.clearSelections w1).selectionsCleared :=
    fun w1 => ⟨rfl, rfl, rfl, rfl⟩
  refine ⟨fun o x hobj hsel hatt => ?_, fun o self hobj hself => ?_, fun hnone => ?_⟩
  · cases hself : w.meshAt o with
    | none =>
      refine ⟨⟨_, ?_, hclear w⟩, ⟨_, ?_, hclear w⟩, ⟨_, ?_, hclear w⟩⟩ <;>
        simp [Scene.upsample_selected_mesh, Scene.downsample_selected_mesh,
          Scene.resample_selected_mesh, Scene.remeshSelected, hobj, hsel, hself]
    | some self =>
      obtain ⟨⟨w1, h1⟩, ⟨w2, h2⟩, ⟨w3, h3⟩, -⟩ :=
        Scene.remesh_clears_attached ops w o x self hobj hsel hself (hatt self hself)
      exact ⟨⟨_, h1, hclear w1⟩, ⟨_, h2, hclear w2⟩, ⟨_, h3, hclear w3⟩⟩
  · simp only [Scene.triangulateSelection, hobj, hself]
    exact hclear _
  · exact ⟨Scene.remeshSelected_nothing_selected _ w hnone,
      Scene.remeshSelected_nothing_selected _ w hnone,
      Scene.remeshSelected_nothing_selected _ w hnone⟩

/-- C17 on the triangle pillow with its face 0 selected, hovered and the target of the
widget: after `upsample_selected_mesh` the resampler has run once and no selection is
left. -/
theorem C17_witness :
    (worldWith (meshOver trianglePillow) (some (.face 0))).scene.selected =
      { object := some 10, element := some (.face 0) } ∧
    ∃ w1, Scene.upsample_selected_mesh tagOps
        (worldWith (meshOver trianglePillow) (some (.face 0))) = .done w1 ∧
      w1.selectionsCleared :=
  ⟨rfl,
    ((C17_remeshing_leaves_no_selection tagOps
      (worldWith (meshOver trianglePillow) (some (.face 0)))).1 10 (.face 0) rfl rfl
      (fun self hself => by
        have : self = meshOver trianglePillow := (Option.some.inj hself).symm
        rw [this]
        rfl)).1⟩

end SceneClaims

section FileBufferClaims

set_option maxHeartbeats 1000000 in
/-- A key with index `d` is the digit `d`. -/
theorem Application.keyIndex_digit (c : Int) (d : Nat) (h : Application.keyIndex c = some d) :
    c = 48 + (d : Int) ∧ d ≤ 9 := by
  unfold Application.keyIndex at h
  split_ifs at h <;> simp only [Option.some.injEq, reduceCtorEq] at h <;> omega

set_option maxHeartbeats 1000000 in
/-- The digit `d` is a key with index `d`. -/
theorem Application.keyIndex_of_digit (c : Int) (d : Nat) :
    c = 48 + (d : Int) → d ≤ 9 → Application.keyIndex c = some d := by
  unfold Application.keyIndex
  split_ifs <;> intro hc hd <;>
    first | (simp only [Option.some.injEq]; omega) | (exfalso; omega)

/-- The keys with an index are exactly the digits: key `c` has index `d` if and only if
`c` is 48, the code of the character '0', plus `d`, with `d` at most 9. -/
theorem Application.keyIndex_eq_some (c : Int) (d : Nat) :
    Application.keyIndex c = some d ↔ c = 48 + (d : Int) ∧ d ≤ 9 :=
  ⟨Application.keyIndex_digit c d, fun h => Application.keyIndex_of_digit c d h.1 h.2⟩

/-- The index of a digit is written with the character of the digit. -/
theorem toString_digit (d : Nat) (hd : d ≤ 9) :
    toString d = String.singleton (Char.ofNat (48 + d)) := by
  interval_cases d <;> rfl

/-- C18: `Application::executeFileOp( c )` does nothing when neither flag is set; when a
flag is set and `c` is not one of the keys '0' to '9', whose codes are 48 to 57, it makes no
file operation and clears both flags; when `c` is the key of the digit `d` it makes exactly
one operation on the file `Scotty3D_buffer<d>.dae`, the name with the character of the
digit in it, a write when `readyWrite` is set and otherwise a load, and clears both flags.
On return both flags are false. -/
theorem C18_executeFileOp {σ : Type} (writeScene loadScene : String → σ → σ) (c : Int)
    (app : Application σ) :
    (app.readyWrite = false → app.readyLoad = false →
      Application.executeFileOp writeScene loadScene c app = app) ∧
    (app.readyWrite = true ∨ app.readyLoad = true → c < 48 ∨ 57 < c →
      (Application.executeFileOp writeScene loadScene c app).fileOps = app.fileOps ∧
      (Application.executeFileOp writeScene loadScene c app).rest = app.rest) ∧
    (∀ d : Nat, app.readyWrite = true ∨ app.readyLoad = true → d ≤ 9 → c = 48 + (d : Int) →
      (Application.executeFileOp writeScene loadScene c app).fileOps =
        app.fileOps ++
          [if app.readyWrite = true then
              FileOp.write
                ("Scotty3D_buffer" ++ String.singleton (Char.ofNat (48 + d)) ++ ".dae")
            else
              FileOp.load
                ("Scotty3D_buffer" ++ String.singleton (Char.ofNat (48 + d)) ++ ".dae")] ∧
      (Application.executeFileOp writeScene loadScene c app).rest =
        (if app.readyWrite = true then
            writeScene ("Scotty3D_buffer" ++ String.singleton (Char.ofNat (48 + d)) ++ ".dae")
              app.rest
          else
            loadScene ("Scotty3D_buffer" ++ String.singleton (Char.ofNat (48 + d)) ++ ".dae")
              app.rest)) ∧
    ((Application.executeFileOp writeScene loadScene c app).readyWrite = false ∧
      (Application.executeFileOp writeScene loadScene c app).readyLoad = false) := by
  refine ⟨?_, ?_, ?_, ?_⟩
  · obtain ⟨rw, rl, rest, ops⟩ := app
    intro h1 h2
    simp only at h1 h2
    subst h1
    subst h2
    simp [Application.executeFileOp]
  · intro hflag hc
    have hk : Application.keyIndex c = none := by
      cases hk : Application.keyIndex c with
      | none => rfl
      | some d =>
        have := Application.keyIndex_digit c d hk
        omega
    obtain ⟨rw, rl, rest, ops⟩ := app
    cases rw <;> cases rl <;> simp [Application.executeFileOp, hk]
  · intro d hflag hd hc
    have hk := Application.keyIndex_of_digit c d hc hd
    have hname : Application.bufferName d =
        "Scotty3D_buffer" ++ String.singleton (Char.ofNat (48 + d)) ++ ".dae" := by
      rw [Application.bufferName, toString_digit d hd]
    rw [← hname]
    obtain ⟨rw, rl, rest, ops⟩ := app
    cases rw <;> cases rl <;> simp [Application.executeFileOp, hk] at hflag ⊢
  · obtain ⟨rw, rl, rest, ops⟩ := app
    cases rw <;> cases rl <;> cases hk : Application.keyIndex c <;>
      simp [Application.executeFileOp, hk]

/-- C18 at the key '3', whose code is 51, with a write queued: one write to
`Scotty3D_buffer3.dae`; at the key 'x', nothing but the flags. -/
theorem C18_witness :
    ('3'.toNat = 51 ∧ 'x'.toNat = 120) ∧
    (Application.executeFileOp (fun _ s => s) (fun _ s => s) 51 writeQueued).fileOps =
      [FileOp.write "Scotty3D_buffer3.dae"] ∧
    (Application.executeFileOp (fun _ s => s) (fun _ s => s) 120 writeQueued).fileOps = [] ∧
    (Application.executeFileOp (fun _ s => s) (fun _ s => s) 120 writeQueued).readyWrite =
      false :=
  ⟨⟨rfl, rfl⟩,
   ((C18_executeFileOp (fun _ s => s) (fun _ s => s) 51 writeQueued).2.2.1 3
      (Or.inl rfl) (by decide) rfl).1,
   ((C18_executeFileOp (fun _ s => s) (fun _ s => s) 120 writeQueued).2.1
      (Or.inl rfl) (by decide)).1,
   (C18_executeFileOp (fun _ s => s) (fun _ s => s) 120 writeQueued).2.2.2.1⟩

end FileBufferClaims


section WalkLemmas

variable {Vector3D : Type}

/-- A degree loop that returns a degree has counted the half-edges of the walk. -/
theorem World.degreeLoop_eq_walk_length (w : World Vector3D) (start : Addr) (fuel : Nat)
    (h : Addr) (d : Nat) (hpos : 0 < w.degreeLoop start fuel h d) :
    w.degreeLoop start fuel h d = d + (w.walk start fuel h).length := by
  induction fuel generalizing h d with
  | zero => simp [World.degreeLoop] at hpos
  | succ fuel ih =>
    by_cases hn : w.next h = start
    · simp [World.degreeLoop, World.walk, hn]
    · simp only [World.degreeLoop, hn, if_false] at hpos
      simp only [World.degreeLoop, World.walk, hn, if_false, List.length_cons]
      rw [ih (w.next h) (d + 1) hpos]
      omega

/-- The `i`-th half-edge of a walk is the `i`-th `next` of its first. -/
theorem World.walk_getElem? (w : World Vector3D) (start : Addr) (fuel : Nat) (h : Addr)
    (i : Nat) (hi : i < (w.walk start fuel h).length) :
    (w.walk start fuel h)[i]? = some (w.next^[i] h) := by
  induction fuel generalizing h i with
  | zero => simp [World.walk] at hi
  | succ fuel ih =>
    cases i with
    | zero => simp [World.walk]
    | succ i =>
      by_cases hn : w.next h = start
      · simp [World.walk, hn] at hi
      · simp only [World.walk, hn, if_false, List.length_cons] at hi
        simp only [World.walk, hn, if_false, List.getElem?_cons_succ, Function.iterate_succ,
          Function.comp]
        exact ih (w.next h) i (by omega)

/-- The walk around a face of degree `d`, for `d` positive, has `d` half-edges. -/
theorem World.faceWalk_length (w : World Vector3D) (f : Face) (hpos : 0 < w.degree f) :
    (w.faceWalk f.halfedge).length = w.degree f := by
  have := w.degreeLoop_eq_walk_length f.halfedge w.halfedgeCount f.halfedge 0 hpos
  simp only [World.degree, World.faceWalk]
  omega

end WalkLemmas

section StoreLemmas

variable {Vector3D : Type}

/-- Overwriting a mesh object by one with the same store leaves the stores in memory as
they are. -/
theorem replaceObject_stores (o : Addr) (cur m : Mesh Vector3D)
    (l : List (Addr × SceneObject Vector3D)) (hcur : l.lookup o = some (.mesh cur))
    (hm : m.mesh = cur.mesh) :
    ((replaceObject o (SceneObject.mesh m) l).filterMap fun p =>
        match p.2 with
        | .mesh x => some x.mesh
        | .other => none) =
      l.filterMap fun p =>
        match p.2 with
        | .mesh x => some x.mesh
        | .other => none := by
  induction l with
  | nil => rfl
  | cons p ps ih =>
    obtain ⟨k, v⟩ := p
    by_cases hk : k = o
    · subst hk
      simp only [List.lookup_cons, beq_self_eq_true, Option.some.injEq] at hcur
      subst hcur
      simp [replaceObject, List.filterMap_cons, hm]
    · have hne : (o == k) = false := by
        simp only [beq_eq_false_iff_ne, ne_eq]
        exact fun hok => hk hok.symm
      simp only [List.lookup_cons, hne] at hcur
      simp [replaceObject, hk, List.filterMap_cons, ih hcur]

theorem World.lookup_of_meshAt (w : World Vector3D) (o : Addr) (self : Mesh Vector3D)
    (h : w.meshAt o = some self) : w.heap.lookup o = some (.mesh self) := by
  unfold World.meshAt at h
  split at h
  · rename_i m0 hm0
    simp only [Option.some.injEq] at h
    rw [hm0, h]
  · simp at h

/-- An assignment to members of a mesh object other than its store leaves the stores in
memory as they are. -/
theorem World.stores_setMesh (w : World Vector3D) (o : Addr) (cur m : Mesh Vector3D)
    (hcur : w.meshAt o = some cur) (hm : m.mesh = cur.mesh) :
    (w.setMesh o m).stores = w.stores :=
  replaceObject_stores o cur m w.heap (w.lookup_of_meshAt o cur hcur) hm

/-- An assignment to one object leaves the objects at other addresses as they are. -/
theorem World.meshAt_setMesh_of_ne (w : World Vector3D) (o o1 : Addr) (m : Mesh Vector3D)
    (hne : o1 ≠ o) : (w.setMesh o m).meshAt o1 = w.meshAt o1 := by
  have hl : ∀ l : List (Addr × SceneObject Vector3D),
      (replaceObject o (SceneObject.mesh m) l).lookup o1 = l.lookup o1 := by
    intro l
    induction l with
    | nil => rfl
    | cons p ps ih =>
      obtain ⟨k, v⟩ := p
      by_cases hk : k = o
      · subst hk
        have : (o1 == k) = false := by simpa using hne
        simp [replaceObject, List.lookup_cons, this]
      · simp [replaceObject, hk, List.lookup_cons, ih]
  simp only [World.meshAt, World.setMesh, hl]

/-- The accessors read the stores only. -/
theorem World.access_congr (w1 w2 : World Vector3D) (h : w1.stores = w2.stores) :
    w1.next = w2.next ∧ w1.twin = w2.twin ∧ w1.vertexOf = w2.vertexOf ∧
      w1.edgeOf = w2.edgeOf ∧ w1.faceOf = w2.faceOf ∧ w1.faceHalfedge = w2.faceHalfedge ∧
      w1.faceAt = w2.faceAt ∧ w1.vertexAt = w2.vertexAt ∧
      w1.halfedgeCount = w2.halfedgeCount := by
  refine ⟨?_, ?_, ?_, ?_, ?_, ?_, ?_, ?_, ?_⟩ <;>
    first
      | (funext a
         simp only [World.next, World.twin, World.vertexOf, World.edgeOf, World.faceOf,
           World.faceHalfedge, World.halfedgeAt, World.faceAt, World.vertexAt, h])
      | simp only [World.halfedgeCount, h]

end StoreLemmas

section BevelRecordLemmas

variable {Vector3D : Type}

theorem World.walk_congr (w1 w2 : World Vector3D) (h : w1.stores = w2.stores) :
    w1.walk = w2.walk := by
  have hn := (World.access_congr w1 w2 h).1
  funext start fuel a
  induction fuel generalizing a with
  | zero => rfl
  | succ fuel ih => simp only [World.walk, hn, ih]

theorem World.degree_congr (w1 w2 : World Vector3D) (h : w1.stores = w2.stores) :
    w1.degree = w2.degree := by
  have hn := (World.access_congr w1 w2 h).1
  have hc := (World.access_congr w1 w2 h).2.2.2.2.2.2.2.2
  have hl : ∀ start fuel a d, w1.degreeLoop start fuel a d = w2.degreeLoop start fuel a d := by
    intro start fuel
    induction fuel with
    | zero => intro a d; rfl
    | succ fuel ih => intro a d; simp only [World.degreeLoop, hn, ih]
  funext f
  simp only [World.degree, hl, hc]

theorem World.positionOf_congr [Inhabited Vector3D] (w1 w2 : World Vector3D)
    (h : w1.stores = w2.stores) : w1.positionOf = w2.positionOf := by
  funext v
  simp only [World.positionOf, World.vertexAt, h]

/-- The first loop of the bevel, in closed form: one position per half-edge of the walk. -/
theorem Mesh.recordFacePositions_eq [Inhabited Vector3D] (w : World Vector3D) (start : Addr)
    (fuel : Nat) (h : Addr) (acc : List Vector3D) :
    Mesh.recordFacePositions w start fuel h acc =
      acc ++ (w.walk start fuel h).map fun t => w.positionOf (w.vertexOf t) := by
  induction fuel generalizing h acc with
  | zero => simp [Mesh.recordFacePositions, World.walk]
  | succ fuel ih =>
    by_cases hn : w.next h = start
    · simp [Mesh.recordFacePositions, World.walk, hn]
    · simp [Mesh.recordFacePositions, World.walk, hn, ih]

/-- The second loop of the bevel, in closed form: one half-edge `h->twin()->next()` per
half-edge `h` of the walk and, for an edge bevel, one position. -/
theorem Mesh.recordBevelLoop_eq [Inhabited Vector3D] (w : World Vector3D) (isEdge : Bool)
    (start : Addr) (fuel : Nat) (h : Addr) (acc : List Addr × List Vector3D) :
    Mesh.recordBevelLoop w isEdge start fuel h acc =
      (acc.1 ++ (w.walk start fuel h).map fun t => w.next (w.twin t),
        if isEdge then acc.2 ++ (w.walk start fuel h).map fun t => w.positionOf (w.vertexOf t)
        else acc.2) := by
  induction fuel generalizing h acc with
  | zero => cases isEdge <;> simp [Mesh.recordBevelLoop, World.walk]
  | succ fuel ih =>
    by_cases hn : w.next h = start
    · cases isEdge <;> simp [Mesh.recordBevelLoop, World.walk, hn]
    · cases isEdge <;> simp [Mesh.recordBevelLoop, World.walk, hn, ih]

/-- The tail of the bevel changes the stored bevel data of the mesh object and nothing in
the stores. -/
theorem Mesh.recordBevel_spec [Inhabited Vector3D] (this : Addr) (cur self : Mesh Vector3D)
    (isEdge : Bool) (newf : Addr) (w : World Vector3D) (hcur : w.meshAt this = some cur)
    (hm : self.mesh = cur.mesh) :
    (Mesh.recordBevel this self isEdge newf w).meshAt this =
        some { self with
          bevelVertices := (w.faceWalk (w.faceHalfedge newf)).map fun t => w.next (w.twin t)
          beveledEdgePos :=
            if isEdge then
              (w.faceWalk (w.faceHalfedge newf)).map fun t => w.positionOf (w.vertexOf t)
            else [] } ∧
      (Mesh.recordBevel this self isEdge newf w).stores = w.stores := by
  constructor
  · have h1 := w.meshAt_setMesh this cur
      { self with
        bevelVertices := (w.faceWalk (w.faceHalfedge newf)).map fun t => w.next (w.twin t)
        beveledEdgePos :=
          if isEdge then
            (w.faceWalk (w.faceHalfedge newf)).map fun t => w.positionOf (w.vertexOf t)
          else [] } hcur
    rw [← h1]
    apply World.meshAt_congr
    simp only [Mesh.recordBevel, Mesh.recordBevelLoop_eq, World.faceWalk, List.nil_append]
  · have h2 := w.stores_setMesh this cur
      { self with
        bevelVertices := (Mesh.recordBevelLoop w isEdge (w.faceHalfedge newf) w.halfedgeCount
          (w.faceHalfedge newf) ([], [])).1
        beveledEdgePos := (Mesh.recordBevelLoop w isEdge (w.faceHalfedge newf)
          w.halfedgeCount (w.faceHalfedge newf) ([], [])).2 } hcur hm
    rw [← h2]
    rfl

end BevelRecordLemmas

section BevelClaims2

variable {Vector3D : Type}

theorem World.meshAt_selectResult (w : World Vector3D) (x : HalfedgeElement) (o : Addr) :
    (w.selectResult x).meshAt o = w.meshAt o := rfl

/-- After an operator call that also stores new members of the mesh object, the object
holds these members and the store the operator returned. -/
theorem World.meshAt_ranOperator_any (w : World Vector3D) (this : Addr)
    (cur s : Mesh Vector3D) (m : HalfedgeMesh Vector3D) (call : MeshCall)
    (hcur : w.meshAt this = some cur) :
    (w.ranOperator this s m call).meshAt this = some { s with mesh := m } :=
  (World.meshAt_congr (w.ranOperator this s m call) (w.setMesh this { s with mesh := m })
    this rfl).trans (w.meshAt_setMesh this cur _ hcur)

variable [Inhabited Vector3D]

/-- What `Mesh::bevel_selected_element` does for each kind of selected element of an
attached mesh, up to the tail that rebuilds the stored bevel data: the state `w1` and the
mesh object `s` before the tail. -/
theorem Mesh.bevel_selected_element_eq (ops : MeshOps Vector3D) (this : Addr)
    (w : World Vector3D) (self : Mesh Vector3D) (hself : w.meshAt this = some self)
    (hattached : self.scene = true) :
    (∀ f, w.scene.selected.element = some (.face f) →
      ∃ w1 s, Mesh.bevel_selected_element ops this w =
          Mesh.recordBevel this s false
            (ops.bevelFace self.mesh (w.faceOf (w.faceHalfedge f))).2 w1 ∧
        w1.meshAt this = some s ∧
        s.beveledFacePos =
          (w.faceWalk (w.faceHalfedge f)).map fun t => w.positionOf (w.vertexOf t)) ∧
    (∀ e, w.scene.selected.element = some (.edge e) →
      ∃ w1 s, Mesh.bevel_selected_element ops this w =
          Mesh.recordBevel this s true
            (ops.bevelEdge self.mesh (w.edgeOf (w.edgeHalfedge e))).2 w1 ∧
        w1.meshAt this = some s) ∧
    (∀ v, w.scene.selected.element = some (.vertex v) →
      ∃ w1 s, Mesh.bevel_selected_element ops this w =
          Mesh.recordBevel this s false
            (ops.bevelVertex self.mesh (w.vertexOf (w.vertexHalfedge v))).2 w1 ∧
        w1.meshAt this = some s ∧ s.beveledVertexPos = w.positionOf v) := by
  refine ⟨fun f hsel => ?_, fun e hsel => ?_, fun v hsel => ?_⟩
  · refine ⟨(w.ranOperator this
        { self with
          beveledFacePos :=
            Mesh.recordFacePositions w (w.faceHalfedge f) w.halfedgeCount
              (w.faceHalfedge f) [] }
        (ops.bevelFace self.mesh (w.faceOf (w.faceHalfedge f))).1
        (.bevelFace (w.faceOf (w.faceHalfedge f)))).selectResult
          (.face (ops.bevelFace self.mesh (w.faceOf (w.faceHalfedge f))).2),
      { self with
        beveledFacePos :=
          Mesh.recordFacePositions w (w.faceHalfedge f) w.halfedgeCount
            (w.faceHalfedge f) []
        mesh := (ops.bevelFace self.mesh (w.faceOf (w.faceHalfedge f))).1 }, ?_, ?_, ?_⟩
    · simp only [Mesh.bevel_selected_element, hself, hattached, hsel,
        HalfedgeElement.getFace]
      rfl
    · rw [World.meshAt_selectResult]
      exact w.meshAt_ranOperator_any this self _ _ _ hself
    · simp only [Mesh.recordFacePositions_eq, World.faceWalk, List.nil_append]
  · refine ⟨(w.ranOperator this self
        (ops.bevelEdge self.mesh (w.edgeOf (w.edgeHalfedge e))).1
        (.bevelEdge (w.edgeOf (w.edgeHalfedge e)))).selectResult
          (.edge ((w.ranOperator this self
            (ops.bevelEdge self.mesh (w.edgeOf (w.edgeHalfedge e))).1
            (.bevelEdge (w.edgeOf (w.edgeHalfedge e)))).edgeOf
              ((w.ranOperator this self
                (ops.bevelEdge self.mesh (w.edgeOf (w.edgeHalfedge e))).1
                (.bevelEdge (w.edgeOf (w.edgeHalfedge e)))).faceHalfedge
                  (ops.bevelEdge self.mesh (w.edgeOf (w.edgeHalfedge e))).2))),
      { self with mesh := (ops.bevelEdge self.mesh (w.edgeOf (w.edgeHalfedge e))).1 },
      ?_, ?_⟩
    · simp only [Mesh.bevel_selected_element, hself, hattached, hsel,
        HalfedgeElement.getFace, HalfedgeElement.getEdge]
      rfl
    · rw [World.meshAt_selectResult]
      exact w.meshAt_ranOperator_any this self _ _ _ hself
  · refine ⟨(w.ranOperator this { self with beveledVertexPos := w.positionOf v }
        (ops.bevelVertex self.mesh (w.vertexOf (w.vertexHalfedge v))).1
        (.bevelVertex (w.vertexOf (w.vertexHalfedge v)))).selectResult
          (.vertex ((w.ranOperator this { self with beveledVertexPos := w.positionOf v }
            (ops.bevelVertex self.mesh (w.vertexOf (w.vertexHalfedge v))).1
            (.bevelVertex (w.vertexOf (w.vertexHalfedge v)))).vertexOf
              ((w.ranOperator this { self with beveledVertexPos := w.positionOf v }
                (ops.bevelVertex self.mesh (w.vertexOf (w.vertexHalfedge v))).1
                (.bevelVertex (w.vertexOf (w.vertexHalfedge v)))).faceHalfedge
                  (ops.bevelVertex self.mesh (w.vertexOf (w.vertexHalfedge v))).2))),
      { self with
        beveledVertexPos := w.positionOf v
        mesh := (ops.bevelVertex self.mesh (w.vertexOf (w.vertexHalfedge v))).1 },
      ?_, ?_, ?_⟩
    · simp only [Mesh.bevel_selected_element, hself, hattached, hsel,
        HalfedgeElement.getFace, HalfedgeElement.getEdge, HalfedgeElement.getVertex]
      rfl
    · rw [World.meshAt_selectResult]
      exact w.meshAt_ranOperator_any this self _ _ _ hself
    · rfl

/-- C11: `Mesh::bevel_selected_element` records the original positions before the rewrite:
for a selected face of degree `d`, `beveledFacePos` afterwards has exactly `d` entries, the
`i`-th being the position, before the bevel, of the vertex of the `i`-th half-edge reached
from the half-edge of the face by `next`; for a selected vertex `v`, `beveledVertexPos`
afterwards is the position of `v` before the bevel. -/
theorem C11_bevel_records_original_positions (ops : MeshOps Vector3D) (this : Addr)
    (w : World Vector3D) (self : Mesh Vector3D) (hself : w.meshAt this = some self)
    (hattached : self.scene = true) :
    (∀ f fr, w.scene.selected.element = some (.face f) → w.faceAt f = some fr →
      0 < w.degree fr →
      ∃ self1, (Mesh.bevel_selected_element ops this w).meshAt this = some self1 ∧
        self1.beveledFacePos.length = w.degree fr ∧
        ∀ i, i < w.degree fr →
          self1.beveledFacePos[i]? =
            some (w.positionOf (w.vertexOf (w.next^[i] fr.halfedge)))) ∧
    (∀ v vr, w.scene.selected.element = some (.vertex v) → w.vertexAt v = some vr →
      ∃ self1, (Mesh.bevel_selected_element ops this w).meshAt this = some self1 ∧
        self1.beveledVertexPos = vr.position) := by
  obtain ⟨hface, -, hvertex⟩ := Mesh.bevel_selected_element_eq ops this w self hself hattached
  constructor
  · intro f fr hsel hfr hdeg
    obtain ⟨w1, s, heq, hs, hpos⟩ := hface f hsel
    have hstart : w.faceHalfedge f = fr.halfedge := by simp [World.faceHalfedge, hfr]
    have hlen := w.faceWalk_length fr hdeg
    refine ⟨_, by rw [heq]; exact (Mesh.recordBevel_spec this s s false _ w1 hs rfl).1, ?_, ?_⟩
    · simp only [hpos, hstart, List.length_map, hlen]
    · intro i hi
      simp only [hpos, hstart, List.getElem?_map]
      rw [World.faceWalk, w.walk_getElem? fr.halfedge w.halfedgeCount fr.halfedge i
        (by rw [← World.faceWalk, hlen]; exact hi)]
      rfl
  · intro v vr hsel hvr
    obtain ⟨w1, s, heq, hs, hpos⟩ := hvertex v hsel
    refine ⟨_, by rw [heq]; exact (Mesh.recordBevel_spec this s s false _ w1 hs rfl).1, ?_⟩
    simp [hpos, World.positionOf, hvr]


/-- C11 on the quad pillow with face 0 selected, of degree 4, and with vertex 2 selected. -/
theorem C11_witness :
    (∃ self1, (Mesh.bevel_selected_element tagOps 10
          (worldWith (meshOver quadPillow) (some (.face 0)))).meshAt 10 = some self1 ∧
        self1.beveledFacePos.length =
          (worldWith (meshOver quadPillow) (some (.face 0))).degree { halfedge := 0 } ∧
        ∀ i, i < (worldWith (meshOver quadPillow) (some (.face 0))).degree { halfedge := 0 } →
          self1.beveledFacePos[i]? =
            some ((worldWith (meshOver quadPillow) (some (.face 0))).positionOf
              ((worldWith (meshOver quadPillow) (some (.face 0))).vertexOf
                ((worldWith (meshOver quadPillow) (some (.face 0))).next^[i] 0)))) ∧
    (worldWith (meshOver quadPillow) (some (.face 0))).degree { halfedge := 0 } = 4 ∧
    ∃ self1, (Mesh.bevel_selected_element tagOps 10
        (worldWith (meshOver quadPillow) (some (.vertex 2)))).meshAt 10 = some self1 ∧
      self1.beveledVertexPos = (1, 1, 0) :=
  ⟨(C11_bevel_records_original_positions tagOps 10
      (worldWith (meshOver quadPillow) (some (.face 0))) (meshOver quadPillow) rfl rfl).1 0
      { halfedge := 0 } rfl rfl (by decide),
   by decide,
   (C11_bevel_records_original_positions tagOps 10
      (worldWith (meshOver quadPillow) (some (.vertex 2))) (meshOver quadPillow) rfl rfl).2 2
      { position := (1, 1, 0), halfedge := 2 } rfl rfl⟩

/-- The stored bevel data after the tail of the bevel, read in the state after it. -/
theorem Mesh.recordBevel_data (this : Addr) (s : Mesh Vector3D) (isEdge : Bool) (newf : Addr)
    (w0 w1 : World Vector3D) (hs : w0.meshAt this = some s)
    (hw1 : Mesh.recordBevel this s isEdge newf w0 = w1) (fr : Face)
    (hfr : w1.faceAt newf = some fr) (hdeg : 0 < w1.degree fr) :
    ∃ self1, w1.meshAt this = some self1 ∧
      self1.bevelVertices = (w1.faceWalk fr.halfedge).map (fun t => w1.next (w1.twin t)) ∧
      self1.beveledEdgePos =
        (if isEdge then (w1.faceWalk fr.halfedge).map fun t => w1.positionOf (w1.vertexOf t)
          else []) ∧
      (w1.faceWalk fr.halfedge).length = w1.degree fr := by
  obtain ⟨hmesh, hst⟩ := Mesh.recordBevel_spec this s s isEdge newf w0 hs rfl
  rw [hw1] at hmesh hst
  obtain ⟨hn, ht, hv, -, -, hfh, hfa, -, hc⟩ := World.access_congr w1 w0 hst
  have hwalk := World.walk_congr w1 w0 hst
  have hpos := World.positionOf_congr w1 w0 hst
  have hstart : w0.faceHalfedge newf = fr.halfedge := by
    rw [← hfh]
    simp [World.faceHalfedge, hfr]
  refine ⟨_, hmesh, ?_, ?_, w1.faceWalk_length fr hdeg⟩
  · simp only [World.faceWalk, hstart, hn, ht, hwalk, hc]
  · simp only [World.faceWalk, hstart, hv, hwalk, hc, hpos]

/-- C13: after `Mesh::bevel_selected_element` on an edge, `bevelVertices` and
`beveledEdgePos` both have as many entries as the new face has sides, and where
`twin(h).next` and `h` share their vertex for the half-edges `h` of the new face,
`beveledEdgePos[i]` is the position of the vertex of `bevelVertices[i]` for every `i`. After
a face or vertex bevel, `bevelVertices` has one entry per side of the new face and
`beveledEdgePos` is empty. -/
theorem C13_bevel_data_correspond (ops : MeshOps Vector3D) (this : Addr)
    (w w1 : World Vector3D) (self : Mesh Vector3D) (hself : w.meshAt this = some self)
    (hattached : self.scene = true) (hw1 : Mesh.bevel_selected_element ops this w = w1) :
    (∀ e fr, w.scene.selected.element = some (.edge e) →
      w1.faceAt (ops.bevelEdge self.mesh (w.edgeOf (w.edgeHalfedge e))).2 = some fr →
      0 < w1.degree fr →
      ∃ self1, w1.meshAt this = some self1 ∧
        self1.bevelVertices.length = w1.degree fr ∧
        self1.beveledEdgePos.length = w1.degree fr ∧
        ((∀ i, i < w1.degree fr →
            w1.vertexOf (w1.next (w1.twin (w1.next^[i] fr.halfedge))) =
              w1.vertexOf (w1.next^[i] fr.halfedge)) →
          ∀ i, i < w1.degree fr →
            ∃ h, self1.bevelVertices[i]? = some h ∧
              self1.beveledEdgePos[i]? = some (w1.positionOf (w1.vertexOf h)))) ∧
    (∀ f fr, w.scene.selected.element = some (.face f) →
      w1.faceAt (ops.bevelFace self.mesh (w.faceOf (w.faceHalfedge f))).2 = some fr →
      0 < w1.degree fr →
      ∃ self1, w1.meshAt this = some self1 ∧
        self1.bevelVertices.length = w1.degree fr ∧ self1.beveledEdgePos = []) ∧
    (∀ v fr, w.scene.selected.element = some (.vertex v) →
      w1.faceAt (ops.bevelVertex self.mesh (w.vertexOf (w.vertexHalfedge v))).2 = some fr →
      0 < w1.degree fr →
      ∃ self1, w1.meshAt this = some self1 ∧
        self1.bevelVertices.length = w1.degree fr ∧ self1.beveledEdgePos = []) := by
  obtain ⟨hface, hedge, hvertex⟩ :=
    Mesh.bevel_selected_element_eq ops this w self hself hattached
  refine ⟨fun e fr hsel hfr hdeg => ?_, fun f fr hsel hfr hdeg => ?_,
    fun v fr hsel hfr hdeg => ?_⟩
  · obtain ⟨w0, s, heq, hs⟩ := hedge e hsel
    obtain ⟨self1, hm, hbv, hep, hlen⟩ :=
      Mesh.recordBevel_data this s true _ w0 w1 hs (heq.symm.trans hw1) fr hfr hdeg
    refine ⟨self1, hm, ?_, ?_, fun hshare i hi => ?_⟩
    · rw [hbv, List.length_map, hlen]
    · rw [hep]
      simp only [if_true, List.length_map, hlen]
    · have hget : (w1.faceWalk fr.halfedge)[i]? = some (w1.next^[i] fr.halfedge) :=
        w1.walk_getElem? fr.halfedge w1.halfedgeCount fr.halfedge i
          (by rw [← World.faceWalk, hlen]; exact hi)
      refine ⟨w1.next (w1.twin (w1.next^[i] fr.halfedge)), ?_, ?_⟩
      · rw [hbv, List.getElem?_map, hget]
        rfl
      · rw [hep]
        simp only [if_true, List.getElem?_map, hget, Option.map_some']
        rw [hshare i hi]
  · obtain ⟨w0, s, heq, hs, -⟩ := hface f hsel
    obtain ⟨self1, hm, hbv, hep, hlen⟩ :=
      Mesh.recordBevel_data this s false _ w0 w1 hs (heq.symm.trans hw1) fr hfr hdeg
    refine ⟨self1, hm, ?_, ?_⟩
    · rw [hbv, List.length_map, hlen]
    · rw [hep]
      rfl
  · obtain ⟨w0, s, heq, hs, -⟩ := hvertex v hsel
    obtain ⟨self1, hm, hbv, hep, hlen⟩ :=
      Mesh.recordBevel_data this s false _ w0 w1 hs (heq.symm.trans hw1) fr hfr hdeg
    refine ⟨self1, hm, ?_, ?_⟩
    · rw [hbv, List.length_map, hlen]
    · rw [hep]
      rfl

/-- C13 on the quad pillow with edge 1 selected and a bevel that hands back face 1, whose
half-edge is 4 and whose degree is 4. -/
theorem C13_witness :
    (Mesh.bevel_selected_element faceOneOps 10
        (worldWith (meshOver quadPillow) (some (.edge 1)))).degree { halfedge := 4 } = 4 ∧
    ∃ self1, (Mesh.bevel_selected_element faceOneOps 10
          (worldWith (meshOver quadPillow) (some (.edge 1)))).meshAt 10 = some self1 ∧
        self1.bevelVertices.length =
          (Mesh.bevel_selected_element faceOneOps 10
            (worldWith (meshOver quadPillow) (some (.edge 1)))).degree { halfedge := 4 } ∧
        self1.beveledEdgePos.length =
          (Mesh.bevel_selected_element faceOneOps 10
            (worldWith (meshOver quadPillow) (some (.edge 1)))).degree { halfedge := 4 } :=
  ⟨by decide,
   match (C13_bevel_data_correspond faceOneOps 10
      (worldWith (meshOver quadPillow) (some (.edge 1)))
      (Mesh.bevel_selected_element faceOneOps 10
        (worldWith (meshOver quadPillow) (some (.edge 1))))
      (meshOver quadPillow) rfl rfl rfl).1 1 { halfedge := 4 } rfl (by decide) (by decide) with
   | ⟨self1, h1, h2, h3, _⟩ => ⟨self1, h1, h2, h3⟩⟩

end BevelClaims2

section PickLemmas

variable {Vector3D : Type}

theorem lookup_filter_ne (j k : Int) (m : List (Int × HalfedgeElement)) (h : j ≠ k) :
    (m.filter fun q => q.1 ≠ k).lookup j = m.lookup j := by
  induction m with
  | nil => rfl
  | cons q qs ih =>
    obtain ⟨a, e⟩ := q
    by_cases ha : a = k
    · have hne : (j == a) = false := by
        rw [ha]
        simpa using h
      rw [List.filter_cons_of_neg (by simp [ha]), List.lookup_cons, hne]
      exact ih
    · rw [List.filter_cons_of_pos (by simp [ha]), List.lookup_cons, List.lookup_cons, ih]

/-- A lookup after `idToElement[k] = e`. -/
theorem lookup_mapInsert (j k : Int) (e : HalfedgeElement) (m : List (Int × HalfedgeElement)) :
    (mapInsert k e m).lookup j = if j = k then some e else m.lookup j := by
  by_cases h : j = k
  · rw [h]
    simp [mapInsert, List.lookup_cons]
  · have hne : (j == k) = false := by simpa using h
    rw [mapInsert, List.lookup_cons, hne, lookup_filter_ne j k m h]
    simp [h]

/-- An `int` value is its own wrap-around. -/
theorem wrapInt32_of_range (x : Int) (hlo : -2147483648 ≤ x) (hhi : x ≤ 2147483647) :
    wrapInt32 x = x := by
  unfold wrapInt32
  omega

/-- The wrap-around is an `int` value that differs from the exact result by a multiple of
2^32. -/
theorem wrapInt32_spec (x : Int) :
    -2147483648 ≤ wrapInt32 x ∧ wrapInt32 x ≤ 2147483647 ∧
      (wrapInt32 x - x) % 4294967296 = 0 := by
  unfold wrapInt32
  omega

/-- Registering a list of elements one after the other, while `pickID` stays in the range
of `int`: `pickID` advances by the number of elements, the `j`-th element is found under
`pickID + j`, and the IDs outside this range keep their entries. -/
theorem foldl_newPickElement (es : List HalfedgeElement)
    (st : Int × List (Int × HalfedgeElement)) (hlo : -2147483648 ≤ st.1)
    (hhi : st.1 + es.length ≤ 2147483647) :
    (es.foldl Mesh.newPickElement st).1 = st.1 + es.length ∧
    ∀ j : Int,
      (es.foldl Mesh.newPickElement st).2.lookup j =
        if st.1 ≤ j ∧ j < st.1 + es.length then es[(j - st.1).toNat]?
        else st.2.lookup j := by
  induction es generalizing st with
  | nil =>
    refine ⟨by simp, fun j => ?_⟩
    have : ¬ (st.1 ≤ j ∧ j < st.1 + ((([] : List HalfedgeElement).length : Nat) : Int)) := by
      simp only [List.length_nil, Nat.cast_zero, add_zero]
      omega
    simp only [List.foldl_nil, this, if_false]
  | cons e es ih =>
    simp only [List.length_cons, Nat.cast_add, Nat.cast_one] at hhi
    have hlen : (0 : Int) ≤ (es.length : Int) := Int.natCast_nonneg _
    have hstep : Mesh.newPickElement st e = (st.1 + 1, mapInsert st.1 e st.2) := by
      simp only [Mesh.newPickElement]
      rw [wrapInt32_of_range (st.1 + 1) (by omega) (by omega)]
    obtain ⟨h1, h2⟩ := ih (Mesh.newPickElement st e) (by rw [hstep]; show _ ≤ st.1 + 1; omega)
      (by rw [hstep]; show st.1 + 1 + _ ≤ _; omega)
    rw [hstep] at h1 h2
    simp only at h1 h2
    refine ⟨?_, fun j => ?_⟩
    · simp only [List.foldl_cons, hstep, h1, List.length_cons, Nat.cast_add,
        Nat.cast_one]
      omega
    · simp only [List.foldl_cons, hstep, h2, lookup_mapInsert, List.length_cons,
        Nat.cast_add, Nat.cast_one]
      by_cases hj : j = st.1
      · have c1 : ¬ (st.1 + 1 ≤ j ∧ j < st.1 + 1 + (es.length : Int)) := by omega
        have c2 : st.1 ≤ j ∧ j < st.1 + ((es.length : Int) + 1) := by omega
        have c3 : (j - st.1).toNat = 0 := by omega
        simp only [c1, if_false, hj, if_true, c2, and_self, c3, List.getElem?_cons_zero]
        simp [hj]
      · by_cases hin : st.1 + 1 ≤ j ∧ j < st.1 + 1 + (es.length : Int)
        · have c2 : st.1 ≤ j ∧ j < st.1 + ((es.length : Int) + 1) := by omega
          have hsub : (j - st.1).toNat = (j - (st.1 + 1)).toNat + 1 := by omega
          simp only [hin, and_self, if_true, c2, hsub, List.getElem?_cons_succ]
        · have c2 : ¬ (st.1 ≤ j ∧ j < st.1 + ((es.length : Int) + 1)) := by omega
          simp only [hin, if_false, hj, c2]

/-- The inner loop of `draw_pick` registers the elements of the corners of the walk, in
order. -/
theorem Mesh.drawPickCorners_eq (w : World Vector3D) (f start : Addr) (fuel : Nat) (h : Addr)
    (st : Int × List (Int × HalfedgeElement)) :
    Mesh.drawPickCorners w f start fuel h st =
      ((w.walk start fuel h).flatMap fun t => w.cornerElements (f, t)).foldl
        Mesh.newPickElement st := by
  induction fuel generalizing h st with
  | zero => simp [Mesh.drawPickCorners, World.walk]
  | succ fuel ih =>
    by_cases hn : w.next h = start
    · simp [Mesh.drawPickCorners, World.walk, hn, World.cornerElements]
    · simp [Mesh.drawPickCorners, World.walk, hn, World.cornerElements, ih, List.foldl_append]

/-- The outer loop of `draw_pick` registers the elements of all face corners, in drawing
order. -/
theorem Mesh.drawPickFaces_eq (w : World Vector3D) (fs : List (Addr × Face))
    (st : Int × List (Int × HalfedgeElement)) :
    Mesh.drawPickFaces w fs st =
      ((w.corners fs).flatMap w.cornerElements).foldl Mesh.newPickElement st := by
  induction fs generalizing st with
  | nil => simp [Mesh.drawPickFaces, World.corners]
  | cons f fs ih =>
    simp only [Mesh.drawPickFaces, ih, Mesh.drawPickCorners_eq, World.corners,
      List.flatMap_cons, List.flatMap_append, List.foldl_append, World.faceWalk]
    congr 2
    simp only [List.flatMap_def, List.map_map]
    rfl

/-- The elements of the `k`-th corner are at the positions `4k` to `4k + 3` of the list of
all registered elements. -/
theorem World.cornerElements_getElem? (w : World Vector3D) (cs : List (Addr × Addr)) (k : Nat)
    (c : Addr × Addr) (hc : cs[k]? = some c) (t : Nat) (ht : t < 4) :
    (cs.flatMap w.cornerElements)[4 * k + t]? = (w.cornerElements c)[t]? := by
  induction cs generalizing k with
  | nil => simp at hc
  | cons c0 cs ih =>
    have hlen : (w.cornerElements c0).length = 4 := rfl
    cases k with
    | zero =>
      simp only [List.getElem?_cons_zero, Option.some.injEq] at hc
      subst hc
      simp only [List.flatMap_cons, Nat.mul_zero, Nat.zero_add]
      rw [List.getElem?_append_left (by rw [hlen]; exact ht)]
    | succ k =>
      simp only [List.getElem?_cons_succ] at hc
      simp only [List.flatMap_cons]
      rw [List.getElem?_append_right (by rw [hlen]; omega), hlen]
      have : 4 * (k + 1) + t - 4 = 4 * k + t := by omega
      rw [this]
      exact ih k hc

theorem World.flatMap_cornerElements_length (w : World Vector3D) (cs : List (Addr × Addr)) :
    (cs.flatMap w.cornerElements).length = 4 * cs.length := by
  induction cs with
  | nil => rfl
  | cons c cs ih =>
    simp only [List.flatMap_cons, List.length_append, ih, List.length_cons]
    have : (w.cornerElements c).length = 4 := rfl
    omega

/-- On a mesh whose faces all have a degree, there are as many corners as the degrees add
up to. -/
theorem World.corners_length (w : World Vector3D) (fs : List (Addr × Face))
    (hdeg : ∀ f ∈ fs, 0 < w.degree f.2) :
    (w.corners fs).length = (fs.map fun f => w.degree f.2).sum := by
  induction fs with
  | nil => rfl
  | cons f fs ih =>
    have h1 := w.faceWalk_length f.2 (hdeg f (List.mem_cons_self _ _))
    have h2 := ih fun g hg => hdeg g (List.mem_cons_of_mem _ hg)
    simp only [World.corners, List.flatMap_cons, List.length_append, List.length_map,
      List.map_cons, List.sum_cons] at h2 ⊢
    rw [h1, h2]


/-- The lookup in `idToElement` after `draw_pick`, in closed form, while `pickID` stays in
the range of `int`: the IDs from `p` on map to the elements of the face corners, in drawing
order, four per corner. -/
theorem Mesh.draw_pick_registered (this : Addr) (p : Int) (w : World Vector3D)
    (self : Mesh Vector3D) (hself : w.meshAt this = some self) (hlo : -2147483648 ≤ p)
    (hhi : p + 4 * ((w.corners self.mesh.faces).length : Int) ≤ 2147483647) :
    (Mesh.draw_pick this p w).2 = p + 4 * ((w.corners self.mesh.faces).length : Int) ∧
    ∀ j : Int, (Mesh.draw_pick this p w).1.registered this j =
      if p ≤ j ∧ j < p + 4 * ((w.corners self.mesh.faces).length : Int) then
        ((w.corners self.mesh.faces).flatMap w.cornerElements)[(j - p).toNat]?
      else none := by
  have hlen := w.flatMap_cornerElements_length (w.corners self.mesh.faces)
  obtain ⟨h1, h2⟩ :=
    foldl_newPickElement ((w.corners self.mesh.faces).flatMap w.cornerElements) (p, []) hlo
      (by rw [hlen]; push_cast; exact hhi)
  simp only [hlen, Nat.cast_mul, Nat.cast_ofNat] at h1 h2
  constructor
  · simp only [Mesh.draw_pick, hself, Mesh.drawPickFaces_eq, h1]
  · intro j
    have hm : (Mesh.draw_pick this p w).1.meshAt this =
        some { self with
          idToElement := (Mesh.drawPickFaces w self.mesh.faces (p, [])).2 } := by
      simp only [Mesh.draw_pick, hself]
      exact w.meshAt_setMesh this self _ hself
    simp only [World.registered, hm, Mesh.drawPickFaces_eq, h2, List.lookup_nil]

/-- The IDs registered after `draw_pick` are exactly those from `p` up to the value of
`pickID` on return. -/
theorem Mesh.draw_pick_keys (this : Addr) (p : Int) (w : World Vector3D)
    (self : Mesh Vector3D) (hself : w.meshAt this = some self) (hlo : -2147483648 ≤ p)
    (hhi : p + 4 * ((w.corners self.mesh.faces).length : Int) ≤ 2147483647) (j : Int) :
    ((Mesh.draw_pick this p w).1.registered this j).isSome ↔
      p ≤ j ∧ j < p + 4 * ((w.corners self.mesh.faces).length : Int) := by
  obtain ⟨-, hreg⟩ := Mesh.draw_pick_registered this p w self hself hlo hhi
  have hlen := w.flatMap_cornerElements_length (w.corners self.mesh.faces)
  rw [hreg j]
  by_cases hin : p ≤ j ∧ j < p + 4 * ((w.corners self.mesh.faces).length : Int)
  · simp only [hin, and_self, if_true, iff_true]
    have hlt : (j - p).toNat < ((w.corners self.mesh.faces).flatMap w.cornerElements).length := by
      rw [hlen]
      omega
    rw [List.getElem?_eq_getElem hlt]
    rfl
  · simp only [hin, if_false, Option.isSome_none, Bool.false_eq_true]

/-- C15: `Mesh::draw_pick` called with `pickID = p` assigns consecutive IDs. With `n` the
number of face corners, the sum of the degrees of the faces, and `p` and `p + 4 n` values of
`int`: it returns with `pickID = p + 4 n`; the IDs registered in `idToElement` afterwards
are exactly the integers from `p` up to but not including `p + 4 n`; and for the `k`-th
corner in drawing order, with half-edge `h` and `h2 = h.next`, the IDs `p + 4 k`,
`p + 4 k + 1`, `p + 4 k + 2`, `p + 4 k + 3` map to the vertex of `h2`, the face, the edge of
`h2` and `h2`. -/
theorem C15_draw_pick_assigns_consecutive_ids (this : Addr) (p : Int) (w : World Vector3D)
    (self : Mesh Vector3D) (hself : w.meshAt this = some self) (hlo : -2147483648 ≤ p)
    (hhi : p + 4 * ((w.corners self.mesh.faces).length : Int) ≤ 2147483647) :
    (Mesh.draw_pick this p w).2 = p + 4 * ((w.corners self.mesh.faces).length : Int) ∧
    ((∀ f ∈ self.mesh.faces, 0 < w.degree f.2) →
      (w.corners self.mesh.faces).length = (self.mesh.faces.map fun f => w.degree f.2).sum) ∧
    (∀ j : Int, ((Mesh.draw_pick this p w).1.registered this j).isSome ↔
      p ≤ j ∧ j < p + 4 * ((w.corners self.mesh.faces).length : Int)) ∧
    (∀ (k : Nat) (c : Addr × Addr), (w.corners self.mesh.faces)[k]? = some c →
      (Mesh.draw_pick this p w).1.registered this (p + 4 * k) =
          some (.vertex (w.vertexOf (w.next c.2))) ∧
        (Mesh.draw_pick this p w).1.registered this (p + 4 * k + 1) = some (.face c.1) ∧
        (Mesh.draw_pick this p w).1.registered this (p + 4 * k + 2) =
          some (.edge (w.edgeOf (w.next c.2))) ∧
        (Mesh.draw_pick this p w).1.registered this (p + 4 * k + 3) =
          some (.halfedge (w.next c.2))) := by
  obtain ⟨hret, hreg⟩ := Mesh.draw_pick_registered this p w self hself hlo hhi
  have hlen := w.flatMap_cornerElements_length (w.corners self.mesh.faces)
  refine ⟨hret, w.corners_length self.mesh.faces,
    Mesh.draw_pick_keys this p w self hself hlo hhi, fun k c hc => ?_⟩
  · have hk : k < (w.corners self.mesh.faces).length := by
      by_contra hge
      rw [List.getElem?_eq_none (by omega)] at hc
      exact Option.noConfusion hc
    have hat : ∀ t : Nat, t < 4 →
        (Mesh.draw_pick this p w).1.registered this (p + 4 * k + t) =
          (w.cornerElements c)[t]? := by
      intro t ht
      rw [hreg]
      have hin : p ≤ p + 4 * (k : Int) + (t : Int) ∧
          p + 4 * (k : Int) + (t : Int) <
            p + 4 * ((w.corners self.mesh.faces).length : Int) := by omega
      have hidx : (p + 4 * (k : Int) + (t : Int) - p).toNat = 4 * k + t := by omega
      simp only [hin, and_self, if_true, hidx]
      exact w.cornerElements_getElem? _ k c hc t ht
    have h0 := hat 0 (by omega)
    have h1 := hat 1 (by omega)
    have h2 := hat 2 (by omega)
    have h3 := hat 3 (by omega)
    simp only [Nat.cast_zero, add_zero, Nat.cast_one, Nat.cast_ofNat] at h0 h1 h2 h3
    exact ⟨h0, h1, h2, h3⟩

/-- C15 on the triangle pillow, drawn from ID 5: six corners, so `pickID` returns as 29,
and the corner 1, of face 0 and half-edge 1, has its IDs from 9 on. -/
theorem C15_witness :
    (Mesh.draw_pick 10 5 twoMeshes).2 = 5 + 4 * ((6 : Nat) : Int) ∧
    (Mesh.draw_pick 10 5 twoMeshes).1.registered 10 (5 + 4 * ((1 : Nat) : Int)) =
      some (.vertex 2) ∧
    (Mesh.draw_pick 10 5 twoMeshes).1.registered 10 (5 + 4 * ((1 : Nat) : Int) + 3) =
      some (.halfedge 2) :=
  ⟨(C15_draw_pick_assigns_consecutive_ids 10 5 twoMeshes (meshOver trianglePillow) rfl
      (by decide) (by decide)).1,
   ((C15_draw_pick_assigns_consecutive_ids 10 5 twoMeshes (meshOver trianglePillow)
      rfl (by decide) (by decide)).2.2.2 1 (0, 1) (by decide)).1,
   ((C15_draw_pick_assigns_consecutive_ids 10 5 twoMeshes (meshOver trianglePillow)
      rfl (by decide) (by decide)).2.2.2 1 (0, 1) (by decide)).2.2.2⟩

/-- Past the range of `int` the IDs wrap around: the triangle pillow drawn from the ID
2147483640 uses 24 IDs, of which the last 16 are the least values of `int`, and `pickID`
returns as -2147483632. -/
theorem Mesh.draw_pick_wraps :
    (Mesh.draw_pick 10 2147483640 twoMeshes).2 = -2147483632 ∧
    (Mesh.draw_pick 10 2147483640 twoMeshes).1.registered 10 2147483647 =
      some (.halfedge 2) ∧
    (Mesh.draw_pick 10 2147483640 twoMeshes).1.registered 10 (-2147483648) =
      some (.vertex 0) := by
  decide!

end PickLemmas

section HoverLemmas

variable {Vector3D : Type}

/-- The method `draw_pick` of one object leaves the other objects and the scene as they
are. -/
theorem Mesh.draw_pick_frame (o : Addr) (p : Int) (w : World Vector3D) :
    (∀ o1, o1 ≠ o → (Mesh.draw_pick o p w).1.meshAt o1 = w.meshAt o1) ∧
    (Mesh.draw_pick o p w).1.scene = w.scene := by
  cases hm : w.meshAt o with
  | none => simp [Mesh.draw_pick, hm]
  | some self =>
    refine ⟨fun o1 hne => ?_, ?_⟩
    · simp only [Mesh.draw_pick, hm]
      exact w.meshAt_setMesh_of_ne o o1 _ hne
    · simp only [Mesh.draw_pick, hm]
      rfl

/-- The method `draw_pick` leaves the half-edge stores in memory as they are. -/
theorem Mesh.draw_pick_stores (o : Addr) (p : Int) (w : World Vector3D) :
    (Mesh.draw_pick o p w).1.stores = w.stores := by
  cases hm : w.meshAt o with
  | none => simp [Mesh.draw_pick, hm]
  | some self =>
    simp only [Mesh.draw_pick, hm]
    exact w.stores_setMesh o self _ hm rfl

/-- The face corners are read from the stores only. -/
theorem World.corners_congr (w1 w2 : World Vector3D) (h : w1.stores = w2.stores) :
    w1.corners = w2.corners := by
  funext fs
  simp only [World.corners, World.faceWalk, World.walk_congr w1 w2 h,
    (World.access_congr w1 w2 h).2.2.2.2.2.2.2.2]

/-- The method `draw_pick` of one object leaves the number of IDs of the other objects as
it is. -/
theorem World.pickCount_draw_pick (w : World Vector3D) (o o1 : Addr) (p : Int)
    (hne : o1 ≠ o) : (Mesh.draw_pick o p w).1.pickCount o1 = w.pickCount o1 := by
  simp only [World.pickCount, (Mesh.draw_pick_frame o p w).1 o1 hne,
    World.corners_congr _ _ (Mesh.draw_pick_stores o p w)]

/-- The IDs an object owns after its `draw_pick`, while `pickID` stays in the range of
`int`: those from the value of `pickID` at the call up to the value on return, as many as
the object uses. -/
theorem Mesh.draw_pick_range (o : Addr) (p : Int) (w : World Vector3D)
    (hm : (w.meshAt o).isSome = true) (hlo : -2147483648 ≤ p)
    (hhi : p + (w.pickCount o : Int) ≤ 2147483647) :
    (Mesh.draw_pick o p w).2 = p + (w.pickCount o : Int) ∧
    ∀ j : Int, ((Mesh.draw_pick o p w).1.registered o j).isSome ↔
      p ≤ j ∧ j < (Mesh.draw_pick o p w).2 := by
  obtain ⟨self, hself⟩ := Option.isSome_iff_exists.mp hm
  have hc : (w.pickCount o : Int) = 4 * ((w.corners self.mesh.faces).length : Int) := by
    simp only [World.pickCount, hself]
    push_cast
    rfl
  rw [hc] at hhi
  obtain ⟨hret, -⟩ := Mesh.draw_pick_registered o p w self hself hlo hhi
  refine ⟨by rw [hret, hc], fun j => ?_⟩
  rw [Mesh.draw_pick_keys o p w self hself hlo hhi j, hret]


theorem World.registered_congr (w1 w2 : World Vector3D) (o : Addr)
    (h : w1.meshAt o = w2.meshAt o) : w1.registered o = w2.registered o := by
  funext j
  simp only [World.registered, h]

/-- The first loop of `getHoveredObject`, over a list of distinct mesh objects whose IDs
stay in the range of `int`: the values `qs` it appends to `pickRange` bound the IDs of the
objects, one after the other; objects outside the list and the scene are left as they
are. -/
theorem Scene.drawPickAll_spec (os : List Addr) (w : World Vector3D) (p : Int)
    (rs : List Int) (hnodup : os.Nodup) (hmesh : ∀ o ∈ os, (w.meshAt o).isSome = true)
    (hlo : -2147483648 ≤ p) (hfit : p + ((os.map w.pickCount).sum : Nat) ≤ 2147483647) :
    ∃ qs : List Int,
      (Scene.drawPickAll os (w, p, rs)).2.2 = rs ++ qs ∧ qs.length = os.length ∧
      (∀ i, i < os.length →
        (p :: qs).getD i 0 ≤ qs.getD i 0 ∧
        ∀ j : Int, ((Scene.drawPickAll os (w, p, rs)).1.registered (os.getD i 0) j).isSome ↔
          (p :: qs).getD i 0 ≤ j ∧ j < qs.getD i 0) ∧
      (∀ o, o ∉ os → (Scene.drawPickAll os (w, p, rs)).1.meshAt o = w.meshAt o) ∧
      (Scene.drawPickAll os (w, p, rs)).1.scene = w.scene := by
  induction os generalizing w p rs with
  | nil => exact ⟨[], by simp [Scene.drawPickAll], rfl, fun i hi => absurd hi (by simp),
      fun o _ => rfl, rfl⟩
  | cons o os ih =>
    simp only [List.map_cons, List.sum_cons, Nat.cast_add] at hfit
    have hrest : (0 : Int) ≤ ((os.map w.pickCount).sum : Nat) := Int.natCast_nonneg _
    have hcnt : (0 : Int) ≤ (w.pickCount o : Nat) := Int.natCast_nonneg _
    obtain ⟨hframe, hscene⟩ := Mesh.draw_pick_frame o p w
    obtain ⟨hret, hkeys⟩ := Mesh.draw_pick_range o p w (hmesh o (List.mem_cons_self _ _)) hlo
      (by omega)
    have hle : p ≤ (Mesh.draw_pick o p w).2 := by omega
    have hno : o ∉ os := (List.nodup_cons.mp hnodup).1
    have hmesh1 : ∀ o1 ∈ os, ((Mesh.draw_pick o p w).1.meshAt o1).isSome = true := by
      intro o1 ho1
      rw [hframe o1 (fun h => hno (h ▸ ho1))]
      exact hmesh o1 (List.mem_cons_of_mem _ ho1)
    have hcounts : os.map (Mesh.draw_pick o p w).1.pickCount = os.map w.pickCount :=
      List.map_congr_left fun o1 ho1 =>
        w.pickCount_draw_pick o o1 p fun h => hno (h ▸ ho1)
    obtain ⟨qs, hqs, hlen, hidx, hout, hsc⟩ :=
      ih (Mesh.draw_pick o p w).1 (Mesh.draw_pick o p w).2
        (rs ++ [(Mesh.draw_pick o p w).2]) (List.nodup_cons.mp hnodup).2 hmesh1
        (by omega) (by rw [hcounts, hret]; omega)
    refine ⟨(Mesh.draw_pick o p w).2 :: qs, ?_, ?_, ?_, ?_, ?_⟩
    · simp only [Scene.drawPickAll, hqs, List.append_assoc, List.singleton_append]
    · simp only [List.length_cons, hlen]
    · intro i hi
      cases i with
      | zero =>
        simp only [List.getD_cons_zero]
        refine ⟨hle, fun j => ?_⟩
        simp only [Scene.drawPickAll]
        rw [World.registered_congr _ (Mesh.draw_pick o p w).1 o (hout o hno)]
        exact hkeys j
      | succ i =>
        simp only [List.getD_cons_succ]
        simp only [List.length_cons, Nat.add_lt_add_iff_right] at hi
        exact hidx i hi
    · intro o1 ho1
      simp only [List.mem_cons, not_or] at ho1
      simp only [Scene.drawPickAll]
      rw [hout o1 ho1.2, hframe o1 ho1.1]
    · simp only [Scene.drawPickAll]
      rw [hsc, hscene]

/-- The second loop of `getHoveredObject` leaves the selection as it is when no object of
the list has the ID registered. -/
theorem Scene.setSelectionAll_none (w : World Vector3D) (ID : Int) (os : List Addr)
    (sel : Selection) (hnone : ∀ o ∈ os, w.registered o ID = none) :
    Scene.setSelectionAll w ID os sel = sel := by
  induction os generalizing sel with
  | nil => rfl
  | cons o os ih =>
    have ho := hnone o (List.mem_cons_self _ _)
    have hrest := fun s => ih s fun o1 h1 => hnone o1 (List.mem_cons_of_mem _ h1)
    cases hm : w.meshAt o with
    | none => simp only [Scene.setSelectionAll, hm, hrest]
    | some self =>
      simp only [World.registered, hm] at ho
      simp only [Scene.setSelectionAll, hm, hrest, Mesh.setSelection, ho]

theorem Scene.setSelectionAll_append (w : World Vector3D) (ID : Int) (os1 os2 : List Addr)
    (sel : Selection) :
    Scene.setSelectionAll w ID (os1 ++ os2) sel =
      Scene.setSelectionAll w ID os2 (Scene.setSelectionAll w ID os1 sel) := by
  induction os1 generalizing sel with
  | nil => rfl
  | cons o os ih =>
    cases hm : w.meshAt o with
    | none =>
      rw [List.cons_append]
      simp only [Scene.setSelectionAll, hm]
      exact ih sel
    | some self =>
      rw [List.cons_append]
      simp only [Scene.setSelectionAll, hm]
      exact ih _

/-- The second loop of `getHoveredObject` ends with the object that has the ID registered,
when no object after it in the list has. -/
theorem Scene.setSelectionAll_hit (w : World Vector3D) (ID : Int) (os1 os2 : List Addr)
    (o : Addr) (e : HalfedgeElement) (sel : Selection) (he : w.registered o ID = some e)
    (hnone : ∀ o1 ∈ os2, w.registered o1 ID = none) :
    Scene.setSelectionAll w ID (os1 ++ o :: os2) sel =
      { object := some o, element := some e } := by
  rw [Scene.setSelectionAll_append]
  cases hm : w.meshAt o with
  | none => simp [World.registered, hm] at he
  | some self =>
    simp only [World.registered, hm] at he
    simp only [Scene.setSelectionAll, hm, Mesh.setSelection, he]
    exact Scene.setSelectionAll_none w ID os2 _ hnone


/-- Bounds that do not decrease from one to the next do not decrease along the list. -/
theorem getD_mono (rs : List Int) (n : Nat)
    (hstep : ∀ i, i < n → rs.getD i 0 ≤ rs.getD (i + 1) 0) (a b : Nat) (hab : a ≤ b)
    (hb : b ≤ n) : rs.getD a 0 ≤ rs.getD b 0 := by
  induction b with
  | zero =>
    have : a = 0 := by omega
    rw [this]
  | succ b ih =>
    by_cases h : a = b + 1
    · rw [h]
    · exact le_trans (ih (by omega) (by omega)) (hstep b (by omega))

/-- An element of a list past position `i` is at a position after `i`. -/
theorem mem_drop_getD (os : List Addr) (i : Nat) (o : Addr) (ho : o ∈ os.drop (i + 1)) :
    ∃ k, i < k ∧ k < os.length ∧ os.getD k 0 = o := by
  obtain ⟨m, hm, hget⟩ := List.mem_iff_getElem.mp ho
  rw [List.length_drop] at hm
  refine ⟨i + 1 + m, by omega, by omega, ?_⟩
  rw [List.getD_eq_getElem _ _ (by omega)]
  rw [List.getElem_drop] at hget
  exact hget

theorem mem_getD (os : List Addr) (o : Addr) (ho : o ∈ os) :
    ∃ k, k < os.length ∧ os.getD k 0 = o := by
  obtain ⟨m, hm, hget⟩ := List.mem_iff_getElem.mp ho
  exact ⟨m, hm, by rw [List.getD_eq_getElem _ _ hm]; exact hget⟩

/-- C16: in `Scene::getHoveredObject` over a scene of meshes whose pick IDs, counted from
0, are values of `int`, object `i` of the scene owns exactly the pick IDs from
`pickRange[i]` up to but not including `pickRange[i+1]`, and these ranges are disjoint: no
ID is registered by two objects. Hence for every ID read back, the hovered object is the
one whose range contains the ID, with the element that object registered under it, and
`hovered` ends up cleared when no range contains the ID. -/
theorem C16_pick_ranges_are_disjoint (ID : Int) (w w1 : World Vector3D)
    (pickRange : List Int) (hnodup : w.scene.objects.Nodup)
    (hmesh : ∀ o ∈ w.scene.objects, (w.meshAt o).isSome = true)
    (hfit : (w.scene.objects.map w.pickCount).sum ≤ 2147483647)
    (hR : Scene.getHoveredObject ID w = (w1, pickRange)) :
    pickRange.length = w.scene.objects.length + 1 ∧
    pickRange.getD 0 0 = 0 ∧
    (∀ i, i < w.scene.objects.length →
      pickRange.getD i 0 ≤ pickRange.getD (i + 1) 0 ∧
      ∀ j : Int, (w1.registered (w.scene.objects.getD i 0) j).isSome ↔
        pickRange.getD i 0 ≤ j ∧ j < pickRange.getD (i + 1) 0) ∧
    (∀ i k, i < k → k < w.scene.objects.length → ∀ j : Int,
      ¬ ((w1.registered (w.scene.objects.getD i 0) j).isSome = true ∧
        (w1.registered (w.scene.objects.getD k 0) j).isSome = true)) ∧
    (∀ i, i < w.scene.objects.length →
      pickRange.getD i 0 ≤ ID → ID < pickRange.getD (i + 1) 0 →
      w1.scene.hovered =
        { object := some (w.scene.objects.getD i 0)
          element := w1.registered (w.scene.objects.getD i 0) ID }) ∧
    ((∀ i, i < w.scene.objects.length →
        ¬ (pickRange.getD i 0 ≤ ID ∧ ID < pickRange.getD (i + 1) 0)) →
      w1.scene.hovered = { object := none, element := none }) := by
  obtain ⟨qs, hqs, hlen, hidx, -, hsc⟩ :=
    Scene.drawPickAll_spec w.scene.objects w 0 [0] hnodup hmesh (by omega) (by omega)
  have hw1 : w1 =
      { (Scene.drawPickAll w.scene.objects (w, 0, [0])).1 with
        scene :=
          { (Scene.drawPickAll w.scene.objects (w, 0, [0])).1.scene with
            hovered :=
              Scene.setSelectionAll (Scene.drawPickAll w.scene.objects (w, 0, [0])).1 ID
                (Scene.drawPickAll w.scene.objects (w, 0, [0])).1.scene.objects
                (Scene.drawPickAll w.scene.objects (w, 0, [0])).1.scene.hovered.clear } } :=
    (congrArg Prod.fst hR).symm
  have hpr : pickRange = 0 :: qs := by
    have := (congrArg Prod.snd hR).symm
    simp only [Scene.getHoveredObject] at this
    rw [this, hqs]
    rfl
  have hreg : ∀ o, w1.registered o =
      (Scene.drawPickAll w.scene.objects (w, 0, [0])).1.registered o := by
    intro o
    apply World.registered_congr
    rw [hw1]
    rfl
  have hrange : ∀ i, i < w.scene.objects.length →
      pickRange.getD i 0 ≤ pickRange.getD (i + 1) 0 ∧
      ∀ j : Int, (w1.registered (w.scene.objects.getD i 0) j).isSome ↔
        pickRange.getD i 0 ≤ j ∧ j < pickRange.getD (i + 1) 0 := by
    intro i hi
    rw [hpr, List.getD_cons_succ, hreg]
    exact hidx i hi
  have hmono := getD_mono pickRange w.scene.objects.length fun i hi => (hrange i hi).1
  have hdisj : ∀ i k, i < k → k < w.scene.objects.length → ∀ j : Int,
      ¬ ((w1.registered (w.scene.objects.getD i 0) j).isSome = true ∧
        (w1.registered (w.scene.objects.getD k 0) j).isSome = true) := by
    intro i k hik hk j hboth
    have h1 := ((hrange i (by omega)).2 j).mp hboth.1
    have h2 := ((hrange k hk).2 j).mp hboth.2
    have := hmono (i + 1) k (by omega) (by omega)
    omega
  have hhov : w1.scene.hovered =
      Scene.setSelectionAll (Scene.drawPickAll w.scene.objects (w, 0, [0])).1 ID
        w.scene.objects { object := none, element := none } := by
    rw [hw1]
    simp only [hsc]
    rfl
  refine ⟨by rw [hpr, List.length_cons, hlen], by rw [hpr]; rfl, hrange, hdisj, ?_, ?_⟩
  · intro i hi hlo hhi
    have hsome := ((hrange i hi).2 ID).mpr ⟨hlo, hhi⟩
    obtain ⟨e, he⟩ := Option.isSome_iff_exists.mp hsome
    have hsplit : w.scene.objects =
        w.scene.objects.take i ++ w.scene.objects.getD i 0 :: w.scene.objects.drop (i + 1) := by
      rw [List.getD_eq_getElem _ _ hi]
      simp
    rw [hhov, he,
      congrArg (fun l => Scene.setSelectionAll
        (Scene.drawPickAll w.scene.objects (w, 0, [0])).1 ID l
        { object := none, element := none }) hsplit]
    apply Scene.setSelectionAll_hit
    · rw [← hreg]
      exact he
    · intro o1 ho1
      obtain ⟨k, hik, hk, hko⟩ := mem_drop_getD _ i o1 ho1
      rw [← hreg, ← hko]
      cases hr : w1.registered (w.scene.objects.getD k 0) ID with
      | none => rfl
      | some e1 =>
        exact absurd ⟨hsome, by rw [hr]; rfl⟩ (hdisj i k hik hk ID)
  · intro hout
    rw [hhov]
    apply Scene.setSelectionAll_none
    intro o ho
    obtain ⟨k, hk, hko⟩ := mem_getD _ o ho
    rw [← hreg, ← hko]
    cases hr : w1.registered (w.scene.objects.getD k 0) ID with
    | none => rfl
    | some e1 =>
      have := ((hrange k hk).2 ID).mp (by rw [hr]; rfl)
      exact absurd this (hout k hk)

/-- C16 on the scene of two meshes, which use 56 IDs: the ranges are 0 to 24 and 24 to 56;
the ID 30 hovers the second mesh, and the ID 99 clears `hovered`. -/
theorem C16_witness :
    (twoMeshes.scene.objects.map twoMeshes.pickCount).sum = 56 ∧
    (Scene.getHoveredObject 30 twoMeshes).2 = [0, 24, 56] ∧
    (Scene.getHoveredObject 30 twoMeshes).1.scene.hovered =
      { object := some 20
        element := (Scene.getHoveredObject 30 twoMeshes).1.registered 20 30 } ∧
    (Scene.getHoveredObject 99 twoMeshes).1.scene.hovered =
      { object := none, element := none } :=
  ⟨by decide, by decide!,
   (C16_pick_ranges_are_disjoint 30 twoMeshes (Scene.getHoveredObject 30 twoMeshes).1
      (Scene.getHoveredObject 30 twoMeshes).2 (by decide) (by decide) (by decide)
      rfl).2.2.2.2.1 1 (by decide) (by decide!) (by decide!),
   (C16_pick_ranges_are_disjoint 99 twoMeshes (Scene.getHoveredObject 99 twoMeshes).1
      (Scene.getHoveredObject 99 twoMeshes).2 (by decide) (by decide) (by decide)
      rfl).2.2.2.2.2 (by decide!)⟩

end HoverLemmas
/-! ## Theorems: the mesh core -/

section CoreTheorems

variable {Vector3D : Type}

theorem updateAt_keys {α : Type} (k : Addr) (g : α → α) (l : List (Addr × α)) :
    (updateAt k g l).map Prod.fst = l.map Prod.fst := by
  unfold updateAt
  rw [List.map_map]
  apply List.map_congr_left
  intro r _
  by_cases h : r.1 = k <;> simp [h]

theorem HalfedgeMesh.edit_keys (m : HalfedgeMesh Vector3D) (e : Edit Vector3D) :
    (m.edit e).halfedges.map Prod.fst = m.halfedges.map Prod.fst ∧
    (m.edit e).vertices.map Prod.fst = m.vertices.map Prod.fst ∧
    (m.edit e).edges.map Prod.fst = m.edges.map Prod.fst ∧
    (m.edit e).faces.map Prod.fst = m.faces.map Prod.fst := by
  cases e <;> simp [HalfedgeMesh.edit, updateAt_keys]

theorem HalfedgeMesh.editAll_keys (es : List (Edit Vector3D)) (m : HalfedgeMesh Vector3D) :
    (es.foldl HalfedgeMesh.edit m).halfedges.map Prod.fst = m.halfedges.map Prod.fst ∧
    (es.foldl HalfedgeMesh.edit m).vertices.map Prod.fst = m.vertices.map Prod.fst ∧
    (es.foldl HalfedgeMesh.edit m).edges.map Prod.fst = m.edges.map Prod.fst ∧
    (es.foldl HalfedgeMesh.edit m).faces.map Prod.fst = m.faces.map Prod.fst := by
  induction es generalizing m with
  | nil => simp
  | cons e es ih =>
    rw [List.foldl_cons]
    obtain ⟨h1, h2, h3, h4⟩ := ih (m.edit e)
    obtain ⟨g1, g2, g3, g4⟩ := m.edit_keys e
    exact ⟨h1.trans g1, h2.trans g2, h3.trans g3, h4.trans g4⟩

/-- Destroying distinct elements of a store with unique addresses removes as many records
as there are elements to destroy. -/
theorem removeKeys_length {α : Type} (del : List Addr) (l : List (Addr × α))
    (hl : (l.map Prod.fst).Nodup) (hd : deletable del l = true) :
    (removeKeys del l).length + del.length = l.length := by
  unfold deletable at hd
  simp at hd
  obtain ⟨hnd, hsub⟩ := hd
  have hperm : ((l.map Prod.fst).filter fun k => del.contains k).Perm del := by
    rw [List.perm_ext_iff_of_nodup (hl.filter _) hnd]
    intro a
    simp only [List.mem_filter, List.contains_eq_any_beq, List.any_eq_true, beq_iff_eq,
      exists_eq_right]
    constructor
    · rintro ⟨_, x, hx, rfl⟩
      exact hx
    · intro h
      obtain ⟨x, hx⟩ := hsub a h
      exact ⟨List.mem_map.2 ⟨(a, x), hx, rfl⟩, a, h, rfl⟩
  have hlen : (l.filter fun p => del.contains p.1).length = del.length := by
    rw [← hperm.length_eq, List.filter_map, List.length_map]
    rfl
  have hsplit := List.length_eq_length_filter_add (l := l) (fun p => del.contains p.1)
  unfold removeKeys
  rw [hlen] at hsplit
  have : (List.filter (fun p => !del.contains p.1) l) =
      (List.filter (fun x => !(fun p => del.contains p.1) x) l) := rfl
  omega

theorem deletable_congr {α β : Type} (del : List Addr) (l : List (Addr × α))
    (l1 : List (Addr × β)) (h : l1.map Prod.fst = l.map Prod.fst) :
    deletable del l1 = deletable del l := by
  unfold deletable
  rw [h]

theorem removeKeys_keys {α : Type} (del : List Addr) (l : List (Addr × α)) :
    (removeKeys del l).map Prod.fst = (l.map Prod.fst).filter fun k => !del.contains k := by
  unfold removeKeys
  rw [List.filter_map]
  rfl

/-- The element counts after a rewrite that can be carried out. -/
theorem HalfedgeMesh.rewrite_counts (m : HalfedgeMesh Vector3D) (r : Rewrite Vector3D)
    (hm : m.uniqueAddrs) (hok : r.ok m = true) :
    (m.rewrite r).vertices.length + r.delVertices.length
      = m.vertices.length + r.newVertices.length ∧
    (m.rewrite r).edges.length + r.delEdges.length = m.edges.length + r.newEdges.length ∧
    (m.rewrite r).faces.length + r.delFaces.length = m.faces.length + r.newFaces.length := by
  obtain ⟨_, hv, he, hf⟩ := hm
  obtain ⟨_, kv, ke, kf⟩ := HalfedgeMesh.editAll_keys r.edits m
  unfold Rewrite.ok at hok
  simp only [Bool.and_eq_true] at hok
  obtain ⟨⟨⟨⟨⟨⟨⟨_, dv⟩, de⟩, df⟩, _⟩, _⟩, _⟩, _⟩ := hok
  have lv := removeKeys_length r.delVertices (r.edits.foldl HalfedgeMesh.edit m).vertices
    (kv ▸ hv) ((deletable_congr _ _ _ kv).trans dv)
  have le := removeKeys_length r.delEdges (r.edits.foldl HalfedgeMesh.edit m).edges
    (ke ▸ he) ((deletable_congr _ _ _ ke).trans de)
  have lf := removeKeys_length r.delFaces (r.edits.foldl HalfedgeMesh.edit m).faces
    (kf ▸ hf) ((deletable_congr _ _ _ kf).trans df)
  have e1 := congrArg List.length kv
  have e2 := congrArg List.length ke
  have e3 := congrArg List.length kf
  simp only [List.length_map] at e1 e2 e3
  simp only [HalfedgeMesh.rewrite, List.length_append]
  omega

/-- A rewrite changes `V - E + F` by its balance. -/
theorem HalfedgeMesh.euler_rewrite (m : HalfedgeMesh Vector3D) (r : Rewrite Vector3D)
    (hm : m.uniqueAddrs) (hok : r.ok m = true) :
    (m.rewrite r).euler = m.euler + r.balance := by
  obtain ⟨h1, h2, h3⟩ := m.rewrite_counts r hm hok
  unfold HalfedgeMesh.euler Rewrite.balance
  omega

theorem nodup_removeKeys_append {α : Type} (del : List Addr) (l0 l new : List (Addr × α))
    (hk : l.map Prod.fst = l0.map Prod.fst) (hl : (l0.map Prod.fst).Nodup)
    (hc : creatable new l0 = true) :
    ((removeKeys del l ++ new).map Prod.fst).Nodup := by
  unfold creatable at hc
  simp only [Bool.and_eq_true, decide_eq_true_eq, List.all_eq_true, Bool.not_eq_true_eq_eq_false,
    Bool.not_eq_eq_eq_not, Bool.not_true] at hc
  rw [List.map_append, removeKeys_keys, hk]
  refine List.Nodup.append (hl.filter _) hc.1 ?_
  intro a ha hb
  obtain ⟨p, hp, rfl⟩ := List.mem_map.1 hb
  have := hc.2 p hp
  have ha1 := (List.mem_filter.1 ha).1
  simp only [List.contains_eq_any_beq, List.any_eq_false, beq_iff_eq] at this
  obtain ⟨q, hq, hqe⟩ := List.mem_map.1 ha1
  exact this q.1 (List.mem_map.2 ⟨q, hq, rfl⟩) hqe.symm

/-- A rewrite that can be carried out keeps the addresses of the store unique. -/
theorem HalfedgeMesh.uniqueAddrs_rewrite (m : HalfedgeMesh Vector3D) (r : Rewrite Vector3D)
    (hm : m.uniqueAddrs) (hok : r.ok m = true) : (m.rewrite r).uniqueAddrs := by
  obtain ⟨hh, hv, he, hf⟩ := hm
  obtain ⟨kh, kv, ke, kf⟩ := HalfedgeMesh.editAll_keys r.edits m
  unfold Rewrite.ok at hok
  simp only [Bool.and_eq_true] at hok
  obtain ⟨⟨⟨⟨⟨⟨⟨_, _⟩, _⟩, _⟩, ch⟩, cv⟩, ce⟩, cf⟩ := hok
  exact ⟨nodup_removeKeys_append _ _ _ _ kh hh ch, nodup_removeKeys_append _ _ _ _ kv hv cv,
    nodup_removeKeys_append _ _ _ _ ke he ce, nodup_removeKeys_append _ _ _ _ kf hf cf⟩

/-- An operator whose rewrites are balanced preserves `V - E + F`, whether the call
succeeds or returns an error. -/
theorem HalfedgeMesh.euler_after_run (m : HalfedgeMesh Vector3D)
    (plan : Except OperatorError (Rewrite Vector3D)) (hm : m.uniqueAddrs)
    (hbal : ∀ r, plan = .ok r → r.balance = 0) :
    (m.after (m.run plan)).euler = m.euler := by
  cases plan with
  | error e => rfl
  | ok r =>
    unfold HalfedgeMesh.run
    by_cases hok : r.ok m = true
    · simp only [hok, if_true, HalfedgeMesh.after]
      rw [m.euler_rewrite r hm hok, hbal r rfl, add_zero]
    · simp only [hok, HalfedgeMesh.after]
      rfl

theorem HalfedgeMesh.uniqueAddrs_after_run (m : HalfedgeMesh Vector3D)
    (plan : Except OperatorError (Rewrite Vector3D)) (hm : m.uniqueAddrs) :
    (m.after (m.run plan)).uniqueAddrs := by
  cases plan with
  | error e => exact hm
  | ok r =>
    unfold HalfedgeMesh.run
    by_cases hok : r.ok m = true
    · simp only [hok, if_true, HalfedgeMesh.after]
      exact m.uniqueAddrs_rewrite r hm hok
    · simp only [hok, HalfedgeMesh.after]
      exact hm

theorem HalfedgeMesh.flipEdgePlan_balance (m : HalfedgeMesh Vector3D) (e : Addr)
    (r : Rewrite Vector3D) (h : m.flipEdgePlan e = .ok r) : r.balance = 0 := by
  unfold HalfedgeMesh.flipEdgePlan at h
  split at h
  · cases h
  · split at h
    · split at h
      · cases h
      · cases h
        rfl
    · cases h

theorem HalfedgeMesh.splitEdgePlan_counts [Inhabited Vector3D] (g : Geometry Vector3D)
    (m : HalfedgeMesh Vector3D) (e : Addr)
    (r : Rewrite Vector3D) (h : m.splitEdgePlan g e = .ok r) :
    r.newVertices.length = 1 ∧ r.newEdges.length = 3 ∧ r.newFaces.length = 2 ∧
    r.delVertices = [] ∧ r.delEdges = [] ∧ r.delFaces = [] := by
  unfold HalfedgeMesh.splitEdgePlan at h
  split at h
  · cases h
  · split at h
    · cases h
      exact ⟨rfl, rfl, rfl, rfl, rfl, rfl⟩
    · cases h

theorem HalfedgeMesh.eraseEdgePlan_balance (m : HalfedgeMesh Vector3D) (e : Addr)
    (r : Rewrite Vector3D) (h : m.eraseEdgePlan e = .ok r) : r.balance = 0 := by
  unfold HalfedgeMesh.eraseEdgePlan at h
  split at h
  · cases h
  · split at h
    · split at h
      · cases h
      · cases h
        rfl
    · cases h

theorem walkCycle_ne_nil (step : Addr → Addr) (start : Addr) (fuel : Nat) (h : Addr)
    (l : List Addr) (hl : walkCycle step start fuel h = some l) : l ≠ [] := by
  cases fuel with
  | zero => cases hl
  | succ n =>
    unfold walkCycle at hl
    split at hl
    · cases hl
      simp
    · cases hw : walkCycle step start n (step h) with
      | none => simp [hw] at hl
      | some l1 =>
        simp only [hw, Option.map_some', Option.some.injEq] at hl
        rw [← hl]
        simp

theorem HalfedgeMesh.eraseVertexPlan_balance (m : HalfedgeMesh Vector3D) (v : Addr)
    (r : Rewrite Vector3D) (h : m.eraseVertexPlan v = .ok r) : r.balance = 0 := by
  unfold HalfedgeMesh.eraseVertexPlan at h
  split at h
  · cases h
  · split at h
    · cases h
    · rename_i spokes hs
      have hne := walkCycle_ne_nil _ _ _ _ _ hs
      have hpos : 0 < spokes.length := List.length_pos.2 hne
      split at h
      · cases h
      · cases h
        simp only [Rewrite.balance, List.length_nil, List.length_singleton, List.length_map,
          List.length_tail]
        omega

theorem HalfedgeMesh.closeSide_balance (m : HalfedgeMesh Vector3D) (l : List Addr) :
    (m.closeSide l).delEdges.length = (m.closeSide l).delFaces.length := by
  unfold HalfedgeMesh.closeSide
  split <;> rfl

theorem HalfedgeMesh.closeSides_balance (m : HalfedgeMesh Vector3D) (ls : List (List Addr)) :
    ((ls.map m.closeSide).flatMap fun s => s.delEdges).length =
      ((ls.map m.closeSide).flatMap fun s => s.delFaces).length := by
  induction ls with
  | nil => rfl
  | cons l ls ih =>
    simp only [List.map_cons, List.flatMap_cons, List.length_append, ih, m.closeSide_balance l]

theorem HalfedgeMesh.collapseEdgePlan_balance [Inhabited Vector3D] (g : Geometry Vector3D)
    (m : HalfedgeMesh Vector3D) (e : Addr)
    (r : Rewrite Vector3D) (h : m.collapseEdgePlan g e = .ok r) : r.balance = 0 := by
  unfold HalfedgeMesh.collapseEdgePlan at h
  split at h
  · cases h
  · split at h
    · rename_i l0 l1 spokes _ _ _
      simp only at h
      split at h
      · cases h
      · cases h
        have h0 := m.closeSide_balance l0
        have h1 := m.closeSide_balance l1
        simp only [Rewrite.balance, List.length_nil, List.length_singleton, List.length_append]
        omega
    · cases h

theorem HalfedgeMesh.collapseFacePlan_balance [Inhabited Vector3D] (g : Geometry Vector3D)
    (m : HalfedgeMesh Vector3D) (f : Addr)
    (r : Rewrite Vector3D) (h : m.collapseFacePlan g f = .ok r) : r.balance = 0 := by
  unfold HalfedgeMesh.collapseFacePlan at h
  split at h
  · cases h
  · split at h
    · cases h
    · rename_i l hl
      have hpos : 0 < l.length := List.length_pos.2 (walkCycle_ne_nil _ _ _ _ _ hl)
      simp only at h
      split at h
      · cases h
      · cases h
        have hb := m.closeSides_balance (l.map fun h => (m.faceLoop (m.twin h)).getD [])
        simp only [List.map_map] at hb
        simp only [Rewrite.balance, List.length_nil, List.length_singleton, List.length_append,
          List.length_map, List.length_tail]
        simp only [Function.comp_def] at hb
        omega

theorem length_flatMap_pair {α β : Type} (l : List α) (f g : α → β) :
    (l.flatMap fun i => [f i, g i]).length = 2 * l.length := by
  induction l with
  | nil => rfl
  | cons a l ih =>
    simp only [List.flatMap_cons, List.length_append, ih, List.length_cons, List.length_nil]
    omega

theorem HalfedgeMesh.bevelRing_counts [Inhabited Vector3D] (m : HalfedgeMesh Vector3D)
    (spokes : List Addr) :
    (m.bevelRing spokes).newVertices.length = spokes.length ∧
    (m.bevelRing spokes).newEdges.length = spokes.length ∧
    (m.bevelRing spokes).newFaces.length = 1 ∧
    (m.bevelRing spokes).delVertices = [] ∧ (m.bevelRing spokes).delEdges = [] ∧
    (m.bevelRing spokes).delFaces = [] := by
  simp [HalfedgeMesh.bevelRing]

theorem HalfedgeMesh.bevelVertexPlan_balance [Inhabited Vector3D]
    (m : HalfedgeMesh Vector3D) (v : Addr)
    (r : Rewrite Vector3D) (h : m.bevelVertexPlan v = .ok r) : r.balance = 0 := by
  unfold HalfedgeMesh.bevelVertexPlan at h
  split at h
  · cases h
  · split at h
    · cases h
    · rename_i spokes hs
      split at h
      · cases h
      · cases h
        obtain ⟨h1, h2, h3, _, h5, h6⟩ := m.bevelRing_counts spokes
        simp only [Rewrite.balance, h1, h2, h3, h5, h6, List.length_nil, List.length_singleton]
        omega

theorem HalfedgeMesh.bevelEdgePlan_balance [Inhabited Vector3D]
    (m : HalfedgeMesh Vector3D) (e : Addr)
    (r : Rewrite Vector3D) (h : m.bevelEdgePlan e = .ok r) : r.balance = 0 := by
  unfold HalfedgeMesh.bevelEdgePlan at h
  split at h
  · cases h
  · split at h
    · rename_i h0 l0 t l1 _ _
      split at h
      · cases h
      · cases h
        obtain ⟨h1, h2, h3, _, _, h6⟩ := m.bevelRing_counts (l0 ++ l1)
        simp only [Rewrite.balance, h1, h2, h3, h6, List.length_nil, List.length_singleton,
          List.length_cons]
        omega
    · cases h

theorem HalfedgeMesh.bevelFacePlan_balance [Inhabited Vector3D]
    (m : HalfedgeMesh Vector3D) (f : Addr)
    (r : Rewrite Vector3D) (h : m.bevelFacePlan f = .ok r) : r.balance = 0 := by
  unfold HalfedgeMesh.bevelFacePlan at h
  split at h
  · cases h
  · split at h
    · cases h
    · cases h
      simp only [Rewrite.balance, length_flatMap_pair, List.length_map, List.length_range,
        List.length_nil]
      omega

theorem HalfedgeMesh.fanFacePlan_balance (m : HalfedgeMesh Vector3D) (f : Addr)
    (r : Rewrite Vector3D) (h : m.fanFacePlan f = .ok r) : r.balance = 0 := by
  unfold HalfedgeMesh.fanFacePlan at h
  split at h
  · cases h
  · split at h
    · cases h
    · simp only at h
      split at h
      · cases h
      · cases h
        simp only [Rewrite.balance, List.length_map, List.length_range, List.length_nil]
        omega

theorem HalfedgeMesh.triangulate_fold (fs : List (Addr × Face)) (m : HalfedgeMesh Vector3D)
    (hm : m.uniqueAddrs) :
    (fs.foldl (fun acc p => acc.after (acc.run (acc.fanFacePlan p.1))) m).euler = m.euler ∧
    (fs.foldl (fun acc p => acc.after (acc.run (acc.fanFacePlan p.1))) m).uniqueAddrs := by
  induction fs generalizing m with
  | nil => exact ⟨rfl, hm⟩
  | cons p fs ih =>
    rw [List.foldl_cons]
    obtain ⟨h1, h2⟩ := ih (m.after (m.run (m.fanFacePlan p.1)))
      (m.uniqueAddrs_after_run _ hm)
    exact ⟨h1.trans (m.euler_after_run _ hm (m.fanFacePlan_balance p.1)), h2⟩

theorem HalfedgeMesh.closedManifold_uniqueAddrs (m : HalfedgeMesh Vector3D)
    (h : m.closedManifold = true) : m.uniqueAddrs := by
  unfold HalfedgeMesh.closedManifold at h
  simp only [Bool.and_eq_true, decide_eq_true_eq] at h
  obtain ⟨⟨⟨⟨⟨⟨⟨h1, h2⟩, h3⟩, h4⟩, _⟩, _⟩, _⟩, _⟩ := h
  exact ⟨h1, h2, h3, h4⟩

end CoreTheorems

section EulerTheorems

variable {Vector3D : Type}

theorem tetrahedron_closedManifold : tetrahedron.closedManifold = true := by decide

theorem tetrahedron_build :
    HalfedgeMesh.build [[0, 1, 2], [0, 3, 1], [1, 3, 2], [2, 3, 0]]
      [((0 : Int), (0 : Int), (0 : Int)), (2, 0, 0), (0, 2, 0), (0, 0, 2)] = .ok tetrahedron := by
  rfl

theorem freshAddr_le_foldl {α : Type} (l : List (Addr × α)) (a : Addr) :
    a ≤ l.foldl (fun a p => max a (p.1 + 1)) a ∧
    ∀ p ∈ l, p.1 < l.foldl (fun a p => max a (p.1 + 1)) a := by
  induction l generalizing a with
  | nil => simp
  | cons q l ih =>
    rw [List.foldl_cons]
    obtain ⟨h1, h2⟩ := ih (max a (q.1 + 1))
    refine ⟨le_trans (le_max_left _ _) h1, ?_⟩
    intro p hp
    rcases List.mem_cons.1 hp with rfl | hp
    · exact lt_of_lt_of_le (Nat.lt_succ_self _) (le_trans (le_max_right _ _) h1)
    · exact h2 p hp

/-- Every address in use is below the fresh address. -/
theorem lt_freshAddr {α : Type} (l : List (Addr × α)) (p : Addr × α) (hp : p ∈ l) :
    p.1 < freshAddr l :=
  (freshAddr_le_foldl l 0).2 p hp

theorem not_contains_of_freshAddr_le {α : Type} (l : List (Addr × α)) (k : Addr)
    (hk : freshAddr l ≤ k) : (l.map Prod.fst).contains k = false := by
  rw [Bool.eq_false_iff]
  intro h
  simp only [List.contains_eq_any_beq, List.any_eq_true, beq_iff_eq] at h
  obtain ⟨x, hx, rfl⟩ := h
  obtain ⟨p, hp, rfl⟩ := List.mem_map.1 hx
  exact absurd (lt_freshAddr l p hp) (not_lt.2 hk)

theorem freshAddr_not_mem {α : Type} (l : List (Addr × α)) (x : α) :
    (freshAddr l, x) ∉ l :=
  fun hx => absurd (lt_freshAddr l _ hx) (lt_irrefl _)

theorem freshAddr_add_not_mem {α : Type} (l : List (Addr × α)) (j : Nat) (x : α) :
    (freshAddr l + j, x) ∉ l :=
  fun hx => absurd (lt_freshAddr l _ hx) (not_lt.2 (Nat.le_add_right _ _))

/-- The rewrite of `splitEdge` can always be carried out. -/
theorem HalfedgeMesh.splitEdgePlan_ok [Inhabited Vector3D] (g : Geometry Vector3D)
    (m : HalfedgeMesh Vector3D) (e : Addr)
    (r : Rewrite Vector3D) (h : m.splitEdgePlan g e = .ok r) : r.ok m = true := by
  unfold HalfedgeMesh.splitEdgePlan at h
  split at h
  · cases h
  · split at h
    · cases h
      simp [Rewrite.ok, deletable, creatable, freshAddr_not_mem, freshAddr_add_not_mem]
    · cases h

/-- The counts after `splitEdge` on an edge between two triangles. -/
theorem HalfedgeMesh.splitEdge_counts [Inhabited Vector3D] (g : Geometry Vector3D)
    (m : HalfedgeMesh Vector3D) (e : Addr) (hm : m.uniqueAddrs) (r : Edge)
    (h0 h1 h2 h3 h4 h5 : Addr) (he : m.edges.lookup e = some r)
    (hl0 : m.faceLoop r.halfedge = some [h0, h1, h2])
    (hl1 : m.faceLoop (m.twin r.halfedge) = some [h3, h4, h5]) :
    ∃ m1 n, m.splitEdge g e = .ok (m1, n) ∧
      m1.vertices.length = m.vertices.length + 1 ∧
      m1.edges.length = m.edges.length + 3 ∧
      m1.faces.length = m.faces.length + 2 := by
  have hplan : ∃ p, m.splitEdgePlan g e = .ok p := by
    unfold HalfedgeMesh.splitEdgePlan
    simp only [he, hl0, hl1]
    exact ⟨_, rfl⟩
  obtain ⟨p, hp⟩ := hplan
  have hok := m.splitEdgePlan_ok g e p hp
  obtain ⟨c1, c2, c3, c4, c5, c6⟩ := m.splitEdgePlan_counts g e p hp
  obtain ⟨k1, k2, k3⟩ := m.rewrite_counts p hm hok
  refine ⟨m.rewrite p, p.result, ?_, ?_, ?_, ?_⟩
  · unfold HalfedgeMesh.splitEdge HalfedgeMesh.run
    rw [hp]
    simp only [hok, if_true]
  · rw [c1, c4] at k1
    simpa using k1
  · rw [c2, c5] at k2
    simpa using k2
  · rw [c3, c6] at k3
    simpa using k3

/-- The cube is a closed manifold mesh with 8 vertices, 12 edges and 6 faces. -/
theorem cube_closedManifold : cube.closedManifold = true ∧ cube.counts = (8, 12, 6) := by
  decide!

/-- On the tetrahedron the calls of `flipEdge`, `splitEdge`, `collapseEdge`, `eraseVertex`,
`eraseEdge`, `bevelVertex`, `bevelEdge` and `bevelFace` on element 0 succeed, and each gives
a store that passes the check of the invariants. -/
theorem tetrahedron_operators_succeed :
    ((tetrahedron.flipEdge 0).isOk = true ∧
      (tetrahedron.after (tetrahedron.flipEdge 0)).closedManifold = true) ∧
    ((tetrahedron.splitEdge halving 0).isOk = true ∧
      (tetrahedron.after (tetrahedron.splitEdge halving 0)).closedManifold = true) ∧
    ((tetrahedron.collapseEdge halving 0).isOk = true ∧
      (tetrahedron.after (tetrahedron.collapseEdge halving 0)).closedManifold = true) ∧
    ((tetrahedron.eraseVertex 0).isOk = true ∧
      (tetrahedron.after (tetrahedron.eraseVertex 0)).closedManifold = true) ∧
    ((tetrahedron.eraseEdge 0).isOk = true ∧
      (tetrahedron.after (tetrahedron.eraseEdge 0)).closedManifold = true) ∧
    ((tetrahedron.bevelVertex 0).isOk = true ∧
      (tetrahedron.after (tetrahedron.bevelVertex 0)).closedManifold = true) ∧
    ((tetrahedron.bevelEdge 0).isOk = true ∧
      (tetrahedron.after (tetrahedron.bevelEdge 0)).closedManifold = true) ∧
    ((tetrahedron.bevelFace 0).isOk = true ∧
      (tetrahedron.after (tetrahedron.bevelFace 0)).closedManifold = true) := by
  decide!

/-- On the cube `collapseFace` on face 0 succeeds and `triangulate` cuts every quadrilateral
in two; both give a store that passes the check of the invariants. -/
theorem cube_operators_succeed :
    (cube.collapseFace halving 0).isOk = true ∧
    (cube.after (cube.collapseFace halving 0)).closedManifold = true ∧
    (cube.after (cube.collapseFace halving 0)).counts = (5, 8, 5) ∧
    cube.triangulate.closedManifold = true ∧ cube.triangulate.counts = (8, 18, 12) := by
  decide!

/-- C20 (counterexample): on the tetrahedron, a closed manifold mesh with 4 vertices, 6 edges,
4 faces and `V - E + F = 2`, edge 0 lies between two triangles, and `splitEdge` on it succeeds
and gives 5 vertices, 9 edges and 6 faces: three more edges, not two. No store at all has the
counts `4 + 1`, `6 + 2`, `4 + 2` and `V - E + F = 2`. -/
theorem C20_counterexample_split_adds_three_edges :
    tetrahedron.closedManifold = true ∧ tetrahedron.euler = 2 ∧
    tetrahedron.counts = (4, 6, 4) ∧
    tetrahedron.faceLoop (tetrahedron.edgeHalfedge 0) = some [0, 1, 2] ∧
    tetrahedron.faceLoop (tetrahedron.twin (tetrahedron.edgeHalfedge 0)) = some [5, 3, 4] ∧
    (tetrahedron.splitEdge halving 0).isOk = true ∧
    (tetrahedron.after (tetrahedron.splitEdge halving 0)).counts = (5, 9, 6) ∧
    (tetrahedron.after (tetrahedron.splitEdge halving 0)).counts ≠ (4 + 1, 6 + 2, 4 + 2) ∧
    (∀ m : HalfedgeMesh (Int × Int × Int),
      m.counts = (4 + 1, 6 + 2, 4 + 2) → m.euler ≠ 2) := by
  refine ⟨by decide, by decide, by decide, by decide, by decide, by rfl, by decide, by decide,
    ?_⟩
  intro m hm
  unfold HalfedgeMesh.counts at hm
  simp only [Prod.mk.injEq] at hm
  unfold HalfedgeMesh.euler
  omega

/-- C20 (amended): on a closed manifold mesh with `V - E + F = 2`, every one of `flipEdge`,
`splitEdge`, `collapseEdge`, `collapseFace`, `eraseVertex`, `eraseEdge`, `bevelVertex`,
`bevelEdge`, `bevelFace` and `triangulate` yields a mesh with `V - E + F = 2`, whether the
call rewrites the store or returns an error and leaves it as it is; and `splitEdge` on an
edge between two triangles succeeds and changes the counts by exactly +1 vertex, +3 edges
and +2 faces. -/
theorem C20_operators_preserve_euler [Inhabited Vector3D] (g : Geometry Vector3D)
    (m : HalfedgeMesh Vector3D) (x : Addr)
    (hm : m.closedManifold = true) (he : m.euler = 2) :
    (m.after (m.flipEdge x)).euler = 2 ∧
    (m.after (m.splitEdge g x)).euler = 2 ∧
    (m.after (m.collapseEdge g x)).euler = 2 ∧
    (m.after (m.collapseFace g x)).euler = 2 ∧
    (m.after (m.eraseVertex x)).euler = 2 ∧
    (m.after (m.eraseEdge x)).euler = 2 ∧
    (m.after (m.bevelVertex x)).euler = 2 ∧
    (m.after (m.bevelEdge x)).euler = 2 ∧
    (m.after (m.bevelFace x)).euler = 2 ∧
    m.triangulate.euler = 2 ∧
    (∀ (r : Edge) (h0 h1 h2 h3 h4 h5 : Addr), m.edges.lookup x = some r →
      m.faceLoop r.halfedge = some [h0, h1, h2] →
      m.faceLoop (m.twin r.halfedge) = some [h3, h4, h5] →
      ∃ m1 n, m.splitEdge g x = .ok (m1, n) ∧
        m1.vertices.length = m.vertices.length + 1 ∧
        m1.edges.length = m.edges.length + 3 ∧
        m1.faces.length = m.faces.length + 2) := by
  have hu := m.closedManifold_uniqueAddrs hm
  have hsplit : ∀ r, m.splitEdgePlan g x = .ok r → r.balance = 0 := by
    intro r hr
    obtain ⟨c1, c2, c3, c4, c5, c6⟩ := m.splitEdgePlan_counts g x r hr
    simp [Rewrite.balance, c1, c2, c3, c4, c5, c6]
  refine ⟨?_, ?_, ?_, ?_, ?_, ?_, ?_, ?_, ?_, ?_, ?_⟩
  · exact (m.euler_after_run _ hu (m.flipEdgePlan_balance x)).trans he
  · exact (m.euler_after_run _ hu hsplit).trans he
  · exact (m.euler_after_run _ hu (m.collapseEdgePlan_balance g x)).trans he
  · exact (m.euler_after_run _ hu (m.collapseFacePlan_balance g x)).trans he
  · exact (m.euler_after_run _ hu (m.eraseVertexPlan_balance x)).trans he
  · exact (m.euler_after_run _ hu (m.eraseEdgePlan_balance x)).trans he
  · exact (m.euler_after_run _ hu (m.bevelVertexPlan_balance x)).trans he
  · exact (m.euler_after_run _ hu (m.bevelEdgePlan_balance x)).trans he
  · exact (m.euler_after_run _ hu (m.bevelFacePlan_balance x)).trans he
  · exact ((HalfedgeMesh.triangulate_fold m.faces m hu).1).trans he
  · intro r h0 h1 h2 h3 h4 h5 hr hl0 hl1
    exact m.splitEdge_counts g x hu r h0 h1 h2 h3 h4 h5 hr hl0 hl1

/-- C20 (witness): the tetrahedron and its edge 0. -/
theorem C20_witness :
    tetrahedron.closedManifold = true ∧ tetrahedron.euler = 2 ∧
    (tetrahedron.after (tetrahedron.flipEdge 0)).euler = 2 ∧
    (tetrahedron.after (tetrahedron.splitEdge halving 0)).euler = 2 ∧
    (tetrahedron.after (tetrahedron.collapseEdge halving 0)).euler = 2 ∧
    (tetrahedron.after (tetrahedron.collapseFace halving 0)).euler = 2 ∧
    (tetrahedron.after (tetrahedron.eraseVertex 0)).euler = 2 ∧
    (tetrahedron.after (tetrahedron.eraseEdge 0)).euler = 2 ∧
    (tetrahedron.after (tetrahedron.bevelVertex 0)).euler = 2 ∧
    (tetrahedron.after (tetrahedron.bevelEdge 0)).euler = 2 ∧
    (tetrahedron.after (tetrahedron.bevelFace 0)).euler = 2 ∧
    tetrahedron.triangulate.euler = 2 ∧
    (∀ (r : Edge) (h0 h1 h2 h3 h4 h5 : Addr), tetrahedron.edges.lookup 0 = some r →
      tetrahedron.faceLoop r.halfedge = some [h0, h1, h2] →
      tetrahedron.faceLoop (tetrahedron.twin r.halfedge) = some [h3, h4, h5] →
      ∃ m1 n, tetrahedron.splitEdge halving 0 = .ok (m1, n) ∧
        m1.vertices.length = tetrahedron.vertices.length + 1 ∧
        m1.edges.length = tetrahedron.edges.length + 3 ∧
        m1.faces.length = tetrahedron.faces.length + 2) :=
  ⟨by decide, by decide,
    C20_operators_preserve_euler halving tetrahedron 0 (by decide) (by decide)⟩

end EulerTheorems

/-! ## Theorems: guards, build, triangulation, drawing, input events -/

section GuardClaims

variable {Vector3D : Type}

/-- C26: for a mesh that has no scene, or whose scene has no selected element, each of
`collapse_selected_element`, `flip_selected_edge`, `split_selected_edge`,
`erase_selected_element`, `bevel_selected_element` and `_bevel_selection` returns the state
it was called in: no operator call is logged, and the store of the mesh, the stored bevel
data and the selections are what they were. -/
theorem C26_commands_return_without_selection [Inhabited Vector3D] {D : Type}
    (ops : MeshOps Vector3D) (rep : Reposition Vector3D D) (inset shift : D) (this : Addr)
    (w : World Vector3D) (self : Mesh Vector3D) (hself : w.meshAt this = some self)
    (h : self.scene = false ∨ w.scene.selected.element = none) :
    Mesh.collapse_selected_element ops this w = w ∧
    Mesh.flip_selected_edge ops this w = w ∧
    Mesh.split_selected_edge ops this w = w ∧
    Mesh.erase_selected_element ops this w = w ∧
    Mesh.bevel_selected_element ops this w = w ∧
    Mesh._bevel_selection rep inset shift this w = w := by
  rcases h with h | h
  · simp [Mesh.collapse_selected_element, Mesh.flip_selected_edge, Mesh.split_selected_edge,
      Mesh.erase_selected_element, Mesh.bevel_selected_element, Mesh._bevel_selection, hself, h]
  · by_cases hs : self.scene = false <;>
      simp [Mesh.collapse_selected_element, Mesh.flip_selected_edge, Mesh.split_selected_edge,
        Mesh.erase_selected_element, Mesh.bevel_selected_element, Mesh._bevel_selection, hself,
        h, hs]

/-- C26 on a selected mesh without scene pointer, and on an attached mesh with nothing
selected. -/
theorem C26_witness :
    (Mesh.collapse_selected_element tagOps 10 unattachedSelected = unattachedSelected ∧
      Mesh.flip_selected_edge tagOps 10 unattachedSelected = unattachedSelected ∧
      Mesh.split_selected_edge tagOps 10 unattachedSelected = unattachedSelected ∧
      Mesh.erase_selected_element tagOps 10 unattachedSelected = unattachedSelected ∧
      Mesh.bevel_selected_element tagOps 10 unattachedSelected = unattachedSelected ∧
      Mesh._bevel_selection driftReposition 1 1 10 unattachedSelected = unattachedSelected) ∧
    (Mesh.collapse_selected_element tagOps 10 (worldWith (meshOver trianglePillow) none)
        = worldWith (meshOver trianglePillow) none ∧
      Mesh.flip_selected_edge tagOps 10 (worldWith (meshOver trianglePillow) none)
        = worldWith (meshOver trianglePillow) none ∧
      Mesh.split_selected_edge tagOps 10 (worldWith (meshOver trianglePillow) none)
        = worldWith (meshOver trianglePillow) none ∧
      Mesh.erase_selected_element tagOps 10 (worldWith (meshOver trianglePillow) none)
        = worldWith (meshOver trianglePillow) none ∧
      Mesh.bevel_selected_element tagOps 10 (worldWith (meshOver trianglePillow) none)
        = worldWith (meshOver trianglePillow) none ∧
      Mesh._bevel_selection driftReposition 1 1 10 (worldWith (meshOver trianglePillow) none)
        = worldWith (meshOver trianglePillow) none) :=
  ⟨C26_commands_return_without_selection tagOps driftReposition 1 1 10 unattachedSelected
      { meshOver trianglePillow with scene := false } rfl (Or.inl rfl),
    C26_commands_return_without_selection tagOps driftReposition 1 1 10
      (worldWith (meshOver trianglePillow) none) (meshOver trianglePillow) rfl (Or.inr rfl)⟩

end GuardClaims

section BuildTheorems

variable {Vector3D : Type}

/-- Two disjoint properties that both imply a third: what has the third is at least what has
the one plus what has the other. -/
theorem countP_add_le {α : Type} (p q r : α → Bool) (l : List α)
    (hd : ∀ x ∈ l, p x = true → q x = true → False)
    (hp : ∀ x ∈ l, p x = true → r x = true) (hq : ∀ x ∈ l, q x = true → r x = true) :
    l.countP p + l.countP q ≤ l.countP r := by
  induction l with
  | nil => simp
  | cons a l ih =>
    have ih1 := ih (fun x hx => hd x (List.mem_cons_of_mem _ hx))
      (fun x hx => hp x (List.mem_cons_of_mem _ hx))
      (fun x hx => hq x (List.mem_cons_of_mem _ hx))
    have ha := hd a (List.mem_cons_self _ _)
    have hpa := hp a (List.mem_cons_self _ _)
    have hqa := hq a (List.mem_cons_self _ _)
    simp only [List.countP_cons]
    cases h1 : p a <;> cases h2 : q a <;> cases h3 : r a <;> simp_all <;> omega

/-- The other direction: what has the third property has the one or the other. -/
theorem countP_le_add {α : Type} (p q r : α → Bool) (l : List α)
    (hr : ∀ x ∈ l, r x = true → p x = true ∨ q x = true) :
    l.countP r ≤ l.countP p + l.countP q := by
  induction l with
  | nil => simp
  | cons a l ih =>
    have ih1 := ih (fun x hx => hr x (List.mem_cons_of_mem _ hx))
    have ha := hr a (List.mem_cons_self _ _)
    simp only [List.countP_cons]
    cases h1 : p a <;> cases h2 : q a <;> cases h3 : r a <;> simp_all <;> omega

theorem countP_eq_self_pos {α : Type} [DecidableEq α] (l : List α) (s : α) (hs : s ∈ l) :
    1 ≤ l.countP fun t => decide (t = s) := by
  exact List.countP_pos_iff.2 ⟨s, hs, decide_eq_true rfl⟩

theorem countP_eq_self_of_nodup {α : Type} [DecidableEq α] (l : List α) (s : α)
    (hn : l.Nodup) : l.countP (fun t => decide (t = s)) ≤ 1 := by
  induction l with
  | nil => simp
  | cons a l ih =>
    have hn1 := List.nodup_cons.1 hn
    have ih1 := ih hn1.2
    simp only [List.countP_cons]
    by_cases h : a = s
    · subst h
      have : l.countP (fun t => decide (t = a)) = 0 := by
        rw [List.countP_eq_zero]
        intro x hx
        simp only [decide_eq_true_eq]
        rintro rfl
        exact hn1.1 hx
      simp [this]
    · simp [h, ih1]

/-- The addresses of the sides of a soup laid out from `base` on. -/
theorem soupSides_addr (ps : List (List Addr)) (f base : Nat) :
    ((soupSides ps f base).map Prod.fst).Nodup ∧
    ∀ s ∈ soupSides ps f base, base ≤ s.1 := by
  induction ps generalizing f base with
  | nil => simp [soupSides]
  | cons p ps ih =>
    obtain ⟨h1, h2⟩ := ih (f + 1) (base + p.length)
    simp only [soupSides, List.map_append, List.map_map]
    constructor
    · refine List.Nodup.append ?_ h1 ?_
      · have : (List.map (Prod.fst ∘ fun j =>
            (base + j, f, p.getD j 0, p.getD ((j + 1) % p.length) 0,
              base + (j + 1) % p.length)) (List.range p.length))
            = (List.range p.length).map fun j => base + j := rfl
        rw [this]
        exact (List.nodup_range _).map (fun a b h => by simpa using h)
      · intro a ha hb
        obtain ⟨j, hj, rfl⟩ := List.mem_map.1 ha
        obtain ⟨s, hs, hse⟩ := List.mem_map.1 hb
        have := h2 s hs
        have hj1 := List.mem_range.1 hj
        have hse1 : @Eq Nat s.1 (base + j) := hse
        omega
    · intro s hs
      rcases List.mem_append.1 hs with hs | hs
      · obtain ⟨j, _, rfl⟩ := List.mem_map.1 hs
        exact Nat.le_add_right _ _
      · exact le_trans (Nat.le_add_right _ _) (h2 s hs)

/-- The sides of a soup are pairwise different. -/
theorem soupSides_nodup (ps : List (List Addr)) (f base : Nat) :
    (soupSides ps f base).Nodup :=
  List.Nodup.of_map _ (soupSides_addr ps f base).1

/-- A build fails with `NonManifoldEdge` exactly when some edge is shared by more than two
sides. -/
theorem HalfedgeMesh.build_nonManifoldEdge_iff (polygons : List (List Addr))
    (positions : List Vector3D) :
    HalfedgeMesh.build polygons positions = .error .nonManifoldEdge ↔
      ∃ s ∈ soupSides polygons 0 0,
        2 < (sidesOn (soupSides polygons 0 0) s.2.2.1 s.2.2.2.1).length := by
  unfold HalfedgeMesh.build
  simp only
  split_ifs with h1 h2
  · simp only [List.any_eq_true, decide_eq_true_eq] at h1
    simp only [true_iff]
    exact h1
  · simp only [List.any_eq_true, decide_eq_true_eq] at h1
    simp only [reduceCtorEq, false_iff, Except.error.injEq]
    exact h1
  · simp only [List.any_eq_true, decide_eq_true_eq] at h1
    simp only [reduceCtorEq, false_iff]
    exact h1

/-- A build fails with `UnmatchedEdge` exactly when no edge is shared by more than two sides
and some side has no complement. -/
theorem HalfedgeMesh.build_unmatchedEdge_iff (polygons : List (List Addr))
    (positions : List Vector3D) :
    HalfedgeMesh.build polygons positions = .error .unmatchedEdge ↔
      (¬ ∃ s ∈ soupSides polygons 0 0,
        2 < (sidesOn (soupSides polygons 0 0) s.2.2.1 s.2.2.2.1).length) ∧
      ∃ s ∈ soupSides polygons 0 0, (complements (soupSides polygons 0 0) s).length = 0 := by
  unfold HalfedgeMesh.build
  simp only
  split_ifs with h1 h2
  · simp only [List.any_eq_true, decide_eq_true_eq] at h1
    simp only [Except.error.injEq, reduceCtorEq, false_iff, not_and]
    exact fun h => absurd h1 h
  · simp only [List.any_eq_true, decide_eq_true_eq] at h1 h2
    simp only [true_iff]
    exact ⟨h1, h2⟩
  · simp only [List.any_eq_true, decide_eq_true_eq] at h1 h2
    simp only [reduceCtorEq, false_iff, not_and]
    exact fun _ => h2

/-- A build succeeds exactly when no edge is shared by more than two sides and every side
has a complement. -/
theorem HalfedgeMesh.build_ok_iff (polygons : List (List Addr))
    (positions : List Vector3D) :
    (∃ m, HalfedgeMesh.build polygons positions = .ok m) ↔
      (∀ s ∈ soupSides polygons 0 0,
        (sidesOn (soupSides polygons 0 0) s.2.2.1 s.2.2.2.1).length ≤ 2) ∧
      ∀ s ∈ soupSides polygons 0 0, (complements (soupSides polygons 0 0) s).length ≠ 0 := by
  unfold HalfedgeMesh.build
  simp only
  split_ifs with h1 h2
  · simp only [List.any_eq_true, decide_eq_true_eq] at h1
    obtain ⟨s, hs, h⟩ := h1
    simp only [reduceCtorEq, exists_false, false_iff, not_and]
    intro hall
    exact absurd (hall s hs) (not_le.2 h)
  · simp only [List.any_eq_true, decide_eq_true_eq] at h2
    obtain ⟨s, hs, h⟩ := h2
    simp only [reduceCtorEq, exists_false, false_iff, not_and]
    intro _ hall
    exact hall s hs h
  · simp only [List.any_eq_true, decide_eq_true_eq, not_exists, not_and, not_lt] at h1 h2
    simp only [Except.ok.injEq, exists_eq', true_iff]
    exact ⟨h1, h2⟩

/-- In a list of pairwise different sides: no edge is shared by more than two sides and every
side has a complement, exactly when every side has exactly one complement. -/
theorem complements_exactly_one (sides : List (Addr × Addr × Addr × Addr × Addr))
    (hn : sides.Nodup) :
    ((∀ s ∈ sides, (sidesOn sides s.2.2.1 s.2.2.2.1).length ≤ 2) ∧
      ∀ s ∈ sides, (complements sides s).length ≠ 0) ↔
    ∀ s ∈ sides, (complements sides s).length = 1 := by
  simp only [sidesOn, complements, ← List.countP_eq_length_filter]
  constructor
  · rintro ⟨hon, hc⟩ s hs
    have h1 := countP_add_le (fun t => decide (t = s))
      (fun t => decide (t ≠ s ∧ t.2.2.1 = s.2.2.2.1 ∧ t.2.2.2.1 = s.2.2.1))
      (fun t => decide ((t.2.2.1 = s.2.2.1 ∧ t.2.2.2.1 = s.2.2.2.1) ∨
        (t.2.2.1 = s.2.2.2.1 ∧ t.2.2.2.1 = s.2.2.1))) sides
      (by
        intro x _ hx hy
        simp only [decide_eq_true_eq] at hx hy
        exact hy.1 hx)
      (by
        intro x _ hx
        simp only [decide_eq_true_eq] at hx
        subst hx
        simp)
      (by
        intro x _ hx
        simp only [decide_eq_true_eq] at hx
        simp [hx.2.1, hx.2.2])
    have h2 := countP_eq_self_pos sides s hs
    have h3 := hon s hs
    have h4 := hc s hs
    omega
  · intro hall
    have key : ∀ s ∈ sides,
        sides.countP (fun t => decide ((t.2.2.1 = s.2.2.1 ∧ t.2.2.2.1 = s.2.2.2.1) ∨
          (t.2.2.1 = s.2.2.2.1 ∧ t.2.2.2.1 = s.2.2.1))) ≤ 2 := by
      intro s hs
      have hle := countP_le_add (fun t => decide (t = s))
        (fun t => decide (t ≠ s ∧ t.2.2.1 = s.2.2.2.1 ∧ t.2.2.2.1 = s.2.2.1))
        (fun t => decide ((t.2.2.1 = s.2.2.1 ∧ t.2.2.2.1 = s.2.2.2.1) ∨
          (t.2.2.1 = s.2.2.2.1 ∧ t.2.2.2.1 = s.2.2.1))) sides
        (by
          intro t ht hx
          simp only [decide_eq_true_eq] at hx ⊢
          by_cases hts : t = s
          · exact Or.inl hts
          · refine Or.inr ⟨hts, ?_⟩
            rcases hx with hx | hx
            · -- a second side in the same direction
              by_cases hab : s.2.2.1 = s.2.2.2.1
              · exact ⟨hx.1.trans hab, hx.2.trans hab.symm⟩
              · exfalso
                have hcs := hall s hs
                have hpos : 0 < sides.countP
                    (fun t => decide (t ≠ s ∧ t.2.2.1 = s.2.2.2.1 ∧ t.2.2.2.1 = s.2.2.1)) := by
                  omega
                obtain ⟨u, hu, hup⟩ := List.countP_pos_iff.1 hpos
                simp only [decide_eq_true_eq] at hup
                have hcu := hall u hu
                have hsu : s ≠ u := by
                  rintro rfl
                  exact hup.1 rfl
                have htu : t ≠ u := by
                  rintro rfl
                  exact hab (hx.1.symm.trans hup.2.1)
                have h2 := countP_add_le (fun x => decide (x = s)) (fun x => decide (x = t))
                  (fun x => decide (x ≠ u ∧ x.2.2.1 = u.2.2.2.1 ∧ x.2.2.2.1 = u.2.2.1)) sides
                  (by
                    intro x _ h1 h2
                    simp only [decide_eq_true_eq] at h1 h2
                    exact hts (h2.symm.trans h1))
                  (by
                    intro x _ h1
                    simp only [decide_eq_true_eq] at h1
                    subst h1
                    simp only [decide_eq_true_eq]
                    exact ⟨hsu, hup.2.2.symm, hup.2.1.symm⟩)
                  (by
                    intro x _ h1
                    simp only [decide_eq_true_eq] at h1
                    subst h1
                    simp only [decide_eq_true_eq]
                    exact ⟨htu, hx.1.trans hup.2.2.symm, hx.2.trans hup.2.1.symm⟩)
                have h3 := countP_eq_self_pos sides s hs
                have h4 := countP_eq_self_pos sides t ht
                omega
            · exact hx)
      have h1 := countP_eq_self_of_nodup sides s hn
      have h2 := hall s hs
      omega
    refine ⟨key, ?_⟩
    intro s hs
    rw [hall s hs]
    exact one_ne_zero

/-- A build succeeds exactly when every side of the soup has exactly one complement. -/
theorem HalfedgeMesh.build_ok_iff_one_complement (polygons : List (List Addr))
    (positions : List Vector3D) :
    (∃ m, HalfedgeMesh.build polygons positions = .ok m) ↔
      ∀ s ∈ soupSides polygons 0 0, (complements (soupSides polygons 0 0) s).length = 1 :=
  (HalfedgeMesh.build_ok_iff polygons positions).trans
    (complements_exactly_one _ (soupSides_nodup polygons 0 0))

end BuildTheorems

section TriangulateClaims

variable {Vector3D : Type}

/-- The fan triangulation of a face is refused in a store whose faces are all triangles. -/
theorem HalfedgeMesh.fanFacePlan_of_triangles (m : HalfedgeMesh Vector3D) (f : Addr)
    (h3 : ∀ p ∈ m.faces, m.degree p.2 = 3) :
    m.after (m.run (m.fanFacePlan f)) = m := by
  unfold HalfedgeMesh.fanFacePlan
  cases hf : m.faces.lookup f with
  | none => rfl
  | some r =>
    have hmem : (f, r) ∈ m.faces := List.mem_of_lookup_eq_some _ _ _ hf
    have hd := h3 (f, r) hmem
    unfold HalfedgeMesh.degree at hd
    cases hl : m.faceLoop r.halfedge with
    | none => simp [hl] at hd
    | some l =>
      simp only [hl, Option.map_some', Option.getD_some] at hd
      simp only [hl]
      rw [if_pos (le_of_eq hd)]
      rfl

/-- The fold of `triangulate` over any list of faces leaves a store of triangles as it is. -/
theorem HalfedgeMesh.triangulate_fold_of_triangles (m : HalfedgeMesh Vector3D)
    (h3 : ∀ p ∈ m.faces, m.degree p.2 = 3) (fs : List (Addr × Face)) :
    fs.foldl (fun acc p => acc.after (acc.run (acc.fanFacePlan p.1))) m = m := by
  induction fs with
  | nil => rfl
  | cons p fs ih =>
    rw [List.foldl_cons, m.fanFacePlan_of_triangles p.1 h3]
    exact ih

/-- C21: in a store all of whose faces have degree 3, `triangulate` changes nothing: the
store after the call is the store before it, so the numbers of vertices, edges and faces
and the connectivity are the same; and `Scene::triangulateSelection`, run with this
`triangulate` on a selected mesh over such a store, leaves the store of the mesh as it is. -/
theorem C21_triangulate_keeps_triangle_mesh (m : HalfedgeMesh Vector3D)
    (h3 : ∀ p ∈ m.faces, m.degree p.2 = 3) :
    m.triangulate = m ∧ m.triangulate.counts = m.counts ∧
    ∀ (ops : MeshOps Vector3D) (w : World Vector3D) (o : Addr) (self : Mesh Vector3D),
      ops.triangulate m = m.triangulate → w.scene.selected.object = some o →
      w.meshAt o = some self → self.mesh = m →
      ((Scene.triangulateSelection ops w).meshAt o).map (fun x => x.mesh) = some m := by
  have h := m.triangulate_fold_of_triangles h3 m.faces
  have ht : m.triangulate = m := h
  refine ⟨ht, by rw [ht], ?_⟩
  intro ops w o self hops hsel hself hm
  subst hm
  have h1 : (Scene.triangulateSelection ops w).meshAt o =
      (w.ranOperator o self (ops.triangulate self.mesh) .triangulate).meshAt o := by
    simp only [Scene.triangulateSelection, hsel, hself]
    exact World.meshAt_congr _ _ o rfl
  rw [h1, w.meshAt_ranOperator o self _ _ hself, hops, ht]
  rfl

/-- C21 on the tetrahedron. -/
theorem C21_witness :
    (∀ p ∈ tetrahedron.faces, tetrahedron.degree p.2 = 3) ∧
    tetrahedron.triangulate = tetrahedron ∧
    tetrahedron.triangulate.counts = tetrahedron.counts :=
  ⟨by decide,
    (C21_triangulate_keeps_triangle_mesh tetrahedron (by decide)).1,
    (C21_triangulate_keeps_triangle_mesh tetrahedron (by decide)).2.1⟩

/-- C22: the unit cube is built from its six quadrilaterals with 8 vertices, 12 edges and
6 faces, all of degree 4; `triangulate` gives 8 vertices, 18 edges and 12 faces, all of
degree 3; and `upsample` on the triangulated cube succeeds and gives 26 vertices, 72 edges
and 48 faces. -/
theorem C22_cube_triangulate_upsample :
    (HalfedgeMesh.build cubePolygons unitCubePositions).isOk = true ∧
    unitCube.counts = (8, 12, 6) ∧
    (unitCube.faces.all fun p => unitCube.degree p.2 = 4) = true ∧
    unitCube.triangulate.counts = (8, 18, 12) ∧
    (unitCube.triangulate.faces.all fun p => unitCube.triangulate.degree p.2 = 3) = true ∧
    (HalfedgeMesh.upsample exactWeights unitCube.triangulate).toOption.map HalfedgeMesh.counts
      = some (26, 72, 48) := by
  decide!

/-- On the cube itself, whose faces are quadrilaterals, `upsample` fails. -/
theorem unitCube_upsample_refused :
    (HalfedgeMesh.upsample exactWeights unitCube).isOk = false := by
  decide!

/-- A scene description with a polygon mesh on which `build` fails has no objects made. -/
theorem Application.loadObjects_error [Inhabited Vector3D]
    (build : List (List Addr) → List Vector3D → Except TopologyError (HalfedgeMesh Vector3D))
    (polygons : List (List Addr)) (vertices : List Vector3D) (transform : Vector3D → Vector3D)
    (e : TopologyError) (hb : build polygons (vertices.map transform) = .error e)
    (nodes : List (Node Vector3D)) (hn : Node.polymesh polygons vertices transform ∈ nodes) :
    ∃ e1, Application.loadObjects build nodes = .error e1 := by
  induction nodes with
  | nil => simp at hn
  | cons n ns ih =>
    rcases List.mem_cons.1 hn with h | h
    · subst h
      exact ⟨e, by
        simp [Application.loadObjects, Application.init_polymesh, Mesh.construct, hb]⟩
    · obtain ⟨e1, he1⟩ := ih h
      cases n with
      | camera => exact ⟨e1, by simp [Application.loadObjects, he1]⟩
      | light => exact ⟨e1, by simp [Application.loadObjects, he1]⟩
      | material => exact ⟨e1, by simp [Application.loadObjects, he1]⟩
      | sphere => exact ⟨e1, by simp [Application.loadObjects, he1]⟩
      | polymesh p v t =>
        cases ho : Application.init_polymesh build p v t with
        | error e2 => exact ⟨e2, by simp [Application.loadObjects, ho]⟩
        | ok o => exact ⟨e1, by simp [Application.loadObjects, ho, he1]⟩

/-- C24: `build` fails with `NonManifoldEdge` when some edge of the polygon soup is shared
by more than two sides and, no edge being shared so, with `UnmatchedEdge` when some side
`(a, b)` has no complement `(b, a)`, so that it fails whenever a side has no complement; it
succeeds exactly when every side finds exactly one complement. When it fails, the
constructor `Mesh::Mesh`, `init_polymesh` and `Application::load` of a scene description
with this polygon mesh end with an error: the load is aborted and neither a mesh nor a
scene is made. -/
theorem C24_build_refuses_malformed_soup [Inhabited Vector3D] (polygons : List (List Addr))
    (positions : List Vector3D) (transform : Vector3D → Vector3D)
    (nodes : List (Node Vector3D)) :
    ((∃ s ∈ soupSides polygons 0 0,
        2 < (sidesOn (soupSides polygons 0 0) s.2.2.1 s.2.2.2.1).length) →
      HalfedgeMesh.build polygons positions = .error .nonManifoldEdge) ∧
    ((¬ ∃ s ∈ soupSides polygons 0 0,
        2 < (sidesOn (soupSides polygons 0 0) s.2.2.1 s.2.2.2.1).length) →
      (∃ s ∈ soupSides polygons 0 0, (complements (soupSides polygons 0 0) s).length = 0) →
      HalfedgeMesh.build polygons positions = .error .unmatchedEdge) ∧
    ((∃ s ∈ soupSides polygons 0 0, (complements (soupSides polygons 0 0) s).length = 0) →
      ∃ e, HalfedgeMesh.build polygons positions = .error e) ∧
    ((∃ m, HalfedgeMesh.build polygons positions = .ok m) ↔
      ∀ s ∈ soupSides polygons 0 0, (complements (soupSides polygons 0 0) s).length = 1) ∧
    (∀ e, HalfedgeMesh.build polygons (positions.map transform) = .error e →
      Mesh.construct HalfedgeMesh.build polygons positions transform = .error e ∧
      Application.init_polymesh HalfedgeMesh.build polygons positions transform = .error e ∧
      (Node.polymesh polygons positions transform ∈ nodes →
        ∃ e1, Application.load HalfedgeMesh.build nodes = .error e1)) := by
  refine ⟨(HalfedgeMesh.build_nonManifoldEdge_iff polygons positions).2,
    fun h1 h2 => (HalfedgeMesh.build_unmatchedEdge_iff polygons positions).2 ⟨h1, h2⟩,
    fun h2 => ?_,
    HalfedgeMesh.build_ok_iff_one_complement polygons positions, fun e he => ⟨?_, ?_, ?_⟩⟩
  · by_cases h1 : ∃ s ∈ soupSides polygons 0 0,
        2 < (sidesOn (soupSides polygons 0 0) s.2.2.1 s.2.2.2.1).length
    · exact ⟨_, (HalfedgeMesh.build_nonManifoldEdge_iff polygons positions).2 h1⟩
    · exact ⟨_, (HalfedgeMesh.build_unmatchedEdge_iff polygons positions).2 ⟨h1, h2⟩⟩
  · simp [Mesh.construct, he]
  · simp [Application.init_polymesh, Mesh.construct, he]
  · intro hn
    obtain ⟨e1, he1⟩ :=
      Application.loadObjects_error HalfedgeMesh.build polygons positions transform e he
        nodes hn
    exact ⟨e1, by simp [Application.load, he1]⟩

/-- C24 on a soup of one triangle, whose sides have no complement: `build` fails with
`UnmatchedEdge`, and the load of a description with a sphere and this mesh is aborted. -/
theorem C24_witness :
    HalfedgeMesh.build [[0, 1, 2]] [((0 : Int), (0 : Int), (0 : Int)), (2, 0, 0), (0, 2, 0)]
      = .error .unmatchedEdge ∧
    ∃ e1, Application.load HalfedgeMesh.build
        [Node.sphere,
          Node.polymesh [[0, 1, 2]] [((0 : Int), (0 : Int), (0 : Int)), (2, 0, 0), (0, 2, 0)]
            id] = .error e1 :=
  ⟨rfl,
    ((C24_build_refuses_malformed_soup [[0, 1, 2]]
      [((0 : Int), (0 : Int), (0 : Int)), (2, 0, 0), (0, 2, 0)] id
      [Node.sphere,
        Node.polymesh [[0, 1, 2]] [((0 : Int), (0 : Int), (0 : Int)), (2, 0, 0), (0, 2, 0)]
          id]).2.2.2.2 .unmatchedEdge rfl).2.2 (by simp)⟩

/-- The lookup in a list of records under the addresses `0`, `1`, ... -/
theorem lookup_range_zip {α : Type} (l : List α) (o : Nat) :
    ((List.range l.length).zip l).lookup o = l[o]? := by
  induction l using List.reverseRecOn generalizing o with
  | nil => simp
  | append_singleton l a ih =>
    rw [List.length_append, List.length_singleton, List.range_succ,
      List.zip_append (by simp), List.lookup_append]
    rw [ih o]
    by_cases ho : o < l.length
    · rw [List.getElem?_append_left ho, List.getElem?_eq_getElem ho]
      rfl
    · rw [List.getElem?_eq_none (by omega)]
      by_cases he : o = l.length
      · subst he
        simp
      · have hb : (o == l.length) = false := by simpa using he
        rw [List.getElem?_eq_none (by simp; omega)]
        simp [List.lookup, hb]

/-- A scene that `Application::load` has made: every mesh in it has its scene pointer. -/
theorem Application.load_attached [Inhabited Vector3D]
    (build : List (List Addr) → List Vector3D → Except TopologyError (HalfedgeMesh Vector3D))
    (nodes : List (Node Vector3D)) (w : World Vector3D)
    (hw : Application.load build nodes = .ok w) (o : Addr) (self : Mesh Vector3D)
    (hself : w.meshAt o = some self) : self.scene = true := by
  unfold Application.load at hw
  cases hl : Application.loadObjects build nodes with
  | error e => simp [hl] at hw
  | ok objects =>
    simp only [hl, Except.ok.injEq] at hw
    subst hw
    have hlook := (Scene.construct objects).lookup_of_meshAt o self hself
    simp only [Scene.construct] at hlook
    have hlen : (List.range objects.length) =
        List.range (objects.map SceneObject.attach).length := by simp
    rw [hlen, lookup_range_zip, List.getElem?_map] at hlook
    cases ho : objects[o]? with
    | none => simp [ho] at hlook
    | some x =>
      simp only [ho, Option.map_some', Option.some.injEq] at hlook
      cases x with
      | other => simp [SceneObject.attach] at hlook
      | mesh m =>
        simp only [SceneObject.attach, SceneObject.mesh.injEq] at hlook
        rw [← hlook]

/-- Three triangles on one edge: `build` fails with `NonManifoldEdge`. -/
theorem build_three_on_an_edge :
    (HalfedgeMesh.build [[0, 1, 2], [1, 0, 3], [0, 1, 4]]
      [((0 : Int), (0 : Int), (0 : Int)), (2, 0, 0), (0, 2, 0), (0, 0, 2), (2, 2, 2)])
      = .error .nonManifoldEdge :=
  rfl

end TriangulateClaims

section DrawClaims

variable {Vector3D : Type}

/-- Without a scene pointer `draw_edges` stops at its first statement, the read of
`scene->hovered`. -/
theorem Mesh.draw_edges_unattached (self : Mesh Vector3D) (w : World Vector3D)
    (h : self.scene = false) : self.draw_edges w = .nullDeref [] := by
  simp [Mesh.draw_edges, h]

end DrawClaims

section EventClaims

variable {Vector3D D R : Type}

/-- After `updateWidgets` the transform widget is among the objects only in the edit action
of the model mode with an object selected, whatever the state was. -/
theorem Application.updateWidgets_widget (env : Env Vector3D D R) (s : AppState Vector3D R) :
    (Application.updateWidgets env s).widgetShownOnlyInEdit := by
  unfold Application.updateWidgets
  by_cases hc : s.mode ≠ .MODEL_MODE ∨ s.action ≠ .Edit ∨ s.world.scene.selected.object = none
  · rw [if_pos hc]
    intro hmem
    simp [Scene.removeObject] at hmem
  · rw [if_neg hc]
    have hc1 : s.mode = .MODEL_MODE ∧ s.action = .Edit ∧
        s.world.scene.selected.object ≠ none := by
      by_cases h1 : s.mode = .MODEL_MODE <;> by_cases h2 : s.action = .Edit <;>
        by_cases h3 : s.world.scene.selected.object = none <;> simp_all
    split_ifs
    · intro _
      exact hc1
    · intro _
      exact hc1

/-- The first loop of `getHoveredObject` leaves the scene as it is. -/
theorem Scene.drawPickAll_scene (os : List Addr) (st : World Vector3D × Int × List Int) :
    (Scene.drawPickAll os st).1.scene = st.1.scene := by
  induction os generalizing st with
  | nil => rfl
  | cons o os ih =>
    rw [Scene.drawPickAll, ih]
    exact (Mesh.draw_pick_frame o st.2.1 st.1).2

/-- The method `getHoveredObject` changes neither the objects of the scene nor the
selection. -/
theorem Scene.getHoveredObject_frame (ID : Int) (w : World Vector3D) :
    (Scene.getHoveredObject ID w).1.scene.objects = w.scene.objects ∧
    (Scene.getHoveredObject ID w).1.scene.selected = w.scene.selected := by
  have h := Scene.drawPickAll_scene w.scene.objects (w, 0, [0])
  simp only [Scene.getHoveredObject]
  exact ⟨congrArg Scene.objects h, congrArg Scene.selected h⟩

/-- The method `mouse_moved` keeps the property of the transform widget. -/
theorem Application.mouse_moved_widget (env : Env Vector3D D R) (x y : R)
    (s : AppState Vector3D R) (hP : s.widgetShownOnlyInEdit) :
    (Application.mouse_moved env x y s).widgetShownOnlyInEdit := by
  unfold Application.mouse_moved
  split_ifs with hm
  · exact hP
  · obtain ⟨h1, h2⟩ := Scene.getHoveredObject_frame (env.pickedID x y s.world) s.world
    intro hmem
    simp only [AppState.call] at hmem ⊢
    rw [h1] at hmem
    rw [h2]
    exact hP hmem

/-- C28: the property that the transform widget is among the objects of the scene only if
the mode is the model mode, the action is `Edit` and an object is selected holds after every
input event handler, from every state that has it: after `char_event` when it returns,
after `keyboard_event`, `mouse_event`, `cursor_event` and `scroll_event`. The handlers that
end with `updateWidgets` establish it from any state; the others do not touch the mode, the
action, the objects and the selected object. -/
theorem C28_widget_shown_only_in_edit [Inhabited Vector3D] (env : Env Vector3D D R)
    (app : Application (AppState Vector3D R)) (hP : app.rest.widgetShownOnlyInEdit)
    (c key event mods : Int) (x y : R) :
    (∀ app1, Application.char_event env c app = .done app1 →
      app1.rest.widgetShownOnlyInEdit) ∧
    (Application.keyboard_event env key event mods app.rest).widgetShownOnlyInEdit ∧
    (Application.mouse_event env key event app.rest).widgetShownOnlyInEdit ∧
    (Application.cursor_event env x y app.rest).widgetShownOnlyInEdit ∧
    (Application.scroll_event app.rest).widgetShownOnlyInEdit := by
  refine ⟨?_, ?_, ?_, ?_, ?_⟩
  · intro app1 h
    unfold Application.char_event at h
    split_ifs at h
    · cases h
      exact Application.updateWidgets_widget env _
    · cases h
      exact Application.updateWidgets_widget env _
    · split at h
      · cases h
      · cases h
        exact Application.updateWidgets_widget env _
  · exact Application.updateWidgets_widget env _
  · unfold Application.mouse_event Application.mouse_pressed Application.mouse_released
    split_ifs <;> first | exact Application.updateWidgets_widget env _ | exact hP
  · unfold Application.cursor_event
    have h1 : (Application.mouse1_dragged env x y app.rest).widgetShownOnlyInEdit := by
      unfold Application.mouse1_dragged
      by_cases hr : app.rest.mode = .RENDER_MODE
      · rw [if_pos hr]
        exact hP
      · rw [if_neg hr]
        exact Application.updateWidgets_widget env _
    have h2 : (Application.mouse2_dragged env app.rest).widgetShownOnlyInEdit := by
      unfold Application.mouse2_dragged
      split_ifs
      · exact hP
      · exact Application.updateWidgets_widget env _
    have h3 := Application.mouse_moved_widget env x y app.rest hP
    split_ifs <;> assumption
  · unfold Application.scroll_event
    cases hm : app.rest.mode <;> simp only [hm] <;> exact hP

end EventClaims

section EventWitness

/-- The key 'e' (101) in the model mode with a face selected: `char_event` returns, the
action is `Edit`, and the transform widget is among the objects of the scene. -/
theorem Application.char_event_shows_widget :
    ∃ app1, Application.char_event exampleEnv 101 pillowApp = .done app1 ∧
      app1.rest.action = .Edit ∧ app1.rest.world.scene.objects = [10, 20] :=
  ⟨_, rfl, rfl, rfl⟩

/-- C28 from the state `pillowApp`, with the key 'e', the backspace key pressed, the left
mouse button pressed, and the cursor moved to (3, 4). -/
theorem C28_witness :
    pillowApp.rest.widgetShownOnlyInEdit ∧
    ((∀ app1, Application.char_event exampleEnv 101 pillowApp = .done app1 →
      app1.rest.widgetShownOnlyInEdit) ∧
    (Application.keyboard_event exampleEnv 259 1 0 pillowApp.rest).widgetShownOnlyInEdit ∧
    (Application.mouse_event exampleEnv 0 1 pillowApp.rest).widgetShownOnlyInEdit ∧
    (Application.cursor_event exampleEnv 3 4 pillowApp.rest).widgetShownOnlyInEdit ∧
    (Application.scroll_event pillowApp.rest).widgetShownOnlyInEdit) :=
  ⟨fun h => absurd h (by decide),
    C28_widget_shown_only_in_edit exampleEnv pillowApp (fun h => absurd h (by decide))
      101 0 1 0 3 4⟩

end EventWitness


/-! ## Theorems: pick registrations -/

section PickClaims

variable {Vector3D : Type}

/-- A walk with fuel left starts at its first half-edge. -/
theorem World.walk_eq_cons (w : World Vector3D) (start : Addr) (fuel : Nat) (h : Addr)
    (d : Nat) (hpos : 0 < w.degreeLoop start fuel h d) :
    w.walk start fuel h = h :: (w.walk start fuel h).tail := by
  cases fuel with
  | zero => simp [World.degreeLoop] at hpos
  | succ fuel => simp [World.walk]

/-- In a walk that returns to `start`, `next` maps every half-edge to its successor and
the last one to `start`. -/
theorem World.walk_map_next (w : World Vector3D) (start : Addr) (fuel : Nat) (h : Addr)
    (d : Nat) (hpos : 0 < w.degreeLoop start fuel h d) :
    (w.walk start fuel h).map w.next = (w.walk start fuel h).tail ++ [start] := by
  induction fuel generalizing h d with
  | zero => simp [World.degreeLoop] at hpos
  | succ fuel ih =>
    by_cases hn : w.next h = start
    · simp [World.walk, hn]
    · simp only [World.degreeLoop, hn, if_false] at hpos
      have h1 := ih (w.next h) (d + 1) hpos
      have h2 := w.walk_eq_cons start fuel (w.next h) (d + 1) hpos
      simp only [World.walk, hn, if_false, List.map_cons, List.tail_cons, h1]
      rw [← List.cons_append, ← h2]

/-- The walk around a face that closes is a rotation of its image under `next`. -/
theorem World.faceWalk_map_next_perm (w : World Vector3D) (f : Face) (hpos : 0 < w.degree f) :
    ((w.faceWalk f.halfedge).map w.next).Perm (w.faceWalk f.halfedge) := by
  have h1 := w.walk_map_next f.halfedge w.halfedgeCount f.halfedge 0 hpos
  have h2 := w.walk_eq_cons f.halfedge w.halfedgeCount f.halfedge 0 hpos
  simp only [World.faceWalk]
  rw [h1]
  nth_rewrite 2 [h2]
  exact List.perm_append_singleton _ _

/-- A walk that returns to `start` reaches it after as many steps as it has half-edges. -/
theorem World.walk_iterate_length (w : World Vector3D) (start : Addr) (fuel : Nat) (h : Addr)
    (d : Nat) (hpos : 0 < w.degreeLoop start fuel h d) :
    w.next^[(w.walk start fuel h).length] h = start := by
  induction fuel generalizing h d with
  | zero => simp [World.degreeLoop] at hpos
  | succ fuel ih =>
    by_cases hn : w.next h = start
    · simp [World.walk, hn]
    · simp only [World.degreeLoop, hn, if_false] at hpos
      simp only [World.walk, hn, if_false, List.length_cons, Function.iterate_succ,
        Function.comp]
      exact ih (w.next h) (d + 1) hpos

/-- A walk does not reach `start` before its end. -/
theorem World.walk_iterate_ne (w : World Vector3D) (start : Addr) (fuel : Nat) (h : Addr)
    (i : Nat) (hi : i + 1 < (w.walk start fuel h).length) :
    w.next^[i + 1] h ≠ start := by
  induction fuel generalizing h i with
  | zero => simp [World.walk] at hi
  | succ fuel ih =>
    by_cases hn : w.next h = start
    · simp [World.walk, hn] at hi
    · simp only [World.walk, hn, if_false, List.length_cons] at hi
      cases i with
      | zero => simpa using hn
      | succ i =>
        rw [Function.iterate_succ, Function.comp]
        exact ih (w.next h) i (by omega)

/-- A walk that returns to `start` visits no half-edge twice. -/
theorem World.walk_nodup (w : World Vector3D) (start : Addr) (fuel : Nat) (h : Addr)
    (d : Nat) (hpos : 0 < w.degreeLoop start fuel h d) :
    (w.walk start fuel h).Nodup := by
  rw [List.nodup_iff_getElem?_ne_getElem?]
  intro i j hij hj heq
  rw [w.walk_getElem? start fuel h i (by omega), w.walk_getElem? start fuel h j hj] at heq
  have heq1 : w.next^[i] h = w.next^[j] h := Option.some.inj heq
  have hlen := w.walk_iterate_length start fuel h d hpos
  have hne := w.walk_iterate_ne start fuel h ((w.walk start fuel h).length - j + i - 1)
    (by omega)
  apply hne
  have e1 : (w.walk start fuel h).length - j + i - 1 + 1 =
      ((w.walk start fuel h).length - j) + i := by omega
  have e2 : (w.walk start fuel h).length = ((w.walk start fuel h).length - j) + j := by omega
  rw [e1, Function.iterate_add_apply, heq1, ← Function.iterate_add_apply, ← e2, hlen]

/-- The half-edges on the boundaries of a list of faces, in drawing order. -/
theorem World.corners_map_snd (w : World Vector3D) (fs : List (Addr × Face)) :
    (w.corners fs).map Prod.snd = fs.flatMap fun f => w.faceWalk f.2.halfedge := by
  induction fs with
  | nil => rfl
  | cons f fs ih =>
    simp only [World.corners, List.flatMap_cons, List.map_append, List.map_map] at ih ⊢
    rw [ih]
    congr 1
    simp [Function.comp_def]

/-- Under the invariants the boundaries of the faces hold every half-edge of the store
once. -/
theorem World.boundaries_perm (w : World Vector3D) (m : HalfedgeMesh Vector3D)
    (hinv : w.halfedgeInvariants m) :
    (m.faces.flatMap fun f => w.faceWalk f.2.halfedge).Perm (m.halfedges.map Prod.fst) := by
  obtain ⟨hh, hf, hface, hhalf, -⟩ := hinv
  refine (List.perm_ext_iff_of_nodup ?_ hh).2 fun h => ?_
  · rw [List.nodup_flatMap]
    refine ⟨fun f hfm => w.walk_nodup _ _ _ 0 (hface f hfm).1, ?_⟩
    have hp : m.faces.Pairwise fun a b => a.1 ≠ b.1 := List.pairwise_map.1 hf
    refine hp.imp_of_mem ?_
    intro a b ha hb hab x hxa hxb
    exact hab (((hface a ha).2 x hxa).2.symm.trans ((hface b hb).2 x hxb).2)
  · rw [List.mem_flatMap]
    constructor
    · rintro ⟨f, hfm, hx⟩
      exact ((hface f hfm).2 h hx).1
    · intro hx
      obtain ⟨f, hfm, -, hw⟩ := (hhalf h hx).1
      exact ⟨f, hfm, hw⟩

/-- Under the invariants the successors of the boundary half-edges are every half-edge of
the store once. -/
theorem World.successors_perm (w : World Vector3D) (m : HalfedgeMesh Vector3D)
    (hinv : w.halfedgeInvariants m) :
    ((w.corners m.faces).map fun c => w.next c.2).Perm (m.halfedges.map Prod.fst) := by
  refine List.Perm.trans ?_ (w.boundaries_perm m hinv)
  have e : ((w.corners m.faces).map fun c => w.next c.2) =
      m.faces.flatMap fun f => (w.faceWalk f.2.halfedge).map w.next := by
    have := congrArg (List.map w.next) (w.corners_map_snd m.faces)
    simpa [List.map_flatMap, Function.comp_def] using this
  rw [e]
  exact List.Perm.flatMap_left _ fun f hfm => w.faceWalk_map_next_perm f.2 (hinv.2.2.1 f hfm).1

/-- How often each kind of element is among the elements registered at a list of
corners. -/
theorem World.count_cornerElements (w : World Vector3D) (cs : List (Addr × Addr)) (a : Addr) :
    (cs.flatMap w.cornerElements).count (.halfedge a) =
      (cs.map fun c => w.next c.2).countP (fun h => h = a) ∧
    (cs.flatMap w.cornerElements).count (.vertex a) =
      (cs.map fun c => w.next c.2).countP (fun h => w.vertexOf h = a) ∧
    (cs.flatMap w.cornerElements).count (.edge a) =
      (cs.map fun c => w.next c.2).countP (fun h => w.edgeOf h = a) ∧
    (cs.flatMap w.cornerElements).count (.face a) = cs.countP (fun c => c.1 = a) := by
  induction cs with
  | nil => simp
  | cons c cs ih =>
    obtain ⟨i1, i2, i3, i4⟩ := ih
    simp only [List.flatMap_cons, List.count_append, i1, i2, i3, i4, List.map_cons,
      List.countP_cons, World.cornerElements, List.count_cons, List.count_nil]
    refine ⟨?_, ?_, ?_, ?_⟩ <;> simp <;> omega

/-- The corners of a face among the corners of a list of faces with addresses of their own
are those of its own walk. -/
theorem World.countP_corners_face (w : World Vector3D) (fs : List (Addr × Face))
    (hnd : (fs.map Prod.fst).Nodup) (f : Addr × Face) (hf : f ∈ fs) :
    (w.corners fs).countP (fun c => c.1 = f.1) = (w.faceWalk f.2.halfedge).length := by
  have hnone : ∀ gs : List (Addr × Face), f.1 ∉ gs.map Prod.fst →
      (w.corners gs).countP (fun c => c.1 = f.1) = 0 := by
    intro gs
    induction gs with
    | nil => intro _; rfl
    | cons g gs ih =>
      intro hg
      simp only [List.map_cons, List.mem_cons, not_or] at hg
      have := ih hg.2
      simp only [World.corners, List.flatMap_cons, List.countP_append, List.countP_map] at this ⊢
      rw [this, add_zero, List.countP_eq_zero]
      intro h _
      simpa using fun e => hg.1 e.symm
  induction fs with
  | nil => simp at hf
  | cons g gs ih =>
    simp only [List.map_cons, List.nodup_cons] at hnd
    simp only [World.corners, List.flatMap_cons, List.countP_append, List.countP_map]
    rcases List.mem_cons.1 hf with e | hmem
    · subst e
      have h0 := hnone gs hnd.1
      simp only [World.corners] at h0
      rw [h0, add_zero, List.countP_eq_length]
      intro h _
      simp
    · have hne : g.1 ≠ f.1 := fun e => hnd.1 (e ▸ List.mem_map_of_mem Prod.fst hmem)
      have h1 := ih hnd.2 hmem
      simp only [World.corners] at h1
      rw [h1, List.countP_eq_zero.2, zero_add]
      intro h _
      simpa using hne

/-- In a list without duplicates, two different members are the only ones that are one of
the two. -/
theorem countP_pair_of_nodup (l : List Addr) (hnd : l.Nodup) (a b : Addr) (ha : a ∈ l)
    (hb : b ∈ l) (hab : b ≠ a) (p : Addr → Bool) (hp : ∀ h ∈ l, p h = true ↔ h = a ∨ h = b) :
    l.countP p = 2 := by
  have e : l.countP p = l.countP (fun h => h = a) + l.countP (fun h => h = b) := by
    clear ha hb hnd
    induction l with
    | nil => rfl
    | cons x xs ih =>
      have ihx := ih fun h hh => hp h (List.mem_cons_of_mem _ hh)
      have hx := hp x (List.mem_cons_self _ _)
      simp only [List.countP_cons, ihx]
      by_cases h1 : x = a
      · have h2 : x ≠ b := fun e => hab (e.symm.trans h1)
        have h3 : p x = true := hx.2 (Or.inl h1)
        rw [if_pos h3, if_pos (decide_eq_true h1), if_neg (by simpa using h2)]
        omega
      · by_cases h2 : x = b
        · have h3 : p x = true := hx.2 (Or.inr h2)
          rw [if_pos h3, if_neg (by simpa using h1), if_pos (decide_eq_true h2)]
          omega
        · have h3 : ¬ p x = true := fun e => (hx.1 e).elim h1 h2
          rw [if_neg h3, if_neg (by simpa using h1), if_neg (by simpa using h2)]
          omega
  have ca : l.countP (fun h => h = a) = 1 := by
    rw [← List.count_eq_one_of_mem hnd ha, List.count]
    congr 1
  have cb : l.countP (fun h => h = b) = 1 := by
    rw [← List.count_eq_one_of_mem hnd hb, List.count]
    congr 1
  omega

/-- The map `idToElement` after a run of `newPickElement` that registers no more elements
than there are values of `int`, from a state whose IDs are not among the IDs to come: no ID
is entered twice, and every element has one more entry for each time it is registered,
also where the IDs wrap around. -/
theorem foldl_newPickElement_entries (es : List HalfedgeElement)
    (st : Int × List (Int × HalfedgeElement)) (hlen : es.length ≤ 4294967296)
    (hfresh : ∀ q ∈ st.2, ∀ i : Nat, i < es.length →
      (q.1 - (st.1 + (i : Int))) % 4294967296 ≠ 0)
    (hnd : (st.2.map Prod.fst).Nodup) :
    ((es.foldl Mesh.newPickElement st).2.map Prod.fst).Nodup ∧
    ∀ x, (((es.foldl Mesh.newPickElement st).2.filter fun q => q.2 = x).map Prod.fst).length =
      es.count x + (st.2.filter fun q => q.2 = x).length := by
  induction es generalizing st with
  | nil => exact ⟨hnd, fun x => by simp⟩
  | cons e es ih =>
    simp only [List.length_cons] at hlen hfresh
    have hne : ∀ q ∈ st.2, q.1 ≠ st.1 := by
      intro q hq heq
      have := hfresh q hq 0 (by omega)
      rw [heq] at this
      simp at this
    have hfil : (st.2.filter fun q => q.1 ≠ st.1) = st.2 := by
      rw [List.filter_eq_self]
      intro q hq
      simpa using hne q hq
    have hstep : Mesh.newPickElement st e = (wrapInt32 (st.1 + 1), (st.1, e) :: st.2) := by
      simp only [Mesh.newPickElement, mapInsert, hfil]
    have hw := (wrapInt32_spec (st.1 + 1)).2.2
    have hfresh1 : ∀ q ∈ (Mesh.newPickElement st e).2, ∀ i : Nat, i < es.length →
        (q.1 - ((Mesh.newPickElement st e).1 + (i : Int))) % 4294967296 ≠ 0 := by
      rw [hstep]
      intro q hq i hi
      show (q.1 - (wrapInt32 (st.1 + 1) + (i : Int))) % 4294967296 ≠ 0
      rcases List.mem_cons.1 hq with e1 | hq1
      · subst e1
        show (st.1 - (wrapInt32 (st.1 + 1) + (i : Int))) % 4294967296 ≠ 0
        omega
      · have := hfresh q hq1 (i + 1) (by omega)
        push_cast at this
        omega
    have hnd1 : ((Mesh.newPickElement st e).2.map Prod.fst).Nodup := by
      rw [hstep]
      simp only [List.map_cons, List.nodup_cons]
      refine ⟨?_, hnd⟩
      intro hmem
      obtain ⟨q, hq, e1⟩ := List.mem_map.1 hmem
      exact hne q hq e1
    obtain ⟨i2, i3⟩ := ih (Mesh.newPickElement st e) (by omega) hfresh1 hnd1
    refine ⟨i2, fun x => ?_⟩
    have := i3 x
    rw [List.foldl_cons, this, hstep]
    by_cases hx : e = x
    · subst hx
      simp
      omega
    · have hx1 : ¬ (e == x) = true := by simpa using hx
      simp [List.count_cons, hx, hx1]

/-- In a map without a repeated key the lookup finds exactly the entries. -/
theorem lookup_eq_some_iff_mem (l : List (Int × HalfedgeElement))
    (hnd : (l.map Prod.fst).Nodup) (j : Int) (x : HalfedgeElement) :
    l.lookup j = some x ↔ (j, x) ∈ l := by
  induction l with
  | nil => simp
  | cons q l ih =>
    obtain ⟨k, y⟩ := q
    simp only [List.map_cons, List.nodup_cons] at hnd
    by_cases hk : j = k
    · subst hk
      have hno : ∀ z, (j, z) ∉ l := fun z hz => hnd.1 (List.mem_map_of_mem Prod.fst hz)
      simp [List.lookup, hno, eq_comm]
    · have hk1 : (j == k) = false := by simpa using hk
      simp [List.lookup, hk1, ih hnd.2, hk]

/-- A member of a list of addresses is found by `contains`. -/
theorem contains_of_mem (l : List Addr) (a : Addr) (h : a ∈ l) : l.contains a = true := by
  simpa using h

/-- C27: after `Mesh::draw_pick` on a mesh whose store satisfies the half-edge invariants
and that registers no more elements than there are values of `int`, every half-edge is
registered under exactly one pick ID, every face under as many IDs as its degree, every edge
under exactly two IDs, and every vertex under as many IDs as it has incident half-edges; the
IDs of an element are distinct and are the IDs the lookup maps to it; and every registered
element is an element of the mesh. This holds from every `pickID`, also where the IDs wrap
around. -/
theorem C27_every_element_is_pickable (this : Addr) (p : Int) (w : World Vector3D)
    (self : Mesh Vector3D) (hself : w.meshAt this = some self)
    (hinv : w.halfedgeInvariants self.mesh)
    (hfit : 4 * (w.corners self.mesh.faces).length ≤ 4294967296) :
    (∀ h ∈ self.mesh.halfedges,
      ((Mesh.draw_pick this p w).1.idsOf this (.halfedge h.1)).length = 1) ∧
    (∀ f ∈ self.mesh.faces,
      ((Mesh.draw_pick this p w).1.idsOf this (.face f.1)).length = w.degree f.2) ∧
    (∀ e ∈ self.mesh.edges,
      ((Mesh.draw_pick this p w).1.idsOf this (.edge e.1)).length = 2) ∧
    (∀ v ∈ self.mesh.vertices,
      ((Mesh.draw_pick this p w).1.idsOf this (.vertex v.1)).length =
        (w.incidentHalfedges self.mesh v.1).length) ∧
    (∀ x, ((Mesh.draw_pick this p w).1.idsOf this x).Nodup ∧
      ∀ j, j ∈ (Mesh.draw_pick this p w).1.idsOf this x ↔
        (Mesh.draw_pick this p w).1.registered this j = some x) ∧
    (∀ j x, (Mesh.draw_pick this p w).1.registered this j = some x →
      self.mesh.hasElement x = true) := by
  have hm : (Mesh.draw_pick this p w).1.meshAt this =
      some { self with
        idToElement := (Mesh.drawPickFaces w self.mesh.faces (p, [])).2 } := by
    simp only [Mesh.draw_pick, hself]
    exact w.meshAt_setMesh this self _ hself
  obtain ⟨hnd, hcount⟩ :=
    foldl_newPickElement_entries ((w.corners self.mesh.faces).flatMap w.cornerElements)
      (p, []) (by rw [w.flatMap_cornerElements_length]; exact hfit) (by simp) (by simp)
  have hlen : ∀ x, ((Mesh.draw_pick this p w).1.idsOf this x).length =
      ((w.corners self.mesh.faces).flatMap w.cornerElements).count x := by
    intro x
    simp only [World.idsOf, hm, Mesh.drawPickFaces_eq, hcount x, List.filter_nil,
      List.length_nil, add_zero]
  have hsucc := w.successors_perm self.mesh hinv
  obtain ⟨hh, hf, hface, hhalf, hedge⟩ := hinv
  have hmem : ∀ j x, (Mesh.draw_pick this p w).1.registered this j = some x ↔
      (j, x) ∈ (((w.corners self.mesh.faces).flatMap w.cornerElements).foldl
        Mesh.newPickElement (p, [])).2 := by
    intro j x
    simp only [World.registered, hm, Mesh.drawPickFaces_eq]
    exact lookup_eq_some_iff_mem _ hnd j x
  refine ⟨fun h hmh => ?_, fun f hmf => ?_, fun e hme => ?_, fun v _ => ?_, fun x => ⟨?_, ?_⟩,
    fun j x hj => ?_⟩
  · rw [hlen, (w.count_cornerElements _ h.1).1, hsucc.countP_eq]
    have := List.count_eq_one_of_mem hh (List.mem_map_of_mem Prod.fst hmh)
    rw [← this, List.count]
    congr 1
  · rw [hlen, (w.count_cornerElements _ f.1).2.2.2, w.countP_corners_face _ hf f hmf]
    exact w.faceWalk_length f.2 (hface f hmf).1
  · rw [hlen, (w.count_cornerElements _ e.1).2.2.1, hsucc.countP_eq]
    obtain ⟨h1, h2, h3, h4⟩ := hedge e hme
    exact countP_pair_of_nodup _ hh _ _ h1 h2 h3 _ fun h hmh => by
      simpa using h4 h hmh
  · rw [hlen, (w.count_cornerElements _ v.1).2.1, hsucc.countP_eq, World.incidentHalfedges,
      List.countP_eq_length_filter]
  · simp only [World.idsOf, hm, Mesh.drawPickFaces_eq]
    exact hnd.sublist ((List.filter_sublist _).map Prod.fst)
  · intro j
    rw [hmem j x]
    simp only [World.idsOf, hm, Mesh.drawPickFaces_eq, List.mem_map, List.mem_filter,
      decide_eq_true_eq]
    constructor
    · rintro ⟨q, ⟨hq, hx⟩, hj⟩
      rw [← hj, ← hx]
      exact hq
    · intro hq
      exact ⟨(j, x), ⟨hq, rfl⟩, rfl⟩
  · have hcnt : 0 < ((w.corners self.mesh.faces).flatMap w.cornerElements).count x := by
      rw [← hlen x]
      have hin : j ∈ (Mesh.draw_pick this p w).1.idsOf this x := by
        simp only [World.idsOf, hm, Mesh.drawPickFaces_eq, List.mem_map, List.mem_filter,
          decide_eq_true_eq]
        exact ⟨(j, x), ⟨(hmem j x).1 hj, rfl⟩, rfl⟩
      exact List.length_pos_of_mem hin
    obtain ⟨c, hc, hxc⟩ := List.mem_flatMap.1 (List.count_pos_iff.1 hcnt)
    have hnext : w.next c.2 ∈ self.mesh.halfedges.map Prod.fst :=
      hsucc.subset (List.mem_map_of_mem (fun c => w.next c.2) hc)
    obtain ⟨f, hfm, hcf⟩ := List.mem_flatMap.1 hc
    obtain ⟨h, -, hch⟩ := List.mem_map.1 hcf
    have hc1 : c.1 = f.1 := by rw [← hch]
    simp only [World.cornerElements, List.mem_cons, List.mem_singleton, List.not_mem_nil,
      or_false] at hxc
    rcases hxc with e | e | e | e <;> subst e
    · exact contains_of_mem _ _ (hhalf _ hnext).2.1
    · rw [hc1]
      exact contains_of_mem _ _ (List.mem_map_of_mem Prod.fst hfm)
    · exact contains_of_mem _ _ (hhalf _ hnext).2.2
    · exact contains_of_mem _ _ hnext

/-- C27 on the pillow of two triangles: its store satisfies the invariants, and after
`draw_pick` from ID 5 every one of its elements is registered as the claim says; so it is
after `draw_pick` from the ID 2147483640, where the IDs wrap around. -/
theorem C27_witness :
    twoMeshes.halfedgeInvariants (meshOver trianglePillow).mesh ∧
    ((Mesh.draw_pick 10 5 twoMeshes).1.idsOf 10 (.face 0)).length = 3 ∧
    ((Mesh.draw_pick 10 5 twoMeshes).1.idsOf 10 (.edge 0)).length = 2 ∧
    ((Mesh.draw_pick 10 2147483640 twoMeshes).1.idsOf 10 (.edge 0)).length = 2 :=
  ⟨by decide,
    (C27_every_element_is_pickable 10 5 twoMeshes (meshOver trianglePillow) (by decide)
      (by decide) (by decide)).2.1 (0, { halfedge := 0 }) (by decide),
    (C27_every_element_is_pickable 10 5 twoMeshes (meshOver trianglePillow) (by decide)
      (by decide) (by decide)).2.2.1 (0, { halfedge := 0 }) (by decide),
    (C27_every_element_is_pickable 10 2147483640 twoMeshes (meshOver trianglePillow)
      (by decide) (by decide) (by decide)).2.2.1 (0, { halfedge := 0 }) (by decide)⟩

end PickClaims

/-! ## Theorems: flipping an edge twice -/

section FlipClaims

variable {Vector3D : Type}

/-- An assignment to the record under `k` keeps the addresses in place. -/
theorem updateAt_cons {α : Type} (k : Addr) (g : α → α) (j : Addr) (v : α)
    (l : List (Addr × α)) :
    updateAt k g ((j, v) :: l) = (j, if j = k then g v else v) :: updateAt k g l := by
  simp only [updateAt, List.map_cons]
  split_ifs <;> rfl

/-- The lookup after an assignment to the record under `k`. -/
theorem lookup_updateAt {α : Type} (k : Addr) (g : α → α) (l : List (Addr × α)) (a : Addr) :
    (updateAt k g l).lookup a = if a = k then (l.lookup a).map g else l.lookup a := by
  induction l with
  | nil => simp [updateAt]
  | cons x xs ih =>
    obtain ⟨j, v⟩ := x
    rw [updateAt_cons]
    by_cases ha : a = j
    · subst ha
      simp only [List.lookup_cons, beq_self_eq_true]
      split_ifs <;> rfl
    · have hb : (a == j) = false := by simpa using ha
      simp only [List.lookup_cons, hb]
      exact ih

/-- The record of a half-edge after one field assignment. -/
theorem HalfedgeMesh.edit_halfedges_lookup (m : HalfedgeMesh Vector3D) (ed : Edit Vector3D)
    (a : Addr) :
    (m.edit ed).halfedges.lookup a = (m.halfedges.lookup a).map fun r => ed.onHalfedge a r := by
  cases ed <;> simp only [HalfedgeMesh.edit, Edit.onHalfedge, lookup_updateAt] <;>
    first
      | (split_ifs <;> first | rfl | simp)
      | simp

/-- The record of a half-edge after a list of field assignments. -/
theorem HalfedgeMesh.editAll_halfedges_lookup (eds : List (Edit Vector3D))
    (m : HalfedgeMesh Vector3D) (a : Addr) :
    (eds.foldl HalfedgeMesh.edit m).halfedges.lookup a =
      (m.halfedges.lookup a).map fun r => eds.foldl (fun r ed => ed.onHalfedge a r) r := by
  induction eds generalizing m with
  | nil => simp
  | cons ed eds ih =>
    rw [List.foldl_cons, ih, HalfedgeMesh.edit_halfedges_lookup]
    cases m.halfedges.lookup a <;> simp

/-- The record of an edge after one field assignment. -/
theorem HalfedgeMesh.edit_edges_lookup (m : HalfedgeMesh Vector3D) (ed : Edit Vector3D)
    (a : Addr) :
    (m.edit ed).edges.lookup a = (m.edges.lookup a).map fun r => ed.onEdge a r := by
  cases ed <;> simp only [HalfedgeMesh.edit, Edit.onEdge, lookup_updateAt] <;>
    first
      | (split_ifs <;> first | rfl | simp)
      | simp

/-- The record of an edge after a list of field assignments. -/
theorem HalfedgeMesh.editAll_edges_lookup (eds : List (Edit Vector3D))
    (m : HalfedgeMesh Vector3D) (a : Addr) :
    (eds.foldl HalfedgeMesh.edit m).edges.lookup a =
      (m.edges.lookup a).map fun r => eds.foldl (fun r ed => ed.onEdge a r) r := by
  induction eds generalizing m with
  | nil => simp
  | cons ed eds ih =>
    rw [List.foldl_cons, ih, HalfedgeMesh.edit_edges_lookup]
    cases m.edges.lookup a <;> simp

/-- A closed walk of three: its half-edges are three different ones, each the successor of
the one before, and the walk had fuel for them. -/
theorem walkCycle_triangle (step : Addr → Addr) (s : Addr) (fuel : Nat) (a b c : Addr)
    (h : walkCycle step s fuel s = some [a, b, c]) :
    a = s ∧ step a = b ∧ step b = c ∧ step c = a ∧ b ≠ a ∧ c ≠ a ∧ c ≠ b ∧ 3 ≤ fuel := by
  match fuel with
  | 0 => simp [walkCycle] at h
  | 1 =>
    simp only [walkCycle] at h
    split_ifs at h <;> simp at h
  | 2 =>
    simp only [walkCycle] at h
    split_ifs at h <;> simp at h
  | fuel + 3 =>
    simp only [walkCycle] at h
    split_ifs at h with c1 c2 c3
    · simp at h
    · simp at h
    · simp only [Option.map_some', Option.some.injEq, List.cons.injEq, and_true] at h
      obtain ⟨ha, e1, e2⟩ := h
      subst ha
      refine ⟨rfl, e1, by rw [← e1]; exact e2, by rw [← e2]; exact c3, ?_, ?_, ?_, by omega⟩
      · rw [← e1]
        exact c1
      · rw [← e2]
        exact c2
      · intro e3
        apply c2
        have := c3
        rw [e2, e3, ← e1] at this
        exact this
    · cases fuel with
      | zero => simp [walkCycle] at h
      | succ fuel =>
        simp only [walkCycle] at h
        split_ifs at h <;> simp at h

/-- Three different half-edges in a cycle under the step are a closed walk. -/
theorem walkCycle_of_triangle (step : Addr → Addr) (fuel : Nat) (a b c : Addr)
    (e1 : step a = b) (e2 : step b = c) (e3 : step c = a) (hb : b ≠ a) (hc : c ≠ a)
    (hf : 3 ≤ fuel) : walkCycle step a fuel a = some [a, b, c] := by
  obtain ⟨n, rfl⟩ : ∃ n, fuel = n + 3 := ⟨fuel - 3, by omega⟩
  simp [walkCycle, e1, e2, e3, hb, hc]

/-- The `i`-th half-edge of a closed walk is the `i`-th successor of the first, and the
successor of the last is `start`. -/
theorem walkCycle_iterate (step : Addr → Addr) (start : Addr) (fuel : Nat) (h : Addr)
    (l : List Addr) (hl : walkCycle step start fuel h = some l) :
    (∀ i, i < l.length → l[i]? = some (step^[i] h)) ∧ step^[l.length] h = start := by
  induction fuel generalizing h l with
  | zero => simp [walkCycle] at hl
  | succ fuel ih =>
    simp only [walkCycle] at hl
    split_ifs at hl with c
    · simp only [Option.some.injEq] at hl
      subst hl
      refine ⟨fun i hi => ?_, by simpa using c⟩
      have : i = 0 := by simpa using hi
      subst this
      rfl
    · cases hw : walkCycle step start fuel (step h) with
      | none => simp [hw] at hl
      | some t =>
        simp only [hw, Option.map_some', Option.some.injEq] at hl
        subst hl
        obtain ⟨i1, i2⟩ := ih (step h) t hw
        refine ⟨fun i hi => ?_, ?_⟩
        · cases i with
          | zero => simp
          | succ i =>
            simp only [List.length_cons] at hi
            simp only [List.getElem?_cons_succ, Function.iterate_succ, Function.comp]
            exact i1 i (by omega)
        · simpa using i2

/-- Two half-edges of one closed cycle: each lies on the closed walk that starts at the
other. -/
theorem walkCycle_mem_of_mem (step : Addr → Addr) (s x y : Addr) (n n2 : Nat)
    (lC l : List Addr) (hC : walkCycle step s n s = some lC) (hx : x ∈ lC) (hy : y ∈ lC)
    (hl : walkCycle step y n2 y = some l) : x ∈ l := by
  obtain ⟨c1, c2⟩ := walkCycle_iterate step s n s lC hC
  obtain ⟨l1, l2⟩ := walkCycle_iterate step y n2 y l hl
  obtain ⟨i, hi, rfl⟩ := List.mem_iff_getElem.1 hx
  obtain ⟨j, hj, rfl⟩ := List.mem_iff_getElem.1 hy
  have ei : lC[i] = step^[i] s := by
    have := c1 i hi
    rw [List.getElem?_eq_getElem hi] at this
    exact Option.some.inj this
  have ej : lC[j] = step^[j] s := by
    have := c1 j hj
    rw [List.getElem?_eq_getElem hj] at this
    exact Option.some.inj this
  have hpos : 0 < l.length := by
    exact List.length_pos.2 (walkCycle_ne_nil _ _ _ _ _ hl)
  have hback : step^[lC.length - j] lC[j] = s := by
    rw [ej, ← Function.iterate_add_apply]
    have : lC.length - j + j = lC.length := by omega
    rw [this, c2]
  have hxy : lC[i] = step^[i + (lC.length - j)] lC[j] := by
    rw [Function.iterate_add_apply, hback, ei]
  have hper : Function.IsPeriodicPt step l.length lC[j] := l2
  have hmod := hper.iterate_mod_apply (i + (lC.length - j))
  have hlt : (i + (lC.length - j)) % l.length < l.length := Nat.mod_lt _ hpos
  have := l1 _ hlt
  rw [hmod, ← hxy] at this
  exact List.mem_iff_getElem?.2 ⟨_, this⟩

/-- What the check `closedManifold` says of a half-edge of the store, in terms of the
accessors. -/
theorem HalfedgeMesh.closedManifold_halfedge (m : HalfedgeMesh Vector3D)
    (hm : m.closedManifold = true) (h : Addr) (hl : (m.halfedges.lookup h).isSome = true) :
    (m.halfedges.lookup (m.next h)).isSome = true ∧
    (m.halfedges.lookup (m.twin h)).isSome = true ∧
    m.twin (m.twin h) = h ∧ m.twin h ≠ h ∧ m.edgeOf (m.twin h) = m.edgeOf h ∧
    m.faceOf (m.next h) = m.faceOf h ∧ m.vertexOf (m.next h) = m.vertexOf (m.twin h) ∧
    h ∈ (m.faceLoop (m.faceHalfedge (m.faceOf h))).getD [] := by
  obtain ⟨p, hp⟩ := Option.isSome_iff_exists.1 hl
  unfold HalfedgeMesh.closedManifold at hm
  simp only [Bool.and_eq_true, decide_eq_true_eq, List.all_eq_true] at hm
  obtain ⟨⟨⟨⟨-, hh⟩, -⟩, -⟩, -⟩ := hm
  obtain ⟨⟨⟨⟨⟨⟨⟨⟨⟨⟨⟨⟨⟨a1, a2⟩, -⟩, -⟩, -⟩, a6⟩, a7⟩, a8⟩, a9⟩, a10⟩, -⟩, -⟩, a13⟩, -⟩ :=
    hh (h, p) (List.mem_of_lookup_eq_some _ _ _ hp)
  have en : m.next h = p.next := by simp [HalfedgeMesh.next, hp]
  have et : m.twin h = p.twin := by simp [HalfedgeMesh.twin, hp]
  have ee : m.edgeOf h = p.edge := by simp [HalfedgeMesh.edgeOf, hp]
  have ef : m.faceOf h = p.face := by simp [HalfedgeMesh.faceOf, hp]
  rw [en, et, ee, ef]
  refine ⟨a1, a2, a6, a7, a8, a9, a10, ?_⟩
  simpa using a13

/-- What the check `closedManifold` says of an edge of the store. -/
theorem HalfedgeMesh.closedManifold_edge (m : HalfedgeMesh Vector3D)
    (hm : m.closedManifold = true) (e : Addr) (r : Edge) (he : m.edges.lookup e = some r) :
    (m.halfedges.lookup r.halfedge).isSome = true ∧ m.edgeOf r.halfedge = e := by
  unfold HalfedgeMesh.closedManifold at hm
  simp only [Bool.and_eq_true, decide_eq_true_eq, List.all_eq_true] at hm
  obtain ⟨⟨-, hh⟩, -⟩ := hm
  exact hh (e, r) (List.mem_of_lookup_eq_some _ _ _ he)

/-- In a closed manifold a half-edge with the face of `h0` lies on the closed walk from
`h0`. -/
theorem HalfedgeMesh.mem_faceLoop_of_faceOf_eq (m : HalfedgeMesh Vector3D)
    (hm : m.closedManifold = true) (h h0 : Addr)
    (hl : (m.halfedges.lookup h).isSome = true) (hl0 : (m.halfedges.lookup h0).isSome = true)
    (hf : m.faceOf h = m.faceOf h0) (l : List Addr) (hw : m.faceLoop h0 = some l) : h ∈ l := by
  have c := (m.closedManifold_halfedge hm h hl).2.2.2.2.2.2.2
  have c0 := (m.closedManifold_halfedge hm h0 hl0).2.2.2.2.2.2.2
  rw [hf] at c
  cases hC : m.faceLoop (m.faceHalfedge (m.faceOf h0)) with
  | none => simp [hC] at c
  | some lC =>
    simp only [hC, Option.getD_some] at c c0
    exact walkCycle_mem_of_mem m.next _ h h0 _ _ lC l hC c c0 hw

/-- Destroying nothing leaves the list as it is. -/
theorem removeKeys_nil {α : Type} (l : List (Addr × α)) : removeKeys [] l = l := by
  simp [removeKeys]

/-- A call of `flipEdge` on an edge between two triangles on different faces carries out
the assignments of `flipEdits` and returns the edge. -/
theorem HalfedgeMesh.flipEdge_eq (m : HalfedgeMesh Vector3D) (e : Addr) (r : Edge)
    (h0 h1 h2 h3 h4 h5 : Addr) (he : m.edges.lookup e = some r)
    (hl0 : m.faceLoop r.halfedge = some [h0, h1, h2])
    (hl1 : m.faceLoop (m.twin r.halfedge) = some [h3, h4, h5])
    (hf : m.faceOf h0 ≠ m.faceOf h3) :
    m.flipEdge e =
      .ok ((flipEdits h0 h1 h2 h3 h4 h5 (m.vertexOf h2) (m.vertexOf h5) (m.faceOf h0)
        (m.faceOf h3) (m.vertexOf h0) (m.vertexOf h3) e).foldl HalfedgeMesh.edit m, e) := by
  simp only [HalfedgeMesh.flipEdge, HalfedgeMesh.flipEdgePlan, he, hl0, hl1, hf, if_false,
    HalfedgeMesh.run, Rewrite.ok, deletable, creatable, HalfedgeMesh.rewrite, removeKeys_nil,
    List.append_nil, flipEdits]
  simp

/-- The record of a half-edge after an assignment to a `next` reference. -/
theorem Edit.onHalfedge_setNext (a h x n t v e f : Addr) :
    (Edit.setNext h x : Edit Vector3D).onHalfedge a ⟨n, t, v, e, f⟩ =
      ⟨if a = h then x else n, t, v, e, f⟩ := by
  simp only [Edit.onHalfedge]
  split_ifs <;> rfl

/-- The record of a half-edge after an assignment to a `vertex` reference. -/
theorem Edit.onHalfedge_setVertex (a h x n t v e f : Addr) :
    (Edit.setVertex h x : Edit Vector3D).onHalfedge a ⟨n, t, v, e, f⟩ =
      ⟨n, t, if a = h then x else v, e, f⟩ := by
  simp only [Edit.onHalfedge]
  split_ifs <;> rfl

/-- The record of a half-edge after an assignment to a `face` reference. -/
theorem Edit.onHalfedge_setFace (a h x n t v e f : Addr) :
    (Edit.setFace h x : Edit Vector3D).onHalfedge a ⟨n, t, v, e, f⟩ =
      ⟨n, t, v, e, if a = h then x else f⟩ := by
  simp only [Edit.onHalfedge]
  split_ifs <;> rfl

/-- The record of a half-edge after the assignments of a flip. -/
theorem flipEdits_onHalfedge (h0 h1 h2 h3 h4 h5 va vb fa fb v0 v3 e : Addr) (a : Addr)
    (r : Halfedge) :
    (flipEdits h0 h1 h2 h3 h4 h5 va vb fa fb v0 v3 e : List (Edit Vector3D)).foldl
        (fun r ed => ed.onHalfedge a r) r =
      { next := if a = h4 then h3 else if a = h2 then h4 else if a = h3 then h2
          else if a = h1 then h0 else if a = h5 then h1 else if a = h0 then h5 else r.next
        twin := r.twin
        vertex := if a = h3 then vb else if a = h0 then va else r.vertex
        edge := r.edge
        face := if a = h2 then fb else if a = h5 then fa else r.face } := by
  obtain ⟨n, t, v, ed, f⟩ := r
  simp only [flipEdits, List.foldl, Edit.onHalfedge_setNext, Edit.onHalfedge_setVertex,
    Edit.onHalfedge_setFace]
  rfl

/-- The accessors of a half-edge of the store after the assignments of a flip. -/
theorem HalfedgeMesh.flipEdits_accessors (m : HalfedgeMesh Vector3D)
    (h0 h1 h2 h3 h4 h5 va vb fa fb v0 v3 e : Addr) (a : Addr)
    (hl : (m.halfedges.lookup a).isSome = true) :
    ((flipEdits h0 h1 h2 h3 h4 h5 va vb fa fb v0 v3 e).foldl HalfedgeMesh.edit m).next a =
      (if a = h4 then h3 else if a = h2 then h4 else if a = h3 then h2
        else if a = h1 then h0 else if a = h5 then h1 else if a = h0 then h5 else m.next a) ∧
    ((flipEdits h0 h1 h2 h3 h4 h5 va vb fa fb v0 v3 e).foldl HalfedgeMesh.edit m).twin a =
      m.twin a ∧
    ((flipEdits h0 h1 h2 h3 h4 h5 va vb fa fb v0 v3 e).foldl HalfedgeMesh.edit m).vertexOf a =
      (if a = h3 then vb else if a = h0 then va else m.vertexOf a) ∧
    ((flipEdits h0 h1 h2 h3 h4 h5 va vb fa fb v0 v3 e).foldl HalfedgeMesh.edit m).edgeOf a =
      m.edgeOf a ∧
    ((flipEdits h0 h1 h2 h3 h4 h5 va vb fa fb v0 v3 e).foldl HalfedgeMesh.edit m).faceOf a =
      (if a = h2 then fb else if a = h5 then fa else m.faceOf a) := by
  obtain ⟨r, hr⟩ := Option.isSome_iff_exists.1 hl
  simp only [HalfedgeMesh.next, HalfedgeMesh.twin, HalfedgeMesh.vertexOf, HalfedgeMesh.edgeOf,
    HalfedgeMesh.faceOf, HalfedgeMesh.editAll_halfedges_lookup, hr, Option.map_some',
    Option.getD_some, flipEdits_onHalfedge, and_self]

/-- The assignments of a flip keep every half-edge of the store, and add none. -/
theorem HalfedgeMesh.flipEdits_live (m : HalfedgeMesh Vector3D)
    (h0 h1 h2 h3 h4 h5 va vb fa fb v0 v3 e : Addr) (a : Addr) :
    (((flipEdits h0 h1 h2 h3 h4 h5 va vb fa fb v0 v3 e).foldl
      HalfedgeMesh.edit m).halfedges.lookup a).isSome = (m.halfedges.lookup a).isSome := by
  rw [HalfedgeMesh.editAll_halfedges_lookup]
  cases m.halfedges.lookup a <;> rfl

/-- The record of the flipped edge after the assignments of a flip. -/
theorem HalfedgeMesh.flipEdits_edge (m : HalfedgeMesh Vector3D)
    (h0 h1 h2 h3 h4 h5 va vb fa fb v0 v3 e : Addr) (r : Edge)
    (he : m.edges.lookup e = some r) :
    ((flipEdits h0 h1 h2 h3 h4 h5 va vb fa fb v0 v3 e).foldl
      HalfedgeMesh.edit m).edges.lookup e = some { halfedge := h0 } := by
  rw [HalfedgeMesh.editAll_edges_lookup, he]
  simp [flipEdits, Edit.onEdge]

/-- An assignment that leaves a view of the records alone leaves the view of the list
alone. -/
theorem updateAt_map {α β : Type} (k : Addr) (g : α → α) (l : List (Addr × α))
    (f : Addr × α → β) (hf : ∀ a r, f (a, g r) = f (a, r)) :
    (updateAt k g l).map f = l.map f := by
  unfold updateAt
  rw [List.map_map]
  apply List.map_congr_left
  intro r _
  obtain ⟨j, v⟩ := r
  by_cases h : j = k
  · simp [h, hf]
  · simp [h]

/-- The assignments of a flip keep the elements of the store: none is created or
destroyed, and no vertex moves. -/
theorem HalfedgeMesh.flipEdits_elements (m : HalfedgeMesh Vector3D)
    (h0 h1 h2 h3 h4 h5 va vb fa fb v0 v3 e : Addr) :
    ((flipEdits h0 h1 h2 h3 h4 h5 va vb fa fb v0 v3 e).foldl HalfedgeMesh.edit m).elements =
      m.elements := by
  obtain ⟨k1, -, k3, k4⟩ :=
    HalfedgeMesh.editAll_keys (flipEdits h0 h1 h2 h3 h4 h5 va vb fa fb v0 v3 e) m
  simp only [HalfedgeMesh.elements, k1, k3, k4]
  congr 2
  simp only [flipEdits, List.foldl, HalfedgeMesh.edit]
  have key : ∀ (k h : Addr) (l : List (Addr × Vertex Vector3D)),
      (updateAt k (fun r => { r with halfedge := h }) l).map (fun p => (p.1, p.2.position)) =
        l.map fun p => (p.1, p.2.position) :=
    fun k h l => updateAt_map k _ l _ fun _ _ => rfl
  rw [key, key, key, key]

/-- Six different addresses are pairwise different, in either order. -/
theorem ne_of_nodup_six (h0 h1 h2 h3 h4 h5 : Addr) (hd : [h0, h1, h2, h3, h4, h5].Nodup) :
    (h0 ≠ h1 ∧ h0 ≠ h2 ∧ h0 ≠ h3 ∧ h0 ≠ h4 ∧ h0 ≠ h5) ∧
    (h1 ≠ h0 ∧ h1 ≠ h2 ∧ h1 ≠ h3 ∧ h1 ≠ h4 ∧ h1 ≠ h5) ∧
    (h2 ≠ h0 ∧ h2 ≠ h1 ∧ h2 ≠ h3 ∧ h2 ≠ h4 ∧ h2 ≠ h5) ∧
    (h3 ≠ h0 ∧ h3 ≠ h1 ∧ h3 ≠ h2 ∧ h3 ≠ h4 ∧ h3 ≠ h5) ∧
    (h4 ≠ h0 ∧ h4 ≠ h1 ∧ h4 ≠ h2 ∧ h4 ≠ h3 ∧ h4 ≠ h5) ∧
    (h5 ≠ h0 ∧ h5 ≠ h1 ∧ h5 ≠ h2 ∧ h5 ≠ h3 ∧ h5 ≠ h4) := by
  simp only [List.nodup_cons, List.mem_cons, List.mem_singleton, List.not_mem_nil, not_or,
    List.nodup_nil, and_true, not_false_eq_true] at hd
  obtain ⟨⟨a1, a2, a3, a4, a5⟩, ⟨b2, b3, b4, b5⟩, ⟨c3, c4, c5⟩, ⟨d4, d5⟩, e5⟩ := hd
  exact ⟨⟨a1, a2, a3, a4, a5⟩, ⟨Ne.symm a1, b2, b3, b4, b5⟩,
    ⟨Ne.symm a2, Ne.symm b2, c3, c4, c5⟩, ⟨Ne.symm a3, Ne.symm b3, Ne.symm c3, d4, d5⟩,
    ⟨Ne.symm a4, Ne.symm b4, Ne.symm c4, Ne.symm d4, e5⟩,
    ⟨Ne.symm a5, Ne.symm b5, Ne.symm c5, Ne.symm d5, Ne.symm e5⟩⟩

/-- The store after the assignments of two flips in a row, the second on the triangles the
first has made: it has the connectivity of the store before, with the two half-edges of
the edge exchanged and the two faces exchanged. The facts about the store before are those
a closed manifold provides at an edge between two triangles. -/
theorem HalfedgeMesh.flipEdits_twice (m : HalfedgeMesh Vector3D) (e h0 h1 h2 h3 h4 h5 : Addr)
    (hd : [h0, h1, h2, h3, h4, h5].Nodup)
    (hlive : ∀ a ∈ [h0, h1, h2, h3, h4, h5], (m.halfedges.lookup a).isSome = true)
    (n01 : m.next h0 = h1) (n12 : m.next h1 = h2) (n20 : m.next h2 = h0)
    (n34 : m.next h3 = h4) (n45 : m.next h4 = h5) (n53 : m.next h5 = h3)
    (t03 : m.twin h0 = h3) (t30 : m.twin h3 = h0)
    (v13 : m.vertexOf h1 = m.vertexOf h3) (v40 : m.vertexOf h4 = m.vertexOf h0)
    (e30 : m.edgeOf h3 = m.edgeOf h0)
    (f1 : m.faceOf h1 = m.faceOf h0) (f2 : m.faceOf h2 = m.faceOf h0)
    (f4 : m.faceOf h4 = m.faceOf h3) (f5 : m.faceOf h5 = m.faceOf h3)
    (hother : ∀ h, (m.halfedges.lookup h).isSome = true → h ∉ [h0, h1, h2, h3, h4, h5] →
      m.next h ≠ h0 ∧ m.next h ≠ h3 ∧ m.faceOf h ≠ m.faceOf h0 ∧ m.faceOf h ≠ m.faceOf h3)
    (htwin : ∀ h, (m.halfedges.lookup h).isSome = true → h ≠ h0 → h ≠ h3 →
      m.twin h ≠ h0 ∧ m.twin h ≠ h3)
    (m1 m2 : HalfedgeMesh Vector3D)
    (hm1 : m1 = (flipEdits h0 h1 h2 h3 h4 h5 (m.vertexOf h2) (m.vertexOf h5) (m.faceOf h0)
      (m.faceOf h3) (m.vertexOf h0) (m.vertexOf h3) e).foldl HalfedgeMesh.edit m)
    (hm2 : m2 = (flipEdits h0 h5 h1 h3 h2 h4 (m1.vertexOf h1) (m1.vertexOf h4) (m1.faceOf h0)
      (m1.faceOf h3) (m1.vertexOf h0) (m1.vertexOf h3) e).foldl HalfedgeMesh.edit m1) :
    m.sameConnectivity m2 h0 h3 (m.faceOf h0) (m.faceOf h3) := by
  obtain ⟨⟨d01, d02, d03, d04, d05⟩, ⟨d10, d12, d13, d14, d15⟩, ⟨d20, d21, d23, d24, d25⟩,
    ⟨d30, d31, d32, d34, d35⟩, ⟨d40, d41, d42, d43, d45⟩, ⟨d50, d51, d52, d53, d54⟩⟩ :=
    ne_of_nodup_six h0 h1 h2 h3 h4 h5 hd
  have A1 : ∀ a, (m.halfedges.lookup a).isSome = true → _ := fun a ha =>
    m.flipEdits_accessors h0 h1 h2 h3 h4 h5 (m.vertexOf h2) (m.vertexOf h5) (m.faceOf h0)
      (m.faceOf h3) (m.vertexOf h0) (m.vertexOf h3) e a ha
  have live1 : ∀ a, (m.halfedges.lookup a).isSome = true →
      (m1.halfedges.lookup a).isSome = true := fun a ha => by
    rw [hm1, HalfedgeMesh.flipEdits_live]
    exact ha
  have A2 : ∀ a, (m.halfedges.lookup a).isSome = true → _ := fun a ha =>
    m1.flipEdits_accessors h0 h5 h1 h3 h2 h4 (m1.vertexOf h1) (m1.vertexOf h4) (m1.faceOf h0)
      (m1.faceOf h3) (m1.vertexOf h0) (m1.vertexOf h3) e a (live1 a ha)
  rw [← hm2] at A2
  rw [← hm1] at A1
  have l0 := hlive h0 (by simp)
  have l1 := hlive h1 (by simp)
  have l2 := hlive h2 (by simp)
  have l3 := hlive h3 (by simp)
  have l4 := hlive h4 (by simp)
  have l5 := hlive h5 (by simp)
  have x0 : exchange h0 h3 h0 = h3 := by simp [exchange]
  have x3 : exchange h0 h3 h3 = h0 := by simp [exchange]
  have xo : ∀ a, a ≠ h0 → a ≠ h3 → exchange h0 h3 a = a := fun a p q => by
    simp [exchange, p, q]
  have y0 : exchange (m.faceOf h0) (m.faceOf h3) (m.faceOf h0) = m.faceOf h3 := by
    simp [exchange]
  have y3 : exchange (m.faceOf h0) (m.faceOf h3) (m.faceOf h3) = m.faceOf h0 := by
    simp [exchange]
  have yo : ∀ a, a ≠ m.faceOf h0 → a ≠ m.faceOf h3 →
      exchange (m.faceOf h0) (m.faceOf h3) a = a := fun a p q => by
    simp [exchange, p, q]
  have P10 := A1 h0 l0
  have P11 := A1 h1 l1
  have P12 := A1 h2 l2
  have P13 := A1 h3 l3
  have P14 := A1 h4 l4
  have P15 := A1 h5 l5
  have P20 := A2 h0 l0
  have P21 := A2 h1 l1
  have P22 := A2 h2 l2
  have P23 := A2 h3 l3
  have P24 := A2 h4 l4
  have P25 := A2 h5 l5
  simp only [d01, d02, d03, d04, d05, d10, d12, d13, d14, d15, d20, d21, d23, d24, d25, d30, d31,
    d32, d34, d35, d40, d41, d42, d43, d45, d50, d51, d52, d53, d54,
    if_true, if_false] at P10 P11 P12 P13 P14 P15 P20 P21 P22 P23 P24 P25
  obtain ⟨p1, -, p3, -, p5⟩ := P10
  obtain ⟨q1, -, q3, -, q5⟩ := P11
  obtain ⟨r1, -, r3, -, r5⟩ := P12
  obtain ⟨s1, -, s3, -, s5⟩ := P13
  obtain ⟨u1, -, u3, -, u5⟩ := P14
  obtain ⟨w1, -, w3, -, w5⟩ := P15
  refine ⟨?_, fun h hl => ?_⟩
  · rw [hm2, HalfedgeMesh.flipEdits_elements, hm1, HalfedgeMesh.flipEdits_elements]
  · obtain ⟨z1, z2, z3, z4, z5⟩ := A1 h hl
    have hx : (m.halfedges.lookup (exchange h0 h3 h)).isSome = true := by
      unfold exchange
      split_ifs
      · exact l3
      · exact l0
      · exact hl
    obtain ⟨a1, a2, a3, a4, a5⟩ := A1 _ hx
    obtain ⟨b1, b2, b3, b4, b5⟩ := A2 _ hx
    rw [b1, b2, b3, b4, b5, a1, a2, a3, a4, a5, q3, u3, p5, s5]
    by_cases c0 : h = h0
    · subst h
      simp only [x0, d01, d02, d03, d04, d05, d10, d12, d13, d14, d15, d20, d21, d23, d24, d25,
        d30, d31, d32, d34, d35, d40, d41, d42, d43, d45, d50, d51, d52, d53, d54, if_true,
        if_false, n01, t03, t30, x3,
        xo h1 d10 d13, v13, v40, e30, y0, and_self]
    · by_cases c3 : h = h3
      · subst h
        simp only [x3, d01, d02, d03, d04, d05, d10, d12, d13, d14, d15, d20, d21, d23, d24, d25,
          d30, d31, d32, d34, d35, d40, d41, d42, d43, d45, d50, d51, d52, d53, d54, if_true,
          if_false, n34, t30, t03, x0,
          xo h4 d40 d43, v40, v13, e30, y3, and_self]
      · have tw := htwin h hl c0 c3
        rw [xo h c0 c3, xo _ tw.1 tw.2]
        by_cases c1 : h = h1
        · subst h
          simp only [d01, d02, d03, d04, d05, d10, d12, d13, d14, d15, d20, d21, d23, d24, d25,
            d30, d31, d32, d34, d35, d40, d41, d42, d43, d45, d50, d51, d52, d53, d54, if_true,
            if_false, n12, xo h2 d20 d23, f1, y0, and_self]
        · by_cases c2 : h = h2
          · subst h
            simp only [d01, d02, d03, d04, d05, d10, d12, d13, d14, d15, d20, d21, d23, d24, d25,
              d30, d31, d32, d34, d35, d40, d41, d42, d43, d45, d50, d51, d52, d53, d54, if_true,
              if_false, n20, x0, f2, y0, and_self]
          · by_cases c4 : h = h4
            · subst h
              simp only [d01, d02, d03, d04, d05, d10, d12, d13, d14, d15, d20, d21, d23, d24,
                d25, d30, d31, d32, d34, d35, d40, d41, d42, d43, d45, d50, d51, d52, d53, d54,
                if_true, if_false, n45, xo h5 d50 d53, f4, y3, and_self]
            · by_cases c5 : h = h5
              · subst h
                simp only [d01, d02, d03, d04, d05, d10, d12, d13, d14, d15, d20, d21, d23, d24,
                  d25, d30, d31, d32, d34, d35, d40, d41, d42, d43, d45, d50, d51, d52, d53, d54,
                  if_true, if_false, n53, x3, f5, y3, and_self]
              · obtain ⟨o1, o2, o3, o4⟩ := hother h hl (by simp [c0, c1, c2, c3, c4, c5])
                simp only [c0, c1, c2, c3, c4, c5, if_false, xo _ o1 o2, yo _ o3 o4, and_self]

/-- In a closed manifold the twin of a half-edge leaves another vertex. -/
theorem HalfedgeMesh.closedManifold_twin_vertex (m : HalfedgeMesh Vector3D)
    (hm : m.closedManifold = true) (h : Addr) (hl : (m.halfedges.lookup h).isSome = true) :
    m.vertexOf (m.twin h) ≠ m.vertexOf h := by
  obtain ⟨p, hp⟩ := Option.isSome_iff_exists.1 hl
  unfold HalfedgeMesh.closedManifold at hm
  simp only [Bool.and_eq_true, decide_eq_true_eq, List.all_eq_true] at hm
  obtain ⟨⟨⟨⟨-, hh⟩, -⟩, -⟩, -⟩ := hm
  obtain ⟨⟨⟨⟨-, a11⟩, -⟩, -⟩, -⟩ := hh (h, p) (List.mem_of_lookup_eq_some _ _ _ hp)
  have et : m.twin h = p.twin := by simp [HalfedgeMesh.twin, hp]
  have ev : m.vertexOf h = p.vertex := by simp [HalfedgeMesh.vertexOf, hp]
  rw [et, ev]
  exact a11

/-- C23: in a closed manifold, `flipEdge` on an edge `e` shared by two triangles `h0 h1 h2`
and `h3 h4 h5` succeeds and returns `e`; no element is created or destroyed and no vertex
moves; the edge, which joined the vertices of `h0` and `h3`, then joins the two apexes, the
vertices of `h2` and `h5`, between the triangles `h0 h5 h1` and `h3 h2 h4`; and `flipEdge`
on the returned edge succeeds, returns `e` again, and gives a store with the connectivity
of the first one, in which the two half-edges of `e` have exchanged their names and so have
the two faces. -/
theorem C23_flipEdge_twice_restores_connectivity (m : HalfedgeMesh Vector3D) (e : Addr)
    (r : Edge) (h0 h1 h2 h3 h4 h5 : Addr) (hm : m.closedManifold = true)
    (he : m.edges.lookup e = some r) (hl0 : m.faceLoop r.halfedge = some [h0, h1, h2])
    (hl1 : m.faceLoop (m.twin r.halfedge) = some [h3, h4, h5]) :
    ∃ m1 m2, m.flipEdge e = .ok (m1, e) ∧ m1.flipEdge e = .ok (m2, e) ∧
      m1.elements = m.elements ∧
      m.edgeHalfedge e = h0 ∧ m.twin h0 = h3 ∧
      m1.edgeHalfedge e = h0 ∧ m1.twin h0 = h3 ∧
      m1.vertexOf h0 = m.vertexOf h2 ∧ m1.vertexOf h3 = m.vertexOf h5 ∧
      m1.faceLoop h0 = some [h0, h5, h1] ∧ m1.faceLoop h3 = some [h3, h2, h4] ∧
      m.sameConnectivity m2 h0 h3 (m.faceOf h0) (m.faceOf h3) := by
  obtain ⟨e0, n01, n12, n20, d10, d20, d21, len3⟩ :=
    walkCycle_triangle m.next r.halfedge m.halfedges.length h0 h1 h2 hl0
  obtain ⟨e3, n34, n45, n53, d43, d53, d54, -⟩ :=
    walkCycle_triangle m.next (m.twin r.halfedge) m.halfedges.length h3 h4 h5 hl1
  have hw0 : m.faceLoop h0 = some [h0, h1, h2] := by
    have := hl0
    rw [← e0] at this
    exact this
  have hw3 : m.faceLoop h3 = some [h3, h4, h5] := by
    have := hl1
    rw [← e3] at this
    exact this
  have t03 : m.twin h0 = h3 := by rw [e3, e0]
  obtain ⟨l0, -⟩ := m.closedManifold_edge hm e r he
  rw [← e0] at l0
  obtain ⟨l1, l3, t30, d30, e30, f1, v13, -⟩ := m.closedManifold_halfedge hm h0 l0
  rw [n01] at l1 f1 v13
  rw [t03] at l3 t30 d30 e30 v13
  obtain ⟨l2, -, -, -, -, f21, v2, -⟩ := m.closedManifold_halfedge hm h1 l1
  rw [n12] at l2 f21 v2
  obtain ⟨-, -, -, -, -, -, v0, -⟩ := m.closedManifold_halfedge hm h2 l2
  rw [n20] at v0
  obtain ⟨l4, -, -, -, -, f4, v40, -⟩ := m.closedManifold_halfedge hm h3 l3
  rw [n34] at l4 f4 v40
  rw [t30] at v40
  obtain ⟨l5, -, -, -, -, f54, -, -⟩ := m.closedManifold_halfedge hm h4 l4
  rw [n45] at l5 f54
  have f2 : m.faceOf h2 = m.faceOf h0 := f21.trans f1
  have f5 : m.faceOf h5 = m.faceOf h3 := f54.trans f4
  have hf : m.faceOf h0 ≠ m.faceOf h3 := by
    intro q
    have hmem := m.mem_faceLoop_of_faceOf_eq hm h3 h0 l3 l0 q.symm _ hw0
    simp only [List.mem_cons, List.mem_singleton, List.not_mem_nil, or_false] at hmem
    rcases hmem with c | c | c
    · exact d30 c
    · have w := m.closedManifold_twin_vertex hm h2 l2
      rw [← v0] at w
      apply w
      rw [← c, t30] at v2
      exact v2.symm
    · have w := m.closedManifold_twin_vertex hm h1 l1
      rw [← v2] at w
      apply w
      rw [c] at v13
      exact v13.symm
  have cross : ∀ a b, m.faceOf a = m.faceOf h0 → m.faceOf b = m.faceOf h3 → a ≠ b :=
    fun a b pa pb q => hf (by rw [← pa, q, pb])
  have hd : [h0, h1, h2, h3, h4, h5].Nodup := by
    simp only [List.nodup_cons, List.mem_cons, List.mem_singleton, List.not_mem_nil, not_or,
      List.nodup_nil, and_true, not_false_eq_true]
    exact ⟨⟨Ne.symm d10, Ne.symm d20, cross _ _ rfl rfl, cross _ _ rfl f4, cross _ _ rfl f5⟩,
      ⟨Ne.symm d21, cross _ _ f1 rfl, cross _ _ f1 f4, cross _ _ f1 f5⟩,
      ⟨cross _ _ f2 rfl, cross _ _ f2 f4, cross _ _ f2 f5⟩, ⟨Ne.symm d43, Ne.symm d53⟩,
      Ne.symm d54⟩
  obtain ⟨⟨d01, d02, d03, d04, d05⟩, ⟨-, d12, d13, d14, d15⟩, ⟨-, -, d23, d24, d25⟩,
    ⟨-, d31, d32, d34, d35⟩, ⟨d40, d41, d42, -, d45⟩, ⟨d50, d51, d52, -, -⟩⟩ :=
    ne_of_nodup_six h0 h1 h2 h3 h4 h5 hd
  have hlive : ∀ a ∈ [h0, h1, h2, h3, h4, h5], (m.halfedges.lookup a).isSome = true := by
    intro a ha
    simp only [List.mem_cons, List.mem_singleton, List.not_mem_nil, or_false] at ha
    rcases ha with c | c | c | c | c | c <;> subst c <;> assumption
  have htwin : ∀ h, (m.halfedges.lookup h).isSome = true → h ≠ h0 → h ≠ h3 →
      m.twin h ≠ h0 ∧ m.twin h ≠ h3 := by
    intro h hl c0 c3
    have tt := (m.closedManifold_halfedge hm h hl).2.2.1
    constructor
    · intro q
      rw [q, t03] at tt
      exact c3 tt.symm
    · intro q
      rw [q, t30] at tt
      exact c0 tt.symm
  have hother : ∀ h, (m.halfedges.lookup h).isSome = true → h ∉ [h0, h1, h2, h3, h4, h5] →
      m.next h ≠ h0 ∧ m.next h ≠ h3 ∧ m.faceOf h ≠ m.faceOf h0 ∧
        m.faceOf h ≠ m.faceOf h3 := by
    intro h hl hn
    simp only [List.mem_cons, List.mem_singleton, List.not_mem_nil, or_false, not_or] at hn
    have fn := (m.closedManifold_halfedge hm h hl).2.2.2.2.2.1
    have g0 : m.faceOf h ≠ m.faceOf h0 := by
      intro q
      have hmem := m.mem_faceLoop_of_faceOf_eq hm h h0 hl l0 q _ hw0
      simp only [List.mem_cons, List.mem_singleton, List.not_mem_nil, or_false] at hmem
      rcases hmem with c | c | c
      · exact hn.1 c
      · exact hn.2.1 c
      · exact hn.2.2.1 c
    have g3 : m.faceOf h ≠ m.faceOf h3 := by
      intro q
      have hmem := m.mem_faceLoop_of_faceOf_eq hm h h3 hl l3 q _ hw3
      simp only [List.mem_cons, List.mem_singleton, List.not_mem_nil, or_false] at hmem
      rcases hmem with c | c | c
      · exact hn.2.2.2.1 c
      · exact hn.2.2.2.2.1 c
      · exact hn.2.2.2.2.2 c
    refine ⟨fun q => g0 ?_, fun q => g3 ?_, g0, g3⟩
    · rw [← fn, q]
    · rw [← fn, q]
  have hflip1 := m.flipEdge_eq e r h0 h1 h2 h3 h4 h5 he hl0 hl1 hf
  have A1 := m.flipEdits_accessors h0 h1 h2 h3 h4 h5 (m.vertexOf h2) (m.vertexOf h5)
    (m.faceOf h0) (m.faceOf h3) (m.vertexOf h0) (m.vertexOf h3) e
  have he1 := m.flipEdits_edge h0 h1 h2 h3 h4 h5 (m.vertexOf h2) (m.vertexOf h5)
    (m.faceOf h0) (m.faceOf h3) (m.vertexOf h0) (m.vertexOf h3) e r he
  have hel := m.flipEdits_elements h0 h1 h2 h3 h4 h5 (m.vertexOf h2) (m.vertexOf h5)
    (m.faceOf h0) (m.faceOf h3) (m.vertexOf h0) (m.vertexOf h3) e
  have hk := (HalfedgeMesh.editAll_keys (flipEdits h0 h1 h2 h3 h4 h5 (m.vertexOf h2)
    (m.vertexOf h5) (m.faceOf h0) (m.faceOf h3) (m.vertexOf h0) (m.vertexOf h3) e) m).1
  generalize hm1 : (flipEdits h0 h1 h2 h3 h4 h5 (m.vertexOf h2) (m.vertexOf h5)
    (m.faceOf h0) (m.faceOf h3) (m.vertexOf h0) (m.vertexOf h3) e).foldl HalfedgeMesh.edit m
    = m1 at hflip1 A1 he1 hel hk
  have len1 : 3 ≤ m1.halfedges.length := by
    have := congrArg List.length hk
    simp only [List.length_map] at this
    omega
  have P0 := A1 h0 l0
  have P1 := A1 h1 l1
  have P2 := A1 h2 l2
  have P3 := A1 h3 l3
  have P4 := A1 h4 l4
  have P5 := A1 h5 l5
  simp only [d01, d02, d03, d04, d05, d10, d12, d13, d14, d15, d20, d21, d23, d24, d25, d30,
    d31, d32, d34, d35, d40, d41, d42, d43, d45, d50, d51, d52, d53, d54, if_true,
    if_false] at P0 P1 P2 P3 P4 P5
  have loop0 : m1.faceLoop h0 = some [h0, h5, h1] :=
    walkCycle_of_triangle m1.next _ h0 h5 h1 P0.1 P5.1 P1.1 d50 d10 len1
  have loop3 : m1.faceLoop h3 = some [h3, h2, h4] :=
    walkCycle_of_triangle m1.next _ h3 h2 h4 P3.1 P2.1 P4.1 d23 d43 len1
  have t1 : m1.twin h0 = h3 := P0.2.1.trans t03
  have hf1 : m1.faceOf h0 ≠ m1.faceOf h3 := by
    rw [P0.2.2.2.2, P3.2.2.2.2]
    exact hf
  have hflip2 := m1.flipEdge_eq e { halfedge := h0 } h0 h5 h1 h3 h2 h4 he1 loop0
    (by rw [t1]; exact loop3) hf1
  refine ⟨m1, _, hflip1, hflip2, hel, ?_, t03, ?_, t1, P0.2.2.1, P3.2.2.1, loop0, loop3, ?_⟩
  · simp [HalfedgeMesh.edgeHalfedge, he, e0]
  · simp [HalfedgeMesh.edgeHalfedge, he1]
  · exact m.flipEdits_twice e h0 h1 h2 h3 h4 h5 hd hlive n01 n12 n20 n34 n45 n53 t03 t30 v13
      v40 e30 f1 f2 f4 f5 hother htwin m1 _ hm1.symm rfl

/-- C23 on the tetrahedron, at the edge 0 between the triangles `0 1 2` and `5 3 4`: the
tetrahedron is a closed manifold, and both flips succeed with the results the claim
states. -/
theorem C23_witness :
    tetrahedron.closedManifold = true ∧
    ∃ m1 m2, tetrahedron.flipEdge 0 = .ok (m1, 0) ∧ m1.flipEdge 0 = .ok (m2, 0) ∧
      m1.elements = tetrahedron.elements ∧
      tetrahedron.edgeHalfedge 0 = 0 ∧ tetrahedron.twin 0 = 5 ∧
      m1.edgeHalfedge 0 = 0 ∧ m1.twin 0 = 5 ∧
      m1.vertexOf 0 = tetrahedron.vertexOf 2 ∧ m1.vertexOf 5 = tetrahedron.vertexOf 4 ∧
      m1.faceLoop 0 = some [0, 4, 1] ∧ m1.faceLoop 5 = some [5, 2, 3] ∧
      tetrahedron.sameConnectivity m2 0 5 (tetrahedron.faceOf 0) (tetrahedron.faceOf 5) :=
  ⟨by decide,
    C23_flipEdge_twice_restores_connectivity tetrahedron 0 { halfedge := 0 } 0 1 2 5 3 4
      (by decide) (by decide) (by decide) (by decide)⟩

/-- The records of the store are not those before the two flips: on the tetrahedron the
half-edge 0 of the flipped edge leaves vertex 0 before and vertex 1 after, the place of its
twin. -/
theorem tetrahedron_flipEdge_twice_records :
    tetrahedron.vertexOf 0 = 0 ∧
    ((tetrahedron.after (tetrahedron.flipEdge 0)).after
      ((tetrahedron.after (tetrahedron.flipEdge 0)).flipEdge 0)).vertexOf 0 = 1 ∧
    ((tetrahedron.after (tetrahedron.flipEdge 0)).after
      ((tetrahedron.after (tetrahedron.flipEdge 0)).flipEdge 0)).vertexOf 5 = 0 := by
  decide

end FlipClaims

end Scotty3D
